import Mathlib

/-!
Verification development for the rusty-picard QPL parser/validator.

This file shallowly embeds the winnow-based recursive-descent parser of the
repository (src/main.rs, src/parser.rs, src/parser/*.rs) into Lean and proves
properties about the embedding.

Modelling conventions:
- Strings are `List Char`; Rust `String`/`&str` values become `List Char`.
- The winnow stream `Stateful<Partial<&str>, QplEnvironment>` becomes `Stream`
  (remaining input, a `more` flag that is true while more input may arrive —
  cleared by `complete()` — and the mutable environment).
- winnow error modes `Incomplete` / `Backtrack` / `Cut` become `PErr`.
  `alt`/`opt` catch only `Backtrack` and reset the input cursor but, exactly as
  winnow's `Stateful`, never restore the environment.
- Rust panics (`todo!()`, `HashMap` indexing, `unwrap`) become the `crash`
  outcome, tagged by its source so that map-indexing panics can be reasoned
  about separately.
- `f64` float literals are represented by their lexeme (the program never
  computes with them); `usize` is `Nat` with winnow's overflow failure modelled
  in `dec_uint`; out-of-range parallel-array indexing in the schema uses `getD`
  defaults (the schema invariant of the repo makes these branches dead).
- Rust's Unicode `to_lowercase` and winnow's ASCII `Caseless` are both modelled
  as ASCII lowercasing.
- `HashSet`/`HashMap` become lists / association lists; the unspecified
  iteration or unstable-sort tie order of the Rust code is modelled by a
  deterministic stable insertion sort (ties keep their original order).
-/

namespace RustyPicard

/-! ## Basic utilities -/

/-- ASCII lowercasing of one character. -/
def asciiLower (c : Char) : Char :=
  if 'A' ≤ c ∧ c ≤ 'Z' then Char.ofNat (c.toNat + 32) else c

/-- ASCII lowercasing of a string (models Rust `to_lowercase` on the ASCII
schemas this repository handles, and winnow `Caseless`). -/
def lowerChars (s : List Char) : List Char := s.map asciiLower

/-- Case-insensitive character equality. -/
def eqCaseless (a b : Char) : Bool := asciiLower a == asciiLower b

/-- Decimal digits of a natural number, most significant first
(models `format!` of a `usize`). -/
def natToCharsAux : Nat → Nat → List Char → List Char
  | 0, _, acc => acc
  | fuel + 1, n, acc =>
    let d := Char.ofNat (48 + n % 10)
    if n < 10 then d :: acc else natToCharsAux fuel (n / 10) (d :: acc)

def natToChars (n : Nat) : List Char := natToCharsAux (n + 1) n []

/-- Stable insertion of `a` into a list sorted by `le`. -/
def insertSorted (le : α → α → Bool) (a : α) : List α → List α
  | [] => [a]
  | b :: bs => if le a b then a :: b :: bs else b :: insertSorted le a bs

/-- Stable insertion sort by `le` (models Rust sorts; ties keep input order). -/
def insertionSortBy (le : α → α → Bool) : List α → List α
  | [] => []
  | a :: as_ => insertSorted le a (insertionSortBy le as_)

/-- Remove consecutive duplicates (models `Vec::dedup`). -/
def dedupConsec [BEq α] : List α → List α
  | [] => []
  | [a] => [a]
  | a :: b :: rest => if a == b then dedupConsec (b :: rest) else a :: dedupConsec (b :: rest)

/-- Lexicographic comparison of char lists (Rust `String` ordering on ASCII). -/
def charsLe : List Char → List Char → Bool
  | [], _ => true
  | _ :: _, [] => false
  | a :: as_, b :: bs =>
    if a.toNat < b.toNat then true
    else if b.toNat < a.toNat then false
    else charsLe as_ bs

/-- Does the list contain two equal elements (models `has_duplicates`)? -/
def has_duplicates [BEq α] : List α → Bool
  | [] => false
  | a :: rest => rest.contains a || has_duplicates rest

/-- Does `pre` occur as a prefix of `l` (models `str::starts_with`)? -/
def charsStartsWith : List Char → List Char → Bool
  | _, [] => true
  | [], _ :: _ => false
  | c :: cs, p :: ps => c == p && charsStartsWith cs ps

/-! ## Domain model (src/domain.rs) -/

inductive ColumnType where
  | number
  | boolean
  | text
  | time
  | others
  deriving DecidableEq, Repr

structure SqlSchema where
  db_id : List Char
  table_names : List (List Char)
  column_names : List (List Char)
  column_types : List ColumnType
  column_to_table : List Nat
  table_to_columns : List (List Char × List Nat)
  foreign_keys : List (Nat × Nat)
  primary_keys : List Nat
  deriving DecidableEq, Repr

inductive KeyType where
  | primaryKey (table : List Char)
  | foreignKey (table : List Char)
  deriving DecidableEq, Repr

/-- Derived `Ord` on `KeyType` (variant order first, then the table name),
as produced by Rust's `derive(PartialOrd, Ord)`. -/
def KeyType.le : KeyType → KeyType → Bool
  | .primaryKey _, .foreignKey _ => true
  | .foreignKey _, .primaryKey _ => false
  | .primaryKey a, .primaryKey b => charsLe a b
  | .foreignKey a, .foreignKey b => charsLe a b

inductive Column where
  | dummy
  | plain (name : List Char) (typ : ColumnType) (keys : List KeyType)
  | aliased (name : List Char) (typ : ColumnType) (keys : List KeyType)
  deriving DecidableEq, Repr

def Column.name : Column → List Char
  | .dummy => ("1 AS One").toList
  | .plain n _ _ => n
  | .aliased n _ _ => n

def Column.typ : Column → ColumnType
  | .dummy => .number
  | .plain _ t _ => t
  | .aliased _ t _ => t

def Column.keys : Column → List KeyType
  | .dummy => []
  | .plain _ _ k => k
  | .aliased _ _ k => k

inductive Table where
  | named (name : List Char) (columns : List Column)
  | indexed (idx : Nat) (columns : List Column)
  deriving DecidableEq, Repr

def Table.columns : Table → List Column
  | .named _ cs => cs
  | .indexed _ cs => cs

inductive Comparable where
  | number (lexeme : List Char)
  | str (s : List Char)
  | boolean (b : Bool)
  | null
  | column (name : List Char)
  deriving DecidableEq, Repr

inductive Comparison where
  | equal (l r : Comparable)
  | notEqual (l r : Comparable)
  | greaterThan (l r : Comparable)
  | greaterThanOrEqual (l r : Comparable)
  | lessThan (l r : Comparable)
  | lessThanOrEqual (l r : Comparable)
  | is (l r : Comparable)
  | isNot (l r : Comparable)
  | like (l r : Comparable)
  | notLike (l r : Comparable)
  deriving DecidableEq, Repr

/-- Models `Comparison::from_string`; `none` is the `panic!` arm for an
unsupported operator string. -/
def Comparison.fromString (op : List Char) (l r : Comparable) : Option Comparison :=
  if op = ("=").toList then some (.equal l r)
  else if op = ("<>").toList then some (.notEqual l r)
  else if op = (">").toList then some (.greaterThan l r)
  else if op = (">=").toList then some (.greaterThanOrEqual l r)
  else if op = ("<").toList then some (.lessThan l r)
  else if op = ("<=").toList then some (.lessThanOrEqual l r)
  else if op = ("IS").toList then some (.is l r)
  else if op = ("IS NOT").toList then some (.isNot l r)
  else if op = ("LIKE").toList then some (.like l r)
  else if op = ("NOT LIKE").toList then some (.notLike l r)
  else none

inductive Predicate where
  | single (comparison : Comparison)
  | and (lhs rhs : Predicate)
  | or (lhs rhs : Predicate)
  deriving DecidableEq, Repr

inductive ExceptOperator where
  | predicate (p : Predicate)
  | exceptColum (c : List Char)
  deriving DecidableEq, Repr

inductive Operation where
  | aggregate (input : Nat) (group_by : List (List Char))
  | except (inputs : List Nat) (operator : ExceptOperator) (is_distinct : Bool)
  | filter (input : Nat) (predicate : Option Predicate) (is_distinct : Bool)
  | intersect (inputs : List Nat) (predicate : Option Predicate) (is_distinct : Bool)
  | join (inputs : List Nat) (predicate : Option Predicate) (is_distinct : Bool)
  | scan (table : List Char) (predicate : Option Predicate) (is_distinct : Bool)
  | top (input : Nat) (rows : Nat)
  | sort (input : Nat) (order_by : List (List Char)) (is_distinct : Bool)
  | topSort (input : Nat) (rows : Nat) (order_by : List (List Char)) (with_ties : Bool)
  | union (inputs : List Nat)
  deriving DecidableEq, Repr

/-- The `Agg` enum; `values()` order is Sum, Min, Max, Count, Average. -/
inductive Agg where
  | sum
  | min
  | max
  | count
  | average
  deriving DecidableEq, Repr

def Agg.values : List Agg := [.sum, .min, .max, .count, .average]

/-- Display form of an aggregate (its `Display` impl). -/
def Agg.display : Agg → List Char
  | .sum => ("Sum").toList
  | .min => ("Min").toList
  | .max => ("Max").toList
  | .count => ("Count").toList
  | .average => ("Avg").toList

/-- Uppercased display form, the surface keyword parsed by `agg`. -/
def Agg.upper : Agg → List Char
  | .sum => ("SUM").toList
  | .min => ("MIN").toList
  | .max => ("MAX").toList
  | .count => ("COUNT").toList
  | .average => ("AVG").toList

/-- Models `starts_with_agg` from src/parser/utils.rs. -/
def starts_with_agg (column : List Char) : Bool :=
  (Agg.values.map (fun a => a.display ++ ("_").toList)).any (fun p => charsStartsWith column p)
    || charsStartsWith column (("countstar").toList)

structure Line where
  idx : Nat
  operation : Operation
  deriving DecidableEq, Repr

abbrev Qpl := List Line

/-- `QplState`: `seen` is a `HashSet<usize>` (list with membership semantics),
`idx_to_table` is a `HashMap<usize, Table>` (association list, newest first). -/
structure QplState where
  current_idx : Nat
  seen : List Nat
  idx_to_table : List (Nat × Table)
  deriving DecidableEq, Repr

def QplState.default : QplState := ⟨0, [], []⟩

/-- `HashSet::insert`. -/
def seenInsert (n : Nat) (l : List Nat) : List Nat :=
  if l.contains n then l else n :: l

/-- `HashMap::insert` (overwrite semantics via newest-first lookup). -/
def tableInsert (k : Nat) (v : Table) (m : List (Nat × Table)) : List (Nat × Table) :=
  (k, v) :: m

/-- `HashMap::get`. -/
def tableLookup (m : List (Nat × Table)) (k : Nat) : Option Table :=
  match m with
  | [] => none
  | (k', v) :: rest => if k' = k then some v else tableLookup rest k

structure QplEnvironment where
  state : QplState
  schema : Option SqlSchema
  deriving DecidableEq, Repr

/-! ## Parser core (winnow semantics) -/

/-- The winnow stream `Stateful<Partial<&str>, QplEnvironment>`: remaining
input, whether more input may still arrive (`Partial::new` starts with `true`;
`complete()` sets it to `false`), and the threaded environment. -/
structure Stream where
  input : List Char
  more : Bool
  env : QplEnvironment
  deriving DecidableEq, Repr

/-- Distinguishes the sources of a Rust panic. -/
inductive CrashKind where
  | todoPanic
  | mapPanic
  | otherPanic
  deriving DecidableEq, Repr

/-- winnow `ErrMode` without payloads: `Incomplete`, `Backtrack`, `Cut`. -/
inductive PErr where
  | incomplete
  | backtrack
  | cut
  deriving DecidableEq, Repr

/-- Result of running a parser: success with the advanced stream, an error
(carrying the stream so that environment mutations persist, as with winnow's
`Stateful`), or a Rust panic. -/
inductive PResult (α : Type) where
  | ok (a : α) (s : Stream)
  | err (e : PErr) (s : Stream)
  | crash (k : CrashKind)
  deriving DecidableEq

abbrev Parser (α : Type) : Type := Stream → PResult α

def ppure (a : α) : Parser α := fun s => .ok a s

def pbind (p : Parser α) (f : α → Parser β) : Parser β := fun s =>
  match p s with
  | .ok a s' => f a s'
  | .err e s' => .err e s'
  | .crash k => .crash k

instance : Monad Parser where
  pure := ppure
  bind := pbind

/-- winnow `fail`: an unconditional `Backtrack`. -/
def pfail : Parser α := fun s => .err .backtrack s

/-- A Rust panic. -/
def pcrash (k : CrashKind) : Parser α := fun _ => .crash k

def getEnv : Parser QplEnvironment := fun s => .ok s.env s

def modifyEnv (f : QplEnvironment → QplEnvironment) : Parser Unit := fun s =>
  .ok () { s with env := f s.env }

/-- `input.state.schema.as_ref().unwrap()`. -/
def getSchema : Parser SqlSchema := fun s =>
  match s.env.schema with
  | some sch => .ok sch s
  | none => .crash .otherPanic

/-- `alt((p, q))`: on `Backtrack` the input cursor is reset to the checkpoint
but the environment is kept (winnow `Stateful` does not restore state);
`Incomplete` and `Cut` abort the alternation. -/
def palt (p q : Parser α) : Parser α := fun s =>
  match p s with
  | .ok a s' => .ok a s'
  | .err .backtrack s' => q { s with env := s'.env }
  | .err e s' => .err e s'
  | .crash k => .crash k

/-- winnow `opt`. -/
def popt (p : Parser α) : Parser (Option α) := fun s =>
  match p s with
  | .ok a s' => .ok (some a) s'
  | .err .backtrack s' => .ok none { s with env := s'.env }
  | .err e s' => .err e s'
  | .crash k => .crash k

/-- Outcome of comparing a literal against the head of the input. -/
inductive TagRes where
  | hit (rest : List Char)
  | short
  | miss
  deriving DecidableEq, Repr

def tagCmp (eqc : Char → Char → Bool) : List Char → List Char → TagRes
  | [], rest => .hit rest
  | _ :: _, [] => .short
  | l :: ls, c :: cs => if eqc l c then tagCmp eqc ls cs else .miss

/-- Literal parsers: `Incomplete` when the known input is a strict prefix of
the literal and more input may come, `Backtrack` otherwise on a mismatch. -/
def tagWith (eqc : Char → Char → Bool) (lit : List Char) : Parser Unit := fun s =>
  match tagCmp eqc lit s.input with
  | .hit rest => .ok () { s with input := rest }
  | .short => if s.more then .err .incomplete s else .err .backtrack s
  | .miss => .err .backtrack s

/-- Exact literal (`&str` as a parser). -/
def ptag (lit : String) : Parser Unit := tagWith (· == ·) lit.toList

/-- winnow `Caseless` literal over a dynamic string. -/
def pcaselessL (lit : List Char) : Parser Unit := tagWith eqCaseless lit

def pcaseless (lit : String) : Parser Unit := pcaselessL lit.toList

/-- winnow `eof`. -/
def peof : Parser Unit := fun s =>
  match s.input with
  | [] => if s.more then .err .incomplete s else .ok () s
  | _ :: _ => .err .backtrack s

/-- winnow `take_while(0.., pred)`: `Incomplete` when it reaches the end of a
still-partial input. -/
def takeWhile0 (pred : Char → Bool) : Parser (List Char) := fun s =>
  let taken := s.input.takeWhile pred
  let rest := s.input.dropWhile pred
  if rest.isEmpty && s.more then .err .incomplete s
  else .ok taken { s with input := rest }

/-- winnow `take_while(1.., pred)`. -/
def takeWhile1 (pred : Char → Bool) : Parser (List Char) := fun s =>
  let taken := s.input.takeWhile pred
  let rest := s.input.dropWhile pred
  if taken.isEmpty then
    if s.input.isEmpty && s.more then .err .incomplete s else .err .backtrack s
  else if rest.isEmpty && s.more then .err .incomplete s
  else .ok taken { s with input := rest }

def isQplSpace (c : Char) : Bool := c == ' ' || c == '\t' || c == '\n' || c == '\r'

/-- winnow `multispace0`. -/
def multispace0 : Parser (List Char) := takeWhile0 isQplSpace

/-- winnow `alphanumeric1` (ASCII). -/
def alphanumeric1 : Parser (List Char) := takeWhile1 Char.isAlphanum

/-- winnow `one_of` over a character set. -/
def oneOf (cs : List Char) : Parser Char := fun s =>
  match s.input with
  | [] => if s.more then .err .incomplete s else .err .backtrack s
  | c :: rest =>
    if cs.contains c then .ok c { s with input := rest } else .err .backtrack s

/-- Digit-accumulating loop of `dec_uint`: winnow fails (`none`) as soon as
the accumulated value would overflow `usize`. -/
def decDigits : Nat → List Char → Option (Nat × List Char)
  | acc, [] => some (acc, [])
  | acc, c :: rest =>
    if c.isDigit then
      let acc' := acc * 10 + (c.toNat - 48)
      if acc' < 2 ^ 64 then decDigits acc' rest else none
    else some (acc, c :: rest)

/-- winnow `dec_uint` for `usize`. -/
def dec_uint : Parser Nat := fun s =>
  match s.input with
  | [] => if s.more then .err .incomplete s else .err .backtrack s
  | c :: rest =>
    if c.isDigit then
      match decDigits (c.toNat - 48) rest with
      | none => .err .backtrack s
      | some (n, rest') =>
        if rest'.isEmpty && s.more then .err .incomplete s
        else .ok n { s with input := rest' }
    else .err .backtrack s

/-! ## Loop combinators (winnow `repeat` / `separated` / `separated_foldl1`)

Each loop is fuel-indexed with fuel `input length + 1` at entry; the
exhaustion branch mirrors winnow's `ErrMode::assert` (a `Cut`) for
non-consuming loop bodies and is unreachable for this grammar's separators,
which always consume input. -/

def psep1Go (elem : Parser α) (sep : Parser σ) : Nat → List α → Parser (List α)
  | 0, _ => fun s => .err .cut s
  | fuel + 1, acc => fun s =>
    match sep s with
    | .err .backtrack s' => .ok acc.reverse { s with env := s'.env }
    | .err e s' => .err e s'
    | .crash k => .crash k
    | .ok _ s1 =>
      match elem s1 with
      | .err .backtrack s' => .ok acc.reverse { s with env := s'.env }
      | .err e s' => .err e s'
      | .crash k => .crash k
      | .ok a s2 => psep1Go elem sep fuel (a :: acc) s2

/-- winnow `separated(1.., elem, sep)`. -/
def psep1 (elem : Parser α) (sep : Parser σ) : Parser (List α) := fun s =>
  match elem s with
  | .err e s' => .err e s'
  | .crash k => .crash k
  | .ok a s1 => psep1Go elem sep (s1.input.length + 1) [a] s1

/-- winnow `separated(1..=2, elem, sep)`: stops after the second element. -/
def psepPair (elem : Parser α) (sep : Parser σ) : Parser (List α) := fun s =>
  match elem s with
  | .err e s' => .err e s'
  | .crash k => .crash k
  | .ok a s1 =>
    match sep s1 with
    | .err .backtrack s' => .ok [a] { s1 with env := s'.env }
    | .err e s' => .err e s'
    | .crash k => .crash k
    | .ok _ s2 =>
      match elem s2 with
      | .err .backtrack s' => .ok [a] { s1 with env := s'.env }
      | .err e s' => .err e s'
      | .crash k => .crash k
      | .ok b s3 => .ok [a, b] s3

def pfold1Go (elem : Parser α) (sep : Parser σ) (comb : α → σ → α → Option α) :
    Nat → α → Parser α
  | 0, _ => fun s => .err .cut s
  | fuel + 1, acc => fun s =>
    match sep s with
    | .err .backtrack s' => .ok acc { s with env := s'.env }
    | .err e s' => .err e s'
    | .crash k => .crash k
    | .ok op s1 =>
      match elem s1 with
      | .err .backtrack s' => .ok acc { s with env := s'.env }
      | .err e s' => .err e s'
      | .crash k => .crash k
      | .ok b s2 =>
        match comb acc op b with
        | none => .crash .otherPanic
        | some acc' => pfold1Go elem sep comb fuel acc' s2

/-- winnow `separated_foldl1`; `comb` returning `none` is the `panic!` arm of
the fold closures in the source. -/
def pfold1 (elem : Parser α) (sep : Parser σ) (comb : α → σ → α → Option α) :
    Parser α := fun s =>
  match elem s with
  | .err e s' => .err e s'
  | .crash k => .crash k
  | .ok a s1 => pfold1Go elem sep comb (s1.input.length + 1) a s1

def prepeat0Go (elem : Parser α) : Nat → Parser Unit
  | 0 => fun s => .err .cut s
  | fuel + 1 => fun s =>
    match elem s with
    | .err .backtrack s' => .ok () { s with env := s'.env }
    | .err e s' => .err e s'
    | .crash k => .crash k
    | .ok _ s1 => prepeat0Go elem fuel s1

/-- winnow `repeat(0.., elem)` with unit accumulator. -/
def prepeat0 (elem : Parser α) : Parser Unit := fun s =>
  prepeat0Go elem (s.input.length + 1) s

/-- winnow `Parser::recognize`: the consumed slice of a successful parse. -/
def precognize (p : Parser α) : Parser (List Char) := fun s =>
  match p s with
  | .ok _ s' => .ok (s.input.take (s.input.length - s'.input.length)) s'
  | .err e s' => .err e s'
  | .crash k => .crash k

/-! ## Lexical primitives (src/parser/shared.rs plus winnow `ascii::float`) -/

def psign : Parser (Option Char) := popt (oneOf [Char.ofNat 43, Char.ofNat 45])

def pdigit1 : Parser (List Char) := takeWhile1 Char.isDigit

/-- The mantissa-and-exponent branch of winnow `recognize_float`. -/
def recognizeFloatCore : Parser Unit := do
  let _ ← psign
  let _ ← palt
    (do
      let _ ← pdigit1
      let _ ← popt (do
        ptag (".")
        let _ ← popt pdigit1
        ppure ())
      ppure ())
    (do
      ptag (".")
      let _ ← pdigit1
      ppure ())
  let _ ← popt (do
    let _ ← oneOf ['e', 'E']
    let _ ← psign
    let _ ← pdigit1
    ppure ())
  ppure ()

/-- winnow `recognize_float_or_exceptions`: a float literal or a signed
`inf`/`infinity`/`nan` (case-insensitive). -/
def recognizeFloatOrExceptions : Parser Unit :=
  palt recognizeFloatCore
    (do
      let _ ← psign
      palt (pcaseless ("infinity")) (palt (pcaseless ("inf")) (pcaseless ("nan"))))

/-- The `number` parser; the `f64` value is represented by its lexeme since no
claim computes with float values. -/
def number : Parser Comparable := do
  let lx ← precognize recognizeFloatOrExceptions
  ppure (Comparable.number lx)

def quoteChar : Char := Char.ofNat 39

/-- The `string` parser: a single-quoted literal. -/
def stringP : Parser Comparable := do
  tagWith (· == ·) [quoteChar]
  let cs ← takeWhile0 (fun c => !(c == quoteChar))
  tagWith (· == ·) [quoteChar]
  ppure (.str cs)

def booleanP : Parser Comparable :=
  palt (do ptag ("0"); ppure (Comparable.boolean false))
    (do ptag ("1"); ppure (Comparable.boolean true))

def nullP : Parser Comparable := do
  ptag ("NULL")
  ppure Comparable.null

def opLit (lit : String) : Parser (List Char) := do
  ptag (lit)
  ppure lit.toList

def opLitC (lit : String) (canon : String) : Parser (List Char) := do
  pcaseless (lit)
  ppure canon.toList

/-- The `comparison_op` parser, in the source's alternation order. -/
def comparison_op : Parser (List Char) :=
  palt (opLit ("<>")) (palt (opLit ("<=")) (palt (opLit (">="))
    (palt (opLitC ("is not") ("IS NOT")) (palt (opLitC ("is") ("IS"))
    (palt (opLitC ("like") ("LIKE")) (palt (opLitC ("not like") ("NOT LIKE"))
    (palt (opLit ("<")) (palt (opLit (">")) (opLit ("="))))))))))

def spaced_comparison_op : Parser (List Char) := do
  let _ ← multispace0
  let op ← comparison_op
  let _ ← multispace0
  ppure op

/-! ## Schema lookup helpers (src/parser/shared.rs, src/parser/utils.rs) -/

/-- Descending-length comparison from `cmp_length_desc` (as a sort key). -/
def cmp_length_desc (a b : List Char) : Bool := b.length ≤ a.length

/-- Is `column` (case-insensitively) a column of table index `t`? -/
def colInTableIdx (schema : SqlSchema) (t : Nat) (column : List Char) : Bool :=
  (List.range schema.column_names.length).any (fun i =>
    lowerChars (schema.column_names.getD i []) == lowerChars column &&
    schema.column_to_table.getD i 0 == t)

/-- Index of the first column of table index `t` matching `column`
case-insensitively. -/
def findColIdx (schema : SqlSchema) (t : Nat) (column : List Char) : Option Nat :=
  (List.range schema.column_names.length).find? (fun i =>
    lowerChars (schema.column_names.getD i []) == lowerChars column &&
    schema.column_to_table.getD i 0 == t)

/-- Models `column_type`; `none` covers both `?` early exits. -/
def column_type (schema : SqlSchema) (table column : List Char) : Option ColumnType := do
  let t ← List.findIdx? (fun tn => tn == table) schema.table_names
  let c ← findColIdx schema t column
  some (schema.column_types.getD c .others)

/-- Models `column_key`; `none` is the `unwrap` panic when `table` is not a
registered table name. -/
def column_key (schema : SqlSchema) (table column : List Char) : Option (List KeyType) :=
  match List.findIdx? (fun tn => tn == table) schema.table_names with
  | none => none
  | some t =>
    let fks := schema.foreign_keys.map Prod.fst
    let pks := schema.foreign_keys.map Prod.snd
    some (match findColIdx schema t column with
      | none => []
      | some i =>
        let pk :=
          if schema.primary_keys.contains i || pks.contains i then
            [KeyType.primaryKey table]
          else []
        let fk :=
          if fks.contains i then
            dedupConsec (insertionSortBy KeyType.le (pks.map (fun p =>
              KeyType.foreignKey
                (schema.table_names.getD (schema.column_to_table.getD p 0) []))))
          else []
        pk ++ fk)

/-! ## Shared parsers (src/parser/shared.rs) -/

/-- The `choice` helper: first case-insensitive literal match wins. -/
def choice : List (List Char) → Parser (List Char)
  | [] => pfail
  | c :: cs => fun s =>
    match popt (pcaselessL c) s with
    | .ok (some _) s' => .ok c s'
    | .ok none s' => choice cs s'
    | .err e s' => .err e s'
    | .crash k => .crash k

def table_name : Parser (List Char) := do
  let schema ← getSchema
  choice (insertionSortBy cmp_length_desc schema.table_names)

def column_name : Parser (List Char) := do
  let schema ← getSchema
  choice (insertionSortBy cmp_length_desc schema.column_names)

/-- The `aliased_column` parser; `HashMap::values` iteration order is modelled
by the association-list order. -/
def aliased_column : Parser (List Char) := do
  let env ← getEnv
  let aliases :=
    ((env.state.idx_to_table.map (fun kv => kv.2.columns.map Column.name)).flatten).filter
      starts_with_agg
  choice aliases

def column_in_table (table : List Char) : Parser (List Char × Option (List Char)) := do
  let column ← column_name
  let alias_ ← popt (do
    ptag (" AS ")
    alphanumeric1)
  let schema ← getSchema
  match List.findIdx? (fun tn => tn == table) schema.table_names with
  | none => pcrash .otherPanic
  | some t =>
    if colInTableIdx schema t column then ppure (column, alias_)
    else pfail

inductive ColumnParserType where
  | named
  | aliasedC

def column_in_index (idx : Nat) (cpt : ColumnParserType) : Parser (List Char) := do
  let column ← match cpt with
    | .named => column_name
    | .aliasedC => aliased_column
  let env ← getEnv
  let inTable :=
    match tableLookup env.state.idx_to_table idx with
    | none => false
    | some t => t.columns.any (fun c =>
        match c with
        | .dummy => false
        | .plain n _ _ => column == n
        | .aliased n _ _ => column == n)
  if inTable then ppure column else pfail

def indexed_column (inputs : List Nat) : Parser (Nat × List Char) := do
  ptag ("#")
  let idx ← dec_uint
  if !(inputs.contains idx) then pfail
  else do
    ptag (".")
    let column ← palt (column_in_index idx .named) (column_in_index idx .aliasedC)
    ppure (idx, column)

def sepCommaMs : Parser Unit := do
  let _ ← multispace0
  ptag (", ")

def singleId : Parser Nat := do
  ptag ("#")
  dec_uint

def input_ids : Parser (List Nat) := do
  ptag ("[ ")
  let ids ← psepPair singleId sepCommaMs
  let env ← getEnv
  if !(ids.all (fun i => env.state.seen.contains i)) then pfail
  else do
    ptag (" ] ")
    ppure ids

def predicate_wrapper (inner : Parser Predicate) : Parser Predicate := do
  ptag ("Predicate [ ")
  let p ← inner
  ptag (" ] ")
  ppure p

/-- One output column of `get_table_from_indexed_outputs`: `panicked` is the
`HashMap` indexing panic, `missing` the `find` miss that fails the parser. -/
inductive LookupOut where
  | panicked
  | missing
  | found (c : Column)

def gtfioOne (state : QplState) (o : Nat × List Char) : LookupOut :=
  if o.2 == ("1 AS One").toList then .found .dummy
  else if o.2 == ("countstar AS Count_Star").toList then
    .found (.aliased (("Count_Star").toList) .number [])
  else if starts_with_agg o.2 then .found (.aliased o.2 .number [])
  else
    match tableLookup state.idx_to_table o.1 with
    | none => .panicked
    | some t =>
      match t.columns.find? (fun c => c.name == o.2) with
      | none => .missing
      | some c => .found c

/-- Sequential collection of output columns: outer `none` is a panic, inner
`none` the first missing column (iteration stops there, as `collect` does). -/
def gtfioCols (state : QplState) : List (Nat × List Char) → Option (Option (List Column))
  | [] => some (some [])
  | o :: os =>
    match gtfioOne state o with
    | .panicked => none
    | .missing => some none
    | .found c =>
      match gtfioCols state os with
      | none => none
      | some none => some none
      | some (some cs) => some (some (c :: cs))

def get_table_from_indexed_outputs (outs : List (Nat × List Char)) : Parser Table :=
  fun s =>
    match gtfioCols s.env.state outs with
    | none => .crash .mapPanic
    | some none => .err .backtrack s
    | some (some cs) => .ok (Table.indexed s.env.state.current_idx cs) s

/-- Resolve the input tables of `get_output` (`idx_to_table[i]`, a panic when
absent). -/
def resolveTables (m : List (Nat × Table)) : List Nat → Option (List Table)
  | [] => some []
  | i :: is_ =>
    match tableLookup m i with
    | none => none
    | some t => (resolveTables m is_).map (t :: ·)

def getOutputOne (prev : List Table) (out : List Char) : Option Column :=
  if out == ("1 AS One").toList then some .dummy
  else if out == ("countstar AS Count_Star").toList then
    some (.aliased (("Count_Star").toList) .number [])
  else if starts_with_agg out then some (.aliased out .number [])
  else
    prev.foldl (fun res t => res.orElse (fun _ => t.columns.find? (fun c => c.name == out)))
      none

def get_output (inputs : List Nat) (outs : List (List Char)) : Parser Table := fun s =>
  match resolveTables s.env.state.idx_to_table inputs with
  | none => .crash .mapPanic
  | some prev =>
    match outs.mapM (getOutputOne prev) with
    | some cs => .ok (Table.indexed s.env.state.current_idx cs) s
    | none => .err .backtrack s

def order_by (input_idx : Nat) : Parser (List Char) := do
  let by_ ← palt aliased_column column_name
  let env ← getEnv
  match tableLookup env.state.idx_to_table input_idx with
  | none => pcrash .mapPanic
  | some t =>
    if !(t.columns.any (fun c => c.name == by_)) then pfail
    else do
      let _ ← multispace0
      let dir ← palt (opLit ("ASC")) (opLit ("DESC"))
      ppure (by_ ++ (" ").toList ++ dir)

/-! ## Common per-operation pieces -/

def usizeMax : Nat := 2 ^ 64 - 1

/-- Insert the derived table at `current_idx`
(`state.idx_to_table.insert(state.current_idx, output_table)`). -/
def insertTable (t : Table) : Parser Unit :=
  modifyEnv (fun e =>
    { e with state :=
      { e.state with idx_to_table := tableInsert e.state.current_idx t e.state.idx_to_table } })

/-- The `alt(("Distinct [ true ] ".value(true), empty.value(false)))` parser. -/
def distinctFlag : Parser Bool :=
  palt (do ptag ("Distinct [ true ] "); ppure true) (ppure false)

def predSep : Parser (List Char) := palt (opLit (" AND ")) (opLit (" OR "))

/-- The fold closure of every `predicate` function; `none` is its `panic!`
arm. -/
def predCombine (lhs : Predicate) (op : List Char) (rhs : Predicate) : Option Predicate :=
  if op = (" AND ").toList then some (.and lhs rhs)
  else if op = (" OR ").toList then some (.or lhs rhs)
  else none

/-- The shared shape of every per-operation `predicate` parser
(`separated_foldl1` over a comparison parser). -/
def predicateOf (comp : Parser Comparison) : Parser Predicate :=
  pfold1 (do let c ← comp; ppure (Predicate.single c)) predSep predCombine

def Column.isAliasedCol : Column → Bool
  | .aliased _ _ _ => true
  | _ => false

/-! ## Scan (src/parser/scan.rs) -/

def scan_column_in_table_of_type (typ : ColumnType) (table : List Char) :
    Parser Comparable := do
  let column ← column_name
  let schema ← getSchema
  match List.findIdx? (fun tn => tn == table) schema.table_names with
  | none => pcrash .otherPanic
  | some ti =>
    if (List.range schema.column_names.length).any (fun i =>
        schema.column_names.getD i [] == column &&
        schema.column_to_table.getD i 0 == ti &&
        schema.column_types.getD i .others == typ) then
      ppure (Comparable.column column)
    else pfail

def scan_type_comparable (lhs_type : ColumnType) (table : List Char) : Parser Comparable :=
  match lhs_type with
  | .number => palt number (palt nullP (scan_column_in_table_of_type .number table))
  | .boolean => palt booleanP (palt nullP (scan_column_in_table_of_type .boolean table))
  | .text => palt stringP (palt nullP (scan_column_in_table_of_type .text table))
  | .time => palt stringP (palt nullP (scan_column_in_table_of_type .time table))
  | .others =>
    palt number (palt booleanP (palt stringP (palt nullP
      (scan_column_in_table_of_type .others table))))

def scan_comparable (table : List Char) : Parser Comparable :=
  palt number (palt booleanP (palt stringP (palt nullP
    (do let co ← column_in_table table; ppure (Comparable.column co.1)))))

def scan_comparison (twc : Bool) (table : List Char) : Parser Comparison := do
  let co ← column_in_table table
  let column := co.1
  let op ← spaced_comparison_op
  if twc then do
    let schema ← getSchema
    match column_type schema table column with
    | none => pfail
    | some typ => do
      let rhs ← scan_type_comparable typ table
      match Comparison.fromString op (Comparable.column column) rhs with
      | none => pcrash .otherPanic
      | some c => ppure c
  else do
    let rhs ← scan_comparable table
    match Comparison.fromString op (Comparable.column column) rhs with
    | none => pcrash .otherPanic
    | some c => ppure c

/-- Models `get_output_table`; `none` is the `column_type(...).unwrap()`
panic. -/
def get_output_table (schema : SqlSchema) (table : List Char)
    (outs : List (List Char × Option (List Char))) : Option Table := do
  let cols ← outs.mapM (fun o =>
    if o.1 == ("1 AS One").toList then some Column.dummy
    else do
      let typ ← column_type schema table o.1
      let keys ← column_key schema table o.1
      some (match o.2 with
        | some alias_ => Column.plain alias_ typ keys
        | none => Column.plain o.1 typ keys))
  some (Table.named table cols)

def scan (twc : Bool) : Parser Operation := do
  ptag ("Scan Table [ ")
  let table ← table_name
  ptag (" ] ")
  let predicate ← popt (predicate_wrapper (predicateOf (scan_comparison twc table)))
  let is_distinct ← distinctFlag
  ptag ("Output [ ")
  let outs ← palt (do ptag ("1 AS One"); ppure [((("1 AS One").toList), none)])
    (psep1 (column_in_table table) sepCommaMs)
  if has_duplicates outs then pfail
  else do
    let schema ← getSchema
    match get_output_table schema table outs with
    | none => pcrash .otherPanic
    | some output_table => do
      insertTable output_table
      ptag (" ]")
      ppure (Operation.scan table predicate is_distinct)

/-! ## Filter (src/parser/filter.rs) -/

def filter_column_in_table_of_type (typ : ColumnType) (input_idx : Nat) :
    Parser Comparable := do
  let column ← column_name
  let env ← getEnv
  match tableLookup env.state.idx_to_table input_idx with
  | none => pcrash .mapPanic
  | some t =>
    if t.columns.any (fun c => c.name == column && c.typ == typ) then
      ppure (Comparable.column column)
    else pfail

def filter_type_comparable (lhs_type : ColumnType) (input_idx : Nat) : Parser Comparable :=
  match lhs_type with
  | .number => palt number (palt nullP (filter_column_in_table_of_type .number input_idx))
  | .boolean => palt booleanP (palt nullP (filter_column_in_table_of_type .boolean input_idx))
  | .text => palt stringP (palt nullP (filter_column_in_table_of_type .text input_idx))
  | .time => palt stringP (palt nullP (filter_column_in_table_of_type .time input_idx))
  | .others =>
    palt number (palt booleanP (palt stringP (palt nullP
      (filter_column_in_table_of_type .others input_idx))))

def filter_comparable : Parser Comparable :=
  palt number (palt booleanP (palt stringP (palt nullP
    (do let c ← column_name; ppure (Comparable.column c)))))

def filter_comparison (twc : Bool) (input_idx : Nat) : Parser Comparison := do
  let column ← palt (column_in_index input_idx .named) (column_in_index input_idx .aliasedC)
  let op ← spaced_comparison_op
  if twc then do
    let env ← getEnv
    match tableLookup env.state.idx_to_table input_idx with
    | none => pcrash .mapPanic
    | some t =>
      match t.columns.findSome? (fun c => if c.name == column then some c.typ else none) with
      | none => pfail
      | some typ => do
        let rhs ← filter_type_comparable typ input_idx
        match Comparison.fromString op (Comparable.column column) rhs with
        | none => pcrash .otherPanic
        | some c => ppure c
  else do
    let rhs ← filter_comparable
    match Comparison.fromString op (Comparable.column column) rhs with
    | none => pcrash .otherPanic
    | some c => ppure c

def filter_validate_output (input_idx : Nat) (outs : List (List Char))
    (m : List (Nat × Table)) : Option Bool :=
  match tableLookup m input_idx with
  | none => none
  | some t =>
    let prev := t.columns.map Column.name
    let is_dummy := outs == [("1 AS One").toList]
    let is_subset := outs.all (fun o => prev.contains o)
    some (!has_duplicates outs && (is_subset || is_dummy))

def filter (twc : Bool) : Parser Operation := do
  ptag ("Filter ")
  let inputs ← input_ids
  if inputs.length ≠ 1 then pfail
  else do
    let input_idx := inputs.headD 0
    let predicate ← popt (predicate_wrapper (predicateOf (filter_comparison twc input_idx)))
    let is_distinct ← distinctFlag
    ptag ("Output [ ")
    let outs ← palt (do ptag ("1 AS One"); ppure [("1 AS One").toList])
      (psep1 (palt column_name aliased_column) sepCommaMs)
    let env ← getEnv
    match filter_validate_output input_idx outs env.state.idx_to_table with
    | none => pcrash .mapPanic
    | some false => pfail
    | some true => do
      let output_table ← get_output inputs outs
      insertTable output_table
      ptag (" ]")
      ppure (Operation.filter input_idx predicate is_distinct)

/-! ## Aggregate (src/parser/aggregate.rs) -/

def aggGo : List Agg → Parser Agg
  | [] => pfail
  | a :: rest => fun s =>
    match popt (tagWith (· == ·) a.upper) s with
    | .ok (some _) s' => .ok a s'
    | .ok none s' => aggGo rest s'
    | .err e s' => .err e s'
    | .crash k => .crash k

def agg : Parser Agg := fun s => aggGo Agg.values s

def aliased_aggregate (input_idx : Nat) : Parser (List Char) := do
  let aggregate_ ← agg
  ptag ("(")
  let is_distinct ← palt (do ptag ("DISTINCT "); ppure true) (ppure false)
  let column ← column_in_index input_idx .named
  ptag (") AS ")
  tagWith (· == ·) (aggregate_.display ++ ("_").toList)
  let dist ← if is_distinct then do
      ptag ("Dist_")
      ppure (("Dist_").toList)
    else ppure ([] : List Char)
  let alias_ ← precognize (pcaselessL column)
  ppure (aggregate_.display ++ ("_").toList ++ dist ++ alias_)

def group_by (input_idx : Nat) : Parser (List (List Char)) := do
  ptag ("GroupBy [ ")
  let columns ← psep1 (column_in_index input_idx .named) sepCommaMs
  ptag (" ] ")
  ppure columns

def aggOutputs (input_idx : Nat) : Parser (List (List Char)) :=
  psep1
    (palt (do ptag ("countstar AS Count_Star"); ppure (("countstar AS Count_Star").toList))
      (palt (aliased_aggregate input_idx) column_name))
    sepCommaMs

def agg_validate_output (input_idx : Nat) (outs : List (List Char))
    (m : List (Nat × Table)) : Option Bool :=
  match tableLookup m input_idx with
  | none => none
  | some t =>
    let without_aliases := outs.filter (fun o => !starts_with_agg o)
    let prev := t.columns.map Column.name
    let is_subset := without_aliases.all (fun o => prev.contains o)
    some (is_subset && !has_duplicates outs)

def aggregate : Parser Operation := do
  ptag ("Aggregate ")
  let inputs ← input_ids
  if inputs.length ≠ 1 then pfail
  else do
    let input_idx := inputs.headD 0
    let gbs ← popt (group_by input_idx)
    ptag ("Output [ ")
    let outs ← aggOutputs input_idx
    let env ← getEnv
    match agg_validate_output input_idx outs env.state.idx_to_table with
    | none => pcrash .mapPanic
    | some false => pfail
    | some true => do
      let output_table ← get_output inputs outs
      insertTable output_table
      ptag (" ]")
      ppure (Operation.aggregate input_idx (gbs.getD []))

/-! ## Top and TopSort (src/parser/top.rs, src/parser/top_sort.rs) -/

def top_validate_output (input_idx : Nat) (outs : List (List Char))
    (m : List (Nat × Table)) : Option Bool :=
  match tableLookup m input_idx with
  | none => none
  | some t =>
    let prev := t.columns.map Column.name
    let is_subset := outs.all (fun o => prev.contains o)
    some (!has_duplicates outs && is_subset)

def top : Parser Operation := do
  ptag ("Top ")
  let inputs ← input_ids
  if inputs.length ≠ 1 then pfail
  else do
    let input_idx := inputs.headD 0
    ptag ("Rows [ ")
    let rows ← dec_uint
    ptag (" ] Output [ ")
    let outs ← psep1 (palt column_name aliased_column) sepCommaMs
    let env ← getEnv
    match top_validate_output input_idx outs env.state.idx_to_table with
    | none => pcrash .mapPanic
    | some false => pfail
    | some true => do
      let output_table ← get_output inputs outs
      insertTable output_table
      ptag (" ]")
      ppure (Operation.top input_idx rows)

def top_sort_validate_output (input_idx : Nat) (outs : List (List Char))
    (m : List (Nat × Table)) : Option Bool :=
  match tableLookup m input_idx with
  | none => none
  | some t =>
    let prev := t.columns.map Column.name
    let is_subset := outs.all (fun o => prev.contains o)
    some (!has_duplicates outs && is_subset)

def top_sort : Parser Operation := do
  ptag ("TopSort ")
  let inputs ← input_ids
  if inputs.length ≠ 1 then pfail
  else do
    let input_idx := inputs.headD 0
    ptag ("Rows [ ")
    let rows ← dec_uint
    ptag (" ] OrderBy [ ")
    let obs ← psep1 (order_by input_idx) sepCommaMs
    ptag (" ] ")
    let with_ties ← palt (do ptag ("WithTies [ true ] "); ppure true) (ppure false)
    ptag ("Output [ ")
    let outs ← psep1 (palt column_name aliased_column) sepCommaMs
    let env ← getEnv
    match top_sort_validate_output input_idx outs env.state.idx_to_table with
    | none => pcrash .mapPanic
    | some false => pfail
    | some true => do
      let output_table ← get_output inputs outs
      insertTable output_table
      ptag (" ]")
      ppure (Operation.topSort input_idx rows obs with_ties)

/-! ## Sort -/

/-- Modelled from the spec: `src/parser/sort.rs` is declared in src/parser.rs
but its source file is absent from src/. Spec §4.5: `Sort [ <#k> ]
[Distinct …] OrderBy [ <orderings> ] Output [ <outputs> ]`, one input,
orderings validated against `#k`, outputs drawn from `#k`, derived table
inserted like the other single-input operations. -/
def sort_validate_output (input_idx : Nat) (outs : List (List Char))
    (m : List (Nat × Table)) : Option Bool :=
  match tableLookup m input_idx with
  | none => none
  | some t =>
    let prev := t.columns.map Column.name
    let is_subset := outs.all (fun o => prev.contains o)
    some (!has_duplicates outs && is_subset)

/-- Modelled from the spec: the `Sort` operation parser (source file absent
from src/), following spec §4.5 and the `Operation::Sort` shape of
src/domain.rs. -/
def sort : Parser Operation := do
  ptag ("Sort ")
  let inputs ← input_ids
  if inputs.length ≠ 1 then pfail
  else do
    let input_idx := inputs.headD 0
    let is_distinct ← distinctFlag
    ptag ("OrderBy [ ")
    let obs ← psep1 (order_by input_idx) sepCommaMs
    ptag (" ] ")
    ptag ("Output [ ")
    let outs ← psep1 (palt column_name aliased_column) sepCommaMs
    let env ← getEnv
    match sort_validate_output input_idx outs env.state.idx_to_table with
    | none => pcrash .mapPanic
    | some false => pfail
    | some true => do
      let output_table ← get_output inputs outs
      insertTable output_table
      ptag (" ]")
      ppure (Operation.sort input_idx obs is_distinct)

/-! ## Join (src/parser/join.rs) -/

def join_column_in_index_of_type (typ : ColumnType) (input_idxs : List Nat) :
    Parser Comparable := do
  let ic ← indexed_column input_idxs
  let env ← getEnv
  match tableLookup env.state.idx_to_table ic.1 with
  | none => pcrash .mapPanic
  | some t =>
    if t.columns.any (fun c => c.name == ic.2 && c.typ == typ) then
      ppure (Comparable.column ic.2)
    else pfail

def join_type_comparable (input_idxs : List Nat) (lhs_type : ColumnType) :
    Parser Comparable :=
  match lhs_type with
  | .number => palt number (palt nullP (join_column_in_index_of_type .number input_idxs))
  | .boolean => palt booleanP (palt nullP (join_column_in_index_of_type .boolean input_idxs))
  | .text => palt stringP (palt nullP (join_column_in_index_of_type .text input_idxs))
  | .time => palt stringP (palt nullP (join_column_in_index_of_type .time input_idxs))
  | .others =>
    palt number (palt booleanP (palt stringP (palt nullP
      (join_column_in_index_of_type .others input_idxs))))

def is_primary_key_of (key : KeyType) (table : List Char) : Bool :=
  match key with
  | .primaryKey t => t == table
  | .foreignKey _ => false

def is_foreign_key_of (key : KeyType) (table : List Char) : Bool :=
  match key with
  | .primaryKey _ => false
  | .foreignKey t => t == table

def comparable_key_and_type (input_idxs : List Nat) (lhs_type : ColumnType)
    (lhs_table : List Char) (decider : KeyType → List Char → Bool) :
    Parser Comparable := do
  let ic ← indexed_column input_idxs
  let env ← getEnv
  match tableLookup env.state.idx_to_table ic.1 with
  | none => pcrash .mapPanic
  | some t =>
    if t.columns.any (fun c =>
        c.name == ic.2 && c.typ == lhs_type && c.keys.any (fun k => decider k lhs_table)) then
      ppure (Comparable.column ic.2)
    else pfail

/-- The `p1` closure of `comparable_key`: try each LHS key in order. -/
def comparableKeyP1 (input_idxs : List Nat) (lhs_type : ColumnType) :
    List KeyType → Parser Comparable
  | [] => pfail
  | key :: rest => fun s =>
    let attempt : Parser (Option Comparable) :=
      match key with
      | .primaryKey table =>
        popt (comparable_key_and_type input_idxs lhs_type table is_foreign_key_of)
      | .foreignKey table =>
        popt (palt
          (comparable_key_and_type input_idxs lhs_type table is_foreign_key_of)
          (comparable_key_and_type input_idxs lhs_type table is_primary_key_of))
    match attempt s with
    | .ok (some c) s' => .ok c s'
    | .ok none s' => comparableKeyP1 input_idxs lhs_type rest s'
    | .err e s' => .err e s'
    | .crash k => .crash k

/-- The `any` closure inside `p2`: `none` is the `todo!()` panic reached on
the first non-`Aliased` column. -/
def anyAliasedOrTodo : List Column → List Char → ColumnType → Option Bool
  | [], _, _ => some false
  | c :: rest, column, lhs_type =>
    match c with
    | .aliased n t _ =>
      if n == column && t == lhs_type then some true
      else anyAliasedOrTodo rest column lhs_type
    | _ => none

/-- The `p2` closure of `comparable_key`. -/
def comparableKeyP2 (input_idxs : List Nat) (lhs_type : ColumnType) :
    Parser Comparable := do
  let ic ← indexed_column input_idxs
  let env ← getEnv
  match tableLookup env.state.idx_to_table ic.1 with
  | none => pcrash .mapPanic
  | some t =>
    match anyAliasedOrTodo t.columns ic.2 lhs_type with
    | none => pcrash .todoPanic
    | some true => ppure (Comparable.column ic.2)
    | some false => pfail

def comparable_key (input_idxs : List Nat) (lhs_type : ColumnType)
    (lhs_keys : List KeyType) : Parser Comparable :=
  palt (comparableKeyP1 input_idxs lhs_type lhs_keys) (comparableKeyP2 input_idxs lhs_type)

def join_comparable (input_idxs : List Nat) : Parser Comparable :=
  palt number (palt booleanP (palt stringP (palt nullP
    (do let ic ← indexed_column input_idxs; ppure (Comparable.column ic.2)))))

def join_comparison (twc : Bool) (input_idxs : List Nat) : Parser Comparison := do
  let ic ← indexed_column input_idxs
  let column := ic.2
  let op ← spaced_comparison_op
  if twc then do
    let env ← getEnv
    match tableLookup env.state.idx_to_table ic.1 with
    | none => pcrash .mapPanic
    | some t =>
      match t.columns.findSome? (fun c =>
          if c.name == column then some (c.typ, c.keys, c.isAliasedCol) else none) with
      | none => pfail
      | some (typ, keys, is_aliased) => do
        let rhs ←
          if op = ("=").toList && !is_aliased then comparable_key input_idxs typ keys
          else join_type_comparable input_idxs typ
        match Comparison.fromString op (Comparable.column column) rhs with
        | none => pcrash .otherPanic
        | some c => ppure c
  else do
    let rhs ← join_comparable input_idxs
    match Comparison.fromString op (Comparable.column column) rhs with
    | none => pcrash .otherPanic
    | some c => ppure c

def join_validate_output (inputs : List Nat) (outs : List (Nat × List Char))
    (m : List (Nat × Table)) : Option Bool :=
  match resolveTables m inputs with
  | none => none
  | some ts =>
    let prev_columns := (ts.map (fun t => t.columns.map Column.name)).flatten
    let columns := outs.map Prod.snd
    let is_dummy := columns == [("1 AS One").toList]
    let is_subset_of_prev := columns.all (fun c => prev_columns.contains c)
    some (!has_duplicates outs && (is_subset_of_prev || is_dummy))

def join (twc : Bool) : Parser Operation := do
  ptag ("Join ")
  let inputs ← input_ids
  if inputs.length ≠ 2 then pfail
  else do
    let predicate ← popt (predicate_wrapper (predicateOf (join_comparison twc inputs)))
    let is_distinct ← distinctFlag
    ptag ("Output [ ")
    let outs ← palt (do ptag ("1 AS One"); ppure [(usizeMax, ("1 AS One").toList)])
      (psep1 (indexed_column inputs) sepCommaMs)
    let env ← getEnv
    match join_validate_output inputs outs env.state.idx_to_table with
    | none => pcrash .mapPanic
    | some false => pfail
    | some true => do
      let output_table ← get_table_from_indexed_outputs outs
      insertTable output_table
      ptag (" ]")
      ppure (Operation.join inputs predicate is_distinct)

/-! ## Intersect -/

/-- Modelled from the spec: `src/parser/intersect.rs` is declared in
src/parser.rs but its source file is absent from src/. Spec §4.5:
"identical shape to Join but keyword `Intersect`"; it reuses the
join-sharpened predicate machinery and produces `Operation::Intersect`. -/
def intersect (twc : Bool) : Parser Operation := do
  ptag ("Intersect ")
  let inputs ← input_ids
  if inputs.length ≠ 2 then pfail
  else do
    let predicate ← popt (predicate_wrapper (predicateOf (join_comparison twc inputs)))
    let is_distinct ← distinctFlag
    ptag ("Output [ ")
    let outs ← palt (do ptag ("1 AS One"); ppure [(usizeMax, ("1 AS One").toList)])
      (psep1 (indexed_column inputs) sepCommaMs)
    let env ← getEnv
    match join_validate_output inputs outs env.state.idx_to_table with
    | none => pcrash .mapPanic
    | some false => pfail
    | some true => do
      let output_table ← get_table_from_indexed_outputs outs
      insertTable output_table
      ptag (" ]")
      ppure (Operation.intersect inputs predicate is_distinct)

/-! ## Except (src/parser/except.rs) -/

def except_column_in_index_of_type (typ : ColumnType) (input_idxs : List Nat) :
    Parser Comparable := do
  let ic ← indexed_column input_idxs
  let env ← getEnv
  match tableLookup env.state.idx_to_table ic.1 with
  | none => pcrash .mapPanic
  | some t =>
    if t.columns.any (fun c => c.name == ic.2 && c.typ == typ) then
      ppure (Comparable.column ic.2)
    else pfail

/-- Except's typed RHS: only `NULL` or a column of the LHS type — unlike the
other operations it admits no literal alternatives. -/
def except_type_comparable (input_idxs : List Nat) (lhs_type : ColumnType) :
    Parser Comparable :=
  palt nullP (except_column_in_index_of_type lhs_type input_idxs)

def except_comparable (input_idxs : List Nat) : Parser Comparable :=
  palt number (palt booleanP (palt stringP (palt nullP
    (do let ic ← indexed_column input_idxs; ppure (Comparable.column ic.2)))))

def except_comparison (twc : Bool) (input_idxs : List Nat) : Parser Comparison := do
  let ic ← indexed_column input_idxs
  let column := ic.2
  let op ← spaced_comparison_op
  if twc then do
    let env ← getEnv
    match tableLookup env.state.idx_to_table ic.1 with
    | none => pcrash .mapPanic
    | some t =>
      match t.columns.findSome? (fun c => if c.name == column then some c.typ else none) with
      | none => pfail
      | some typ => do
        let rhs ← except_type_comparable input_idxs typ
        match Comparison.fromString op (Comparable.column column) rhs with
        | none => pcrash .otherPanic
        | some c => ppure c
  else do
    let rhs ← except_comparable input_idxs
    match Comparison.fromString op (Comparable.column column) rhs with
    | none => pcrash .otherPanic
    | some c => ppure c

def except_columns (input_idxs : List Nat) : Parser (List Char) := do
  ptag ("ExceptColumns [ ")
  let ic ← indexed_column input_idxs
  ptag (" ] ")
  ppure ic.2

def except_validate_output (inputs : List Nat) (outs : List (Nat × List Char))
    (m : List (Nat × Table)) : Option Bool :=
  match resolveTables m inputs with
  | none => none
  | some ts =>
    let prev_columns := (ts.map (fun t => t.columns.map Column.name)).flatten
    let columns := outs.map Prod.snd
    let is_dummy := columns == [("1 AS One").toList]
    let is_subset_of_prev := columns.all (fun c => prev_columns.contains c)
    some (!has_duplicates outs && (is_subset_of_prev || is_dummy))

def except (twc : Bool) : Parser Operation := do
  ptag ("Except ")
  let inputs ← input_ids
  if inputs.length ≠ 2 then pfail
  else do
    let operator ← palt
      (do
        let p ← predicate_wrapper (predicateOf (except_comparison twc inputs))
        ppure (ExceptOperator.predicate p))
      (do
        let c ← except_columns inputs
        ppure (ExceptOperator.exceptColum c))
    let is_distinct ← distinctFlag
    ptag ("Output [ ")
    let outs ← palt (do ptag ("1 AS One"); ppure [(usizeMax, ("1 AS One").toList)])
      (psep1 (indexed_column inputs) sepCommaMs)
    let env ← getEnv
    match except_validate_output inputs outs env.state.idx_to_table with
    | none => pcrash .mapPanic
    | some false => pfail
    | some true => do
      let output_table ← get_table_from_indexed_outputs outs
      insertTable output_table
      ptag (" ]")
      ppure (Operation.except inputs operator is_distinct)

/-! ## Union (src/parser/union.rs) -/

def union_validate_output (inputs : List Nat) (outs : List (Nat × List Char))
    (m : List (Nat × Table)) : Option Bool :=
  match resolveTables m inputs with
  | none => none
  | some ts =>
    let prev_columns := (ts.map (fun t => t.columns.map Column.name)).flatten
    let columns := outs.map Prod.snd
    let is_dummy := columns == [("1 AS One").toList]
    let is_subset_of_prev := columns.all (fun c => prev_columns.contains c)
    some (!has_duplicates outs && (is_subset_of_prev || is_dummy))

def union : Parser Operation := do
  ptag ("Union ")
  let inputs ← input_ids
  if inputs.length ≠ 2 then pfail
  else do
    ptag ("Output [ ")
    let outs ← psep1 (indexed_column inputs) sepCommaMs
    let env ← getEnv
    match union_validate_output inputs outs env.state.idx_to_table with
    | none => pcrash .mapPanic
    | some false => pfail
    | some true => do
      let output_table ← get_table_from_indexed_outputs outs
      insertTable output_table
      ptag (" ]")
      ppure (Operation.union inputs)

/-! ## Line and program parser (src/parser.rs) -/

def opAlt (twc : Bool) : Parser Operation :=
  palt (scan twc) (palt aggregate (palt (filter twc) (palt top (palt sort (palt top_sort
    (palt (join twc) (palt (intersect twc) (palt (except twc) union))))))))

def bumpIdx : Parser Unit :=
  modifyEnv (fun e =>
    { e with state := { e.state with current_idx := e.state.current_idx + 1 } })

def addSeen (k : Nat) : Parser Unit :=
  modifyEnv (fun e =>
    { e with state := { e.state with seen := seenInsert k e.state.seen } })

def qpl_line (twc : Bool) : Parser Line := do
  let env ← getEnv
  let current_idx := env.state.current_idx + 1
  tagWith (· == ·) ((("#").toList) ++ natToChars current_idx ++ (" = ").toList)
  bumpIdx
  let operation ← opAlt twc
  addSeen current_idx
  ppure { idx := current_idx, operation := operation }

def qpl (twc : Bool) : Parser Qpl := do
  let lines ← psep1 (qpl_line twc) (ptag (" ; "))
  peof
  ppure lines

/-! ## Prefixed program parser (src/parser/api.rs) -/

def special_token : Parser Unit := do
  ptag ("<")
  let _ ← palt (opLit ("pad")) (palt (opLit ("s")) (opLit ("/s")))
  ptag (">")

/-- Registered schemas sorted by `db_id` length, longest first
(`sort_unstable_by_key(chars().count())` then `reverse`). -/
def schemaSort (schemas : List (List Char × SqlSchema)) : List (List Char × SqlSchema) :=
  (insertionSortBy (fun a b => decide (a.1.length ≤ b.1.length)) schemas).reverse

def schemaGo : List (List Char × SqlSchema) → Parser SqlSchema
  | [] => pfail
  | dbs :: rest => fun s =>
    match popt (pcaselessL dbs.1) s with
    | .ok (some _) s' => .ok dbs.2 s'
    | .ok none s' => schemaGo rest s'
    | .err e s' => .err e s'
    | .crash k => .crash k

def schemaP (schemas : List (List Char × SqlSchema)) : Parser SqlSchema := fun s =>
  schemaGo (schemaSort schemas) s

def prefixed_qpl (schemas : List (List Char × SqlSchema)) (twc : Bool) : Parser Qpl := do
  let _ ← multispace0
  prepeat0 special_token
  let _ ← multispace0
  let schema ← schemaP schemas
  modifyEnv (fun e => { e with schema := some schema })
  let _ ← multispace0
  ptag ("|")
  let _ ← multispace0
  qpl twc

/-! ## Entry points (src/main.rs) -/

def freshEnv : QplEnvironment := ⟨QplState.default, none⟩

inductive FeedResult where
  | complete
  | partialRes
  | failure
  deriving DecidableEq, Repr

/-- The parse performed by `feed` after detokenization: a partial stream,
marked complete only when the decoded text carried the end-of-sequence
marker. -/
def feedRun (schemas : List (List Char × SqlSchema)) (twc : Bool)
    (text : List Char) (isComplete : Bool) : PResult Qpl :=
  prefixed_qpl schemas twc ⟨text, !isComplete, freshEnv⟩

/-- The classifier of `feed` (src/main.rs lines 158-162); `none` models the
executions that panic and therefore return nothing. -/
def feedClassify (schemas : List (List Char × SqlSchema)) (twc : Bool)
    (text : List Char) (isComplete : Bool) : Option FeedResult :=
  match feedRun schemas twc text isComplete with
  | .ok _ _ => some .complete
  | .err .incomplete _ => some .partialRes
  | .err _ _ => some .failure
  | .crash _ => none

inductive ValidationResult where
  | valid
  | invalid (reason : List Char)
  deriving DecidableEq, Repr

/-- The parse performed by `validate_qpl`: the stream is completed before
parsing. -/
def validateRun (schemas : List (List Char × SqlSchema)) (twc : Bool)
    (q : List Char) : PResult Qpl :=
  prefixed_qpl schemas twc ⟨q, false, freshEnv⟩

/-- The `validate_qpl` endpoint body (src/main.rs lines 66-89); `none` models
a panicking execution. -/
def validate_qpl (schemas : List (List Char × SqlSchema)) (twc : Bool)
    (q : List Char) : Option ValidationResult :=
  match validateRun schemas twc q with
  | .ok _ _ => some .valid
  | .err _ _ => some (.invalid (("Failed to parse").toList))
  | .crash _ => none

/-! ## The concert_singer test schema (src/schemas.rs) -/

def concert_singer : SqlSchema where
  db_id := ("concert_singer").toList
  table_names :=
    [("stadium").toList, ("singer").toList, ("concert").toList,
     ("singer_in_concert").toList]
  column_names :=
    [("Stadium_ID").toList, ("Location").toList, ("Name").toList, ("Capacity").toList,
     ("Highest").toList, ("Lowest").toList, ("Average").toList, ("Singer_ID").toList,
     ("Name").toList, ("Country").toList, ("Song_Name").toList,
     ("Song_release_year").toList, ("Age").toList, ("Is_male").toList,
     ("concert_ID").toList, ("concert_Name").toList, ("Theme").toList,
     ("Stadium_ID").toList, ("Year").toList, ("concert_ID").toList,
     ("Singer_ID").toList]
  column_types :=
    [.number, .text, .text, .number, .number, .number, .number, .number, .text, .text,
     .text, .text, .number, .others, .number, .text, .text, .number, .number, .number,
     .number]
  column_to_table := [0, 0, 0, 0, 0, 0, 0, 1, 1, 1, 1, 1, 1, 1, 2, 2, 2, 2, 2, 3, 3]
  table_to_columns :=
    [(("stadium").toList, [0, 1, 2, 3, 4, 5, 6]),
     (("singer").toList, [7, 8, 9, 10, 11, 12, 13]),
     (("concert").toList, [14, 15, 16, 17, 18]),
     (("singer_in_concert").toList, [19, 20])]
  foreign_keys := [(17, 0), (20, 7), (19, 14)]
  primary_keys := [0, 7, 14, 19]

/-! ## Definitions supporting the verification -/

/-- A fresh environment with the concert_singer schema selected, as the tests
in src/ build via `get_input`. -/
def testEnv : QplEnvironment := ⟨QplState.default, some concert_singer⟩

/-- Extending the not-yet-known part of a partial stream by `x`, with the
resulting completion state `f`. -/
def extendS (x : List Char) (f : Bool) (s : Stream) : Stream :=
  { s with input := s.input ++ x, more := f }

def StreamLe (s' s : Stream) : Prop :=
  s'.more = s.more ∧ s'.input.length ≤ s.input.length

/-- Parsers preserve the completion flag and never lengthen the input. -/
def Tidy (p : Parser α) : Prop :=
  (∀ s a s', p s = .ok a s' → StreamLe s' s) ∧
  (∀ s e s', p s = .err e s' → StreamLe s' s)

/-- Simulation of a run on a partial prefix by the run on any extension:
success and definite failure are already sealed (definite failure keeps the
environment, which alternation hands to the next branch), only `Incomplete`
leaves the outcome open. -/
def Sim (p : Parser α) : Prop :=
  (∀ s x f a s', s.more = true → p s = .ok a s' →
    p (extendS x f s) = .ok a (extendS x f s')) ∧
  (∀ s x f s', s.more = true → p s = .err .backtrack s' →
    ∃ s'', p (extendS x f s) = .err .backtrack s'' ∧ s''.env = s'.env) ∧
  (∀ s x f s', s.more = true → p s = .err .cut s' →
    ∃ s'', p (extendS x f s) = .err .cut s'' ∧ s''.env = s'.env) ∧
  (∀ s x f k, s.more = true → p s = .crash k → p (extendS x f s) = .crash k)

/-- On a completed stream no parser reports `Incomplete`. -/
def NoInc (p : Parser α) : Prop := ∀ s, s.more = false → ∀ s', p s ≠ .err .incomplete s'

/-- The well-behavedness bundle carried through the whole grammar. -/
structure WB (p : Parser α) : Prop where
  tidy : Tidy p
  sim : Sim p
  noInc : NoInc p

/-- Success strictly consumes input. -/
def Consuming (p : Parser α) : Prop :=
  ∀ s a s', p s = .ok a s' → s'.input.length < s.input.length

/-- The parser leaves the environment untouched. -/
def EnvPres (p : Parser α) : Prop := ∀ s,
  match p s with
  | .ok _ s' => s'.env = s.env
  | .err _ s' => s'.env = s.env
  | .crash _ => True

/-- The parser leaves `current_idx` and `seen` untouched (it may insert
derived tables). -/
def PresIS (p : Parser α) : Prop := ∀ s,
  match p s with
  | .ok _ s' =>
    s'.env.state.current_idx = s.env.state.current_idx ∧
    s'.env.state.seen = s.env.state.seen
  | .err _ s' =>
    s'.env.state.current_idx = s.env.state.current_idx ∧
    s'.env.state.seen = s.env.state.seen
  | .crash _ => True

/-- Invariant: every seen line index has a derived table. -/
def SeenDom (e : QplEnvironment) : Prop :=
  ∀ j ∈ e.state.seen, (tableLookup e.state.idx_to_table j).isSome = true

/-- The environment only grows: seen indices stay seen, derived tables stay
present. -/
def EnvGrow (e e' : QplEnvironment) : Prop :=
  (∀ j ∈ e.state.seen, j ∈ e'.state.seen) ∧
  (∀ j, (tableLookup e.state.idx_to_table j).isSome = true →
    (tableLookup e'.state.idx_to_table j).isSome = true)

/-- Map-lookup safety relative to a set of indices known to have derived
tables: the parser never panics on a `HashMap` index, preserves `SeenDom` and
only grows the environment. -/
def MapSafeOn (ids : List Nat) (p : Parser α) : Prop := ∀ s,
  SeenDom s.env →
  (∀ i ∈ ids, (tableLookup s.env.state.idx_to_table i).isSome = true) →
  match p s with
  | .ok _ s' => SeenDom s'.env ∧ EnvGrow s.env s'.env
  | .err _ s' => SeenDom s'.env ∧ EnvGrow s.env s'.env
  | .crash k => k ≠ .mapPanic

/-- Map-lookup safety with no index assumptions. -/
def MapSafe (p : Parser α) : Prop := MapSafeOn [] p

def isMapCrash : PResult α → Bool
  | .crash .mapPanic => true
  | _ => false

/-- Does the literal match case-insensitively at the head of the input? -/
def caselessHit (lit input : List Char) : Bool :=
  match tagCmp eqCaseless lit input with
  | .hit _ => true
  | _ => false

/-- The input line indices recorded in an operation. -/
def opInputs : Operation → List Nat
  | .aggregate input _ => [input]
  | .except inputs _ _ => inputs
  | .filter input _ _ => [input]
  | .intersect inputs _ _ => inputs
  | .join inputs _ _ => inputs
  | .scan _ _ _ => []
  | .top input _ => [input]
  | .sort input _ _ => [input]
  | .topSort input _ _ _ => [input]
  | .union inputs => inputs

/-- Line-index discipline from a line counter `c`: indices continue
`c+1, c+2, …` and inputs refer to indices at most `c` below each line. -/
def linesOk : Nat → List Line → Prop
  | _, [] => True
  | c, l :: rest =>
    l.idx = c + 1 ∧ (∀ k ∈ opInputs l.operation, k ≤ c) ∧ linesOk (c + 1) rest

/-- The `seen` set is exactly the interval `[1, c]`. -/
def SeenInv (c : Nat) (e : QplEnvironment) : Prop :=
  e.state.current_idx = c ∧ ∀ j, j ∈ e.state.seen ↔ (1 ≤ j ∧ j ≤ c)

/-- Foreign-key source columns of a schema (first components). -/
def fkSources (schema : SqlSchema) : List Nat := schema.foreign_keys.map Prod.fst

/-- Foreign-key target columns of a schema (second components). -/
def fkTargets (schema : SqlSchema) : List Nat := schema.foreign_keys.map Prod.snd

/-- The tables containing the foreign-key target columns. -/
def fkTargetTables (schema : SqlSchema) : List (List Char) :=
  (fkTargets schema).map (fun p =>
    schema.table_names.getD (schema.column_to_table.getD p 0) [])

def c4Input : List Char := ("#1 = Scan Table [ stadium ] Output [ Location x").toList

def isOkRes : PResult α → Bool
  | .ok _ _ => true
  | _ => false

/-- Pointwise form of `Sim`, as a relation between the result on the prefix
stream and the result on the extended stream; convenient for loop
inductions. -/
def simOut (x : List Char) (f : Bool) : PResult α → PResult α → Prop
  | .ok a s', r => r = .ok a (extendS x f s')
  | .err .backtrack s', r => ∃ s'', r = .err .backtrack s'' ∧ s''.env = s'.env
  | .err .cut s', r => ∃ s'', r = .err .cut s'' ∧ s''.env = s'.env
  | .err .incomplete _, _ => True
  | .crash k, r => r = .crash k

/-! ## Claim theorems and supporting lemmas -/

/-- C1: for every input string and completion flag, the token-feed classifier
returns `Complete` exactly when the prefixed-QPL parse succeeds, `Partial`
exactly when it fails with the distinguished `Incomplete` error, and `Failure`
exactly on any other parse error; nothing else is returned (a panicking parse
returns no classification at all, modelled as `none`). -/
theorem claim1_feed_classifier (schemas : List (List Char × SqlSchema)) (twc : Bool)
    (text : List Char) (isComplete : Bool) :
    (feedClassify schemas twc text isComplete = some .complete ↔
      ∃ q s', feedRun schemas twc text isComplete = .ok q s') ∧
    (feedClassify schemas twc text isComplete = some .partialRes ↔
      ∃ s', feedRun schemas twc text isComplete = .err .incomplete s') ∧
    (feedClassify schemas twc text isComplete = some .failure ↔
      ∃ e s', feedRun schemas twc text isComplete = .err e s' ∧ e ≠ .incomplete) := by
  unfold feedClassify
  cases h : feedRun schemas twc text isComplete with
  | ok q s' =>
    refine ⟨⟨fun _ => ⟨q, s', rfl⟩, fun _ => rfl⟩, ?_, ?_⟩ <;> simp
  | err e s' =>
    cases e with
    | incomplete =>
      refine ⟨?_, ⟨fun _ => ⟨s', rfl⟩, fun _ => rfl⟩, ?_⟩ <;> simp
    | backtrack =>
      refine ⟨?_, ?_, ⟨fun _ => ⟨.backtrack, s', rfl, by simp⟩, fun _ => rfl⟩⟩ <;> simp
    | cut =>
      refine ⟨?_, ?_, ⟨fun _ => ⟨.cut, s', rfl, by simp⟩, fun _ => rfl⟩⟩ <;> simp
  | crash k =>
    refine ⟨?_, ?_, ?_⟩ <;> simp

/-- C3: the code is wrong where the claim (and spec) demand a `Mismatch`
failure: in a type-checked Join predicate with `=`, a non-aliased LHS whose
keys match no candidate, and a non-`Aliased` RHS column, the parser reaches
the `todo!()` panic in `comparable_key` instead of failing. Evaluating the
embedding at the failing program reaches the panic, and the feed classifier
consequently returns nothing. -/
theorem claim3_join_todo_crash :
    qpl true ⟨("#1 = Scan Table [ singer ] Output [ Name ] ; #2 = Scan Table [ singer ] Output [ Name ] ; #3 = Join [ #1 , #2 ] Predicate [ #1.Name = #2.Name ] Output [ #1.Name ]").toList,
      false, testEnv⟩ = .crash .todoPanic ∧
    feedClassify [((("concert_singer").toList), concert_singer)] true
      ("concert_singer | #1 = Scan Table [ singer ] Output [ Name ] ; #2 = Scan Table [ singer ] Output [ Name ] ; #3 = Join [ #1 , #2 ] Predicate [ #1.Name = #2.Name ] Output [ #1.Name ]").toList
      true = none :=
  ⟨by decide!, by decide!⟩

/-- C4 counterexample: after the Scan alternative fails (it consumed its
keyword, parsed its outputs and inserted its derived table before the final
`" ]"` literal mismatched), the line parser's alternation backtracks and the
whole line fails — yet the environment still contains the inserted derived
table and the incremented `current_idx`, so it is not restored to its value at
entry to the alternation (the entry state had an empty `idx_to_table`). -/
theorem claim4_counterexample :
    qpl_line true ⟨c4Input, false, testEnv⟩ =
      .err .backtrack ⟨("Scan Table [ stadium ] Output [ Location x").toList, false,
        ⟨⟨1, [],
          [(1, Table.named (("stadium").toList)
            [Column.plain (("Location").toList) .text []])]⟩,
         some concert_singer⟩⟩ ∧
    ([(1, Table.named (("stadium").toList)
        [Column.plain (("Location").toList) .text []])] ≠
      ([] : List (Nat × Table))) :=
  ⟨by decide!, by decide!⟩

/-- C6 counterexample: column 17 (`concert.Stadium_ID`) appears as the source
side of the foreign key `(17, 0)`, so the claim's "PrimaryKey iff in
`primary_keys` or a foreign-key source" demands `PrimaryKey{concert}` among
its keys — but `column_key` classifies by the target side and yields only the
`ForeignKey` tags. -/
theorem claim6_counterexample :
    findColIdx concert_singer 2 (("Stadium_ID").toList) = some 17 ∧
    (fkSources concert_singer).contains 17 = true ∧
    concert_singer.primary_keys.contains 17 = false ∧
    column_key concert_singer (("concert").toList) (("Stadium_ID").toList) =
      some [KeyType.foreignKey (("concert").toList),
            KeyType.foreignKey (("singer").toList),
            KeyType.foreignKey (("stadium").toList)] ∧
    ([KeyType.foreignKey (("concert").toList),
      KeyType.foreignKey (("singer").toList),
      KeyType.foreignKey (("stadium").toList)].contains
        (KeyType.primaryKey (("concert").toList))) = false :=
  ⟨by decide!, by decide!, by decide!, by decide!, by decide!⟩

/-- C7 counterexample: in an Except predicate with type checking enabled and a
Number-typed LHS column, the RHS comparable parser rejects the number literal
`2014` (Except's `type_comparable` admits only `NULL` or a column of matching
type), so `#1.Year >= 2014` fails to parse where the claim says it succeeds;
a whole Except line carrying that predicate fails as well. -/
theorem claim7_counterexample :
    except_comparison true [1] ⟨("#1.Year >= 2014").toList, false,
      ⟨⟨1, [1], [(1, Table.indexed 1 [Column.plain (("Year").toList) .number []])]⟩,
        some concert_singer⟩⟩ =
      .err .backtrack ⟨("2014").toList, false,
        ⟨⟨1, [1], [(1, Table.indexed 1 [Column.plain (("Year").toList) .number []])]⟩,
          some concert_singer⟩⟩ ∧
    isOkRes (qpl true ⟨("#1 = Scan Table [ concert ] Output [ Year ] ; #2 = Scan Table [ concert ] Output [ Year ] ; #3 = Except [ #1 , #2 ] Predicate [ #1.Year >= 2014 ] Output [ #1.Year ]").toList,
      false, testEnv⟩) = false :=
  ⟨by decide!, by decide!⟩

/-- C7 amended: with type checking enabled, Except's typed RHS accepts only
`NULL` or a column of the LHS type; any RHS whose first character is a digit
(in particular every number literal) is rejected with a backtrack that leaves
the stream untouched. -/
theorem claim7_amended (input_idxs : List Nat) (t : ColumnType) (s : Stream)
    (c : Char) (cs : List Char) (hin : s.input = c :: cs) (hd : c.isDigit = true) :
    except_type_comparable input_idxs t s = .err .backtrack s := by
  have hN : (('N') == c) = false := by
    cases hNc : ('N') == c with
    | false => rfl
    | true =>
      exfalso
      have hE := eq_of_beq hNc
      rw [← hE] at hd
      exact absurd hd (by decide)
  have hH : (('#') == c) = false := by
    cases hHc : ('#') == c with
    | false => rfl
    | true =>
      exfalso
      have hE := eq_of_beq hHc
      rw [← hE] at hd
      exact absurd hd (by decide)
  have hnul : nullP s = .err .backtrack s := by
    show pbind (ptag ("NULL")) _ s = _
    have : ptag ("NULL") s = .err .backtrack s := by
      show tagWith _ _ s = _
      unfold tagWith
      rw [show (("NULL").toList) = ('N' :: ("ULL").toList) from rfl, hin]
      simp [tagCmp, hN]
    simp [pbind, this]
  have hcol : except_column_in_index_of_type t input_idxs s = .err .backtrack s := by
    show pbind (indexed_column input_idxs) _ s = _
    have hidx : indexed_column input_idxs s = .err .backtrack s := by
      show pbind (ptag ("#")) _ s = _
      have : ptag ("#") s = .err .backtrack s := by
        show tagWith _ _ s = _
        unfold tagWith
        rw [show (("#").toList) = ['#'] from rfl, hin]
        simp [tagCmp, hH]
      simp [pbind, this]
    simp [pbind, hidx]
  show palt nullP (except_column_in_index_of_type t input_idxs) s = _
  unfold palt
  rw [hnul]
  show except_column_in_index_of_type t input_idxs { s with env := s.env } = _
  rw [show { s with env := s.env } = s from rfl]
  exact hcol

/-- C7 witness: the amended theorem at the concrete rejected literal `2014`. -/
theorem claim7_witness :
    except_type_comparable [1] ColumnType.number ⟨("2014").toList, false, testEnv⟩ =
      .err .backtrack ⟨("2014").toList, false, testEnv⟩ :=
  claim7_amended [1] ColumnType.number ⟨("2014").toList, false, testEnv⟩ '2'
    (("014").toList) rfl (by decide)

/-- Membership through stable sorted insertion. -/
theorem mem_insertSorted (le : α → α → Bool) (a b : α) (l : List α) :
    b ∈ insertSorted le a l ↔ b = a ∨ b ∈ l := by
  induction l with
  | nil => simp [insertSorted]
  | cons x xs ih =>
    unfold insertSorted
    split
    · simp
    · simp only [List.mem_cons, ih]
      tauto

/-- Membership through insertion sort. -/
theorem mem_insertionSortBy (le : α → α → Bool) (a : α) (l : List α) :
    a ∈ insertionSortBy le l ↔ a ∈ l := by
  induction l with
  | nil => simp [insertionSortBy]
  | cons x xs ih =>
    unfold insertionSortBy
    rw [mem_insertSorted]
    simp [ih]

/-- Membership through consecutive deduplication. -/
theorem mem_dedupConsec [BEq α] [LawfulBEq α] (a : α) (l : List α) :
    a ∈ dedupConsec l ↔ a ∈ l := by
  induction l with
  | nil => simp [dedupConsec]
  | cons x xs ih =>
    cases xs with
    | nil => simp [dedupConsec]
    | cons y ys =>
      unfold dedupConsec
      split
      · rename_i hxy
        have : x = y := eq_of_beq hxy
        rw [ih]
        subst this
        simp
      · simp only [List.mem_cons] at ih ⊢
        rw [ih]

/-- C6 amended: in a Scan's key classification, a column gets `PrimaryKey{t}`
if and only if its schema index is in `schema.primary_keys` or appears as the
target (referenced) side of some foreign key; and it gets `ForeignKey{T'}`
exactly when its index appears as the source side of a foreign key and `T'` is
the table of one of the schema's foreign-key target columns (the tag list
being deduplicated and sorted). -/
theorem claim6_amended (schema : SqlSchema) (table column : List Char) (t i : Nat)
    (keys : List KeyType)
    (ht : List.findIdx? (fun tn => tn == table) schema.table_names = some t)
    (hi : findColIdx schema t column = some i)
    (hk : column_key schema table column = some keys) :
    (KeyType.primaryKey table ∈ keys ↔
      (i ∈ schema.primary_keys ∨ i ∈ fkTargets schema)) ∧
    (∀ T, KeyType.foreignKey T ∈ keys ↔
      (i ∈ fkSources schema ∧ T ∈ fkTargetTables schema)) := by
  unfold column_key at hk
  rw [ht] at hk
  simp only [hi, Option.some.injEq] at hk
  subst hk
  have hsrc : (schema.foreign_keys.map Prod.fst) = fkSources schema := rfl
  have htgt : (schema.foreign_keys.map Prod.snd) = fkTargets schema := rfl
  constructor
  · constructor
    · intro hmem
      rw [List.mem_append] at hmem
      rcases hmem with hpk | hfk
      · by_cases hcond : (schema.primary_keys.contains i ||
            (schema.foreign_keys.map Prod.snd).contains i) = true
        · rcases Bool.or_eq_true_iff.mp hcond with h1 | h1
          · exact Or.inl (List.elem_iff.mp h1)
          · exact Or.inr (by rw [← htgt]; exact List.elem_iff.mp h1)
        · rw [Bool.or_eq_true_iff] at hcond
          push_neg at hcond
          simp only [Bool.not_eq_true] at hcond
          rw [hcond.1, hcond.2] at hpk
          simp at hpk
      · exfalso
        by_cases hcond : (schema.foreign_keys.map Prod.fst).contains i = true
        · rw [if_pos hcond] at hfk
          rw [mem_dedupConsec, mem_insertionSortBy] at hfk
          rcases List.mem_map.mp hfk with ⟨p, _, hp⟩
          exact KeyType.noConfusion hp
        · rw [if_neg hcond] at hfk
          simp at hfk
    · intro hmem
      have hcond : (schema.primary_keys.contains i ||
          (schema.foreign_keys.map Prod.snd).contains i) = true := by
        rcases hmem with h1 | h1
        · exact Bool.or_eq_true_iff.mpr (Or.inl (List.elem_iff.mpr h1))
        · refine Bool.or_eq_true_iff.mpr (Or.inr (List.elem_iff.mpr ?_))
          rw [htgt]; exact h1
      rw [List.mem_append]
      left
      rw [if_pos hcond]
      simp
  · intro T
    constructor
    · intro hmem
      rw [List.mem_append] at hmem
      rcases hmem with hpk | hfk
      · exfalso
        by_cases hcond : (schema.primary_keys.contains i ||
            (schema.foreign_keys.map Prod.snd).contains i) = true
        · rw [if_pos hcond] at hpk
          simp only [List.mem_singleton] at hpk
          exact KeyType.noConfusion hpk
        · rw [if_neg hcond] at hpk
          simp at hpk
      · by_cases hcond : (schema.foreign_keys.map Prod.fst).contains i = true
        · rw [if_pos hcond] at hfk
          rw [mem_dedupConsec, mem_insertionSortBy] at hfk
          rcases List.mem_map.mp hfk with ⟨p, hp1, hp2⟩
          refine ⟨by rw [← hsrc]; exact List.elem_iff.mp hcond, ?_⟩
          unfold fkTargetTables
          refine List.mem_map.mpr ⟨p, ?_, ?_⟩
          · exact hp1
          · exact congrArg (fun k => match k with
              | KeyType.foreignKey tb => tb
              | KeyType.primaryKey tb => tb) hp2
        · rw [if_neg hcond] at hfk
          simp at hfk
    · intro ⟨hsrcm, htblm⟩
      rw [List.mem_append]
      right
      have hcond : (schema.foreign_keys.map Prod.fst).contains i = true := by
        refine List.elem_iff.mpr ?_
        rw [hsrc]; exact hsrcm
      rw [if_pos hcond]
      rw [mem_dedupConsec, mem_insertionSortBy]
      unfold fkTargetTables at htblm
      rcases List.mem_map.mp htblm with ⟨p, hp1, hp2⟩
      exact List.mem_map.mpr ⟨p, hp1, by rw [hp2]⟩

/-- C6 witness: the amended characterization at `concert.Stadium_ID`
(index 17): no `PrimaryKey` tag (17 is neither a primary key nor a foreign-key
target), and a `ForeignKey{stadium}` tag (17 is a foreign-key source and
`stadium` holds a target column). -/
theorem claim6_witness :
    (KeyType.primaryKey (("concert").toList) ∈
        [KeyType.foreignKey (("concert").toList),
         KeyType.foreignKey (("singer").toList),
         KeyType.foreignKey (("stadium").toList)] ↔
      (17 ∈ concert_singer.primary_keys ∨ 17 ∈ fkTargets concert_singer)) ∧
    (KeyType.foreignKey (("stadium").toList) ∈
        [KeyType.foreignKey (("concert").toList),
         KeyType.foreignKey (("singer").toList),
         KeyType.foreignKey (("stadium").toList)] ↔
      (17 ∈ fkSources concert_singer ∧
        (("stadium").toList) ∈ fkTargetTables concert_singer)) :=
  have h := claim6_amended concert_singer (("concert").toList) (("Stadium_ID").toList)
    2 17
    [KeyType.foreignKey (("concert").toList),
     KeyType.foreignKey (("singer").toList),
     KeyType.foreignKey (("stadium").toList)]
    (by decide!) (by decide!) (by decide!)
  ⟨h.1, h.2 (("stadium").toList)⟩

/-- Stable insertion keeps the descending-length pairwise order. -/
theorem pairwise_insertSorted_len (a : List Char) (l : List (List Char))
    (h : l.Pairwise (fun x y => y.length ≤ x.length)) :
    (insertSorted cmp_length_desc a l).Pairwise (fun x y => y.length ≤ x.length) := by
  induction l with
  | nil => simp [insertSorted]
  | cons x xs ih =>
    rw [List.pairwise_cons] at h
    unfold insertSorted
    split
    · rename_i hle
      have hxa : x.length ≤ a.length := by
        have := hle
        unfold cmp_length_desc at this
        exact of_decide_eq_true this
      refine List.Pairwise.cons ?_ (List.Pairwise.cons h.1 h.2)
      intro b hb
      rcases List.mem_cons.mp hb with rfl | hb
      · exact hxa
      · exact le_trans (h.1 b hb) hxa
    · rename_i hgt
      have hax : a.length ≤ x.length := by
        unfold cmp_length_desc at hgt
        have := of_decide_eq_false (Bool.not_eq_true _ ▸ hgt)
        omega
      refine List.Pairwise.cons ?_ (ih h.2)
      intro b hb
      rw [mem_insertSorted] at hb
      rcases hb with rfl | hb
      · exact hax
      · exact h.1 b hb

/-- The length-descending sort is pairwise sorted. -/
theorem pairwise_insertionSortBy_len (l : List (List Char)) :
    (insertionSortBy cmp_length_desc l).Pairwise (fun x y => y.length ≤ x.length) := by
  induction l with
  | nil => simp [insertionSortBy]
  | cons x xs ih => exact pairwise_insertSorted_len x _ ih

/-- What an `opt`-wrapped caseless literal can report: a hit, or a clean miss
that leaves the stream exactly as it was. -/
theorem popt_caseless_spec (lit : List Char) (s : Stream) (o : Option Unit) (s1 : Stream)
    (hp : popt (pcaselessL lit) s = .ok o s1) :
    (o.isSome = true ∧ caselessHit lit s.input = true) ∨
    (o = none ∧ s1 = s ∧ caselessHit lit s.input = false) := by
  unfold popt pcaselessL tagWith at hp
  unfold caselessHit
  cases htc : tagCmp eqCaseless lit s.input with
  | hit rest =>
    rw [htc] at hp
    simp at hp
    left
    refine ⟨?_, rfl⟩
    rw [← hp.1]
    rfl
  | short =>
    rw [htc] at hp
    by_cases hm : s.more = true
    · rw [if_pos hm] at hp
      simp at hp
    · rw [if_neg hm] at hp
      simp at hp
      right
      exact ⟨hp.1.symm, hp.2.symm, rfl⟩
  | miss =>
    rw [htc] at hp
    simp at hp
    right
    exact ⟨hp.1.symm, hp.2.symm, rfl⟩

/-- A successful `choice` returns a hit element, and every element tried
before it missed. -/
theorem choice_ok (l : List (List Char)) (s : Stream) (t : List Char) (s' : Stream)
    (h : choice l s = .ok t s') :
    ∃ pre post, l = pre ++ t :: post ∧ caselessHit t s.input = true ∧
      ∀ u ∈ pre, caselessHit u s.input = false := by
  induction l generalizing s with
  | nil => exact absurd h (by simp [choice, pfail])
  | cons c cs ih =>
    unfold choice at h
    cases hp : popt (pcaselessL c) s with
    | ok o s1 =>
      rw [hp] at h
      rcases popt_caseless_spec c s o s1 hp with ⟨hsome, hhit⟩ | ⟨hnone, hs1, hmiss⟩
      · obtain ⟨u, rfl⟩ := Option.isSome_iff_exists.mp hsome
        simp only [PResult.ok.injEq] at h
        refine ⟨[], cs, ?_, h.1 ▸ hhit, by simp⟩
        rw [h.1]
        rfl
      · subst hnone
        rw [hs1] at h
        obtain ⟨pre, post, h1, h2, h3⟩ := ih s h
        refine ⟨c :: pre, post, by rw [h1]; rfl, h2, ?_⟩
        intro u hu
        rcases List.mem_cons.mp hu with rfl | hu
        · exact hmiss
        · exact h3 u hu
    | err e s1 => rw [hp] at h; exact absurd h (by simp)
    | crash k => rw [hp] at h; exact absurd h (by simp)

/-- C8: table-name resolution is case-insensitive and longest-name-first: a
successful `table_name` returns a registered table name that matches the head
of the input case-insensitively, and no strictly longer registered name
matches there — so with both `singer` and `singer_in_concert` registered,
input beginning `singer_in_concert` never binds `singer`. -/
theorem claim8_table_name_longest (s : Stream) (t : List Char) (s' : Stream)
    (schema : SqlSchema) (h0 : s.env.schema = some schema)
    (h : table_name s = .ok t s') :
    t ∈ schema.table_names ∧ caselessHit t s.input = true ∧
    ∀ u ∈ schema.table_names, t.length < u.length → caselessHit u s.input = false := by
  have hg : getSchema s = .ok schema s := by unfold getSchema; rw [h0]
  replace h : choice (insertionSortBy cmp_length_desc schema.table_names) s = .ok t s' := by
    have hb : table_name s =
        choice (insertionSortBy cmp_length_desc schema.table_names) s := by
      unfold table_name
      show pbind getSchema _ s = _
      unfold pbind
      rw [hg]
    rw [← hb]
    exact h
  obtain ⟨pre, post, h1, h2, h3⟩ := choice_ok _ s t s' h
  have htmem : t ∈ insertionSortBy cmp_length_desc schema.table_names := by
    rw [h1]; exact List.mem_append_right _ (List.mem_cons_self _ _)
  refine ⟨(mem_insertionSortBy _ _ _).mp htmem, h2, ?_⟩
  intro u hu hlen
  have humem : u ∈ insertionSortBy cmp_length_desc schema.table_names :=
    (mem_insertionSortBy _ _ _).mpr hu
  rw [h1] at humem
  rcases List.mem_append.mp humem with hupre | hupost
  · exact h3 u hupre
  · exfalso
    have hpw := pairwise_insertionSortBy_len schema.table_names
    rw [h1] at hpw
    rcases List.mem_cons.mp hupost with rfl | hupost
    · omega
    · have := (List.pairwise_append.mp hpw).2.1
      rw [List.pairwise_cons] at this
      have := this.1 u hupost
      omega

/-- C8 witness: in the concert_singer schema the input beginning
`singer_in_concert` binds `singer_in_concert` even though `singer` also
matches case-insensitively. -/
theorem claim8_witness :
    table_name ⟨("singer_in_concert | x").toList, false, testEnv⟩ =
      .ok (("singer_in_concert").toList) ⟨(" | x").toList, false, testEnv⟩ ∧
    caselessHit (("singer").toList) (("singer_in_concert | x").toList) = true ∧
    (("singer_in_concert").toList) ∈ concert_singer.table_names :=
  ⟨by decide!, by decide!,
    (claim8_table_name_longest ⟨("singer_in_concert | x").toList, false, testEnv⟩
      (("singer_in_concert").toList) ⟨(" | x").toList, false, testEnv⟩
      concert_singer rfl (by decide!)).1⟩

/-! ## Well-behavedness: helpers -/

theorem streamLe_refl (s : Stream) : StreamLe s s := ⟨rfl, le_refl _⟩

theorem streamLe_trans {s1 s2 s3 : Stream} (h1 : StreamLe s1 s2) (h2 : StreamLe s2 s3) :
    StreamLe s1 s3 := ⟨h1.1.trans h2.1, h1.2.trans h2.2⟩

theorem tidy_ok {p : Parser α} (h : Tidy p) {s : Stream} {a : α} {s' : Stream}
    (he : p s = .ok a s') : StreamLe s' s := h.1 s a s' he

theorem tidy_err {p : Parser α} (h : Tidy p) {s : Stream} {e : PErr} {s' : Stream}
    (he : p s = .err e s') : StreamLe s' s := h.2 s e s' he

theorem sim_ok {p : Parser α} (h : Sim p) {s : Stream} {a : α} {s' : Stream}
    (hm : s.more = true) (he : p s = .ok a s') (x : List Char) (f : Bool) :
    p (extendS x f s) = .ok a (extendS x f s') := h.1 s x f a s' hm he

theorem sim_backtrack {p : Parser α} (h : Sim p) {s s' : Stream}
    (hm : s.more = true) (he : p s = .err .backtrack s') (x : List Char) (f : Bool) :
    ∃ s'', p (extendS x f s) = .err .backtrack s'' ∧ s''.env = s'.env :=
  h.2.1 s x f s' hm he

theorem sim_cut {p : Parser α} (h : Sim p) {s s' : Stream}
    (hm : s.more = true) (he : p s = .err .cut s') (x : List Char) (f : Bool) :
    ∃ s'', p (extendS x f s) = .err .cut s'' ∧ s''.env = s'.env :=
  h.2.2.1 s x f s' hm he

theorem sim_crash {p : Parser α} (h : Sim p) {s : Stream} {k : CrashKind}
    (hm : s.more = true) (he : p s = .crash k) (x : List Char) (f : Bool) :
    p (extendS x f s) = .crash k := h.2.2.2 s x f k hm he

theorem sim_err {p : Parser α} (h : Sim p) {s s' : Stream} {e : PErr}
    (hm : s.more = true) (he : p s = .err e s') (hne : e ≠ .incomplete)
    (x : List Char) (f : Bool) :
    ∃ s'', p (extendS x f s) = .err e s'' ∧ s''.env = s'.env := by
  cases e with
  | backtrack => exact sim_backtrack h hm he x f
  | cut => exact sim_cut h hm he x f
  | incomplete => exact absurd rfl hne

theorem extendS_env (x : List Char) (f : Bool) (s : Stream) :
    (extendS x f s).env = s.env := rfl

theorem extendS_more (x : List Char) (f : Bool) (s : Stream) :
    (extendS x f s).more = f := rfl

theorem extendS_input (x : List Char) (f : Bool) (s : Stream) :
    (extendS x f s).input = s.input ++ x := rfl

theorem extendS_set_env (x : List Char) (f : Bool) (s : Stream) (e : QplEnvironment) :
    { extendS x f s with env := e } = extendS x f { s with env := e } := rfl

/-! ## Well-behavedness: atoms -/

theorem wb_ppure (a : α) : WB (ppure a) := by
  refine ⟨⟨?_, ?_⟩, ⟨?_, ?_, ?_, ?_⟩, ?_⟩ <;> intro s <;>
    first
      | (intro a' s' h; cases h; exact streamLe_refl _)
      | (intro e s' h; exact PResult.noConfusion h)
      | (intro x f a' s' hm h; cases h; rfl)
      | (intro x f s' hm h; exact PResult.noConfusion h)
      | (intro x f k hm h; exact PResult.noConfusion h)
      | (intro hm s' h; exact PResult.noConfusion h)

theorem wb_pfail : WB (pfail : Parser α) := by
  refine ⟨⟨?_, ?_⟩, ⟨?_, ?_, ?_, ?_⟩, ?_⟩ <;> intro s
  · intro a s' h; exact PResult.noConfusion h
  · intro e s' h; cases h; exact streamLe_refl _
  · intro x f a s' hm h; exact PResult.noConfusion h
  · intro x f s' hm h; cases h; exact ⟨extendS x f s, rfl, rfl⟩
  · intro x f s' hm h; exact absurd h (by simp [pfail])
  · intro x f k hm h; exact PResult.noConfusion h
  · intro hm s' h; exact absurd h (by simp [pfail])

theorem wb_pcrash (k : CrashKind) : WB (pcrash k : Parser α) := by
  refine ⟨⟨?_, ?_⟩, ⟨?_, ?_, ?_, ?_⟩, ?_⟩ <;> intro s
  · intro a s' h; exact PResult.noConfusion h
  · intro e s' h; exact PResult.noConfusion h
  · intro x f a s' hm h; exact PResult.noConfusion h
  · intro x f s' hm h; exact PResult.noConfusion h
  · intro x f s' hm h; exact PResult.noConfusion h
  · intro x f k' hm h; cases h; rfl
  · intro hm s' h; exact PResult.noConfusion h

theorem wb_getEnv : WB getEnv := by
  refine ⟨⟨?_, ?_⟩, ⟨?_, ?_, ?_, ?_⟩, ?_⟩ <;> intro s
  · intro a s' h; cases h; exact streamLe_refl _
  · intro e s' h; exact PResult.noConfusion h
  · intro x f a s' hm h; cases h; rfl
  · intro x f s' hm h; exact PResult.noConfusion h
  · intro x f s' hm h; exact PResult.noConfusion h
  · intro x f k hm h; exact PResult.noConfusion h
  · intro hm s' h; exact PResult.noConfusion h

theorem wb_modifyEnv (g : QplEnvironment → QplEnvironment) : WB (modifyEnv g) := by
  refine ⟨⟨?_, ?_⟩, ⟨?_, ?_, ?_, ?_⟩, ?_⟩ <;> intro s
  · intro a s' h; cases h; exact streamLe_refl _
  · intro e s' h; exact PResult.noConfusion h
  · intro x f a s' hm h; cases h; rfl
  · intro x f s' hm h; exact PResult.noConfusion h
  · intro x f s' hm h; exact PResult.noConfusion h
  · intro x f k hm h; exact PResult.noConfusion h
  · intro hm s' h; exact PResult.noConfusion h

theorem wb_getSchema : WB getSchema := by
  refine ⟨⟨?_, ?_⟩, ⟨?_, ?_, ?_, ?_⟩, ?_⟩ <;> intro s
  · intro a s' h
    unfold getSchema at h
    cases hs : s.env.schema <;> rw [hs] at h
    · exact PResult.noConfusion h
    · cases h; exact streamLe_refl _
  · intro e s' h
    unfold getSchema at h
    cases hs : s.env.schema <;> rw [hs] at h <;> exact PResult.noConfusion h
  · intro x f a s' hm h
    unfold getSchema at h ⊢
    cases hs : s.env.schema <;> rw [hs] at h
    · exact PResult.noConfusion h
    · cases h
      rw [show (extendS x f s).env.schema = s.env.schema from rfl, hs]
  · intro x f s' hm h
    unfold getSchema at h
    cases hs : s.env.schema <;> rw [hs] at h <;> exact PResult.noConfusion h
  · intro x f s' hm h
    unfold getSchema at h
    cases hs : s.env.schema <;> rw [hs] at h <;> exact PResult.noConfusion h
  · intro x f k hm h
    unfold getSchema at h ⊢
    cases hs : s.env.schema <;> rw [hs] at h
    · cases h
      rw [show (extendS x f s).env.schema = s.env.schema from rfl, hs]
    · exact PResult.noConfusion h
  · intro hm s' h
    unfold getSchema at h
    cases hs : s.env.schema <;> rw [hs] at h <;> exact PResult.noConfusion h

/-! ## Well-behavedness: sequencing and alternation -/

theorem wb_pbind {p : Parser α} {f : α → Parser β} (hp : WB p) (hf : ∀ a, WB (f a)) :
    WB (pbind p f) := by
  have hmore_ok : ∀ {s : Stream} {a : α} {s1 : Stream}, p s = .ok a s1 → s1.more = s.more :=
    fun h => (tidy_ok hp.tidy h).1
  refine ⟨⟨?_, ?_⟩, ⟨?_, ?_, ?_, ?_⟩, ?_⟩ <;> intro s
  · intro b s' h
    unfold pbind at h
    cases hps : p s <;> rw [hps] at h
    case ok a s1 =>
      exact streamLe_trans (tidy_ok (hf a).tidy h) (tidy_ok hp.tidy hps)
    case err e s1 => exact PResult.noConfusion h
    case crash k => exact PResult.noConfusion h
  · intro e s' h
    unfold pbind at h
    cases hps : p s <;> rw [hps] at h
    case ok a s1 =>
      exact streamLe_trans (tidy_err (hf a).tidy h) (tidy_ok hp.tidy hps)
    case err e1 s1 => cases h; exact tidy_err hp.tidy hps
    case crash k => exact PResult.noConfusion h
  · intro x g b s' hm h
    unfold pbind at h ⊢
    cases hps : p s <;> rw [hps] at h
    case ok a s1 =>
      have hm1 : s1.more = true := by rw [hmore_ok hps, hm]
      rw [sim_ok hp.sim hm hps x g]
      exact sim_ok (hf a).sim hm1 h x g
    case err e s1 => exact PResult.noConfusion h
    case crash k => exact PResult.noConfusion h
  · intro x g s' hm h
    unfold pbind at h ⊢
    cases hps : p s <;> rw [hps] at h
    case ok a s1 =>
      have hm1 : s1.more = true := by rw [hmore_ok hps, hm]
      rw [sim_ok hp.sim hm hps x g]
      exact sim_backtrack (hf a).sim hm1 h x g
    case err e1 s1 =>
      cases h
      obtain ⟨s'', h1, h2⟩ := sim_backtrack hp.sim hm hps x g
      rw [h1]
      exact ⟨s'', rfl, h2⟩
    case crash k => exact PResult.noConfusion h
  · intro x g s' hm h
    unfold pbind at h ⊢
    cases hps : p s <;> rw [hps] at h
    case ok a s1 =>
      have hm1 : s1.more = true := by rw [hmore_ok hps, hm]
      rw [sim_ok hp.sim hm hps x g]
      exact sim_cut (hf a).sim hm1 h x g
    case err e1 s1 =>
      cases h
      obtain ⟨s'', h1, h2⟩ := sim_cut hp.sim hm hps x g
      rw [h1]
      exact ⟨s'', rfl, h2⟩
    case crash k => exact PResult.noConfusion h
  · intro x g k hm h
    unfold pbind at h ⊢
    cases hps : p s <;> rw [hps] at h
    case ok a s1 =>
      have hm1 : s1.more = true := by rw [hmore_ok hps, hm]
      rw [sim_ok hp.sim hm hps x g]
      exact sim_crash (hf a).sim hm1 h x g
    case err e1 s1 => exact PResult.noConfusion h
    case crash k1 => cases h; rw [sim_crash hp.sim hm hps x g]
  · intro hm s' h
    unfold pbind at h
    cases hps : p s <;> rw [hps] at h
    case ok a s1 =>
      have hm1 : s1.more = false := by rw [hmore_ok hps, hm]
      exact (hf a).noInc s1 hm1 s' h
    case err e1 s1 =>
      cases h
      exact hp.noInc s hm _ hps
    case crash k => exact PResult.noConfusion h

theorem wb_palt {p q : Parser α} (hp : WB p) (hq : WB q) : WB (palt p q) := by
  refine ⟨⟨?_, ?_⟩, ⟨?_, ?_, ?_, ?_⟩, ?_⟩ <;> intro s
  · intro a s' h
    unfold palt at h
    cases hps : p s <;> rw [hps] at h
    case ok a1 s1 => cases h; exact tidy_ok hp.tidy hps
    case err e s1 =>
      cases e with
      | backtrack =>
        have := tidy_ok hq.tidy h
        exact ⟨this.1, this.2⟩
      | cut => exact PResult.noConfusion h
      | incomplete => exact PResult.noConfusion h
    case crash k => exact PResult.noConfusion h
  · intro e s' h
    unfold palt at h
    cases hps : p s <;> rw [hps] at h
    case ok a1 s1 => exact PResult.noConfusion h
    case err e1 s1 =>
      cases e1 with
      | backtrack =>
        have := tidy_err hq.tidy h
        exact ⟨this.1, this.2⟩
      | cut => cases h; exact tidy_err hp.tidy hps
      | incomplete => cases h; exact tidy_err hp.tidy hps
    case crash k => exact PResult.noConfusion h
  · intro x g a s' hm h
    unfold palt at h ⊢
    cases hps : p s <;> rw [hps] at h
    case ok a1 s1 =>
      cases h
      rw [sim_ok hp.sim hm hps x g]
    case err e1 s1 =>
      cases e1 with
      | backtrack =>
        obtain ⟨s'', h1, h2⟩ := sim_backtrack hp.sim hm hps x g
        simp only [h1, h2]
        have hmr : (Stream.mk s.input s.more s1.env).more = true := hm
        have hq2 : q { s with env := s1.env } = .ok a s' := h
        show q (extendS x g { s with env := s1.env }) = .ok a (extendS x g s')
        exact sim_ok hq.sim hmr hq2 x g
      | cut => exact PResult.noConfusion h
      | incomplete => exact PResult.noConfusion h
    case crash k => exact PResult.noConfusion h
  · intro x g s' hm h
    unfold palt at h ⊢
    cases hps : p s <;> rw [hps] at h
    case ok a1 s1 => exact PResult.noConfusion h
    case err e1 s1 =>
      cases e1 with
      | backtrack =>
        obtain ⟨s'', h1, h2⟩ := sim_backtrack hp.sim hm hps x g
        simp only [h1, h2]
        have hmr : (Stream.mk s.input s.more s1.env).more = true := hm
        have hq2 : q { s with env := s1.env } = .err .backtrack s' := h
        show ∃ s3, q (extendS x g { s with env := s1.env }) = .err .backtrack s3 ∧
          s3.env = s'.env
        exact sim_backtrack hq.sim hmr hq2 x g
      | cut => cases h
      | incomplete => cases h
    case crash k => exact PResult.noConfusion h
  · intro x g s' hm h
    unfold palt at h ⊢
    cases hps : p s <;> rw [hps] at h
    case ok a1 s1 => exact PResult.noConfusion h
    case err e1 s1 =>
      cases e1 with
      | backtrack =>
        obtain ⟨s'', h1, h2⟩ := sim_backtrack hp.sim hm hps x g
        simp only [h1, h2]
        have hmr : (Stream.mk s.input s.more s1.env).more = true := hm
        have hq2 : q { s with env := s1.env } = .err .cut s' := h
        show ∃ s3, q (extendS x g { s with env := s1.env }) = .err .cut s3 ∧
          s3.env = s'.env
        exact sim_cut hq.sim hmr hq2 x g
      | cut =>
        cases h
        obtain ⟨s'', h1, h2⟩ := sim_cut hp.sim hm hps x g
        simp only [h1]
        exact ⟨s'', rfl, h2⟩
      | incomplete => cases h
    case crash k => exact PResult.noConfusion h
  · intro x g k hm h
    unfold palt at h ⊢
    cases hps : p s <;> rw [hps] at h
    case ok a1 s1 => exact PResult.noConfusion h
    case err e1 s1 =>
      cases e1 with
      | backtrack =>
        obtain ⟨s'', h1, h2⟩ := sim_backtrack hp.sim hm hps x g
        simp only [h1, h2]
        have hmr : (Stream.mk s.input s.more s1.env).more = true := hm
        have hq2 : q { s with env := s1.env } = .crash k := h
        show q (extendS x g { s with env := s1.env }) = .crash k
        exact sim_crash hq.sim hmr hq2 x g
      | cut => exact PResult.noConfusion h
      | incomplete => exact PResult.noConfusion h
    case crash k1 => cases h; rw [sim_crash hp.sim hm hps x g]
  · intro hm s' h
    unfold palt at h
    cases hps : p s <;> rw [hps] at h
    case ok a1 s1 => exact PResult.noConfusion h
    case err e1 s1 =>
      cases e1 with
      | backtrack => exact hq.noInc { s with env := s1.env } hm s' h
      | cut => cases h
      | incomplete => exact hp.noInc s hm s1 hps
    case crash k => exact PResult.noConfusion h

theorem wb_popt {p : Parser α} (hp : WB p) : WB (popt p) := by
  refine ⟨⟨?_, ?_⟩, ⟨?_, ?_, ?_, ?_⟩, ?_⟩ <;> intro s
  · intro a s' h
    unfold popt at h
    cases hps : p s <;> rw [hps] at h
    case ok a1 s1 => cases h; exact tidy_ok hp.tidy hps
    case err e1 s1 =>
      cases e1 with
      | backtrack => cases h; exact streamLe_refl _
      | cut => exact PResult.noConfusion h
      | incomplete => exact PResult.noConfusion h
    case crash k => exact PResult.noConfusion h
  · intro e s' h
    unfold popt at h
    cases hps : p s <;> rw [hps] at h
    case ok a1 s1 => exact PResult.noConfusion h
    case err e1 s1 =>
      cases e1 with
      | backtrack => exact PResult.noConfusion h
      | cut => cases h; exact tidy_err hp.tidy hps
      | incomplete => cases h; exact tidy_err hp.tidy hps
    case crash k => exact PResult.noConfusion h
  · intro x g a s' hm h
    unfold popt at h ⊢
    cases hps : p s <;> rw [hps] at h
    case ok a1 s1 =>
      cases h
      rw [sim_ok hp.sim hm hps x g]
    case err e1 s1 =>
      cases e1 with
      | backtrack =>
        cases h
        obtain ⟨s'', h1, h2⟩ := sim_backtrack hp.sim hm hps x g
        simp only [h1, h2]
        rfl
      | cut => exact PResult.noConfusion h
      | incomplete => exact PResult.noConfusion h
    case crash k => exact PResult.noConfusion h
  · intro x g s' hm h
    unfold popt at h ⊢
    cases hps : p s <;> rw [hps] at h
    case ok a1 s1 => exact PResult.noConfusion h
    case err e1 s1 =>
      cases e1 with
      | backtrack => cases h
      | cut => cases h
      | incomplete => cases h
    case crash k => exact PResult.noConfusion h
  · intro x g s' hm h
    unfold popt at h ⊢
    cases hps : p s <;> rw [hps] at h
    case ok a1 s1 => exact PResult.noConfusion h
    case err e1 s1 =>
      cases e1 with
      | backtrack => cases h
      | cut =>
        cases h
        obtain ⟨s'', h1, h2⟩ := sim_cut hp.sim hm hps x g
        simp only [h1]
        exact ⟨s'', rfl, h2⟩
      | incomplete => cases h
    case crash k => exact PResult.noConfusion h
  · intro x g k hm h
    unfold popt at h ⊢
    cases hps : p s <;> rw [hps] at h
    case ok a1 s1 => exact PResult.noConfusion h
    case err e1 s1 =>
      cases e1 <;> cases h
    case crash k1 => cases h; rw [sim_crash hp.sim hm hps x g]
  · intro hm s' h
    unfold popt at h
    cases hps : p s <;> rw [hps] at h
    case ok a1 s1 => exact PResult.noConfusion h
    case err e1 s1 =>
      cases e1 with
      | backtrack => cases h
      | cut => cases h
      | incomplete => exact hp.noInc s hm s1 hps
    case crash k => exact PResult.noConfusion h

theorem wb_ite {c : Prop} [Decidable c] {p q : Parser α} (hp : WB p) (hq : WB q) :
    WB (if c then p else q) := by
  by_cases hc : c
  · rw [if_pos hc]; exact hp
  · rw [if_neg hc]; exact hq

/-! ## Bridging `Sim` and `simOut` -/

theorem simOut_of_sim {p : Parser α} (h : Sim p) (s : Stream) (x : List Char)
    (f : Bool) (hm : s.more = true) : simOut x f (p s) (p (extendS x f s)) := by
  cases hp : p s with
  | ok a s' => exact sim_ok h hm hp x f
  | err e s' =>
    cases e with
    | backtrack => exact sim_backtrack h hm hp x f
    | cut => exact sim_cut h hm hp x f
    | incomplete => trivial
  | crash k => exact sim_crash h hm hp x f

theorem sim_of_simOut {p : Parser α}
    (h : ∀ s x f, s.more = true → simOut x f (p s) (p (extendS x f s))) : Sim p := by
  refine ⟨?_, ?_, ?_, ?_⟩
  · intro s x f a s' hm hp
    have := h s x f hm
    rw [hp] at this
    exact this
  · intro s x f s' hm hp
    have := h s x f hm
    rw [hp] at this
    exact this
  · intro s x f s' hm hp
    have := h s x f hm
    rw [hp] at this
    exact this
  · intro s x f k hm hp
    have := h s x f hm
    rw [hp] at this
    exact this

/-! ## tagCmp lemmas and WB for the literal parsers -/

theorem tagCmp_hit_append (eqc : Char → Char → Bool) :
    ∀ (lit inp rest x : List Char), tagCmp eqc lit inp = .hit rest →
      tagCmp eqc lit (inp ++ x) = .hit (rest ++ x) := by
  intro lit
  induction lit with
  | nil =>
    intro inp rest x h
    simp only [tagCmp] at h ⊢
    cases h
    rfl
  | cons l ls ih =>
    intro inp rest x h
    cases inp with
    | nil => exact TagRes.noConfusion h
    | cons c cs =>
      simp only [tagCmp, List.cons_append] at h ⊢
      by_cases hec : eqc l c = true
      · rw [if_pos hec] at h
        rw [if_pos hec]
        exact ih cs rest x h
      · rw [if_neg hec] at h
        exact TagRes.noConfusion h

theorem tagCmp_hit_length (eqc : Char → Char → Bool) :
    ∀ (lit inp rest : List Char), tagCmp eqc lit inp = .hit rest →
      inp.length = lit.length + rest.length := by
  intro lit
  induction lit with
  | nil =>
    intro inp rest h
    simp only [tagCmp] at h
    cases h
    simp
  | cons l ls ih =>
    intro inp rest h
    cases inp with
    | nil => exact TagRes.noConfusion h
    | cons c cs =>
      simp only [tagCmp] at h
      by_cases hec : eqc l c = true
      · rw [if_pos hec] at h
        have := ih cs rest h
        simp only [List.length_cons]
        omega
      · rw [if_neg hec] at h
        exact TagRes.noConfusion h

theorem tagCmp_miss_append (eqc : Char → Char → Bool) :
    ∀ (lit inp x : List Char), tagCmp eqc lit inp = .miss →
      tagCmp eqc lit (inp ++ x) = .miss := by
  intro lit
  induction lit with
  | nil =>
    intro inp x h
    exact TagRes.noConfusion h
  | cons l ls ih =>
    intro inp x h
    cases inp with
    | nil => exact TagRes.noConfusion h
    | cons c cs =>
      simp only [tagCmp, List.cons_append] at h ⊢
      by_cases hec : eqc l c = true
      · rw [if_pos hec] at h
        rw [if_pos hec]
        exact ih cs x h
      · rw [if_neg hec]

theorem wb_tagWith (eqc : Char → Char → Bool) (lit : List Char) :
    WB (tagWith eqc lit) := by
  refine ⟨⟨?_, ?_⟩, ⟨?_, ?_, ?_, ?_⟩, ?_⟩ <;> intro s
  · intro a s' h
    unfold tagWith at h
    cases ht : tagCmp eqc lit s.input <;> simp only [ht] at h
    case hit rest =>
      cases h
      refine ⟨rfl, ?_⟩
      have := tagCmp_hit_length eqc lit s.input rest ht
      show rest.length ≤ s.input.length
      omega
    case short => split at h <;> exact PResult.noConfusion h
    case miss => exact PResult.noConfusion h
  · intro e s' h
    unfold tagWith at h
    cases ht : tagCmp eqc lit s.input <;> simp only [ht] at h
    case hit rest => exact PResult.noConfusion h
    case short =>
      split at h <;> · cases h; exact streamLe_refl _
    case miss => cases h; exact streamLe_refl _
  · intro x f a s' hm h
    unfold tagWith at h ⊢
    cases ht : tagCmp eqc lit s.input <;> simp only [ht] at h
    case hit rest =>
      cases h
      simp only [extendS_input, tagCmp_hit_append eqc lit s.input rest x ht]
      rfl
    case short =>
      rw [if_pos hm] at h
      exact PResult.noConfusion h
    case miss => exact PResult.noConfusion h
  · intro x f s' hm h
    unfold tagWith at h
    cases ht : tagCmp eqc lit s.input <;> simp only [ht] at h
    case hit rest => exact PResult.noConfusion h
    case short =>
      rw [if_pos hm] at h
      cases h
    case miss =>
      cases h
      refine ⟨extendS x f s, ?_, rfl⟩
      unfold tagWith
      rw [extendS_input, tagCmp_miss_append eqc lit s.input x ht]
  · intro x f s' hm h
    unfold tagWith at h
    cases ht : tagCmp eqc lit s.input <;> simp only [ht] at h
    case hit rest => exact PResult.noConfusion h
    case short =>
      rw [if_pos hm] at h
      cases h
    case miss => cases h
  · intro x f k hm h
    unfold tagWith at h
    cases ht : tagCmp eqc lit s.input <;> simp only [ht] at h
    case hit rest => exact PResult.noConfusion h
    case short =>
      rw [if_pos hm] at h
      cases h
    case miss => cases h
  · intro hm s' h
    unfold tagWith at h
    cases ht : tagCmp eqc lit s.input <;> simp only [ht] at h
    case hit rest => exact PResult.noConfusion h
    case short =>
      rw [if_neg (by simp [hm])] at h
      cases h
    case miss => cases h

theorem wb_ptag (lit : String) : WB (ptag lit) := wb_tagWith _ _

theorem wb_pcaselessL (lit : List Char) : WB (pcaselessL lit) := wb_tagWith _ _

theorem wb_pcaseless (lit : String) : WB (pcaseless lit) := wb_tagWith _ _

theorem consuming_tagWith (eqc : Char → Char → Bool) {lit : List Char}
    (hl : lit ≠ []) : Consuming (tagWith eqc lit) := by
  intro s a s' h
  unfold tagWith at h
  cases ht : tagCmp eqc lit s.input <;> simp only [ht] at h
  case hit rest =>
    cases h
    have hlen := tagCmp_hit_length eqc lit s.input rest ht
    have hpos : 0 < lit.length := List.length_pos.mpr hl
    show rest.length < s.input.length
    omega
  case short => split at h <;> exact PResult.noConfusion h
  case miss => exact PResult.noConfusion h

theorem consuming_ptag {lit : String} (hl : lit.toList ≠ []) :
    Consuming (ptag lit) := consuming_tagWith _ hl

theorem wb_peof : WB peof := by
  refine ⟨⟨?_, ?_⟩, ⟨?_, ?_, ?_, ?_⟩, ?_⟩ <;> intro s
  · intro a s' h
    unfold peof at h
    cases hi : s.input <;> simp only [hi] at h
    case nil =>
      split at h
      · exact PResult.noConfusion h
      · cases h; exact streamLe_refl _
    case cons c cs => exact PResult.noConfusion h
  · intro e s' h
    unfold peof at h
    cases hi : s.input <;> simp only [hi] at h
    case nil =>
      split at h
      · cases h; exact streamLe_refl _
      · exact PResult.noConfusion h
    case cons c cs => cases h; exact streamLe_refl _
  · intro x f a s' hm h
    unfold peof at h
    cases hi : s.input <;> simp only [hi] at h
    case nil =>
      rw [if_pos hm] at h
      exact PResult.noConfusion h
    case cons c cs => exact PResult.noConfusion h
  · intro x f s' hm h
    unfold peof at h
    cases hi : s.input <;> simp only [hi] at h
    case nil =>
      rw [if_pos hm] at h
      cases h
    case cons c cs =>
      cases h
      refine ⟨extendS x f s, ?_, rfl⟩
      unfold peof
      rw [extendS_input, hi]
      rfl
  · intro x f s' hm h
    unfold peof at h
    cases hi : s.input <;> simp only [hi] at h
    case nil =>
      rw [if_pos hm] at h
      cases h
    case cons c cs => cases h
  · intro x f k hm h
    unfold peof at h
    cases hi : s.input <;> simp only [hi] at h
    case nil =>
      rw [if_pos hm] at h
      cases h
    case cons c cs => cases h
  · intro hm s' h
    unfold peof at h
    cases hi : s.input <;> simp only [hi] at h
    case nil =>
      rw [if_neg (by simp [hm])] at h
      exact PResult.noConfusion h
    case cons c cs => cases h

/-! ## takeWhile lemmas and WB for the character-class parsers -/

theorem length_dropWhile_le (pred : α → Bool) (l : List α) :
    (l.dropWhile pred).length ≤ l.length := by
  conv_rhs => rw [← List.takeWhile_append_dropWhile pred l]
  rw [List.length_append]
  omega

theorem dropWhile_append_of_ne_nil {pred : α → Bool} {l : List α}
    (h : l.dropWhile pred ≠ []) (x : List α) :
    (l ++ x).dropWhile pred = l.dropWhile pred ++ x := by
  rw [List.dropWhile_append, if_neg]
  simp only [List.isEmpty_iff]
  exact h

theorem takeWhile_append_of_drop_ne_nil {pred : α → Bool} {l : List α}
    (h : l.dropWhile pred ≠ []) (x : List α) :
    (l ++ x).takeWhile pred = l.takeWhile pred := by
  rw [List.takeWhile_append, if_neg]
  intro hc
  apply h
  have hlen := congrArg List.length (List.takeWhile_append_dropWhile pred l)
  rw [List.length_append, hc] at hlen
  exact List.length_eq_zero.mp (by omega)

theorem takeWhile_append_of_head_fails {pred : α → Bool} {l : List α}
    (hl : l ≠ []) (ht : l.takeWhile pred = []) (x : List α) :
    (l ++ x).takeWhile pred = [] := by
  rw [List.takeWhile_append, if_neg, ht]
  intro hc
  rw [ht] at hc
  exact hl (List.length_eq_zero.mp hc.symm)

theorem wb_takeWhile0 (pred : Char → Bool) : WB (takeWhile0 pred) := by
  refine ⟨⟨?_, ?_⟩, ⟨?_, ?_, ?_, ?_⟩, ?_⟩ <;> intro s
  · intro a s' h
    simp only [takeWhile0] at h
    split at h
    · exact PResult.noConfusion h
    · cases h; exact ⟨rfl, length_dropWhile_le _ _⟩
  · intro e s' h
    simp only [takeWhile0] at h
    split at h
    · cases h; exact streamLe_refl _
    · exact PResult.noConfusion h
  · intro x f a s' hm h
    simp only [takeWhile0] at h
    by_cases hc : ((s.input.dropWhile pred).isEmpty && s.more) = true
    · rw [if_pos hc] at h
      exact PResult.noConfusion h
    · rw [if_neg hc] at h
      cases h
      have hrne : s.input.dropWhile pred ≠ [] := by
        intro hcon
        apply hc
        rw [hcon]
        simp [hm]
      have h2 : (s.input.dropWhile pred ++ x).isEmpty = false := by
        simp only [List.isEmpty_eq_false]
        exact fun hh => hrne (List.append_eq_nil.mp hh).1
      simp only [takeWhile0, extendS_input, dropWhile_append_of_ne_nil hrne,
        takeWhile_append_of_drop_ne_nil hrne]
      rw [if_neg (by simp [h2])]
      rfl
  · intro x f s' hm h
    simp only [takeWhile0] at h
    split at h
    · cases h
    · exact PResult.noConfusion h
  · intro x f s' hm h
    simp only [takeWhile0] at h
    split at h
    · cases h
    · exact PResult.noConfusion h
  · intro x f k hm h
    simp only [takeWhile0] at h
    split at h
    · cases h
    · exact PResult.noConfusion h
  · intro hm s' h
    simp only [takeWhile0] at h
    rw [if_neg (by simp [hm])] at h
    exact PResult.noConfusion h

theorem wb_takeWhile1 (pred : Char → Bool) : WB (takeWhile1 pred) := by
  refine ⟨⟨?_, ?_⟩, ⟨?_, ?_, ?_, ?_⟩, ?_⟩ <;> intro s
  · intro a s' h
    simp only [takeWhile1] at h
    split at h
    · split at h <;> exact PResult.noConfusion h
    · split at h
      · exact PResult.noConfusion h
      · cases h; exact ⟨rfl, length_dropWhile_le _ _⟩
  · intro e s' h
    simp only [takeWhile1] at h
    split at h
    · split at h <;> · cases h; exact streamLe_refl _
    · split at h
      · cases h; exact streamLe_refl _
      · exact PResult.noConfusion h
  · intro x f a s' hm h
    simp only [takeWhile1] at h
    by_cases h1 : (s.input.takeWhile pred).isEmpty = true
    · rw [if_pos h1] at h
      split at h <;> exact PResult.noConfusion h
    · rw [if_neg h1] at h
      by_cases h2 : ((s.input.dropWhile pred).isEmpty && s.more) = true
      · rw [if_pos h2] at h
        exact PResult.noConfusion h
      · rw [if_neg h2] at h
        cases h
        have htne : s.input.takeWhile pred ≠ [] := by
          intro hcon
          apply h1
          rw [hcon]
          rfl
        have hrne : s.input.dropWhile pred ≠ [] := by
          intro hcon
          apply h2
          rw [hcon]
          simp [hm]
        have h3 : (s.input.dropWhile pred ++ x).isEmpty = false := by
          simp only [List.isEmpty_eq_false]
          exact fun hh => hrne (List.append_eq_nil.mp hh).1
        have h4 : (s.input.takeWhile pred).isEmpty = false :=
          List.isEmpty_eq_false.mpr htne
        simp only [takeWhile1, extendS_input, dropWhile_append_of_ne_nil hrne,
          takeWhile_append_of_drop_ne_nil hrne]
        rw [if_neg (by simp [h4]), if_neg (by simp [h3])]
        rfl
  · intro x f s' hm h
    simp only [takeWhile1] at h
    by_cases h1 : (s.input.takeWhile pred).isEmpty = true
    · rw [if_pos h1] at h
      by_cases h2 : (s.input.isEmpty && s.more) = true
      · rw [if_pos h2] at h
        cases h
      · rw [if_neg h2] at h
        cases h
        have hine : s.input ≠ [] := by
          intro hcon
          apply h2
          rw [hcon]
          simp [hm]
        refine ⟨extendS x f s, ?_, rfl⟩
        have hte : s.input.takeWhile pred = [] := List.isEmpty_iff.mp h1
        have h5 : (s.input ++ x).takeWhile pred = [] :=
          takeWhile_append_of_head_fails hine hte x
        have h6 : (s.input ++ x).isEmpty = false := by
          simp only [List.isEmpty_eq_false]
          exact fun hh => hine (List.append_eq_nil.mp hh).1
        simp only [takeWhile1, extendS_input, h5]
        rw [if_pos (show ([] : List Char).isEmpty = true from rfl),
          if_neg (by simp [h6])]
    · rw [if_neg h1] at h
      split at h
      · cases h
      · exact PResult.noConfusion h
  · intro x f s' hm h
    simp only [takeWhile1] at h
    split at h
    · split at h <;> cases h
    · split at h
      · cases h
      · exact PResult.noConfusion h
  · intro x f k hm h
    simp only [takeWhile1] at h
    split at h
    · split at h <;> cases h
    · split at h
      · cases h
      · exact PResult.noConfusion h
  · intro hm s' h
    simp only [takeWhile1] at h
    split at h
    · rw [if_neg (by simp [hm])] at h
      cases h
    · rw [if_neg (by simp [hm])] at h
      exact PResult.noConfusion h

theorem wb_multispace0 : WB multispace0 := wb_takeWhile0 _

theorem wb_alphanumeric1 : WB alphanumeric1 := wb_takeWhile1 _

theorem wb_oneOf (cs : List Char) : WB (oneOf cs) := by
  refine ⟨⟨?_, ?_⟩, ⟨?_, ?_, ?_, ?_⟩, ?_⟩ <;> intro s
  · intro a s' h
    unfold oneOf at h
    cases hi : s.input <;> simp only [hi] at h
    case nil => split at h <;> exact PResult.noConfusion h
    case cons c rest =>
      split at h
      · cases h
        exact ⟨rfl, by rw [hi]; simp⟩
      · exact PResult.noConfusion h
  · intro e s' h
    unfold oneOf at h
    cases hi : s.input <;> simp only [hi] at h
    case nil => split at h <;> · cases h; exact streamLe_refl _
    case cons c rest =>
      split at h
      · exact PResult.noConfusion h
      · cases h; exact streamLe_refl _
  · intro x f a s' hm h
    unfold oneOf at h
    cases hi : s.input <;> simp only [hi] at h
    case nil =>
      rw [if_pos hm] at h
      exact PResult.noConfusion h
    case cons c rest =>
      by_cases hc : cs.contains c = true
      · rw [if_pos hc] at h
        cases h
        unfold oneOf
        rw [extendS_input, hi]
        simp only [List.cons_append]
        rw [if_pos hc]
        rfl
      · rw [if_neg hc] at h
        exact PResult.noConfusion h
  · intro x f s' hm h
    unfold oneOf at h
    cases hi : s.input <;> simp only [hi] at h
    case nil =>
      rw [if_pos hm] at h
      cases h
    case cons c rest =>
      by_cases hc : cs.contains c = true
      · rw [if_pos hc] at h
        exact PResult.noConfusion h
      · rw [if_neg hc] at h
        cases h
        refine ⟨extendS x f s, ?_, rfl⟩
        unfold oneOf
        rw [extendS_input, hi]
        simp only [List.cons_append]
        rw [if_neg hc]
  · intro x f s' hm h
    unfold oneOf at h
    cases hi : s.input <;> simp only [hi] at h
    case nil =>
      rw [if_pos hm] at h
      cases h
    case cons c rest => split at h <;> cases h
  · intro x f k hm h
    unfold oneOf at h
    cases hi : s.input <;> simp only [hi] at h
    case nil =>
      rw [if_pos hm] at h
      cases h
    case cons c rest => split at h <;> cases h
  · intro hm s' h
    unfold oneOf at h
    cases hi : s.input <;> simp only [hi] at h
    case nil =>
      rw [if_neg (by simp [hm])] at h
      cases h
    case cons c rest => split at h <;> cases h

/-! ## decDigits lemmas and WB for dec_uint -/

theorem decDigits_length :
    ∀ (inp : List Char) (acc n : Nat) (rest : List Char),
      decDigits acc inp = some (n, rest) → rest.length ≤ inp.length := by
  intro inp
  induction inp with
  | nil =>
    intro acc n rest h
    simp only [decDigits] at h
    cases h
    exact le_refl _
  | cons c cs ih =>
    intro acc n rest h
    simp only [decDigits] at h
    by_cases hd : c.isDigit = true
    · rw [if_pos hd] at h
      by_cases ho : acc * 10 + (c.toNat - 48) < 2 ^ 64
      · rw [if_pos ho] at h
        have := ih _ _ _ h
        simp only [List.length_cons]
        omega
      · rw [if_neg ho] at h
        exact Option.noConfusion h
    · rw [if_neg hd] at h
      cases h
      exact le_refl _

theorem decDigits_append_some :
    ∀ (inp : List Char) (acc n : Nat) (rest x : List Char),
      decDigits acc inp = some (n, rest) → rest ≠ [] →
      decDigits acc (inp ++ x) = some (n, rest ++ x) := by
  intro inp
  induction inp with
  | nil =>
    intro acc n rest x h hne
    simp only [decDigits] at h
    cases h
    exact absurd rfl hne
  | cons c cs ih =>
    intro acc n rest x h hne
    simp only [decDigits] at h
    simp only [List.cons_append, decDigits]
    by_cases hd : c.isDigit = true
    · rw [if_pos hd] at h
      rw [if_pos hd]
      by_cases ho : acc * 10 + (c.toNat - 48) < 2 ^ 64
      · rw [if_pos ho] at h
        rw [if_pos ho]
        exact ih _ _ _ _ h hne
      · rw [if_neg ho] at h
        exact Option.noConfusion h
    · rw [if_neg hd] at h
      cases h
      rw [if_neg hd]
      rfl

theorem decDigits_append_none :
    ∀ (inp : List Char) (acc : Nat) (x : List Char),
      decDigits acc inp = none → decDigits acc (inp ++ x) = none := by
  intro inp
  induction inp with
  | nil =>
    intro acc x h
    exact Option.noConfusion h
  | cons c cs ih =>
    intro acc x h
    simp only [decDigits] at h
    simp only [List.cons_append, decDigits]
    by_cases hd : c.isDigit = true
    · rw [if_pos hd] at h
      rw [if_pos hd]
      by_cases ho : acc * 10 + (c.toNat - 48) < 2 ^ 64
      · rw [if_pos ho] at h
        rw [if_pos ho]
        exact ih _ _ h
      · rw [if_neg ho]
    · rw [if_neg hd] at h
      exact Option.noConfusion h

theorem wb_dec_uint : WB dec_uint := by
  refine ⟨⟨?_, ?_⟩, ⟨?_, ?_, ?_, ?_⟩, ?_⟩ <;> intro s
  · intro a s' h
    unfold dec_uint at h
    cases hi : s.input <;> simp only [hi] at h
    case nil => split at h <;> exact PResult.noConfusion h
    case cons c cs =>
      by_cases hd : c.isDigit = true
      · rw [if_pos hd] at h
        cases hdd : decDigits (c.toNat - 48) cs with
        | none =>
          simp only [hdd] at h
          exact PResult.noConfusion h
        | some pr =>
          simp only [hdd] at h
          obtain ⟨n, rest⟩ := pr
          split at h
          · exact PResult.noConfusion h
          · cases h
            refine ⟨rfl, ?_⟩
            have := decDigits_length cs _ _ _ hdd
            show rest.length ≤ s.input.length
            rw [hi]
            simp only [List.length_cons]
            omega
      · rw [if_neg hd] at h
        exact PResult.noConfusion h
  · intro e s' h
    unfold dec_uint at h
    cases hi : s.input <;> simp only [hi] at h
    case nil => split at h <;> · cases h; exact streamLe_refl _
    case cons c cs =>
      by_cases hd : c.isDigit = true
      · rw [if_pos hd] at h
        cases hdd : decDigits (c.toNat - 48) cs with
        | none =>
          simp only [hdd] at h
          cases h
          exact streamLe_refl _
        | some pr =>
          simp only [hdd] at h
          obtain ⟨n, rest⟩ := pr
          split at h
          · cases h; exact streamLe_refl _
          · exact PResult.noConfusion h
      · rw [if_neg hd] at h
        cases h
        exact streamLe_refl _
  · intro x f a s' hm h
    unfold dec_uint at h
    cases hi : s.input <;> simp only [hi] at h
    case nil =>
      rw [if_pos hm] at h
      exact PResult.noConfusion h
    case cons c cs =>
      by_cases hd : c.isDigit = true
      · rw [if_pos hd] at h
        cases hdd : decDigits (c.toNat - 48) cs with
        | none =>
          simp only [hdd] at h
          exact PResult.noConfusion h
        | some pr =>
          simp only [hdd] at h
          obtain ⟨n, rest⟩ := pr
          by_cases hre : (rest.isEmpty && s.more) = true
          · rw [if_pos hre] at h
            exact PResult.noConfusion h
          · rw [if_neg hre] at h
            cases h
            have hrne : rest ≠ [] := by
              intro hcon
              apply hre
              rw [hcon]
              simp [hm]
            have hext := decDigits_append_some cs _ _ _ x hdd hrne
            have h6 : (rest ++ x).isEmpty = false := by
              simp only [List.isEmpty_eq_false]
              exact fun hh => hrne (List.append_eq_nil.mp hh).1
            unfold dec_uint
            rw [extendS_input, hi]
            simp only [List.cons_append]
            rw [if_pos hd]
            simp only [hext]
            rw [if_neg (by simp [h6])]
            rfl
      · rw [if_neg hd] at h
        exact PResult.noConfusion h
  · intro x f s' hm h
    unfold dec_uint at h
    cases hi : s.input <;> simp only [hi] at h
    case nil =>
      rw [if_pos hm] at h
      cases h
    case cons c cs =>
      by_cases hd : c.isDigit = true
      · rw [if_pos hd] at h
        cases hdd : decDigits (c.toNat - 48) cs with
        | none =>
          simp only [hdd] at h
          cases h
          refine ⟨extendS x f s, ?_, rfl⟩
          unfold dec_uint
          rw [extendS_input, hi]
          simp only [List.cons_append]
          rw [if_pos hd]
          simp only [decDigits_append_none cs _ x hdd]
        | some pr =>
          simp only [hdd] at h
          obtain ⟨n, rest⟩ := pr
          split at h
          · cases h
          · exact PResult.noConfusion h
      · rw [if_neg hd] at h
        cases h
        refine ⟨extendS x f s, ?_, rfl⟩
        unfold dec_uint
        rw [extendS_input, hi]
        simp only [List.cons_append]
        rw [if_neg hd]
  · intro x f s' hm h
    unfold dec_uint at h
    cases hi : s.input <;> simp only [hi] at h
    case nil =>
      rw [if_pos hm] at h
      cases h
    case cons c cs =>
      by_cases hd : c.isDigit = true
      · rw [if_pos hd] at h
        cases hdd : decDigits (c.toNat - 48) cs with
        | none =>
          simp only [hdd] at h
          cases h
        | some pr =>
          simp only [hdd] at h
          obtain ⟨n, rest⟩ := pr
          split at h <;> cases h
      · rw [if_neg hd] at h
        cases h
  · intro x f k hm h
    unfold dec_uint at h
    cases hi : s.input <;> simp only [hi] at h
    case nil =>
      rw [if_pos hm] at h
      cases h
    case cons c cs =>
      by_cases hd : c.isDigit = true
      · rw [if_pos hd] at h
        cases hdd : decDigits (c.toNat - 48) cs with
        | none =>
          simp only [hdd] at h
          cases h
        | some pr =>
          simp only [hdd] at h
          obtain ⟨n, rest⟩ := pr
          split at h <;> cases h
      · rw [if_neg hd] at h
        cases h
  · intro hm s' h
    unfold dec_uint at h
    cases hi : s.input <;> simp only [hi] at h
    case nil =>
      rw [if_neg (by simp [hm])] at h
      cases h
    case cons c cs =>
      by_cases hd : c.isDigit = true
      · rw [if_pos hd] at h
        cases hdd : decDigits (c.toNat - 48) cs with
        | none =>
          simp only [hdd] at h
          cases h
        | some pr =>
          simp only [hdd] at h
          obtain ⟨n, rest⟩ := pr
          rw [if_neg (by simp [hm])] at h
          exact PResult.noConfusion h
      · rw [if_neg hd] at h
        cases h

/-! ## WB for recognize -/

theorem wb_precognize {p : Parser α} (hp : WB p) : WB (precognize p) := by
  refine ⟨⟨?_, ?_⟩, ⟨?_, ?_, ?_, ?_⟩, ?_⟩ <;> intro s
  · intro a s' h
    unfold precognize at h
    cases hps : p s <;> simp only [hps] at h
    case ok a1 s1 =>
      cases h
      exact tidy_ok hp.tidy hps
    case err e1 s1 => exact PResult.noConfusion h
    case crash k => exact PResult.noConfusion h
  · intro e s' h
    unfold precognize at h
    cases hps : p s <;> simp only [hps] at h
    case ok a1 s1 => exact PResult.noConfusion h
    case err e1 s1 =>
      cases h
      exact tidy_err hp.tidy hps
    case crash k => exact PResult.noConfusion h
  · intro x f a s' hm h
    unfold precognize at h
    cases hps : p s <;> simp only [hps] at h
    case ok a1 s1 =>
      cases h
      have hlen : s'.input.length ≤ s.input.length := (tidy_ok hp.tidy hps).2
      unfold precognize
      simp only [sim_ok hp.sim hm hps x f]
      have hL : (extendS x f s).input.length - (extendS x f s').input.length =
          s.input.length - s'.input.length := by
        rw [extendS_input, extendS_input, List.length_append, List.length_append]
        omega
      rw [hL, extendS_input, List.take_append_of_le_length (by omega)]
    case err e1 s1 => exact PResult.noConfusion h
    case crash k => exact PResult.noConfusion h
  · intro x f s' hm h
    unfold precognize at h
    cases hps : p s <;> simp only [hps] at h
    case ok a1 s1 => exact PResult.noConfusion h
    case err e1 s1 =>
      cases h
      obtain ⟨s'', h1, h2⟩ := sim_backtrack hp.sim hm hps x f
      refine ⟨s'', ?_, h2⟩
      unfold precognize
      rw [h1]
    case crash k => exact PResult.noConfusion h
  · intro x f s' hm h
    unfold precognize at h
    cases hps : p s <;> simp only [hps] at h
    case ok a1 s1 => exact PResult.noConfusion h
    case err e1 s1 =>
      cases h
      obtain ⟨s'', h1, h2⟩ := sim_cut hp.sim hm hps x f
      refine ⟨s'', ?_, h2⟩
      unfold precognize
      rw [h1]
    case crash k => exact PResult.noConfusion h
  · intro x f k hm h
    unfold precognize at h
    cases hps : p s <;> simp only [hps] at h
    case ok a1 s1 => exact PResult.noConfusion h
    case err e1 s1 => exact PResult.noConfusion h
    case crash k1 =>
      cases h
      unfold precognize
      rw [sim_crash hp.sim hm hps x f]
  · intro hm s' h
    unfold precognize at h
    cases hps : p s <;> simp only [hps] at h
    case ok a1 s1 => exact PResult.noConfusion h
    case err e1 s1 =>
      cases h
      exact hp.noInc s hm s' hps
    case crash k => exact PResult.noConfusion h

/-! ## Consuming: closure lemmas and the grammar separators -/

theorem consuming_pbind_left {p : Parser α} {f : α → Parser β}
    (hp : Consuming p) (hf : ∀ a, Tidy (f a)) : Consuming (pbind p f) := by
  intro s b s' h
  unfold pbind at h
  cases hps : p s <;> simp only [hps] at h
  case ok a s1 =>
    have h1 := hp s a s1 hps
    have h2 := (tidy_ok (hf a) h).2
    omega
  case err e s1 => exact PResult.noConfusion h
  case crash k => exact PResult.noConfusion h

theorem consuming_pbind_right {p : Parser α} {f : α → Parser β}
    (hp : Tidy p) (hf : ∀ a, Consuming (f a)) : Consuming (pbind p f) := by
  intro s b s' h
  unfold pbind at h
  cases hps : p s <;> simp only [hps] at h
  case ok a s1 =>
    have h1 := (tidy_ok hp hps).2
    have h2 := hf a s1 b s' h
    omega
  case err e s1 => exact PResult.noConfusion h
  case crash k => exact PResult.noConfusion h

theorem consuming_palt {p q : Parser α} (hp : Consuming p) (hq : Consuming q) :
    Consuming (palt p q) := by
  intro s a s' h
  unfold palt at h
  cases hps : p s <;> simp only [hps] at h
  case ok a1 s1 =>
    cases h
    exact hp s _ _ hps
  case err e s1 =>
    cases e <;> simp only at h
    case backtrack => exact hq { s with env := s1.env } a s' h
    case cut => exact PResult.noConfusion h
    case incomplete => exact PResult.noConfusion h
  case crash k => exact PResult.noConfusion h

theorem wb_opLit (lit : String) : WB (opLit lit) := by
  unfold opLit
  exact wb_pbind (wb_ptag _) (fun _ => wb_ppure _)

theorem wb_opLitC (lit canon : String) : WB (opLitC lit canon) := by
  unfold opLitC
  exact wb_pbind (wb_pcaseless _) (fun _ => wb_ppure _)

theorem consuming_opLit (lit : String) (hl : lit.toList ≠ []) :
    Consuming (opLit lit) := by
  unfold opLit
  exact consuming_pbind_left (consuming_ptag hl) (fun _ => (wb_ppure _).tidy)

theorem consuming_sepCommaMs : Consuming sepCommaMs := by
  unfold sepCommaMs
  exact consuming_pbind_right wb_multispace0.tidy (fun _ => consuming_ptag (by decide))

theorem consuming_semiSep : Consuming (ptag (" ; ")) := consuming_ptag (by decide)

theorem consuming_predSep : Consuming predSep := by
  unfold predSep
  exact consuming_palt (consuming_opLit _ (by decide)) (consuming_opLit _ (by decide))

theorem consuming_special_token : Consuming special_token := by
  unfold special_token
  refine consuming_pbind_left (consuming_ptag (by decide)) (fun _ => ?_)
  exact (wb_pbind (wb_palt (wb_opLit _) (wb_palt (wb_opLit _) (wb_opLit _)))
    (fun _ => wb_ptag _)).tidy

/-! ## psepPair as a combinator composition -/

theorem psepPair_eq (elem : Parser α) (sep : Parser σ) :
    psepPair elem sep =
      pbind elem (fun a => palt
        (pbind sep (fun _ => pbind elem (fun b => ppure [a, b])))
        (ppure [a])) := by
  funext s
  cases h1 : elem s with
  | ok a s1 =>
    cases h2 : sep s1 with
    | ok o s2 =>
      cases h3 : elem s2 with
      | ok b s3 => simp only [psepPair, pbind, palt, ppure, h1, h2, h3]
      | err e s3 =>
        cases e <;> simp only [psepPair, pbind, palt, ppure, h1, h2, h3]
      | crash k => simp only [psepPair, pbind, palt, ppure, h1, h2, h3]
    | err e s2 =>
      cases e <;> simp only [psepPair, pbind, palt, ppure, h1, h2]
    | crash k => simp only [psepPair, pbind, palt, ppure, h1, h2]
  | err e s1 =>
    cases e <;> simp only [psepPair, pbind, palt, ppure, h1]
  | crash k => simp only [psepPair, pbind, palt, ppure, h1]

theorem wb_psepPair {elem : Parser α} {sep : Parser σ} (he : WB elem) (hs : WB sep) :
    WB (psepPair elem sep) := by
  rw [psepPair_eq]
  exact wb_pbind he (fun a => wb_palt
    (wb_pbind hs (fun _ => wb_pbind he (fun b => wb_ppure _)))
    (wb_ppure _))

/-! ## WB for separated(1..) -/

theorem psep1Go_tidy {elem : Parser α} {sep : Parser σ}
    (he : Tidy elem) (hs : Tidy sep) :
    ∀ (m : Nat) (acc : List α) (s : Stream),
      match psep1Go elem sep m acc s with
      | .ok _ s' => StreamLe s' s
      | .err _ s' => StreamLe s' s
      | .crash _ => True := by
  intro m
  induction m with
  | zero =>
    intro acc s
    simp only [psep1Go]
    exact streamLe_refl _
  | succ m ih =>
    intro acc s
    simp only [psep1Go]
    cases hss : sep s with
    | ok o s1 =>
      dsimp only []
      cases hel : elem s1 with
      | ok a s2 =>
        dsimp only []
        have hrec := ih (a :: acc) s2
        cases hgo : psep1Go elem sep m (a :: acc) s2 with
        | ok r s3 =>
          rw [hgo] at hrec
          exact streamLe_trans hrec (streamLe_trans (tidy_ok he hel) (tidy_ok hs hss))
        | err e s3 =>
          rw [hgo] at hrec
          exact streamLe_trans hrec (streamLe_trans (tidy_ok he hel) (tidy_ok hs hss))
        | crash k => trivial
      | err e s2 =>
        cases e with
        | backtrack => exact ⟨rfl, le_refl _⟩
        | cut => exact streamLe_trans (tidy_err he hel) (tidy_ok hs hss)
        | incomplete => exact streamLe_trans (tidy_err he hel) (tidy_ok hs hss)
      | crash k => trivial
    | err e s1 =>
      cases e with
      | backtrack => exact ⟨rfl, le_refl _⟩
      | cut => exact tidy_err hs hss
      | incomplete => exact tidy_err hs hss
    | crash k => trivial

theorem psep1Go_noInc {elem : Parser α} {sep : Parser σ} (he : WB elem) (hs : WB sep) :
    ∀ (m : Nat) (acc : List α) (s : Stream), s.more = false →
      ∀ s', psep1Go elem sep m acc s ≠ .err .incomplete s' := by
  intro m
  induction m with
  | zero =>
    intro acc s hmf s' h
    simp only [psep1Go] at h
    cases h
  | succ m ih =>
    intro acc s hmf s' h
    simp only [psep1Go] at h
    cases hss : sep s <;> simp only [hss] at h
    case ok o s1 =>
      have hm1 : s1.more = false := (tidy_ok hs.tidy hss).1.trans hmf
      cases hel : elem s1 <;> simp only [hel] at h
      case ok a s2 =>
        have hm2 : s2.more = false := (tidy_ok he.tidy hel).1.trans hm1
        exact ih (a :: acc) s2 hm2 s' h
      case err e s2 =>
        cases e <;> simp only at h
        case backtrack => exact PResult.noConfusion h
        case cut => cases h
        case incomplete => exact he.noInc s1 hm1 s2 hel
      case crash k => exact PResult.noConfusion h
    case err e s1 =>
      cases e <;> simp only at h
      case backtrack => exact PResult.noConfusion h
      case cut => cases h
      case incomplete => exact hs.noInc s hmf s1 hss
    case crash k => exact PResult.noConfusion h

theorem psep1Go_simOut {elem : Parser α} {sep : Parser σ}
    (he : WB elem) (hs : WB sep) (hcs : Consuming sep) (x : List Char) (f : Bool) :
    ∀ (m1 m2 : Nat) (acc : List α) (s : Stream), s.more = true →
      s.input.length < m1 → s.input.length + x.length < m2 →
      simOut x f (psep1Go elem sep m1 acc s) (psep1Go elem sep m2 acc (extendS x f s)) := by
  intro m1
  induction m1 with
  | zero =>
    intro m2 acc s hm h1 h2
    omega
  | succ m ih =>
    intro m2 acc s hm h1 h2
    obtain ⟨m2p, rfl⟩ : ∃ t, m2 = t + 1 := ⟨m2 - 1, by omega⟩
    simp only [psep1Go]
    cases hss : sep s with
    | ok o s1 =>
      have hm1 : s1.more = true := (tidy_ok hs.tidy hss).1.trans hm
      have hsx : sep (extendS x f s) = .ok o (extendS x f s1) := sim_ok hs.sim hm hss x f
      simp only [hss, hsx]
      cases hel : elem s1 with
      | ok a s2 =>
        have hex : elem (extendS x f s1) = .ok a (extendS x f s2) := sim_ok he.sim hm1 hel x f
        simp only [hel, hex]
        have hlt1 := hcs s o s1 hss
        have hlt2 := (tidy_ok he.tidy hel).2
        exact ih m2p (a :: acc) s2 ((tidy_ok he.tidy hel).1.trans hm1)
          (by omega) (by omega)
      | err e s2 =>
        cases e with
        | backtrack =>
          obtain ⟨s'', hb1, hb2⟩ := sim_backtrack he.sim hm1 hel x f
          simp only [hel, hb1, hb2, simOut]
          rfl
        | cut =>
          obtain ⟨s'', hb1, hb2⟩ := sim_cut he.sim hm1 hel x f
          simp only [hel, hb1, simOut]
          exact ⟨s'', rfl, hb2⟩
        | incomplete =>
          simp only [hel, simOut]
      | crash k =>
        have hcx := sim_crash he.sim hm1 hel x f
        simp only [hel, hcx, simOut]
    | err e s1 =>
      cases e with
      | backtrack =>
        obtain ⟨s'', hb1, hb2⟩ := sim_backtrack hs.sim hm hss x f
        simp only [hss, hb1, hb2, simOut]
        rfl
      | cut =>
        obtain ⟨s'', hb1, hb2⟩ := sim_cut hs.sim hm hss x f
        simp only [hss, hb1, simOut]
        exact ⟨s'', rfl, hb2⟩
      | incomplete =>
        simp only [hss, simOut]
    | crash k =>
      have hcx := sim_crash hs.sim hm hss x f
      simp only [hss, hcx, simOut]

theorem wb_psep1 {elem : Parser α} {sep : Parser σ} (he : WB elem) (hs : WB sep)
    (hcs : Consuming sep) : WB (psep1 elem sep) := by
  refine ⟨⟨?_, ?_⟩, ?_, ?_⟩
  · intro s r s' h
    unfold psep1 at h
    cases hel : elem s <;> simp only [hel] at h
    case ok a s1 =>
      have hgo := psep1Go_tidy he.tidy hs.tidy (s1.input.length + 1) [a] s1
      rw [h] at hgo
      exact streamLe_trans hgo (tidy_ok he.tidy hel)
    case err e s1 => exact PResult.noConfusion h
    case crash k => exact PResult.noConfusion h
  · intro s e s' h
    unfold psep1 at h
    cases hel : elem s <;> simp only [hel] at h
    case ok a s1 =>
      have hgo := psep1Go_tidy he.tidy hs.tidy (s1.input.length + 1) [a] s1
      rw [h] at hgo
      exact streamLe_trans hgo (tidy_ok he.tidy hel)
    case err e1 s1 =>
      cases h
      exact tidy_err he.tidy hel
    case crash k => exact PResult.noConfusion h
  · apply sim_of_simOut
    intro s x f hm
    unfold psep1
    cases hel : elem s with
    | ok a s1 =>
      have hex : elem (extendS x f s) = .ok a (extendS x f s1) := sim_ok he.sim hm hel x f
      simp only [hel, hex]
      have hinv : (extendS x f s1).input.length = s1.input.length + x.length := by
        rw [extendS_input, List.length_append]
      rw [hinv]
      exact psep1Go_simOut he hs hcs x f (s1.input.length + 1) (s1.input.length + x.length + 1)
        [a] s1 ((tidy_ok he.tidy hel).1.trans hm) (by omega) (by omega)
    | err e s1 =>
      cases e with
      | backtrack =>
        obtain ⟨s'', h1, h2⟩ := sim_backtrack he.sim hm hel x f
        simp only [hel, h1, simOut]
        exact ⟨s'', rfl, h2⟩
      | cut =>
        obtain ⟨s'', h1, h2⟩ := sim_cut he.sim hm hel x f
        simp only [hel, h1, simOut]
        exact ⟨s'', rfl, h2⟩
      | incomplete =>
        simp only [hel, simOut]
    | crash k =>
      have hcx := sim_crash he.sim hm hel x f
      simp only [hel, hcx, simOut]
  · intro s hmf s' h
    unfold psep1 at h
    cases hel : elem s <;> simp only [hel] at h
    case ok a s1 =>
      exact psep1Go_noInc he hs (s1.input.length + 1) [a] s1
        ((tidy_ok he.tidy hel).1.trans hmf) s' h
    case err e s1 =>
      cases h
      exact he.noInc s hmf _ hel
    case crash k => exact PResult.noConfusion h

/-! ## WB for separated_foldl1 -/

theorem pfold1Go_tidy {elem : Parser α} {sep : Parser σ}
    (comb : α → σ → α → Option α) (he : Tidy elem) (hs : Tidy sep) :
    ∀ (m : Nat) (acc : α) (s : Stream),
      match pfold1Go elem sep comb m acc s with
      | .ok _ s' => StreamLe s' s
      | .err _ s' => StreamLe s' s
      | .crash _ => True := by
  intro m
  induction m with
  | zero =>
    intro acc s
    simp only [pfold1Go]
    exact streamLe_refl _
  | succ m ih =>
    intro acc s
    simp only [pfold1Go]
    cases hss : sep s with
    | ok o s1 =>
      dsimp only []
      cases hel : elem s1 with
      | ok a s2 =>
        dsimp only []
        cases hcb : comb acc o a with
        | none => trivial
        | some acc2 =>
          dsimp only []
          have hrec := ih acc2 s2
          cases hgo : pfold1Go elem sep comb m acc2 s2 with
          | ok r s3 =>
            rw [hgo] at hrec
            exact streamLe_trans hrec (streamLe_trans (tidy_ok he hel) (tidy_ok hs hss))
          | err e s3 =>
            rw [hgo] at hrec
            exact streamLe_trans hrec (streamLe_trans (tidy_ok he hel) (tidy_ok hs hss))
          | crash k => trivial
      | err e s2 =>
        cases e with
        | backtrack => exact ⟨rfl, le_refl _⟩
        | cut => exact streamLe_trans (tidy_err he hel) (tidy_ok hs hss)
        | incomplete => exact streamLe_trans (tidy_err he hel) (tidy_ok hs hss)
      | crash k => trivial
    | err e s1 =>
      cases e with
      | backtrack => exact ⟨rfl, le_refl _⟩
      | cut => exact tidy_err hs hss
      | incomplete => exact tidy_err hs hss
    | crash k => trivial

theorem pfold1Go_noInc {elem : Parser α} {sep : Parser σ}
    {comb : α → σ → α → Option α} (he : WB elem) (hs : WB sep) :
    ∀ (m : Nat) (acc : α) (s : Stream), s.more = false →
      ∀ s', pfold1Go elem sep comb m acc s ≠ .err .incomplete s' := by
  intro m
  induction m with
  | zero =>
    intro acc s hmf s' h
    simp only [pfold1Go] at h
    cases h
  | succ m ih =>
    intro acc s hmf s' h
    simp only [pfold1Go] at h
    cases hss : sep s <;> simp only [hss] at h
    case ok o s1 =>
      have hm1 : s1.more = false := (tidy_ok hs.tidy hss).1.trans hmf
      cases hel : elem s1 <;> simp only [hel] at h
      case ok a s2 =>
        have hm2 : s2.more = false := (tidy_ok he.tidy hel).1.trans hm1
        cases hcb : comb acc o a <;> simp only [hcb] at h
        case none => exact PResult.noConfusion h
        case some acc2 => exact ih acc2 s2 hm2 s' h
      case err e s2 =>
        cases e <;> simp only at h
        case backtrack => exact PResult.noConfusion h
        case cut => cases h
        case incomplete => exact he.noInc s1 hm1 s2 hel
      case crash k => exact PResult.noConfusion h
    case err e s1 =>
      cases e <;> simp only at h
      case backtrack => exact PResult.noConfusion h
      case cut => cases h
      case incomplete => exact hs.noInc s hmf s1 hss
    case crash k => exact PResult.noConfusion h

theorem pfold1Go_simOut {elem : Parser α} {sep : Parser σ}
    {comb : α → σ → α → Option α}
    (he : WB elem) (hs : WB sep) (hcs : Consuming sep) (x : List Char) (f : Bool) :
    ∀ (m1 m2 : Nat) (acc : α) (s : Stream), s.more = true →
      s.input.length < m1 → s.input.length + x.length < m2 →
      simOut x f (pfold1Go elem sep comb m1 acc s)
        (pfold1Go elem sep comb m2 acc (extendS x f s)) := by
  intro m1
  induction m1 with
  | zero =>
    intro m2 acc s hm h1 h2
    omega
  | succ m ih =>
    intro m2 acc s hm h1 h2
    obtain ⟨m2p, rfl⟩ : ∃ t, m2 = t + 1 := ⟨m2 - 1, by omega⟩
    simp only [pfold1Go]
    cases hss : sep s with
    | ok o s1 =>
      have hm1 : s1.more = true := (tidy_ok hs.tidy hss).1.trans hm
      have hsx : sep (extendS x f s) = .ok o (extendS x f s1) := sim_ok hs.sim hm hss x f
      simp only [hss, hsx]
      cases hel : elem s1 with
      | ok a s2 =>
        have hex : elem (extendS x f s1) = .ok a (extendS x f s2) := sim_ok he.sim hm1 hel x f
        simp only [hel, hex]
        cases hcb : comb acc o a with
        | none => simp only [hcb, simOut]
        | some acc2 =>
          simp only [hcb]
          have hlt1 := hcs s o s1 hss
          have hlt2 := (tidy_ok he.tidy hel).2
          exact ih m2p acc2 s2 ((tidy_ok he.tidy hel).1.trans hm1) (by omega) (by omega)
      | err e s2 =>
        cases e with
        | backtrack =>
          obtain ⟨s'', hb1, hb2⟩ := sim_backtrack he.sim hm1 hel x f
          simp only [hel, hb1, hb2, simOut]
          rfl
        | cut =>
          obtain ⟨s'', hb1, hb2⟩ := sim_cut he.sim hm1 hel x f
          simp only [hel, hb1, simOut]
          exact ⟨s'', rfl, hb2⟩
        | incomplete =>
          simp only [hel, simOut]
      | crash k =>
        have hcx := sim_crash he.sim hm1 hel x f
        simp only [hel, hcx, simOut]
    | err e s1 =>
      cases e with
      | backtrack =>
        obtain ⟨s'', hb1, hb2⟩ := sim_backtrack hs.sim hm hss x f
        simp only [hss, hb1, hb2, simOut]
        rfl
      | cut =>
        obtain ⟨s'', hb1, hb2⟩ := sim_cut hs.sim hm hss x f
        simp only [hss, hb1, simOut]
        exact ⟨s'', rfl, hb2⟩
      | incomplete =>
        simp only [hss, simOut]
    | crash k =>
      have hcx := sim_crash hs.sim hm hss x f
      simp only [hss, hcx, simOut]

theorem wb_pfold1 {elem : Parser α} {sep : Parser σ} {comb : α → σ → α → Option α}
    (he : WB elem) (hs : WB sep) (hcs : Consuming sep) :
    WB (pfold1 elem sep comb) := by
  refine ⟨⟨?_, ?_⟩, ?_, ?_⟩
  · intro s r s' h
    unfold pfold1 at h
    cases hel : elem s <;> simp only [hel] at h
    case ok a s1 =>
      have hgo := pfold1Go_tidy comb he.tidy hs.tidy (s1.input.length + 1) a s1
      rw [h] at hgo
      exact streamLe_trans hgo (tidy_ok he.tidy hel)
    case err e s1 => exact PResult.noConfusion h
    case crash k => exact PResult.noConfusion h
  · intro s e s' h
    unfold pfold1 at h
    cases hel : elem s <;> simp only [hel] at h
    case ok a s1 =>
      have hgo := pfold1Go_tidy comb he.tidy hs.tidy (s1.input.length + 1) a s1
      rw [h] at hgo
      exact streamLe_trans hgo (tidy_ok he.tidy hel)
    case err e1 s1 =>
      cases h
      exact tidy_err he.tidy hel
    case crash k => exact PResult.noConfusion h
  · apply sim_of_simOut
    intro s x f hm
    unfold pfold1
    cases hel : elem s with
    | ok a s1 =>
      have hex : elem (extendS x f s) = .ok a (extendS x f s1) := sim_ok he.sim hm hel x f
      simp only [hel, hex]
      have hinv : (extendS x f s1).input.length = s1.input.length + x.length := by
        rw [extendS_input, List.length_append]
      rw [hinv]
      exact pfold1Go_simOut he hs hcs x f (s1.input.length + 1)
        (s1.input.length + x.length + 1) a s1 ((tidy_ok he.tidy hel).1.trans hm)
        (by omega) (by omega)
    | err e s1 =>
      cases e with
      | backtrack =>
        obtain ⟨s'', h1, h2⟩ := sim_backtrack he.sim hm hel x f
        simp only [hel, h1, simOut]
        exact ⟨s'', rfl, h2⟩
      | cut =>
        obtain ⟨s'', h1, h2⟩ := sim_cut he.sim hm hel x f
        simp only [hel, h1, simOut]
        exact ⟨s'', rfl, h2⟩
      | incomplete =>
        simp only [hel, simOut]
    | crash k =>
      have hcx := sim_crash he.sim hm hel x f
      simp only [hel, hcx, simOut]
  · intro s hmf s' h
    unfold pfold1 at h
    cases hel : elem s <;> simp only [hel] at h
    case ok a s1 =>
      exact pfold1Go_noInc he hs (s1.input.length + 1) a s1
        ((tidy_ok he.tidy hel).1.trans hmf) s' h
    case err e s1 =>
      cases h
      exact he.noInc s hmf _ hel
    case crash k => exact PResult.noConfusion h

/-! ## WB for repeat(0..) -/

theorem prepeat0Go_tidy {elem : Parser α} (he : Tidy elem) :
    ∀ (m : Nat) (s : Stream),
      match prepeat0Go elem m s with
      | .ok _ s' => StreamLe s' s
      | .err _ s' => StreamLe s' s
      | .crash _ => True := by
  intro m
  induction m with
  | zero =>
    intro s
    simp only [prepeat0Go]
    exact streamLe_refl _
  | succ m ih =>
    intro s
    simp only [prepeat0Go]
    cases hel : elem s with
    | ok a s1 =>
      dsimp only []
      have hrec := ih s1
      cases hgo : prepeat0Go elem m s1 with
      | ok r s2 =>
        rw [hgo] at hrec
        exact streamLe_trans hrec (tidy_ok he hel)
      | err e s2 =>
        rw [hgo] at hrec
        exact streamLe_trans hrec (tidy_ok he hel)
      | crash k => trivial
    | err e s1 =>
      cases e with
      | backtrack => exact ⟨rfl, le_refl _⟩
      | cut => exact tidy_err he hel
      | incomplete => exact tidy_err he hel
    | crash k => trivial

theorem prepeat0Go_noInc {elem : Parser α} (he : WB elem) :
    ∀ (m : Nat) (s : Stream), s.more = false →
      ∀ s', prepeat0Go elem m s ≠ .err .incomplete s' := by
  intro m
  induction m with
  | zero =>
    intro s hmf s' h
    simp only [prepeat0Go] at h
    cases h
  | succ m ih =>
    intro s hmf s' h
    simp only [prepeat0Go] at h
    cases hel : elem s <;> simp only [hel] at h
    case ok a s1 =>
      exact ih s1 ((tidy_ok he.tidy hel).1.trans hmf) s' h
    case err e s1 =>
      cases e <;> simp only at h
      case backtrack => exact PResult.noConfusion h
      case cut => cases h
      case incomplete => exact he.noInc s hmf s1 hel
    case crash k => exact PResult.noConfusion h

theorem prepeat0Go_simOut {elem : Parser α} (he : WB elem) (hce : Consuming elem)
    (x : List Char) (f : Bool) :
    ∀ (m1 m2 : Nat) (s : Stream), s.more = true →
      s.input.length < m1 → s.input.length + x.length < m2 →
      simOut x f (prepeat0Go elem m1 s) (prepeat0Go elem m2 (extendS x f s)) := by
  intro m1
  induction m1 with
  | zero =>
    intro m2 s hm h1 h2
    omega
  | succ m ih =>
    intro m2 s hm h1 h2
    obtain ⟨m2p, rfl⟩ : ∃ t, m2 = t + 1 := ⟨m2 - 1, by omega⟩
    simp only [prepeat0Go]
    cases hel : elem s with
    | ok a s1 =>
      have hex : elem (extendS x f s) = .ok a (extendS x f s1) := sim_ok he.sim hm hel x f
      simp only [hel, hex]
      have hlt1 := hce s a s1 hel
      exact ih m2p s1 ((tidy_ok he.tidy hel).1.trans hm) (by omega) (by omega)
    | err e s1 =>
      cases e with
      | backtrack =>
        obtain ⟨s'', hb1, hb2⟩ := sim_backtrack he.sim hm hel x f
        simp only [hel, hb1, hb2, simOut]
        rfl
      | cut =>
        obtain ⟨s'', hb1, hb2⟩ := sim_cut he.sim hm hel x f
        simp only [hel, hb1, simOut]
        exact ⟨s'', rfl, hb2⟩
      | incomplete =>
        simp only [hel, simOut]
    | crash k =>
      have hcx := sim_crash he.sim hm hel x f
      simp only [hel, hcx, simOut]

theorem wb_prepeat0 {elem : Parser α} (he : WB elem) (hce : Consuming elem) :
    WB (prepeat0 elem) := by
  refine ⟨⟨?_, ?_⟩, ?_, ?_⟩
  · intro s r s' h
    unfold prepeat0 at h
    have hgo := prepeat0Go_tidy he.tidy (s.input.length + 1) s
    rw [h] at hgo
    exact hgo
  · intro s e s' h
    unfold prepeat0 at h
    have hgo := prepeat0Go_tidy he.tidy (s.input.length + 1) s
    rw [h] at hgo
    exact hgo
  · apply sim_of_simOut
    intro s x f hm
    unfold prepeat0
    have hinv : (extendS x f s).input.length = s.input.length + x.length := by
      rw [extendS_input, List.length_append]
    rw [hinv]
    exact prepeat0Go_simOut he hce x f (s.input.length + 1) (s.input.length + x.length + 1)
      s hm (by omega) (by omega)
  · intro s hmf s' h
    unfold prepeat0 at h
    exact prepeat0Go_noInc he (s.input.length + 1) s hmf s' h

/-! ## WB for the lexical grammar -/

theorem wb_psign : WB psign := by
  unfold psign
  exact wb_popt (wb_oneOf _)

theorem wb_pdigit1 : WB pdigit1 := wb_takeWhile1 _

theorem wb_recognizeFloatCore : WB recognizeFloatCore := by
  unfold recognizeFloatCore
  apply wb_pbind wb_psign
  intro _
  apply wb_pbind
  · apply wb_palt
    · apply wb_pbind wb_pdigit1
      intro _
      apply wb_pbind
      · apply wb_popt
        apply wb_pbind (wb_ptag _)
        intro _
        exact wb_pbind (wb_popt wb_pdigit1) (fun _ => wb_ppure _)
      · intro _
        exact wb_ppure _
    · apply wb_pbind (wb_ptag _)
      intro _
      exact wb_pbind wb_pdigit1 (fun _ => wb_ppure _)
  · intro _
    apply wb_pbind
    · apply wb_popt
      apply wb_pbind (wb_oneOf _)
      intro _
      exact wb_pbind wb_psign (fun _ => wb_pbind wb_pdigit1 (fun _ => wb_ppure _))
    · intro _
      exact wb_ppure _

theorem wb_recognizeFloatOrExceptions : WB recognizeFloatOrExceptions := by
  unfold recognizeFloatOrExceptions
  repeat
    first
    | exact wb_recognizeFloatCore
    | exact wb_psign
    | exact wb_pcaseless _
    | exact wb_ppure _
    | apply wb_palt
    | apply wb_pbind
    | intro _

theorem wb_number : WB number := by
  unfold number
  repeat
    first
    | exact wb_precognize wb_recognizeFloatOrExceptions
    | exact wb_ppure _
    | apply wb_pbind
    | intro _

theorem wb_stringP : WB stringP := by
  unfold stringP
  repeat
    first
    | exact wb_tagWith _ _
    | exact wb_takeWhile0 _
    | exact wb_ppure _
    | apply wb_pbind
    | intro _

theorem wb_booleanP : WB booleanP := by
  unfold booleanP
  repeat
    first
    | exact wb_ptag _
    | exact wb_ppure _
    | apply wb_palt
    | apply wb_pbind
    | intro _

theorem wb_nullP : WB nullP := by
  unfold nullP
  repeat
    first
    | exact wb_ptag _
    | exact wb_ppure _
    | apply wb_pbind
    | intro _

theorem wb_comparison_op : WB comparison_op := by
  unfold comparison_op
  repeat
    first
    | exact wb_opLit _
    | exact wb_opLitC _ _
    | apply wb_palt

theorem wb_spaced_comparison_op : WB spaced_comparison_op := by
  unfold spaced_comparison_op
  repeat
    first
    | exact wb_multispace0
    | exact wb_comparison_op
    | exact wb_ppure _
    | apply wb_pbind
    | intro _

/-! ## WB for the shared schema-aware parsers -/

theorem wb_choice : ∀ (l : List (List Char)), WB (choice l) := by
  intro l
  induction l with
  | nil => exact wb_pfail
  | cons c cs ih =>
    have heq : choice (c :: cs) = pbind (popt (pcaselessL c))
        (fun o => match o with
          | some _ => ppure c
          | none => choice cs) := by
      funext s
      cases hp : popt (pcaselessL c) s with
      | ok o s1 => cases o <;> simp only [choice, pbind, hp, ppure]
      | err e s1 => simp only [choice, pbind, hp]
      | crash k => simp only [choice, pbind, hp]
    rw [heq]
    refine wb_pbind (wb_popt (wb_pcaselessL c)) (fun o => ?_)
    cases o with
    | none => exact ih
    | some u => exact wb_ppure _

theorem wb_table_name : WB table_name := by
  unfold table_name
  exact wb_pbind wb_getSchema (fun schema => wb_choice _)

theorem wb_column_name : WB column_name := by
  unfold column_name
  exact wb_pbind wb_getSchema (fun schema => wb_choice _)

theorem wb_aliased_column : WB aliased_column := by
  unfold aliased_column
  exact wb_pbind wb_getEnv (fun env => wb_choice _)

theorem wb_column_in_table (table : List Char) : WB (column_in_table table) := by
  unfold column_in_table
  repeat
    first
    | exact wb_column_name
    | exact wb_getSchema
    | exact wb_ptag _
    | exact wb_alphanumeric1
    | exact wb_ppure _
    | exact wb_pfail
    | exact wb_pcrash _
    | apply wb_popt
    | apply wb_ite
    | apply wb_pbind
    | split
    | (beta_reduce; split)
    | intro _

theorem wb_column_in_index (idx : Nat) (cpt : ColumnParserType) :
    WB (column_in_index idx cpt) := by
  unfold column_in_index
  repeat
    first
    | exact wb_column_name
    | exact wb_aliased_column
    | exact wb_getEnv
    | exact wb_ppure _
    | exact wb_pfail
    | apply wb_ite
    | apply wb_pbind
    | split
    | (beta_reduce; split)
    | intro _

theorem wb_indexed_column (inputs : List Nat) : WB (indexed_column inputs) := by
  unfold indexed_column
  repeat
    first
    | exact wb_ptag _
    | exact wb_dec_uint
    | exact wb_ppure _
    | exact wb_pfail
    | exact wb_column_in_index _ _
    | apply wb_palt
    | apply wb_ite
    | apply wb_pbind
    | split
    | (beta_reduce; split)
    | intro _

theorem wb_sepCommaMs : WB sepCommaMs := by
  unfold sepCommaMs
  exact wb_pbind wb_multispace0 (fun _ => wb_ptag _)

theorem wb_singleId : WB singleId := by
  unfold singleId
  exact wb_pbind (wb_ptag _) (fun _ => wb_dec_uint)

theorem wb_input_ids : WB input_ids := by
  unfold input_ids
  repeat
    first
    | exact wb_ptag _
    | exact wb_ppure _
    | exact wb_pfail
    | exact wb_getEnv
    | exact wb_singleId
    | exact wb_sepCommaMs
    | exact consuming_sepCommaMs
    | apply wb_psepPair
    | apply wb_ite
    | apply wb_pbind
    | split
    | (beta_reduce; split)
    | intro _

theorem wb_predicate_wrapper {inner : Parser Predicate} (hi : WB inner) :
    WB (predicate_wrapper inner) := by
  unfold predicate_wrapper
  exact wb_pbind (wb_ptag _) (fun _ => wb_pbind hi (fun p =>
    wb_pbind (wb_ptag _) (fun _ => wb_ppure _)))

theorem wb_aggGo : ∀ (l : List Agg), WB (aggGo l) := by
  intro l
  induction l with
  | nil => exact wb_pfail
  | cons a rest ih =>
    have heq : aggGo (a :: rest) = pbind (popt (tagWith (· == ·) a.upper))
        (fun o => match o with
          | some _ => ppure a
          | none => aggGo rest) := by
      funext s
      cases hp : popt (tagWith (· == ·) a.upper) s with
      | ok o s1 => cases o <;> simp only [aggGo, pbind, hp, ppure]
      | err e s1 => simp only [aggGo, pbind, hp]
      | crash k => simp only [aggGo, pbind, hp]
    rw [heq]
    refine wb_pbind (wb_popt (wb_tagWith _ _)) (fun o => ?_)
    cases o with
    | none => exact ih
    | some u => exact wb_ppure _

theorem wb_agg : WB agg := wb_aggGo Agg.values

theorem wb_get_table_from_indexed_outputs (outs : List (Nat × List Char)) :
    WB (get_table_from_indexed_outputs outs) := by
  have heq : get_table_from_indexed_outputs outs = pbind getEnv (fun env =>
      match gtfioCols env.state outs with
      | none => pcrash .mapPanic
      | some none => pfail
      | some (some cs) => ppure (Table.indexed env.state.current_idx cs)) := by
    funext s
    cases hg : gtfioCols s.env.state outs with
    | none => simp only [get_table_from_indexed_outputs, pbind, getEnv, pcrash, hg]
    | some o =>
      cases o <;>
        simp only [get_table_from_indexed_outputs, pbind, getEnv, pfail, ppure, hg]
  rw [heq]
  refine wb_pbind wb_getEnv (fun env => ?_)
  cases gtfioCols env.state outs with
  | none => exact wb_pcrash _
  | some o =>
    cases o with
    | none => exact wb_pfail
    | some cs => exact wb_ppure _

theorem wb_get_output (inputs : List Nat) (outs : List (List Char)) :
    WB (get_output inputs outs) := by
  have heq : get_output inputs outs = pbind getEnv (fun env =>
      match resolveTables env.state.idx_to_table inputs with
      | none => pcrash .mapPanic
      | some prev =>
        match outs.mapM (getOutputOne prev) with
        | some cs => ppure (Table.indexed env.state.current_idx cs)
        | none => pfail) := by
    funext s
    cases hg : resolveTables s.env.state.idx_to_table inputs with
    | none => simp only [get_output, pbind, getEnv, pcrash, hg]
    | some prev =>
      cases hm : outs.mapM (getOutputOne prev) <;>
        simp only [get_output, pbind, getEnv, pfail, ppure, hg, hm]
  rw [heq]
  refine wb_pbind wb_getEnv (fun env => ?_)
  cases resolveTables env.state.idx_to_table inputs with
  | none => exact wb_pcrash _
  | some prev =>
    dsimp only []
    cases outs.mapM (getOutputOne prev) with
    | none => exact wb_pfail
    | some cs => exact wb_ppure _

theorem wb_order_by (input_idx : Nat) : WB (order_by input_idx) := by
  unfold order_by
  repeat
    first
    | exact wb_aliased_column
    | exact wb_column_name
    | exact wb_getEnv
    | exact wb_multispace0
    | exact wb_opLit _
    | exact wb_ppure _
    | exact wb_pfail
    | exact wb_pcrash _
    | apply wb_palt
    | apply wb_ite
    | apply wb_pbind
    | split
    | (beta_reduce; split)
    | intro _

theorem wb_insertTable (t : Table) : WB (insertTable t) := by
  unfold insertTable
  exact wb_modifyEnv _

theorem wb_distinctFlag : WB distinctFlag := by
  unfold distinctFlag
  exact wb_palt (wb_pbind (wb_ptag _) (fun _ => wb_ppure _)) (wb_ppure _)

theorem wb_predSep : WB predSep := by
  unfold predSep
  exact wb_palt (wb_opLit _) (wb_opLit _)

theorem wb_predicateOf {comp : Parser Comparison} (hc : WB comp) :
    WB (predicateOf comp) := by
  unfold predicateOf
  exact wb_pfold1 (wb_pbind hc (fun c => wb_ppure _)) wb_predSep consuming_predSep

/-! ## WB for the operation parsers: scan and filter -/

theorem wb_scan_column_in_table_of_type (typ : ColumnType) (table : List Char) : WB (scan_column_in_table_of_type typ table) := by
  unfold scan_column_in_table_of_type
  repeat
    first
    | exact wb_ptag _
    | exact wb_tagWith _ _
    | exact wb_pcaseless _
    | exact wb_pcaselessL _
    | exact wb_ppure _
    | exact wb_pfail
    | exact wb_pcrash _
    | exact wb_getEnv
    | exact wb_getSchema
    | exact wb_insertTable _
    | exact wb_multispace0
    | exact wb_alphanumeric1
    | exact wb_dec_uint
    | exact wb_number
    | exact wb_stringP
    | exact wb_booleanP
    | exact wb_nullP
    | exact wb_opLit _
    | exact wb_opLitC _ _
    | exact wb_spaced_comparison_op
    | exact wb_table_name
    | exact wb_column_name
    | exact wb_aliased_column
    | exact wb_column_in_table _
    | exact wb_column_in_index _ _
    | exact wb_indexed_column _
    | exact wb_input_ids
    | exact wb_distinctFlag
    | exact wb_sepCommaMs
    | exact wb_singleId
    | exact wb_agg
    | exact wb_get_table_from_indexed_outputs _
    | exact wb_get_output _ _
    | exact wb_order_by _
    | exact consuming_sepCommaMs
    | exact consuming_semiSep
    | exact consuming_predSep
    | apply wb_precognize
    | apply wb_popt
    | apply wb_palt
    | apply wb_ite
    | apply wb_psep1
    | apply wb_psepPair
    | apply wb_pbind
    | split
    | (beta_reduce; split)
    | intro _

theorem wb_scan_type_comparable (t : ColumnType) (table : List Char) : WB (scan_type_comparable t table) := by
  unfold scan_type_comparable
  repeat
    first
    | exact wb_scan_column_in_table_of_type _ _
    | exact wb_ptag _
    | exact wb_tagWith _ _
    | exact wb_pcaseless _
    | exact wb_pcaselessL _
    | exact wb_ppure _
    | exact wb_pfail
    | exact wb_pcrash _
    | exact wb_getEnv
    | exact wb_getSchema
    | exact wb_insertTable _
    | exact wb_multispace0
    | exact wb_alphanumeric1
    | exact wb_dec_uint
    | exact wb_number
    | exact wb_stringP
    | exact wb_booleanP
    | exact wb_nullP
    | exact wb_opLit _
    | exact wb_opLitC _ _
    | exact wb_spaced_comparison_op
    | exact wb_table_name
    | exact wb_column_name
    | exact wb_aliased_column
    | exact wb_column_in_table _
    | exact wb_column_in_index _ _
    | exact wb_indexed_column _
    | exact wb_input_ids
    | exact wb_distinctFlag
    | exact wb_sepCommaMs
    | exact wb_singleId
    | exact wb_agg
    | exact wb_get_table_from_indexed_outputs _
    | exact wb_get_output _ _
    | exact wb_order_by _
    | exact consuming_sepCommaMs
    | exact consuming_semiSep
    | exact consuming_predSep
    | apply wb_precognize
    | apply wb_popt
    | apply wb_palt
    | apply wb_ite
    | apply wb_psep1
    | apply wb_psepPair
    | apply wb_pbind
    | split
    | (beta_reduce; split)
    | intro _

theorem wb_scan_comparable (table : List Char) : WB (scan_comparable table) := by
  unfold scan_comparable
  repeat
    first
    | exact wb_ptag _
    | exact wb_tagWith _ _
    | exact wb_pcaseless _
    | exact wb_pcaselessL _
    | exact wb_ppure _
    | exact wb_pfail
    | exact wb_pcrash _
    | exact wb_getEnv
    | exact wb_getSchema
    | exact wb_insertTable _
    | exact wb_multispace0
    | exact wb_alphanumeric1
    | exact wb_dec_uint
    | exact wb_number
    | exact wb_stringP
    | exact wb_booleanP
    | exact wb_nullP
    | exact wb_opLit _
    | exact wb_opLitC _ _
    | exact wb_spaced_comparison_op
    | exact wb_table_name
    | exact wb_column_name
    | exact wb_aliased_column
    | exact wb_column_in_table _
    | exact wb_column_in_index _ _
    | exact wb_indexed_column _
    | exact wb_input_ids
    | exact wb_distinctFlag
    | exact wb_sepCommaMs
    | exact wb_singleId
    | exact wb_agg
    | exact wb_get_table_from_indexed_outputs _
    | exact wb_get_output _ _
    | exact wb_order_by _
    | exact consuming_sepCommaMs
    | exact consuming_semiSep
    | exact consuming_predSep
    | apply wb_precognize
    | apply wb_popt
    | apply wb_palt
    | apply wb_ite
    | apply wb_psep1
    | apply wb_psepPair
    | apply wb_pbind
    | split
    | (beta_reduce; split)
    | intro _

theorem wb_scan_comparison (twc : Bool) (table : List Char) : WB (scan_comparison twc table) := by
  unfold scan_comparison
  repeat
    first
    | exact wb_scan_type_comparable _ _
    | exact wb_scan_comparable _
    | exact wb_ptag _
    | exact wb_tagWith _ _
    | exact wb_pcaseless _
    | exact wb_pcaselessL _
    | exact wb_ppure _
    | exact wb_pfail
    | exact wb_pcrash _
    | exact wb_getEnv
    | exact wb_getSchema
    | exact wb_insertTable _
    | exact wb_multispace0
    | exact wb_alphanumeric1
    | exact wb_dec_uint
    | exact wb_number
    | exact wb_stringP
    | exact wb_booleanP
    | exact wb_nullP
    | exact wb_opLit _
    | exact wb_opLitC _ _
    | exact wb_spaced_comparison_op
    | exact wb_table_name
    | exact wb_column_name
    | exact wb_aliased_column
    | exact wb_column_in_table _
    | exact wb_column_in_index _ _
    | exact wb_indexed_column _
    | exact wb_input_ids
    | exact wb_distinctFlag
    | exact wb_sepCommaMs
    | exact wb_singleId
    | exact wb_agg
    | exact wb_get_table_from_indexed_outputs _
    | exact wb_get_output _ _
    | exact wb_order_by _
    | exact consuming_sepCommaMs
    | exact consuming_semiSep
    | exact consuming_predSep
    | apply wb_precognize
    | apply wb_popt
    | apply wb_palt
    | apply wb_ite
    | apply wb_psep1
    | apply wb_psepPair
    | apply wb_pbind
    | split
    | (beta_reduce; split)
    | intro _

theorem wb_scan (twc : Bool) : WB (scan twc) := by
  unfold scan
  repeat
    first
    | exact wb_predicate_wrapper (wb_predicateOf (wb_scan_comparison _ _))
    | exact wb_ptag _
    | exact wb_tagWith _ _
    | exact wb_pcaseless _
    | exact wb_pcaselessL _
    | exact wb_ppure _
    | exact wb_pfail
    | exact wb_pcrash _
    | exact wb_getEnv
    | exact wb_getSchema
    | exact wb_insertTable _
    | exact wb_multispace0
    | exact wb_alphanumeric1
    | exact wb_dec_uint
    | exact wb_number
    | exact wb_stringP
    | exact wb_booleanP
    | exact wb_nullP
    | exact wb_opLit _
    | exact wb_opLitC _ _
    | exact wb_spaced_comparison_op
    | exact wb_table_name
    | exact wb_column_name
    | exact wb_aliased_column
    | exact wb_column_in_table _
    | exact wb_column_in_index _ _
    | exact wb_indexed_column _
    | exact wb_input_ids
    | exact wb_distinctFlag
    | exact wb_sepCommaMs
    | exact wb_singleId
    | exact wb_agg
    | exact wb_get_table_from_indexed_outputs _
    | exact wb_get_output _ _
    | exact wb_order_by _
    | exact consuming_sepCommaMs
    | exact consuming_semiSep
    | exact consuming_predSep
    | apply wb_precognize
    | apply wb_popt
    | apply wb_palt
    | apply wb_ite
    | apply wb_psep1
    | apply wb_psepPair
    | apply wb_pbind
    | split
    | (beta_reduce; split)
    | intro _

theorem wb_filter_column_in_table_of_type (typ : ColumnType) (input_idx : Nat) : WB (filter_column_in_table_of_type typ input_idx) := by
  unfold filter_column_in_table_of_type
  repeat
    first
    | exact wb_ptag _
    | exact wb_tagWith _ _
    | exact wb_pcaseless _
    | exact wb_pcaselessL _
    | exact wb_ppure _
    | exact wb_pfail
    | exact wb_pcrash _
    | exact wb_getEnv
    | exact wb_getSchema
    | exact wb_insertTable _
    | exact wb_multispace0
    | exact wb_alphanumeric1
    | exact wb_dec_uint
    | exact wb_number
    | exact wb_stringP
    | exact wb_booleanP
    | exact wb_nullP
    | exact wb_opLit _
    | exact wb_opLitC _ _
    | exact wb_spaced_comparison_op
    | exact wb_table_name
    | exact wb_column_name
    | exact wb_aliased_column
    | exact wb_column_in_table _
    | exact wb_column_in_index _ _
    | exact wb_indexed_column _
    | exact wb_input_ids
    | exact wb_distinctFlag
    | exact wb_sepCommaMs
    | exact wb_singleId
    | exact wb_agg
    | exact wb_get_table_from_indexed_outputs _
    | exact wb_get_output _ _
    | exact wb_order_by _
    | exact consuming_sepCommaMs
    | exact consuming_semiSep
    | exact consuming_predSep
    | apply wb_precognize
    | apply wb_popt
    | apply wb_palt
    | apply wb_ite
    | apply wb_psep1
    | apply wb_psepPair
    | apply wb_pbind
    | split
    | (beta_reduce; split)
    | intro _

theorem wb_filter_type_comparable (t : ColumnType) (input_idx : Nat) : WB (filter_type_comparable t input_idx) := by
  unfold filter_type_comparable
  repeat
    first
    | exact wb_filter_column_in_table_of_type _ _
    | exact wb_ptag _
    | exact wb_tagWith _ _
    | exact wb_pcaseless _
    | exact wb_pcaselessL _
    | exact wb_ppure _
    | exact wb_pfail
    | exact wb_pcrash _
    | exact wb_getEnv
    | exact wb_getSchema
    | exact wb_insertTable _
    | exact wb_multispace0
    | exact wb_alphanumeric1
    | exact wb_dec_uint
    | exact wb_number
    | exact wb_stringP
    | exact wb_booleanP
    | exact wb_nullP
    | exact wb_opLit _
    | exact wb_opLitC _ _
    | exact wb_spaced_comparison_op
    | exact wb_table_name
    | exact wb_column_name
    | exact wb_aliased_column
    | exact wb_column_in_table _
    | exact wb_column_in_index _ _
    | exact wb_indexed_column _
    | exact wb_input_ids
    | exact wb_distinctFlag
    | exact wb_sepCommaMs
    | exact wb_singleId
    | exact wb_agg
    | exact wb_get_table_from_indexed_outputs _
    | exact wb_get_output _ _
    | exact wb_order_by _
    | exact consuming_sepCommaMs
    | exact consuming_semiSep
    | exact consuming_predSep
    | apply wb_precognize
    | apply wb_popt
    | apply wb_palt
    | apply wb_ite
    | apply wb_psep1
    | apply wb_psepPair
    | apply wb_pbind
    | split
    | (beta_reduce; split)
    | intro _

theorem wb_filter_comparable  : WB (filter_comparable) := by
  unfold filter_comparable
  repeat
    first
    | exact wb_ptag _
    | exact wb_tagWith _ _
    | exact wb_pcaseless _
    | exact wb_pcaselessL _
    | exact wb_ppure _
    | exact wb_pfail
    | exact wb_pcrash _
    | exact wb_getEnv
    | exact wb_getSchema
    | exact wb_insertTable _
    | exact wb_multispace0
    | exact wb_alphanumeric1
    | exact wb_dec_uint
    | exact wb_number
    | exact wb_stringP
    | exact wb_booleanP
    | exact wb_nullP
    | exact wb_opLit _
    | exact wb_opLitC _ _
    | exact wb_spaced_comparison_op
    | exact wb_table_name
    | exact wb_column_name
    | exact wb_aliased_column
    | exact wb_column_in_table _
    | exact wb_column_in_index _ _
    | exact wb_indexed_column _
    | exact wb_input_ids
    | exact wb_distinctFlag
    | exact wb_sepCommaMs
    | exact wb_singleId
    | exact wb_agg
    | exact wb_get_table_from_indexed_outputs _
    | exact wb_get_output _ _
    | exact wb_order_by _
    | exact consuming_sepCommaMs
    | exact consuming_semiSep
    | exact consuming_predSep
    | apply wb_precognize
    | apply wb_popt
    | apply wb_palt
    | apply wb_ite
    | apply wb_psep1
    | apply wb_psepPair
    | apply wb_pbind
    | split
    | (beta_reduce; split)
    | intro _

theorem wb_filter_comparison (twc : Bool) (input_idx : Nat) : WB (filter_comparison twc input_idx) := by
  unfold filter_comparison
  repeat
    first
    | exact wb_filter_type_comparable _ _
    | exact wb_filter_comparable
    | exact wb_ptag _
    | exact wb_tagWith _ _
    | exact wb_pcaseless _
    | exact wb_pcaselessL _
    | exact wb_ppure _
    | exact wb_pfail
    | exact wb_pcrash _
    | exact wb_getEnv
    | exact wb_getSchema
    | exact wb_insertTable _
    | exact wb_multispace0
    | exact wb_alphanumeric1
    | exact wb_dec_uint
    | exact wb_number
    | exact wb_stringP
    | exact wb_booleanP
    | exact wb_nullP
    | exact wb_opLit _
    | exact wb_opLitC _ _
    | exact wb_spaced_comparison_op
    | exact wb_table_name
    | exact wb_column_name
    | exact wb_aliased_column
    | exact wb_column_in_table _
    | exact wb_column_in_index _ _
    | exact wb_indexed_column _
    | exact wb_input_ids
    | exact wb_distinctFlag
    | exact wb_sepCommaMs
    | exact wb_singleId
    | exact wb_agg
    | exact wb_get_table_from_indexed_outputs _
    | exact wb_get_output _ _
    | exact wb_order_by _
    | exact consuming_sepCommaMs
    | exact consuming_semiSep
    | exact consuming_predSep
    | apply wb_precognize
    | apply wb_popt
    | apply wb_palt
    | apply wb_ite
    | apply wb_psep1
    | apply wb_psepPair
    | apply wb_pbind
    | split
    | (beta_reduce; split)
    | intro _

theorem wb_filter (twc : Bool) : WB (filter twc) := by
  unfold filter
  repeat
    first
    | exact wb_predicate_wrapper (wb_predicateOf (wb_filter_comparison _ _))
    | exact wb_ptag _
    | exact wb_tagWith _ _
    | exact wb_pcaseless _
    | exact wb_pcaselessL _
    | exact wb_ppure _
    | exact wb_pfail
    | exact wb_pcrash _
    | exact wb_getEnv
    | exact wb_getSchema
    | exact wb_insertTable _
    | exact wb_multispace0
    | exact wb_alphanumeric1
    | exact wb_dec_uint
    | exact wb_number
    | exact wb_stringP
    | exact wb_booleanP
    | exact wb_nullP
    | exact wb_opLit _
    | exact wb_opLitC _ _
    | exact wb_spaced_comparison_op
    | exact wb_table_name
    | exact wb_column_name
    | exact wb_aliased_column
    | exact wb_column_in_table _
    | exact wb_column_in_index _ _
    | exact wb_indexed_column _
    | exact wb_input_ids
    | exact wb_distinctFlag
    | exact wb_sepCommaMs
    | exact wb_singleId
    | exact wb_agg
    | exact wb_get_table_from_indexed_outputs _
    | exact wb_get_output _ _
    | exact wb_order_by _
    | exact consuming_sepCommaMs
    | exact consuming_semiSep
    | exact consuming_predSep
    | apply wb_precognize
    | apply wb_popt
    | apply wb_palt
    | apply wb_ite
    | apply wb_psep1
    | apply wb_psepPair
    | apply wb_pbind
    | split
    | (beta_reduce; split)
    | intro _

/-! ## WB for the remaining operation parsers -/

theorem wb_aliased_aggregate (input_idx : Nat) : WB (aliased_aggregate input_idx) := by
  unfold aliased_aggregate
  repeat
    first
    | exact wb_ptag _
    | exact wb_tagWith _ _
    | exact wb_pcaseless _
    | exact wb_pcaselessL _
    | exact wb_ppure _
    | exact wb_pfail
    | exact wb_pcrash _
    | exact wb_getEnv
    | exact wb_getSchema
    | exact wb_insertTable _
    | exact wb_multispace0
    | exact wb_alphanumeric1
    | exact wb_dec_uint
    | exact wb_number
    | exact wb_stringP
    | exact wb_booleanP
    | exact wb_nullP
    | exact wb_opLit _
    | exact wb_opLitC _ _
    | exact wb_spaced_comparison_op
    | exact wb_table_name
    | exact wb_column_name
    | exact wb_aliased_column
    | exact wb_column_in_table _
    | exact wb_column_in_index _ _
    | exact wb_indexed_column _
    | exact wb_input_ids
    | exact wb_distinctFlag
    | exact wb_sepCommaMs
    | exact wb_singleId
    | exact wb_agg
    | exact wb_get_table_from_indexed_outputs _
    | exact wb_get_output _ _
    | exact wb_order_by _
    | exact consuming_sepCommaMs
    | exact consuming_semiSep
    | exact consuming_predSep
    | apply wb_precognize
    | apply wb_popt
    | apply wb_palt
    | apply wb_ite
    | apply wb_psep1
    | apply wb_psepPair
    | apply wb_pbind
    | split
    | (beta_reduce; split)
    | intro _

theorem wb_group_by (input_idx : Nat) : WB (group_by input_idx) := by
  unfold group_by
  repeat
    first
    | exact wb_ptag _
    | exact wb_tagWith _ _
    | exact wb_pcaseless _
    | exact wb_pcaselessL _
    | exact wb_ppure _
    | exact wb_pfail
    | exact wb_pcrash _
    | exact wb_getEnv
    | exact wb_getSchema
    | exact wb_insertTable _
    | exact wb_multispace0
    | exact wb_alphanumeric1
    | exact wb_dec_uint
    | exact wb_number
    | exact wb_stringP
    | exact wb_booleanP
    | exact wb_nullP
    | exact wb_opLit _
    | exact wb_opLitC _ _
    | exact wb_spaced_comparison_op
    | exact wb_table_name
    | exact wb_column_name
    | exact wb_aliased_column
    | exact wb_column_in_table _
    | exact wb_column_in_index _ _
    | exact wb_indexed_column _
    | exact wb_input_ids
    | exact wb_distinctFlag
    | exact wb_sepCommaMs
    | exact wb_singleId
    | exact wb_agg
    | exact wb_get_table_from_indexed_outputs _
    | exact wb_get_output _ _
    | exact wb_order_by _
    | exact consuming_sepCommaMs
    | exact consuming_semiSep
    | exact consuming_predSep
    | apply wb_precognize
    | apply wb_popt
    | apply wb_palt
    | apply wb_ite
    | apply wb_psep1
    | apply wb_psepPair
    | apply wb_pbind
    | split
    | (beta_reduce; split)
    | intro _

theorem wb_aggOutputs (input_idx : Nat) : WB (aggOutputs input_idx) := by
  unfold aggOutputs
  repeat
    first
    | exact wb_aliased_aggregate _
    | exact wb_ptag _
    | exact wb_tagWith _ _
    | exact wb_pcaseless _
    | exact wb_pcaselessL _
    | exact wb_ppure _
    | exact wb_pfail
    | exact wb_pcrash _
    | exact wb_getEnv
    | exact wb_getSchema
    | exact wb_insertTable _
    | exact wb_multispace0
    | exact wb_alphanumeric1
    | exact wb_dec_uint
    | exact wb_number
    | exact wb_stringP
    | exact wb_booleanP
    | exact wb_nullP
    | exact wb_opLit _
    | exact wb_opLitC _ _
    | exact wb_spaced_comparison_op
    | exact wb_table_name
    | exact wb_column_name
    | exact wb_aliased_column
    | exact wb_column_in_table _
    | exact wb_column_in_index _ _
    | exact wb_indexed_column _
    | exact wb_input_ids
    | exact wb_distinctFlag
    | exact wb_sepCommaMs
    | exact wb_singleId
    | exact wb_agg
    | exact wb_get_table_from_indexed_outputs _
    | exact wb_get_output _ _
    | exact wb_order_by _
    | exact consuming_sepCommaMs
    | exact consuming_semiSep
    | exact consuming_predSep
    | apply wb_precognize
    | apply wb_popt
    | apply wb_palt
    | apply wb_ite
    | apply wb_psep1
    | apply wb_psepPair
    | apply wb_pbind
    | split
    | (beta_reduce; split)
    | intro _

theorem wb_aggregate  : WB (aggregate) := by
  unfold aggregate
  repeat
    first
    | exact wb_group_by _
    | exact wb_aggOutputs _
    | exact wb_ptag _
    | exact wb_tagWith _ _
    | exact wb_pcaseless _
    | exact wb_pcaselessL _
    | exact wb_ppure _
    | exact wb_pfail
    | exact wb_pcrash _
    | exact wb_getEnv
    | exact wb_getSchema
    | exact wb_insertTable _
    | exact wb_multispace0
    | exact wb_alphanumeric1
    | exact wb_dec_uint
    | exact wb_number
    | exact wb_stringP
    | exact wb_booleanP
    | exact wb_nullP
    | exact wb_opLit _
    | exact wb_opLitC _ _
    | exact wb_spaced_comparison_op
    | exact wb_table_name
    | exact wb_column_name
    | exact wb_aliased_column
    | exact wb_column_in_table _
    | exact wb_column_in_index _ _
    | exact wb_indexed_column _
    | exact wb_input_ids
    | exact wb_distinctFlag
    | exact wb_sepCommaMs
    | exact wb_singleId
    | exact wb_agg
    | exact wb_get_table_from_indexed_outputs _
    | exact wb_get_output _ _
    | exact wb_order_by _
    | exact consuming_sepCommaMs
    | exact consuming_semiSep
    | exact consuming_predSep
    | apply wb_precognize
    | apply wb_popt
    | apply wb_palt
    | apply wb_ite
    | apply wb_psep1
    | apply wb_psepPair
    | apply wb_pbind
    | split
    | (beta_reduce; split)
    | intro _

theorem wb_top  : WB (top) := by
  unfold top
  repeat
    first
    | exact wb_ptag _
    | exact wb_tagWith _ _
    | exact wb_pcaseless _
    | exact wb_pcaselessL _
    | exact wb_ppure _
    | exact wb_pfail
    | exact wb_pcrash _
    | exact wb_getEnv
    | exact wb_getSchema
    | exact wb_insertTable _
    | exact wb_multispace0
    | exact wb_alphanumeric1
    | exact wb_dec_uint
    | exact wb_number
    | exact wb_stringP
    | exact wb_booleanP
    | exact wb_nullP
    | exact wb_opLit _
    | exact wb_opLitC _ _
    | exact wb_spaced_comparison_op
    | exact wb_table_name
    | exact wb_column_name
    | exact wb_aliased_column
    | exact wb_column_in_table _
    | exact wb_column_in_index _ _
    | exact wb_indexed_column _
    | exact wb_input_ids
    | exact wb_distinctFlag
    | exact wb_sepCommaMs
    | exact wb_singleId
    | exact wb_agg
    | exact wb_get_table_from_indexed_outputs _
    | exact wb_get_output _ _
    | exact wb_order_by _
    | exact consuming_sepCommaMs
    | exact consuming_semiSep
    | exact consuming_predSep
    | apply wb_precognize
    | apply wb_popt
    | apply wb_palt
    | apply wb_ite
    | apply wb_psep1
    | apply wb_psepPair
    | apply wb_pbind
    | split
    | (beta_reduce; split)
    | intro _

theorem wb_top_sort  : WB (top_sort) := by
  unfold top_sort
  repeat
    first
    | exact wb_ptag _
    | exact wb_tagWith _ _
    | exact wb_pcaseless _
    | exact wb_pcaselessL _
    | exact wb_ppure _
    | exact wb_pfail
    | exact wb_pcrash _
    | exact wb_getEnv
    | exact wb_getSchema
    | exact wb_insertTable _
    | exact wb_multispace0
    | exact wb_alphanumeric1
    | exact wb_dec_uint
    | exact wb_number
    | exact wb_stringP
    | exact wb_booleanP
    | exact wb_nullP
    | exact wb_opLit _
    | exact wb_opLitC _ _
    | exact wb_spaced_comparison_op
    | exact wb_table_name
    | exact wb_column_name
    | exact wb_aliased_column
    | exact wb_column_in_table _
    | exact wb_column_in_index _ _
    | exact wb_indexed_column _
    | exact wb_input_ids
    | exact wb_distinctFlag
    | exact wb_sepCommaMs
    | exact wb_singleId
    | exact wb_agg
    | exact wb_get_table_from_indexed_outputs _
    | exact wb_get_output _ _
    | exact wb_order_by _
    | exact consuming_sepCommaMs
    | exact consuming_semiSep
    | exact consuming_predSep
    | apply wb_precognize
    | apply wb_popt
    | apply wb_palt
    | apply wb_ite
    | apply wb_psep1
    | apply wb_psepPair
    | apply wb_pbind
    | split
    | (beta_reduce; split)
    | intro _

theorem wb_sort  : WB (sort) := by
  unfold sort
  repeat
    first
    | exact wb_ptag _
    | exact wb_tagWith _ _
    | exact wb_pcaseless _
    | exact wb_pcaselessL _
    | exact wb_ppure _
    | exact wb_pfail
    | exact wb_pcrash _
    | exact wb_getEnv
    | exact wb_getSchema
    | exact wb_insertTable _
    | exact wb_multispace0
    | exact wb_alphanumeric1
    | exact wb_dec_uint
    | exact wb_number
    | exact wb_stringP
    | exact wb_booleanP
    | exact wb_nullP
    | exact wb_opLit _
    | exact wb_opLitC _ _
    | exact wb_spaced_comparison_op
    | exact wb_table_name
    | exact wb_column_name
    | exact wb_aliased_column
    | exact wb_column_in_table _
    | exact wb_column_in_index _ _
    | exact wb_indexed_column _
    | exact wb_input_ids
    | exact wb_distinctFlag
    | exact wb_sepCommaMs
    | exact wb_singleId
    | exact wb_agg
    | exact wb_get_table_from_indexed_outputs _
    | exact wb_get_output _ _
    | exact wb_order_by _
    | exact consuming_sepCommaMs
    | exact consuming_semiSep
    | exact consuming_predSep
    | apply wb_precognize
    | apply wb_popt
    | apply wb_palt
    | apply wb_ite
    | apply wb_psep1
    | apply wb_psepPair
    | apply wb_pbind
    | split
    | (beta_reduce; split)
    | intro _

theorem wb_union  : WB (union) := by
  unfold union
  repeat
    first
    | exact wb_ptag _
    | exact wb_tagWith _ _
    | exact wb_pcaseless _
    | exact wb_pcaselessL _
    | exact wb_ppure _
    | exact wb_pfail
    | exact wb_pcrash _
    | exact wb_getEnv
    | exact wb_getSchema
    | exact wb_insertTable _
    | exact wb_multispace0
    | exact wb_alphanumeric1
    | exact wb_dec_uint
    | exact wb_number
    | exact wb_stringP
    | exact wb_booleanP
    | exact wb_nullP
    | exact wb_opLit _
    | exact wb_opLitC _ _
    | exact wb_spaced_comparison_op
    | exact wb_table_name
    | exact wb_column_name
    | exact wb_aliased_column
    | exact wb_column_in_table _
    | exact wb_column_in_index _ _
    | exact wb_indexed_column _
    | exact wb_input_ids
    | exact wb_distinctFlag
    | exact wb_sepCommaMs
    | exact wb_singleId
    | exact wb_agg
    | exact wb_get_table_from_indexed_outputs _
    | exact wb_get_output _ _
    | exact wb_order_by _
    | exact consuming_sepCommaMs
    | exact consuming_semiSep
    | exact consuming_predSep
    | apply wb_precognize
    | apply wb_popt
    | apply wb_palt
    | apply wb_ite
    | apply wb_psep1
    | apply wb_psepPair
    | apply wb_pbind
    | split
    | (beta_reduce; split)
    | intro _

theorem wb_join_column_in_index_of_type (typ : ColumnType) (input_idxs : List Nat) : WB (join_column_in_index_of_type typ input_idxs) := by
  unfold join_column_in_index_of_type
  repeat
    first
    | exact wb_ptag _
    | exact wb_tagWith _ _
    | exact wb_pcaseless _
    | exact wb_pcaselessL _
    | exact wb_ppure _
    | exact wb_pfail
    | exact wb_pcrash _
    | exact wb_getEnv
    | exact wb_getSchema
    | exact wb_insertTable _
    | exact wb_multispace0
    | exact wb_alphanumeric1
    | exact wb_dec_uint
    | exact wb_number
    | exact wb_stringP
    | exact wb_booleanP
    | exact wb_nullP
    | exact wb_opLit _
    | exact wb_opLitC _ _
    | exact wb_spaced_comparison_op
    | exact wb_table_name
    | exact wb_column_name
    | exact wb_aliased_column
    | exact wb_column_in_table _
    | exact wb_column_in_index _ _
    | exact wb_indexed_column _
    | exact wb_input_ids
    | exact wb_distinctFlag
    | exact wb_sepCommaMs
    | exact wb_singleId
    | exact wb_agg
    | exact wb_get_table_from_indexed_outputs _
    | exact wb_get_output _ _
    | exact wb_order_by _
    | exact consuming_sepCommaMs
    | exact consuming_semiSep
    | exact consuming_predSep
    | apply wb_precognize
    | apply wb_popt
    | apply wb_palt
    | apply wb_ite
    | apply wb_psep1
    | apply wb_psepPair
    | apply wb_pbind
    | split
    | (beta_reduce; split)
    | intro _

theorem wb_join_type_comparable (input_idxs : List Nat) (t : ColumnType) : WB (join_type_comparable input_idxs t) := by
  unfold join_type_comparable
  repeat
    first
    | exact wb_join_column_in_index_of_type _ _
    | exact wb_ptag _
    | exact wb_tagWith _ _
    | exact wb_pcaseless _
    | exact wb_pcaselessL _
    | exact wb_ppure _
    | exact wb_pfail
    | exact wb_pcrash _
    | exact wb_getEnv
    | exact wb_getSchema
    | exact wb_insertTable _
    | exact wb_multispace0
    | exact wb_alphanumeric1
    | exact wb_dec_uint
    | exact wb_number
    | exact wb_stringP
    | exact wb_booleanP
    | exact wb_nullP
    | exact wb_opLit _
    | exact wb_opLitC _ _
    | exact wb_spaced_comparison_op
    | exact wb_table_name
    | exact wb_column_name
    | exact wb_aliased_column
    | exact wb_column_in_table _
    | exact wb_column_in_index _ _
    | exact wb_indexed_column _
    | exact wb_input_ids
    | exact wb_distinctFlag
    | exact wb_sepCommaMs
    | exact wb_singleId
    | exact wb_agg
    | exact wb_get_table_from_indexed_outputs _
    | exact wb_get_output _ _
    | exact wb_order_by _
    | exact consuming_sepCommaMs
    | exact consuming_semiSep
    | exact consuming_predSep
    | apply wb_precognize
    | apply wb_popt
    | apply wb_palt
    | apply wb_ite
    | apply wb_psep1
    | apply wb_psepPair
    | apply wb_pbind
    | split
    | (beta_reduce; split)
    | intro _

theorem wb_comparable_key_and_type (input_idxs : List Nat) (lhs_type : ColumnType) (lhs_table : List Char) (decider : KeyType → List Char → Bool) : WB (comparable_key_and_type input_idxs lhs_type lhs_table decider) := by
  unfold comparable_key_and_type
  repeat
    first
    | exact wb_ptag _
    | exact wb_tagWith _ _
    | exact wb_pcaseless _
    | exact wb_pcaselessL _
    | exact wb_ppure _
    | exact wb_pfail
    | exact wb_pcrash _
    | exact wb_getEnv
    | exact wb_getSchema
    | exact wb_insertTable _
    | exact wb_multispace0
    | exact wb_alphanumeric1
    | exact wb_dec_uint
    | exact wb_number
    | exact wb_stringP
    | exact wb_booleanP
    | exact wb_nullP
    | exact wb_opLit _
    | exact wb_opLitC _ _
    | exact wb_spaced_comparison_op
    | exact wb_table_name
    | exact wb_column_name
    | exact wb_aliased_column
    | exact wb_column_in_table _
    | exact wb_column_in_index _ _
    | exact wb_indexed_column _
    | exact wb_input_ids
    | exact wb_distinctFlag
    | exact wb_sepCommaMs
    | exact wb_singleId
    | exact wb_agg
    | exact wb_get_table_from_indexed_outputs _
    | exact wb_get_output _ _
    | exact wb_order_by _
    | exact consuming_sepCommaMs
    | exact consuming_semiSep
    | exact consuming_predSep
    | apply wb_precognize
    | apply wb_popt
    | apply wb_palt
    | apply wb_ite
    | apply wb_psep1
    | apply wb_psepPair
    | apply wb_pbind
    | split
    | (beta_reduce; split)
    | intro _

theorem wb_comparableKeyP1 (input_idxs : List Nat) (lhs_type : ColumnType) :
    ∀ (keys : List KeyType), WB (comparableKeyP1 input_idxs lhs_type keys) := by
  intro keys
  induction keys with
  | nil => exact wb_pfail
  | cons key rest ih =>
    have heq : comparableKeyP1 input_idxs lhs_type (key :: rest) =
        pbind (match key with
          | .primaryKey table =>
            popt (comparable_key_and_type input_idxs lhs_type table is_foreign_key_of)
          | .foreignKey table =>
            popt (palt
              (comparable_key_and_type input_idxs lhs_type table is_foreign_key_of)
              (comparable_key_and_type input_idxs lhs_type table is_primary_key_of)))
        (fun o => match o with
          | some c => ppure c
          | none => comparableKeyP1 input_idxs lhs_type rest) := by
      funext s
      cases key with
      | primaryKey table =>
        cases hp : popt (comparable_key_and_type input_idxs lhs_type table
            is_foreign_key_of) s with
        | ok o s1 => cases o <;> simp only [comparableKeyP1, pbind, hp, ppure]
        | err e s1 => simp only [comparableKeyP1, pbind, hp]
        | crash k => simp only [comparableKeyP1, pbind, hp]
      | foreignKey table =>
        cases hp : popt (palt
            (comparable_key_and_type input_idxs lhs_type table is_foreign_key_of)
            (comparable_key_and_type input_idxs lhs_type table is_primary_key_of)) s with
        | ok o s1 => cases o <;> simp only [comparableKeyP1, pbind, hp, ppure]
        | err e s1 => simp only [comparableKeyP1, pbind, hp]
        | crash k => simp only [comparableKeyP1, pbind, hp]
    rw [heq]
    refine wb_pbind ?_ (fun o => ?_)
    · cases key with
      | primaryKey table => exact wb_popt (wb_comparable_key_and_type _ _ _ _)
      | foreignKey table =>
        exact wb_popt (wb_palt (wb_comparable_key_and_type _ _ _ _)
          (wb_comparable_key_and_type _ _ _ _))
    · cases o with
      | none => exact ih
      | some c => exact wb_ppure _

theorem wb_comparableKeyP2 (input_idxs : List Nat) (lhs_type : ColumnType) : WB (comparableKeyP2 input_idxs lhs_type) := by
  unfold comparableKeyP2
  repeat
    first
    | exact wb_ptag _
    | exact wb_tagWith _ _
    | exact wb_pcaseless _
    | exact wb_pcaselessL _
    | exact wb_ppure _
    | exact wb_pfail
    | exact wb_pcrash _
    | exact wb_getEnv
    | exact wb_getSchema
    | exact wb_insertTable _
    | exact wb_multispace0
    | exact wb_alphanumeric1
    | exact wb_dec_uint
    | exact wb_number
    | exact wb_stringP
    | exact wb_booleanP
    | exact wb_nullP
    | exact wb_opLit _
    | exact wb_opLitC _ _
    | exact wb_spaced_comparison_op
    | exact wb_table_name
    | exact wb_column_name
    | exact wb_aliased_column
    | exact wb_column_in_table _
    | exact wb_column_in_index _ _
    | exact wb_indexed_column _
    | exact wb_input_ids
    | exact wb_distinctFlag
    | exact wb_sepCommaMs
    | exact wb_singleId
    | exact wb_agg
    | exact wb_get_table_from_indexed_outputs _
    | exact wb_get_output _ _
    | exact wb_order_by _
    | exact consuming_sepCommaMs
    | exact consuming_semiSep
    | exact consuming_predSep
    | apply wb_precognize
    | apply wb_popt
    | apply wb_palt
    | apply wb_ite
    | apply wb_psep1
    | apply wb_psepPair
    | apply wb_pbind
    | split
    | (beta_reduce; split)
    | intro _

theorem wb_comparable_key (input_idxs : List Nat) (lhs_type : ColumnType)
    (lhs_keys : List KeyType) : WB (comparable_key input_idxs lhs_type lhs_keys) := by
  unfold comparable_key
  exact wb_palt (wb_comparableKeyP1 _ _ _) (wb_comparableKeyP2 _ _)

theorem wb_join_comparable (input_idxs : List Nat) : WB (join_comparable input_idxs) := by
  unfold join_comparable
  repeat
    first
    | exact wb_ptag _
    | exact wb_tagWith _ _
    | exact wb_pcaseless _
    | exact wb_pcaselessL _
    | exact wb_ppure _
    | exact wb_pfail
    | exact wb_pcrash _
    | exact wb_getEnv
    | exact wb_getSchema
    | exact wb_insertTable _
    | exact wb_multispace0
    | exact wb_alphanumeric1
    | exact wb_dec_uint
    | exact wb_number
    | exact wb_stringP
    | exact wb_booleanP
    | exact wb_nullP
    | exact wb_opLit _
    | exact wb_opLitC _ _
    | exact wb_spaced_comparison_op
    | exact wb_table_name
    | exact wb_column_name
    | exact wb_aliased_column
    | exact wb_column_in_table _
    | exact wb_column_in_index _ _
    | exact wb_indexed_column _
    | exact wb_input_ids
    | exact wb_distinctFlag
    | exact wb_sepCommaMs
    | exact wb_singleId
    | exact wb_agg
    | exact wb_get_table_from_indexed_outputs _
    | exact wb_get_output _ _
    | exact wb_order_by _
    | exact consuming_sepCommaMs
    | exact consuming_semiSep
    | exact consuming_predSep
    | apply wb_precognize
    | apply wb_popt
    | apply wb_palt
    | apply wb_ite
    | apply wb_psep1
    | apply wb_psepPair
    | apply wb_pbind
    | split
    | (beta_reduce; split)
    | intro _

theorem wb_join_comparison (twc : Bool) (input_idxs : List Nat) : WB (join_comparison twc input_idxs) := by
  unfold join_comparison
  repeat
    first
    | exact wb_comparable_key _ _ _
    | exact wb_join_type_comparable _ _
    | exact wb_join_comparable _
    | exact wb_ptag _
    | exact wb_tagWith _ _
    | exact wb_pcaseless _
    | exact wb_pcaselessL _
    | exact wb_ppure _
    | exact wb_pfail
    | exact wb_pcrash _
    | exact wb_getEnv
    | exact wb_getSchema
    | exact wb_insertTable _
    | exact wb_multispace0
    | exact wb_alphanumeric1
    | exact wb_dec_uint
    | exact wb_number
    | exact wb_stringP
    | exact wb_booleanP
    | exact wb_nullP
    | exact wb_opLit _
    | exact wb_opLitC _ _
    | exact wb_spaced_comparison_op
    | exact wb_table_name
    | exact wb_column_name
    | exact wb_aliased_column
    | exact wb_column_in_table _
    | exact wb_column_in_index _ _
    | exact wb_indexed_column _
    | exact wb_input_ids
    | exact wb_distinctFlag
    | exact wb_sepCommaMs
    | exact wb_singleId
    | exact wb_agg
    | exact wb_get_table_from_indexed_outputs _
    | exact wb_get_output _ _
    | exact wb_order_by _
    | exact consuming_sepCommaMs
    | exact consuming_semiSep
    | exact consuming_predSep
    | apply wb_precognize
    | apply wb_popt
    | apply wb_palt
    | apply wb_ite
    | apply wb_psep1
    | apply wb_psepPair
    | apply wb_pbind
    | split
    | (beta_reduce; split)
    | intro _

theorem wb_join (twc : Bool) : WB (join twc) := by
  unfold join
  repeat
    first
    | exact wb_predicate_wrapper (wb_predicateOf (wb_join_comparison _ _))
    | exact wb_ptag _
    | exact wb_tagWith _ _
    | exact wb_pcaseless _
    | exact wb_pcaselessL _
    | exact wb_ppure _
    | exact wb_pfail
    | exact wb_pcrash _
    | exact wb_getEnv
    | exact wb_getSchema
    | exact wb_insertTable _
    | exact wb_multispace0
    | exact wb_alphanumeric1
    | exact wb_dec_uint
    | exact wb_number
    | exact wb_stringP
    | exact wb_booleanP
    | exact wb_nullP
    | exact wb_opLit _
    | exact wb_opLitC _ _
    | exact wb_spaced_comparison_op
    | exact wb_table_name
    | exact wb_column_name
    | exact wb_aliased_column
    | exact wb_column_in_table _
    | exact wb_column_in_index _ _
    | exact wb_indexed_column _
    | exact wb_input_ids
    | exact wb_distinctFlag
    | exact wb_sepCommaMs
    | exact wb_singleId
    | exact wb_agg
    | exact wb_get_table_from_indexed_outputs _
    | exact wb_get_output _ _
    | exact wb_order_by _
    | exact consuming_sepCommaMs
    | exact consuming_semiSep
    | exact consuming_predSep
    | apply wb_precognize
    | apply wb_popt
    | apply wb_palt
    | apply wb_ite
    | apply wb_psep1
    | apply wb_psepPair
    | apply wb_pbind
    | split
    | (beta_reduce; split)
    | intro _

theorem wb_intersect (twc : Bool) : WB (intersect twc) := by
  unfold intersect
  repeat
    first
    | exact wb_predicate_wrapper (wb_predicateOf (wb_join_comparison _ _))
    | exact wb_ptag _
    | exact wb_tagWith _ _
    | exact wb_pcaseless _
    | exact wb_pcaselessL _
    | exact wb_ppure _
    | exact wb_pfail
    | exact wb_pcrash _
    | exact wb_getEnv
    | exact wb_getSchema
    | exact wb_insertTable _
    | exact wb_multispace0
    | exact wb_alphanumeric1
    | exact wb_dec_uint
    | exact wb_number
    | exact wb_stringP
    | exact wb_booleanP
    | exact wb_nullP
    | exact wb_opLit _
    | exact wb_opLitC _ _
    | exact wb_spaced_comparison_op
    | exact wb_table_name
    | exact wb_column_name
    | exact wb_aliased_column
    | exact wb_column_in_table _
    | exact wb_column_in_index _ _
    | exact wb_indexed_column _
    | exact wb_input_ids
    | exact wb_distinctFlag
    | exact wb_sepCommaMs
    | exact wb_singleId
    | exact wb_agg
    | exact wb_get_table_from_indexed_outputs _
    | exact wb_get_output _ _
    | exact wb_order_by _
    | exact consuming_sepCommaMs
    | exact consuming_semiSep
    | exact consuming_predSep
    | apply wb_precognize
    | apply wb_popt
    | apply wb_palt
    | apply wb_ite
    | apply wb_psep1
    | apply wb_psepPair
    | apply wb_pbind
    | split
    | (beta_reduce; split)
    | intro _

theorem wb_except_column_in_index_of_type (typ : ColumnType) (input_idxs : List Nat) : WB (except_column_in_index_of_type typ input_idxs) := by
  unfold except_column_in_index_of_type
  repeat
    first
    | exact wb_ptag _
    | exact wb_tagWith _ _
    | exact wb_pcaseless _
    | exact wb_pcaselessL _
    | exact wb_ppure _
    | exact wb_pfail
    | exact wb_pcrash _
    | exact wb_getEnv
    | exact wb_getSchema
    | exact wb_insertTable _
    | exact wb_multispace0
    | exact wb_alphanumeric1
    | exact wb_dec_uint
    | exact wb_number
    | exact wb_stringP
    | exact wb_booleanP
    | exact wb_nullP
    | exact wb_opLit _
    | exact wb_opLitC _ _
    | exact wb_spaced_comparison_op
    | exact wb_table_name
    | exact wb_column_name
    | exact wb_aliased_column
    | exact wb_column_in_table _
    | exact wb_column_in_index _ _
    | exact wb_indexed_column _
    | exact wb_input_ids
    | exact wb_distinctFlag
    | exact wb_sepCommaMs
    | exact wb_singleId
    | exact wb_agg
    | exact wb_get_table_from_indexed_outputs _
    | exact wb_get_output _ _
    | exact wb_order_by _
    | exact consuming_sepCommaMs
    | exact consuming_semiSep
    | exact consuming_predSep
    | apply wb_precognize
    | apply wb_popt
    | apply wb_palt
    | apply wb_ite
    | apply wb_psep1
    | apply wb_psepPair
    | apply wb_pbind
    | split
    | (beta_reduce; split)
    | intro _

theorem wb_except_type_comparable (input_idxs : List Nat) (t : ColumnType) : WB (except_type_comparable input_idxs t) := by
  unfold except_type_comparable
  repeat
    first
    | exact wb_except_column_in_index_of_type _ _
    | exact wb_ptag _
    | exact wb_tagWith _ _
    | exact wb_pcaseless _
    | exact wb_pcaselessL _
    | exact wb_ppure _
    | exact wb_pfail
    | exact wb_pcrash _
    | exact wb_getEnv
    | exact wb_getSchema
    | exact wb_insertTable _
    | exact wb_multispace0
    | exact wb_alphanumeric1
    | exact wb_dec_uint
    | exact wb_number
    | exact wb_stringP
    | exact wb_booleanP
    | exact wb_nullP
    | exact wb_opLit _
    | exact wb_opLitC _ _
    | exact wb_spaced_comparison_op
    | exact wb_table_name
    | exact wb_column_name
    | exact wb_aliased_column
    | exact wb_column_in_table _
    | exact wb_column_in_index _ _
    | exact wb_indexed_column _
    | exact wb_input_ids
    | exact wb_distinctFlag
    | exact wb_sepCommaMs
    | exact wb_singleId
    | exact wb_agg
    | exact wb_get_table_from_indexed_outputs _
    | exact wb_get_output _ _
    | exact wb_order_by _
    | exact consuming_sepCommaMs
    | exact consuming_semiSep
    | exact consuming_predSep
    | apply wb_precognize
    | apply wb_popt
    | apply wb_palt
    | apply wb_ite
    | apply wb_psep1
    | apply wb_psepPair
    | apply wb_pbind
    | split
    | (beta_reduce; split)
    | intro _

theorem wb_except_comparable (input_idxs : List Nat) : WB (except_comparable input_idxs) := by
  unfold except_comparable
  repeat
    first
    | exact wb_ptag _
    | exact wb_tagWith _ _
    | exact wb_pcaseless _
    | exact wb_pcaselessL _
    | exact wb_ppure _
    | exact wb_pfail
    | exact wb_pcrash _
    | exact wb_getEnv
    | exact wb_getSchema
    | exact wb_insertTable _
    | exact wb_multispace0
    | exact wb_alphanumeric1
    | exact wb_dec_uint
    | exact wb_number
    | exact wb_stringP
    | exact wb_booleanP
    | exact wb_nullP
    | exact wb_opLit _
    | exact wb_opLitC _ _
    | exact wb_spaced_comparison_op
    | exact wb_table_name
    | exact wb_column_name
    | exact wb_aliased_column
    | exact wb_column_in_table _
    | exact wb_column_in_index _ _
    | exact wb_indexed_column _
    | exact wb_input_ids
    | exact wb_distinctFlag
    | exact wb_sepCommaMs
    | exact wb_singleId
    | exact wb_agg
    | exact wb_get_table_from_indexed_outputs _
    | exact wb_get_output _ _
    | exact wb_order_by _
    | exact consuming_sepCommaMs
    | exact consuming_semiSep
    | exact consuming_predSep
    | apply wb_precognize
    | apply wb_popt
    | apply wb_palt
    | apply wb_ite
    | apply wb_psep1
    | apply wb_psepPair
    | apply wb_pbind
    | split
    | (beta_reduce; split)
    | intro _

theorem wb_except_comparison (twc : Bool) (input_idxs : List Nat) : WB (except_comparison twc input_idxs) := by
  unfold except_comparison
  repeat
    first
    | exact wb_except_type_comparable _ _
    | exact wb_except_comparable _
    | exact wb_ptag _
    | exact wb_tagWith _ _
    | exact wb_pcaseless _
    | exact wb_pcaselessL _
    | exact wb_ppure _
    | exact wb_pfail
    | exact wb_pcrash _
    | exact wb_getEnv
    | exact wb_getSchema
    | exact wb_insertTable _
    | exact wb_multispace0
    | exact wb_alphanumeric1
    | exact wb_dec_uint
    | exact wb_number
    | exact wb_stringP
    | exact wb_booleanP
    | exact wb_nullP
    | exact wb_opLit _
    | exact wb_opLitC _ _
    | exact wb_spaced_comparison_op
    | exact wb_table_name
    | exact wb_column_name
    | exact wb_aliased_column
    | exact wb_column_in_table _
    | exact wb_column_in_index _ _
    | exact wb_indexed_column _
    | exact wb_input_ids
    | exact wb_distinctFlag
    | exact wb_sepCommaMs
    | exact wb_singleId
    | exact wb_agg
    | exact wb_get_table_from_indexed_outputs _
    | exact wb_get_output _ _
    | exact wb_order_by _
    | exact consuming_sepCommaMs
    | exact consuming_semiSep
    | exact consuming_predSep
    | apply wb_precognize
    | apply wb_popt
    | apply wb_palt
    | apply wb_ite
    | apply wb_psep1
    | apply wb_psepPair
    | apply wb_pbind
    | split
    | (beta_reduce; split)
    | intro _

theorem wb_except_columns (input_idxs : List Nat) : WB (except_columns input_idxs) := by
  unfold except_columns
  repeat
    first
    | exact wb_ptag _
    | exact wb_tagWith _ _
    | exact wb_pcaseless _
    | exact wb_pcaselessL _
    | exact wb_ppure _
    | exact wb_pfail
    | exact wb_pcrash _
    | exact wb_getEnv
    | exact wb_getSchema
    | exact wb_insertTable _
    | exact wb_multispace0
    | exact wb_alphanumeric1
    | exact wb_dec_uint
    | exact wb_number
    | exact wb_stringP
    | exact wb_booleanP
    | exact wb_nullP
    | exact wb_opLit _
    | exact wb_opLitC _ _
    | exact wb_spaced_comparison_op
    | exact wb_table_name
    | exact wb_column_name
    | exact wb_aliased_column
    | exact wb_column_in_table _
    | exact wb_column_in_index _ _
    | exact wb_indexed_column _
    | exact wb_input_ids
    | exact wb_distinctFlag
    | exact wb_sepCommaMs
    | exact wb_singleId
    | exact wb_agg
    | exact wb_get_table_from_indexed_outputs _
    | exact wb_get_output _ _
    | exact wb_order_by _
    | exact consuming_sepCommaMs
    | exact consuming_semiSep
    | exact consuming_predSep
    | apply wb_precognize
    | apply wb_popt
    | apply wb_palt
    | apply wb_ite
    | apply wb_psep1
    | apply wb_psepPair
    | apply wb_pbind
    | split
    | (beta_reduce; split)
    | intro _

theorem wb_except (twc : Bool) : WB (except twc) := by
  unfold except
  repeat
    first
    | exact wb_predicate_wrapper (wb_predicateOf (wb_except_comparison _ _))
    | exact wb_except_columns _
    | exact wb_ptag _
    | exact wb_tagWith _ _
    | exact wb_pcaseless _
    | exact wb_pcaselessL _
    | exact wb_ppure _
    | exact wb_pfail
    | exact wb_pcrash _
    | exact wb_getEnv
    | exact wb_getSchema
    | exact wb_insertTable _
    | exact wb_multispace0
    | exact wb_alphanumeric1
    | exact wb_dec_uint
    | exact wb_number
    | exact wb_stringP
    | exact wb_booleanP
    | exact wb_nullP
    | exact wb_opLit _
    | exact wb_opLitC _ _
    | exact wb_spaced_comparison_op
    | exact wb_table_name
    | exact wb_column_name
    | exact wb_aliased_column
    | exact wb_column_in_table _
    | exact wb_column_in_index _ _
    | exact wb_indexed_column _
    | exact wb_input_ids
    | exact wb_distinctFlag
    | exact wb_sepCommaMs
    | exact wb_singleId
    | exact wb_agg
    | exact wb_get_table_from_indexed_outputs _
    | exact wb_get_output _ _
    | exact wb_order_by _
    | exact consuming_sepCommaMs
    | exact consuming_semiSep
    | exact consuming_predSep
    | apply wb_precognize
    | apply wb_popt
    | apply wb_palt
    | apply wb_ite
    | apply wb_psep1
    | apply wb_psepPair
    | apply wb_pbind
    | split
    | (beta_reduce; split)
    | intro _

/-! ## WB for the line, program and prefixed-program parsers -/

theorem wb_opAlt (twc : Bool) : WB (opAlt twc) := by
  unfold opAlt
  repeat
    first
    | exact wb_scan _
    | exact wb_aggregate
    | exact wb_filter _
    | exact wb_top
    | exact wb_sort
    | exact wb_top_sort
    | exact wb_join _
    | exact wb_intersect _
    | exact wb_except _
    | exact wb_union
    | apply wb_palt

theorem wb_bumpIdx : WB bumpIdx := by
  unfold bumpIdx
  exact wb_modifyEnv _

theorem wb_addSeen (k : Nat) : WB (addSeen k) := by
  unfold addSeen
  exact wb_modifyEnv _

theorem wb_qpl_line (twc : Bool) : WB (qpl_line twc) := by
  unfold qpl_line
  repeat
    first
    | exact wb_getEnv
    | exact wb_tagWith _ _
    | exact wb_bumpIdx
    | exact wb_opAlt _
    | exact wb_addSeen _
    | exact wb_ppure _
    | apply wb_pbind
    | intro _

theorem wb_qpl (twc : Bool) : WB (qpl twc) := by
  unfold qpl
  repeat
    first
    | exact wb_qpl_line _
    | exact wb_ptag _
    | exact wb_peof
    | exact wb_ppure _
    | exact consuming_semiSep
    | apply wb_psep1
    | apply wb_pbind
    | intro _

theorem wb_special_token : WB special_token := by
  unfold special_token
  repeat
    first
    | exact wb_ptag _
    | exact wb_opLit _
    | apply wb_palt
    | apply wb_pbind
    | intro _

theorem wb_schemaGo : ∀ (l : List (List Char × SqlSchema)), WB (schemaGo l) := by
  intro l
  induction l with
  | nil => exact wb_pfail
  | cons dbs rest ih =>
    have heq : schemaGo (dbs :: rest) = pbind (popt (pcaselessL dbs.1))
        (fun o => match o with
          | some _ => ppure dbs.2
          | none => schemaGo rest) := by
      funext s
      cases hp : popt (pcaselessL dbs.1) s with
      | ok o s1 => cases o <;> simp only [schemaGo, pbind, hp, ppure]
      | err e s1 => simp only [schemaGo, pbind, hp]
      | crash k => simp only [schemaGo, pbind, hp]
    rw [heq]
    refine wb_pbind (wb_popt (wb_pcaselessL _)) (fun o => ?_)
    cases o with
    | none => exact ih
    | some u => exact wb_ppure _

theorem wb_schemaP (schemas : List (List Char × SqlSchema)) : WB (schemaP schemas) := by
  unfold schemaP
  exact wb_schemaGo _

theorem wb_prefixed_qpl (schemas : List (List Char × SqlSchema)) (twc : Bool) :
    WB (prefixed_qpl schemas twc) := by
  unfold prefixed_qpl
  repeat
    first
    | exact wb_multispace0
    | exact wb_special_token
    | exact consuming_special_token
    | exact wb_schemaP _
    | exact wb_modifyEnv _
    | exact wb_ptag _
    | exact wb_qpl _
    | apply wb_prepeat0
    | apply wb_pbind
    | intro _

/-- C2: completeness monotonicity — if the full text with completion flag true
classifies `Complete`, then any strict prefix fed with completion flag false
classifies `Partial` or `Complete`, never `Failure`: success and definite
failure of the parser are sealed under extension of a partial stream, so a
prefix of a successful parse cannot fail definitely. -/
theorem claim2_completeness_monotonicity (schemas : List (List Char × SqlSchema))
    (twc : Bool) (p x : List Char) (hx : x ≠ [])
    (hc : feedClassify schemas twc (p ++ x) true = some .complete) :
    feedClassify schemas twc p false = some .partialRes ∨
    feedClassify schemas twc p false = some .complete := by
  have hwb := wb_prefixed_qpl schemas twc
  have hm : (Stream.mk p (!false) freshEnv).more = true := rfl
  have hkey : (Stream.mk (p ++ x) (!true) freshEnv) =
      extendS x false (Stream.mk p (!false) freshEnv) := rfl
  unfold feedClassify feedRun at hc ⊢
  rw [hkey] at hc
  cases hr : prefixed_qpl schemas twc (Stream.mk p (!false) freshEnv) with
  | ok r s' =>
    right
    rfl
  | err e s' =>
    cases e with
    | incomplete =>
      left
      rfl
    | backtrack =>
      obtain ⟨s'', h1, h2⟩ := sim_backtrack hwb.sim hm hr x false
      simp only [h1] at hc
      exact absurd hc (by decide)
    | cut =>
      obtain ⟨s'', h1, h2⟩ := sim_cut hwb.sim hm hr x false
      simp only [h1] at hc
      exact absurd hc (by decide)
  | crash k =>
    have h1 := sim_crash hwb.sim hm hr x false
    simp only [h1] at hc
    exact Option.noConfusion hc

theorem claim2_witness :
    feedClassify [(("concert_singer").toList, concert_singer)] true
        (("concert_singer | #1 = Scan Tab").toList) false = some .partialRes ∨
    feedClassify [(("concert_singer").toList, concert_singer)] true
        (("concert_singer | #1 = Scan Tab").toList) false = some .complete :=
  claim2_completeness_monotonicity [(("concert_singer").toList, concert_singer)] true
    (("concert_singer | #1 = Scan Tab").toList)
    (("le [ singer ] Output [ Name ]").toList)
    (by decide)
    (by decide!)

/-- C9: the validation endpoint completes the stream before parsing, so the
parse never reports `Incomplete` (a `Partial` outcome is impossible, which
settles that arm of the mapping vacuously); it returns `Valid` exactly when
the prefixed parse succeeds, and every `Invalid` it produces carries the
reason string "Failed to parse" — no other reason string is ever produced. -/
theorem claim9_validation_mapping (schemas : List (List Char × SqlSchema)) (twc : Bool)
    (q : List Char) :
    (∀ s', validateRun schemas twc q ≠ .err .incomplete s') ∧
    (validate_qpl schemas twc q = some .valid ↔
      isOkRes (validateRun schemas twc q) = true) ∧
    (∀ r, validate_qpl schemas twc q = some (.invalid r) →
      r = ("Failed to parse").toList) := by
  refine ⟨?_, ?_, ?_⟩
  · intro s' h
    exact (wb_prefixed_qpl schemas twc).noInc (Stream.mk q false freshEnv) rfl s' h
  · unfold validate_qpl
    cases hr : validateRun schemas twc q with
    | ok r s' => exact ⟨fun _ => rfl, fun _ => rfl⟩
    | err e s' =>
      exact ⟨fun h => ValidationResult.noConfusion (Option.some.inj h),
        fun h => Bool.noConfusion h⟩
    | crash k =>
      exact ⟨fun h => Option.noConfusion h, fun h => Bool.noConfusion h⟩
  · intro r h
    unfold validate_qpl at h
    cases hr : validateRun schemas twc q <;> simp only [hr] at h
    case ok r1 s' => exact ValidationResult.noConfusion (Option.some.inj h)
    case err e s' => exact (ValidationResult.invalid.inj (Option.some.inj h)).symm
    case crash k => exact Option.noConfusion h

theorem claim9_witness :
    validateRun ([] : List (List Char × SqlSchema)) true ([] : List Char) ≠
      .err .incomplete (Stream.mk [] false freshEnv) :=
  (claim9_validation_mapping [] true []).1 (Stream.mk [] false freshEnv)

/-! ## Environment preservation: primitives and closure -/

theorem envPres_intro {p : Parser α}
    (hok : ∀ s a s', p s = .ok a s' → s'.env = s.env)
    (herr : ∀ s e s', p s = .err e s' → s'.env = s.env) : EnvPres p := by
  intro s
  cases hp : p s with
  | ok a s' => exact hok s a s' hp
  | err e s' => exact herr s e s' hp
  | crash k => trivial

theorem presis_of_envPres {p : Parser α} (h : EnvPres p) : PresIS p := by
  intro s
  have hs := h s
  cases hp : p s <;> simp only [hp] at hs
  case ok a s' => exact ⟨by rw [hs], by rw [hs]⟩
  case err e s' => exact ⟨by rw [hs], by rw [hs]⟩
  case crash k => trivial

theorem envPres_tagWith (eqc : Char → Char → Bool) (lit : List Char) :
    EnvPres (tagWith eqc lit) := by
  refine envPres_intro ?_ ?_ <;> intro s
  · intro a s' h
    unfold tagWith at h
    cases ht : tagCmp eqc lit s.input <;> simp only [ht] at h
    case hit rest => cases h; rfl
    case short => split at h <;> exact PResult.noConfusion h
    case miss => exact PResult.noConfusion h
  · intro e s' h
    unfold tagWith at h
    cases ht : tagCmp eqc lit s.input <;> simp only [ht] at h
    case hit rest => exact PResult.noConfusion h
    case short => split at h <;> · cases h; rfl
    case miss => cases h; rfl

theorem envPres_peof : EnvPres peof := by
  refine envPres_intro ?_ ?_ <;> intro s
  · intro a s' h
    unfold peof at h
    cases hi : s.input <;> simp only [hi] at h
    case nil =>
      split at h
      · exact PResult.noConfusion h
      · cases h; rfl
    case cons c cs => exact PResult.noConfusion h
  · intro e s' h
    unfold peof at h
    cases hi : s.input <;> simp only [hi] at h
    case nil =>
      split at h
      · cases h; rfl
      · exact PResult.noConfusion h
    case cons c cs => cases h; rfl

theorem envPres_takeWhile0 (pred : Char → Bool) : EnvPres (takeWhile0 pred) := by
  refine envPres_intro ?_ ?_ <;> intro s
  · intro a s' h
    simp only [takeWhile0] at h
    split at h
    · exact PResult.noConfusion h
    · cases h; rfl
  · intro e s' h
    simp only [takeWhile0] at h
    split at h
    · cases h; rfl
    · exact PResult.noConfusion h

theorem envPres_takeWhile1 (pred : Char → Bool) : EnvPres (takeWhile1 pred) := by
  refine envPres_intro ?_ ?_ <;> intro s
  · intro a s' h
    simp only [takeWhile1] at h
    split at h
    · split at h <;> exact PResult.noConfusion h
    · split at h
      · exact PResult.noConfusion h
      · cases h; rfl
  · intro e s' h
    simp only [takeWhile1] at h
    split at h
    · split at h <;> · cases h; rfl
    · split at h
      · cases h; rfl
      · exact PResult.noConfusion h

theorem envPres_oneOf (cs : List Char) : EnvPres (oneOf cs) := by
  refine envPres_intro ?_ ?_ <;> intro s
  · intro a s' h
    unfold oneOf at h
    cases hi : s.input <;> simp only [hi] at h
    case nil => split at h <;> exact PResult.noConfusion h
    case cons c rest =>
      split at h
      · cases h; rfl
      · exact PResult.noConfusion h
  · intro e s' h
    unfold oneOf at h
    cases hi : s.input <;> simp only [hi] at h
    case nil => split at h <;> · cases h; rfl
    case cons c rest =>
      split at h
      · exact PResult.noConfusion h
      · cases h; rfl

theorem envPres_dec_uint : EnvPres dec_uint := by
  refine envPres_intro ?_ ?_ <;> intro s
  · intro a s' h
    unfold dec_uint at h
    cases hi : s.input <;> simp only [hi] at h
    case nil => split at h <;> exact PResult.noConfusion h
    case cons c cs =>
      by_cases hd : c.isDigit = true
      · rw [if_pos hd] at h
        cases hdd : decDigits (c.toNat - 48) cs with
        | none =>
          simp only [hdd] at h
          exact PResult.noConfusion h
        | some pr =>
          obtain ⟨n, rest⟩ := pr
          simp only [hdd] at h
          split at h
          · exact PResult.noConfusion h
          · cases h; rfl
      · rw [if_neg hd] at h
        exact PResult.noConfusion h
  · intro e s' h
    unfold dec_uint at h
    cases hi : s.input <;> simp only [hi] at h
    case nil => split at h <;> · cases h; rfl
    case cons c cs =>
      by_cases hd : c.isDigit = true
      · rw [if_pos hd] at h
        cases hdd : decDigits (c.toNat - 48) cs with
        | none =>
          simp only [hdd] at h
          cases h; rfl
        | some pr =>
          obtain ⟨n, rest⟩ := pr
          simp only [hdd] at h
          split at h
          · cases h; rfl
          · exact PResult.noConfusion h
      · rw [if_neg hd] at h
        cases h; rfl

theorem presis_tagWith (eqc : Char → Char → Bool) (lit : List Char) :
    PresIS (tagWith eqc lit) := presis_of_envPres (envPres_tagWith eqc lit)

theorem presis_ptag (lit : String) : PresIS (ptag lit) := presis_tagWith _ _

theorem presis_pcaselessL (lit : List Char) : PresIS (pcaselessL lit) := presis_tagWith _ _

theorem presis_pcaseless (lit : String) : PresIS (pcaseless lit) := presis_tagWith _ _

theorem presis_peof : PresIS peof := presis_of_envPres envPres_peof

theorem presis_takeWhile0 (pred : Char → Bool) : PresIS (takeWhile0 pred) :=
  presis_of_envPres (envPres_takeWhile0 pred)

theorem presis_takeWhile1 (pred : Char → Bool) : PresIS (takeWhile1 pred) :=
  presis_of_envPres (envPres_takeWhile1 pred)

theorem presis_multispace0 : PresIS multispace0 := presis_takeWhile0 _

theorem presis_alphanumeric1 : PresIS alphanumeric1 := presis_takeWhile1 _

theorem presis_oneOf (cs : List Char) : PresIS (oneOf cs) :=
  presis_of_envPres (envPres_oneOf cs)

theorem presis_dec_uint : PresIS dec_uint := presis_of_envPres envPres_dec_uint

theorem presis_ppure (a : α) : PresIS (ppure a) := by
  intro s
  exact ⟨rfl, rfl⟩

theorem presis_pfail : PresIS (pfail : Parser α) := by
  intro s
  exact ⟨rfl, rfl⟩

theorem presis_pcrash (k : CrashKind) : PresIS (pcrash k : Parser α) := by
  intro s
  trivial

theorem presis_getEnv : PresIS getEnv := by
  intro s
  exact ⟨rfl, rfl⟩

theorem presis_getSchema : PresIS getSchema := by
  intro s
  unfold getSchema
  cases s.env.schema with
  | none => trivial
  | some sch => exact ⟨rfl, rfl⟩

theorem presis_insertTable (t : Table) : PresIS (insertTable t) := by
  intro s
  exact ⟨rfl, rfl⟩

theorem presis_pbind {p : Parser α} {f : α → Parser β}
    (hp : PresIS p) (hf : ∀ a, PresIS (f a)) : PresIS (pbind p f) := by
  intro s
  have hps := hp s
  cases hph : p s with
  | ok a s1 =>
    simp only [hph] at hps
    simp only [pbind, hph]
    have hfs := hf a s1
    cases hfh : f a s1 with
    | ok b s2 =>
      rw [hfh] at hfs
      exact ⟨hfs.1.trans hps.1, hfs.2.trans hps.2⟩
    | err e s2 =>
      rw [hfh] at hfs
      exact ⟨hfs.1.trans hps.1, hfs.2.trans hps.2⟩
    | crash k => trivial
  | err e s1 =>
    simp only [hph] at hps
    simp only [pbind, hph]
    exact hps
  | crash k => simp only [pbind, hph]

theorem presis_palt {p q : Parser α} (hp : PresIS p) (hq : PresIS q) :
    PresIS (palt p q) := by
  intro s
  have hps := hp s
  cases hph : p s with
  | ok a s1 =>
    simp only [hph] at hps
    simp only [palt, hph]
    exact hps
  | err e s1 =>
    simp only [hph] at hps
    cases e with
    | backtrack =>
      simp only [palt, hph]
      have hqs := hq { s with env := s1.env }
      cases hqh : q { s with env := s1.env } with
      | ok b s2 =>
        rw [hqh] at hqs
        exact ⟨hqs.1.trans hps.1, hqs.2.trans hps.2⟩
      | err e2 s2 =>
        rw [hqh] at hqs
        exact ⟨hqs.1.trans hps.1, hqs.2.trans hps.2⟩
      | crash k => trivial
    | cut =>
      simp only [palt, hph]
      exact hps
    | incomplete =>
      simp only [palt, hph]
      exact hps
  | crash k => simp only [palt, hph]

theorem presis_popt {p : Parser α} (hp : PresIS p) : PresIS (popt p) := by
  intro s
  have hps := hp s
  cases hph : p s with
  | ok a s1 =>
    simp only [hph] at hps
    simp only [popt, hph]
    exact hps
  | err e s1 =>
    simp only [hph] at hps
    cases e with
    | backtrack =>
      simp only [popt, hph]
      exact hps
    | cut =>
      simp only [popt, hph]
      exact hps
    | incomplete =>
      simp only [popt, hph]
      exact hps
  | crash k => simp only [popt, hph]

theorem presis_ite {c : Prop} [Decidable c] {p q : Parser α}
    (hp : PresIS p) (hq : PresIS q) : PresIS (if c then p else q) := by
  by_cases hc : c
  · rw [if_pos hc]; exact hp
  · rw [if_neg hc]; exact hq

theorem presis_precognize {p : Parser α} (hp : PresIS p) : PresIS (precognize p) := by
  intro s
  have hps := hp s
  cases hph : p s with
  | ok a s1 =>
    simp only [hph] at hps
    simp only [precognize, hph]
    exact hps
  | err e s1 =>
    simp only [hph] at hps
    simp only [precognize, hph]
    exact hps
  | crash k => simp only [precognize, hph]

/-! ## PresIS for the loops -/

theorem psep1Go_presis {elem : Parser α} {sep : Parser σ}
    (he : PresIS elem) (hs : PresIS sep) :
    ∀ (m : Nat) (acc : List α) (s : Stream),
      match psep1Go elem sep m acc s with
      | .ok _ s' => s'.env.state.current_idx = s.env.state.current_idx ∧
          s'.env.state.seen = s.env.state.seen
      | .err _ s' => s'.env.state.current_idx = s.env.state.current_idx ∧
          s'.env.state.seen = s.env.state.seen
      | .crash _ => True := by
  intro m
  induction m with
  | zero =>
    intro acc s
    simp only [psep1Go]
    refine ⟨?_, ?_⟩ <;> trivial
  | succ m ih =>
    intro acc s
    simp only [psep1Go]
    have hss0 := hs s
    cases hss : sep s with
    | ok o s1 =>
      simp only [hss] at hss0
      dsimp only []
      have hel0 := he s1
      cases hel : elem s1 with
      | ok a s2 =>
        simp only [hel] at hel0
        dsimp only []
        have hrec := ih (a :: acc) s2
        cases hgo : psep1Go elem sep m (a :: acc) s2 with
        | ok r s3 =>
          rw [hgo] at hrec
          exact ⟨hrec.1.trans (hel0.1.trans hss0.1), hrec.2.trans (hel0.2.trans hss0.2)⟩
        | err e s3 =>
          rw [hgo] at hrec
          exact ⟨hrec.1.trans (hel0.1.trans hss0.1), hrec.2.trans (hel0.2.trans hss0.2)⟩
        | crash k => trivial
      | err e s2 =>
        simp only [hel] at hel0
        cases e with
        | backtrack => exact ⟨hel0.1.trans hss0.1, hel0.2.trans hss0.2⟩
        | cut => exact ⟨hel0.1.trans hss0.1, hel0.2.trans hss0.2⟩
        | incomplete => exact ⟨hel0.1.trans hss0.1, hel0.2.trans hss0.2⟩
      | crash k => trivial
    | err e s1 =>
      simp only [hss] at hss0
      cases e with
      | backtrack => exact hss0
      | cut => exact hss0
      | incomplete => exact hss0
    | crash k => trivial

theorem presis_psep1 {elem : Parser α} {sep : Parser σ}
    (he : PresIS elem) (hs : PresIS sep) : PresIS (psep1 elem sep) := by
  intro s
  have hel0 := he s
  cases hel : elem s with
  | ok a s1 =>
    simp only [hel] at hel0
    simp only [psep1, hel]
    have hgo := psep1Go_presis he hs (s1.input.length + 1) [a] s1
    cases hgoh : psep1Go elem sep (s1.input.length + 1) [a] s1 with
    | ok r s2 =>
      rw [hgoh] at hgo
      exact ⟨hgo.1.trans hel0.1, hgo.2.trans hel0.2⟩
    | err e s2 =>
      rw [hgoh] at hgo
      exact ⟨hgo.1.trans hel0.1, hgo.2.trans hel0.2⟩
    | crash k => trivial
  | err e s1 =>
    simp only [hel] at hel0
    simp only [psep1, hel]
    exact hel0
  | crash k => simp only [psep1, hel]

theorem pfold1Go_presis {elem : Parser α} {sep : Parser σ}
    (comb : α → σ → α → Option α) (he : PresIS elem) (hs : PresIS sep) :
    ∀ (m : Nat) (acc : α) (s : Stream),
      match pfold1Go elem sep comb m acc s with
      | .ok _ s' => s'.env.state.current_idx = s.env.state.current_idx ∧
          s'.env.state.seen = s.env.state.seen
      | .err _ s' => s'.env.state.current_idx = s.env.state.current_idx ∧
          s'.env.state.seen = s.env.state.seen
      | .crash _ => True := by
  intro m
  induction m with
  | zero =>
    intro acc s
    simp only [pfold1Go]
    refine ⟨?_, ?_⟩ <;> trivial
  | succ m ih =>
    intro acc s
    simp only [pfold1Go]
    have hss0 := hs s
    cases hss : sep s with
    | ok o s1 =>
      simp only [hss] at hss0
      dsimp only []
      have hel0 := he s1
      cases hel : elem s1 with
      | ok a s2 =>
        simp only [hel] at hel0
        dsimp only []
        cases hcb : comb acc o a with
        | none => trivial
        | some acc2 =>
          dsimp only []
          have hrec := ih acc2 s2
          cases hgo : pfold1Go elem sep comb m acc2 s2 with
          | ok r s3 =>
            rw [hgo] at hrec
            exact ⟨hrec.1.trans (hel0.1.trans hss0.1), hrec.2.trans (hel0.2.trans hss0.2)⟩
          | err e s3 =>
            rw [hgo] at hrec
            exact ⟨hrec.1.trans (hel0.1.trans hss0.1), hrec.2.trans (hel0.2.trans hss0.2)⟩
          | crash k => trivial
      | err e s2 =>
        simp only [hel] at hel0
        cases e with
        | backtrack => exact ⟨hel0.1.trans hss0.1, hel0.2.trans hss0.2⟩
        | cut => exact ⟨hel0.1.trans hss0.1, hel0.2.trans hss0.2⟩
        | incomplete => exact ⟨hel0.1.trans hss0.1, hel0.2.trans hss0.2⟩
      | crash k => trivial
    | err e s1 =>
      simp only [hss] at hss0
      cases e with
      | backtrack => exact hss0
      | cut => exact hss0
      | incomplete => exact hss0
    | crash k => trivial

theorem presis_pfold1 {elem : Parser α} {sep : Parser σ}
    {comb : α → σ → α → Option α} (he : PresIS elem) (hs : PresIS sep) :
    PresIS (pfold1 elem sep comb) := by
  intro s
  have hel0 := he s
  cases hel : elem s with
  | ok a s1 =>
    simp only [hel] at hel0
    simp only [pfold1, hel]
    have hgo := pfold1Go_presis comb he hs (s1.input.length + 1) a s1
    cases hgoh : pfold1Go elem sep comb (s1.input.length + 1) a s1 with
    | ok r s2 =>
      rw [hgoh] at hgo
      exact ⟨hgo.1.trans hel0.1, hgo.2.trans hel0.2⟩
    | err e s2 =>
      rw [hgoh] at hgo
      exact ⟨hgo.1.trans hel0.1, hgo.2.trans hel0.2⟩
    | crash k => trivial
  | err e s1 =>
    simp only [hel] at hel0
    simp only [pfold1, hel]
    exact hel0
  | crash k => simp only [pfold1, hel]

theorem presis_psepPair {elem : Parser α} {sep : Parser σ}
    (he : PresIS elem) (hs : PresIS sep) : PresIS (psepPair elem sep) := by
  rw [psepPair_eq]
  exact presis_pbind he (fun a => presis_palt
    (presis_pbind hs (fun _ => presis_pbind he (fun b => presis_ppure _)))
    (presis_ppure _))

/-! ## PresIS for the shared grammar parsers -/

theorem presis_psign : PresIS psign := by
  unfold psign
  exact presis_popt (presis_oneOf _)

theorem presis_pdigit1 : PresIS pdigit1 := presis_takeWhile1 _

theorem presis_recognizeFloatCore  : PresIS (recognizeFloatCore) := by
  unfold recognizeFloatCore
  repeat
    first
    | exact presis_psign
    | exact presis_pdigit1
    | exact presis_ppure _
    | exact presis_pfail
    | exact presis_pcrash _
    | exact presis_ptag _
    | exact presis_tagWith _ _
    | exact presis_pcaseless _
    | exact presis_pcaselessL _
    | exact presis_getEnv
    | exact presis_getSchema
    | exact presis_multispace0
    | exact presis_alphanumeric1
    | exact presis_takeWhile0 _
    | exact presis_takeWhile1 _
    | exact presis_dec_uint
    | exact presis_oneOf _
    | apply presis_precognize
    | apply presis_popt
    | apply presis_palt
    | apply presis_ite
    | apply presis_pbind
    | split
    | (beta_reduce; split)
    | intro _
theorem presis_recognizeFloatOrExceptions  : PresIS (recognizeFloatOrExceptions) := by
  unfold recognizeFloatOrExceptions
  repeat
    first
    | exact presis_recognizeFloatCore
    | exact presis_psign
    | exact presis_ppure _
    | exact presis_pfail
    | exact presis_pcrash _
    | exact presis_ptag _
    | exact presis_tagWith _ _
    | exact presis_pcaseless _
    | exact presis_pcaselessL _
    | exact presis_getEnv
    | exact presis_getSchema
    | exact presis_multispace0
    | exact presis_alphanumeric1
    | exact presis_takeWhile0 _
    | exact presis_takeWhile1 _
    | exact presis_dec_uint
    | exact presis_oneOf _
    | apply presis_precognize
    | apply presis_popt
    | apply presis_palt
    | apply presis_ite
    | apply presis_pbind
    | split
    | (beta_reduce; split)
    | intro _
theorem presis_number  : PresIS (number) := by
  unfold number
  repeat
    first
    | exact presis_precognize presis_recognizeFloatOrExceptions
    | exact presis_ppure _
    | exact presis_pfail
    | exact presis_pcrash _
    | exact presis_ptag _
    | exact presis_tagWith _ _
    | exact presis_pcaseless _
    | exact presis_pcaselessL _
    | exact presis_getEnv
    | exact presis_getSchema
    | exact presis_multispace0
    | exact presis_alphanumeric1
    | exact presis_takeWhile0 _
    | exact presis_takeWhile1 _
    | exact presis_dec_uint
    | exact presis_oneOf _
    | apply presis_precognize
    | apply presis_popt
    | apply presis_palt
    | apply presis_ite
    | apply presis_pbind
    | split
    | (beta_reduce; split)
    | intro _
theorem presis_stringP  : PresIS (stringP) := by
  unfold stringP
  repeat
    first
    | exact presis_ppure _
    | exact presis_pfail
    | exact presis_pcrash _
    | exact presis_ptag _
    | exact presis_tagWith _ _
    | exact presis_pcaseless _
    | exact presis_pcaselessL _
    | exact presis_getEnv
    | exact presis_getSchema
    | exact presis_multispace0
    | exact presis_alphanumeric1
    | exact presis_takeWhile0 _
    | exact presis_takeWhile1 _
    | exact presis_dec_uint
    | exact presis_oneOf _
    | apply presis_precognize
    | apply presis_popt
    | apply presis_palt
    | apply presis_ite
    | apply presis_pbind
    | split
    | (beta_reduce; split)
    | intro _
theorem presis_booleanP  : PresIS (booleanP) := by
  unfold booleanP
  repeat
    first
    | exact presis_ppure _
    | exact presis_pfail
    | exact presis_pcrash _
    | exact presis_ptag _
    | exact presis_tagWith _ _
    | exact presis_pcaseless _
    | exact presis_pcaselessL _
    | exact presis_getEnv
    | exact presis_getSchema
    | exact presis_multispace0
    | exact presis_alphanumeric1
    | exact presis_takeWhile0 _
    | exact presis_takeWhile1 _
    | exact presis_dec_uint
    | exact presis_oneOf _
    | apply presis_precognize
    | apply presis_popt
    | apply presis_palt
    | apply presis_ite
    | apply presis_pbind
    | split
    | (beta_reduce; split)
    | intro _
theorem presis_nullP  : PresIS (nullP) := by
  unfold nullP
  repeat
    first
    | exact presis_ppure _
    | exact presis_pfail
    | exact presis_pcrash _
    | exact presis_ptag _
    | exact presis_tagWith _ _
    | exact presis_pcaseless _
    | exact presis_pcaselessL _
    | exact presis_getEnv
    | exact presis_getSchema
    | exact presis_multispace0
    | exact presis_alphanumeric1
    | exact presis_takeWhile0 _
    | exact presis_takeWhile1 _
    | exact presis_dec_uint
    | exact presis_oneOf _
    | apply presis_precognize
    | apply presis_popt
    | apply presis_palt
    | apply presis_ite
    | apply presis_pbind
    | split
    | (beta_reduce; split)
    | intro _
theorem presis_opLit (lit : String) : PresIS (opLit lit) := by
  unfold opLit
  exact presis_pbind (presis_ptag _) (fun _ => presis_ppure _)

theorem presis_opLitC (lit canon : String) : PresIS (opLitC lit canon) := by
  unfold opLitC
  exact presis_pbind (presis_pcaseless _) (fun _ => presis_ppure _)

theorem presis_comparison_op  : PresIS (comparison_op) := by
  unfold comparison_op
  repeat
    first
    | exact presis_opLit _
    | exact presis_opLitC _ _
    | exact presis_ppure _
    | exact presis_pfail
    | exact presis_pcrash _
    | exact presis_ptag _
    | exact presis_tagWith _ _
    | exact presis_pcaseless _
    | exact presis_pcaselessL _
    | exact presis_getEnv
    | exact presis_getSchema
    | exact presis_multispace0
    | exact presis_alphanumeric1
    | exact presis_takeWhile0 _
    | exact presis_takeWhile1 _
    | exact presis_dec_uint
    | exact presis_oneOf _
    | apply presis_precognize
    | apply presis_popt
    | apply presis_palt
    | apply presis_ite
    | apply presis_pbind
    | split
    | (beta_reduce; split)
    | intro _
theorem presis_spaced_comparison_op  : PresIS (spaced_comparison_op) := by
  unfold spaced_comparison_op
  repeat
    first
    | exact presis_comparison_op
    | exact presis_ppure _
    | exact presis_pfail
    | exact presis_pcrash _
    | exact presis_ptag _
    | exact presis_tagWith _ _
    | exact presis_pcaseless _
    | exact presis_pcaselessL _
    | exact presis_getEnv
    | exact presis_getSchema
    | exact presis_multispace0
    | exact presis_alphanumeric1
    | exact presis_takeWhile0 _
    | exact presis_takeWhile1 _
    | exact presis_dec_uint
    | exact presis_oneOf _
    | apply presis_precognize
    | apply presis_popt
    | apply presis_palt
    | apply presis_ite
    | apply presis_pbind
    | split
    | (beta_reduce; split)
    | intro _
theorem presis_choice : ∀ (l : List (List Char)), PresIS (choice l) := by
  intro l
  induction l with
  | nil => exact presis_pfail
  | cons c cs ih =>
    have heq : choice (c :: cs) = pbind (popt (pcaselessL c))
        (fun o => match o with
          | some _ => ppure c
          | none => choice cs) := by
      funext s
      cases hp : popt (pcaselessL c) s with
      | ok o s1 => cases o <;> simp only [choice, pbind, hp, ppure]
      | err e s1 => simp only [choice, pbind, hp]
      | crash k => simp only [choice, pbind, hp]
    rw [heq]
    refine presis_pbind (presis_popt (presis_pcaselessL c)) (fun o => ?_)
    cases o with
    | none => exact ih
    | some u => exact presis_ppure _

theorem presis_table_name : PresIS table_name := by
  unfold table_name
  exact presis_pbind presis_getSchema (fun schema => presis_choice _)

theorem presis_column_name : PresIS column_name := by
  unfold column_name
  exact presis_pbind presis_getSchema (fun schema => presis_choice _)

theorem presis_aliased_column : PresIS aliased_column := by
  unfold aliased_column
  exact presis_pbind presis_getEnv (fun env => presis_choice _)

theorem presis_column_in_table (table : List Char) : PresIS (column_in_table table) := by
  unfold column_in_table
  repeat
    first
    | exact presis_column_name
    | exact presis_ppure _
    | exact presis_pfail
    | exact presis_pcrash _
    | exact presis_ptag _
    | exact presis_tagWith _ _
    | exact presis_pcaseless _
    | exact presis_pcaselessL _
    | exact presis_getEnv
    | exact presis_getSchema
    | exact presis_multispace0
    | exact presis_alphanumeric1
    | exact presis_takeWhile0 _
    | exact presis_takeWhile1 _
    | exact presis_dec_uint
    | exact presis_oneOf _
    | apply presis_precognize
    | apply presis_popt
    | apply presis_palt
    | apply presis_ite
    | apply presis_pbind
    | split
    | (beta_reduce; split)
    | intro _
theorem presis_column_in_index (idx : Nat) (cpt : ColumnParserType) : PresIS (column_in_index idx cpt) := by
  unfold column_in_index
  repeat
    first
    | exact presis_column_name
    | exact presis_aliased_column
    | exact presis_ppure _
    | exact presis_pfail
    | exact presis_pcrash _
    | exact presis_ptag _
    | exact presis_tagWith _ _
    | exact presis_pcaseless _
    | exact presis_pcaselessL _
    | exact presis_getEnv
    | exact presis_getSchema
    | exact presis_multispace0
    | exact presis_alphanumeric1
    | exact presis_takeWhile0 _
    | exact presis_takeWhile1 _
    | exact presis_dec_uint
    | exact presis_oneOf _
    | apply presis_precognize
    | apply presis_popt
    | apply presis_palt
    | apply presis_ite
    | apply presis_pbind
    | split
    | (beta_reduce; split)
    | intro _
theorem presis_indexed_column (inputs : List Nat) : PresIS (indexed_column inputs) := by
  unfold indexed_column
  repeat
    first
    | exact presis_column_in_index _ _
    | exact presis_ppure _
    | exact presis_pfail
    | exact presis_pcrash _
    | exact presis_ptag _
    | exact presis_tagWith _ _
    | exact presis_pcaseless _
    | exact presis_pcaselessL _
    | exact presis_getEnv
    | exact presis_getSchema
    | exact presis_multispace0
    | exact presis_alphanumeric1
    | exact presis_takeWhile0 _
    | exact presis_takeWhile1 _
    | exact presis_dec_uint
    | exact presis_oneOf _
    | apply presis_precognize
    | apply presis_popt
    | apply presis_palt
    | apply presis_ite
    | apply presis_pbind
    | split
    | (beta_reduce; split)
    | intro _
theorem presis_sepCommaMs : PresIS sepCommaMs := by
  unfold sepCommaMs
  exact presis_pbind presis_multispace0 (fun _ => presis_ptag _)

theorem presis_singleId : PresIS singleId := by
  unfold singleId
  exact presis_pbind (presis_ptag _) (fun _ => presis_dec_uint)

theorem presis_input_ids  : PresIS (input_ids) := by
  unfold input_ids
  repeat
    first
    | exact presis_singleId
    | exact presis_sepCommaMs
    | apply presis_psepPair
    | exact presis_ppure _
    | exact presis_pfail
    | exact presis_pcrash _
    | exact presis_ptag _
    | exact presis_tagWith _ _
    | exact presis_pcaseless _
    | exact presis_pcaselessL _
    | exact presis_getEnv
    | exact presis_getSchema
    | exact presis_multispace0
    | exact presis_alphanumeric1
    | exact presis_takeWhile0 _
    | exact presis_takeWhile1 _
    | exact presis_dec_uint
    | exact presis_oneOf _
    | apply presis_precognize
    | apply presis_popt
    | apply presis_palt
    | apply presis_ite
    | apply presis_pbind
    | split
    | (beta_reduce; split)
    | intro _
theorem presis_predicate_wrapper {inner : Parser Predicate} (hi : PresIS inner) :
    PresIS (predicate_wrapper inner) := by
  unfold predicate_wrapper
  exact presis_pbind (presis_ptag _) (fun _ => presis_pbind hi (fun p =>
    presis_pbind (presis_ptag _) (fun _ => presis_ppure _)))

theorem presis_aggGo : ∀ (l : List Agg), PresIS (aggGo l) := by
  intro l
  induction l with
  | nil => exact presis_pfail
  | cons a rest ih =>
    have heq : aggGo (a :: rest) = pbind (popt (tagWith (· == ·) a.upper))
        (fun o => match o with
          | some _ => ppure a
          | none => aggGo rest) := by
      funext s
      cases hp : popt (tagWith (· == ·) a.upper) s with
      | ok o s1 => cases o <;> simp only [aggGo, pbind, hp, ppure]
      | err e s1 => simp only [aggGo, pbind, hp]
      | crash k => simp only [aggGo, pbind, hp]
    rw [heq]
    refine presis_pbind (presis_popt (presis_tagWith _ _)) (fun o => ?_)
    cases o with
    | none => exact ih
    | some u => exact presis_ppure _

theorem presis_agg : PresIS agg := presis_aggGo Agg.values

theorem presis_gtfio (outs : List (Nat × List Char)) :
    PresIS (get_table_from_indexed_outputs outs) := by
  intro s
  unfold get_table_from_indexed_outputs
  cases gtfioCols s.env.state outs with
  | none => trivial
  | some o =>
    cases o with
    | none => exact ⟨rfl, rfl⟩
    | some cs => exact ⟨rfl, rfl⟩

theorem presis_get_output (inputs : List Nat) (outs : List (List Char)) :
    PresIS (get_output inputs outs) := by
  intro s
  unfold get_output
  cases resolveTables s.env.state.idx_to_table inputs with
  | none => trivial
  | some prev =>
    dsimp only []
    cases outs.mapM (getOutputOne prev) with
    | none => exact ⟨rfl, rfl⟩
    | some cs => exact ⟨rfl, rfl⟩

theorem presis_order_by (input_idx : Nat) : PresIS (order_by input_idx) := by
  unfold order_by
  repeat
    first
    | exact presis_aliased_column
    | exact presis_column_name
    | exact presis_opLit _
    | exact presis_ppure _
    | exact presis_pfail
    | exact presis_pcrash _
    | exact presis_ptag _
    | exact presis_tagWith _ _
    | exact presis_pcaseless _
    | exact presis_pcaselessL _
    | exact presis_getEnv
    | exact presis_getSchema
    | exact presis_multispace0
    | exact presis_alphanumeric1
    | exact presis_takeWhile0 _
    | exact presis_takeWhile1 _
    | exact presis_dec_uint
    | exact presis_oneOf _
    | apply presis_precognize
    | apply presis_popt
    | apply presis_palt
    | apply presis_ite
    | apply presis_pbind
    | split
    | (beta_reduce; split)
    | intro _
theorem presis_distinctFlag : PresIS distinctFlag := by
  unfold distinctFlag
  exact presis_palt (presis_pbind (presis_ptag _) (fun _ => presis_ppure _)) (presis_ppure _)

theorem presis_predSep : PresIS predSep := by
  unfold predSep
  exact presis_palt (presis_opLit _) (presis_opLit _)

theorem presis_predicateOf {comp : Parser Comparison} (hc : PresIS comp) :
    PresIS (predicateOf comp) := by
  unfold predicateOf
  exact presis_pfold1 (presis_pbind hc (fun c => presis_ppure _)) presis_predSep

/-! ## PresIS for the operation parsers -/

theorem presis_scan_column_in_table_of_type (typ : ColumnType) (table : List Char) : PresIS (scan_column_in_table_of_type typ table) := by
  unfold scan_column_in_table_of_type
  repeat
    first
    | exact presis_ptag _
    | exact presis_tagWith _ _
    | exact presis_pcaseless _
    | exact presis_pcaselessL _
    | exact presis_ppure _
    | exact presis_pfail
    | exact presis_pcrash _
    | exact presis_getEnv
    | exact presis_getSchema
    | exact presis_insertTable _
    | exact presis_multispace0
    | exact presis_alphanumeric1
    | exact presis_dec_uint
    | exact presis_number
    | exact presis_stringP
    | exact presis_booleanP
    | exact presis_nullP
    | exact presis_opLit _
    | exact presis_opLitC _ _
    | exact presis_spaced_comparison_op
    | exact presis_table_name
    | exact presis_column_name
    | exact presis_aliased_column
    | exact presis_column_in_table _
    | exact presis_column_in_index _ _
    | exact presis_indexed_column _
    | exact presis_input_ids
    | exact presis_distinctFlag
    | exact presis_sepCommaMs
    | exact presis_singleId
    | exact presis_agg
    | exact presis_gtfio _
    | exact presis_get_output _ _
    | exact presis_order_by _
    | apply presis_precognize
    | apply presis_popt
    | apply presis_palt
    | apply presis_ite
    | apply presis_psep1
    | apply presis_psepPair
    | apply presis_pfold1
    | apply presis_pbind
    | split
    | (beta_reduce; split)
    | intro _

theorem presis_scan_type_comparable (t : ColumnType) (table : List Char) : PresIS (scan_type_comparable t table) := by
  unfold scan_type_comparable
  repeat
    first
    | exact presis_scan_column_in_table_of_type _ _
    | exact presis_ptag _
    | exact presis_tagWith _ _
    | exact presis_pcaseless _
    | exact presis_pcaselessL _
    | exact presis_ppure _
    | exact presis_pfail
    | exact presis_pcrash _
    | exact presis_getEnv
    | exact presis_getSchema
    | exact presis_insertTable _
    | exact presis_multispace0
    | exact presis_alphanumeric1
    | exact presis_dec_uint
    | exact presis_number
    | exact presis_stringP
    | exact presis_booleanP
    | exact presis_nullP
    | exact presis_opLit _
    | exact presis_opLitC _ _
    | exact presis_spaced_comparison_op
    | exact presis_table_name
    | exact presis_column_name
    | exact presis_aliased_column
    | exact presis_column_in_table _
    | exact presis_column_in_index _ _
    | exact presis_indexed_column _
    | exact presis_input_ids
    | exact presis_distinctFlag
    | exact presis_sepCommaMs
    | exact presis_singleId
    | exact presis_agg
    | exact presis_gtfio _
    | exact presis_get_output _ _
    | exact presis_order_by _
    | apply presis_precognize
    | apply presis_popt
    | apply presis_palt
    | apply presis_ite
    | apply presis_psep1
    | apply presis_psepPair
    | apply presis_pfold1
    | apply presis_pbind
    | split
    | (beta_reduce; split)
    | intro _

theorem presis_scan_comparable (table : List Char) : PresIS (scan_comparable table) := by
  unfold scan_comparable
  repeat
    first
    | exact presis_ptag _
    | exact presis_tagWith _ _
    | exact presis_pcaseless _
    | exact presis_pcaselessL _
    | exact presis_ppure _
    | exact presis_pfail
    | exact presis_pcrash _
    | exact presis_getEnv
    | exact presis_getSchema
    | exact presis_insertTable _
    | exact presis_multispace0
    | exact presis_alphanumeric1
    | exact presis_dec_uint
    | exact presis_number
    | exact presis_stringP
    | exact presis_booleanP
    | exact presis_nullP
    | exact presis_opLit _
    | exact presis_opLitC _ _
    | exact presis_spaced_comparison_op
    | exact presis_table_name
    | exact presis_column_name
    | exact presis_aliased_column
    | exact presis_column_in_table _
    | exact presis_column_in_index _ _
    | exact presis_indexed_column _
    | exact presis_input_ids
    | exact presis_distinctFlag
    | exact presis_sepCommaMs
    | exact presis_singleId
    | exact presis_agg
    | exact presis_gtfio _
    | exact presis_get_output _ _
    | exact presis_order_by _
    | apply presis_precognize
    | apply presis_popt
    | apply presis_palt
    | apply presis_ite
    | apply presis_psep1
    | apply presis_psepPair
    | apply presis_pfold1
    | apply presis_pbind
    | split
    | (beta_reduce; split)
    | intro _

theorem presis_scan_comparison (twc : Bool) (table : List Char) : PresIS (scan_comparison twc table) := by
  unfold scan_comparison
  repeat
    first
    | exact presis_scan_type_comparable _ _
    | exact presis_scan_comparable _
    | exact presis_ptag _
    | exact presis_tagWith _ _
    | exact presis_pcaseless _
    | exact presis_pcaselessL _
    | exact presis_ppure _
    | exact presis_pfail
    | exact presis_pcrash _
    | exact presis_getEnv
    | exact presis_getSchema
    | exact presis_insertTable _
    | exact presis_multispace0
    | exact presis_alphanumeric1
    | exact presis_dec_uint
    | exact presis_number
    | exact presis_stringP
    | exact presis_booleanP
    | exact presis_nullP
    | exact presis_opLit _
    | exact presis_opLitC _ _
    | exact presis_spaced_comparison_op
    | exact presis_table_name
    | exact presis_column_name
    | exact presis_aliased_column
    | exact presis_column_in_table _
    | exact presis_column_in_index _ _
    | exact presis_indexed_column _
    | exact presis_input_ids
    | exact presis_distinctFlag
    | exact presis_sepCommaMs
    | exact presis_singleId
    | exact presis_agg
    | exact presis_gtfio _
    | exact presis_get_output _ _
    | exact presis_order_by _
    | apply presis_precognize
    | apply presis_popt
    | apply presis_palt
    | apply presis_ite
    | apply presis_psep1
    | apply presis_psepPair
    | apply presis_pfold1
    | apply presis_pbind
    | split
    | (beta_reduce; split)
    | intro _

theorem presis_scan (twc : Bool) : PresIS (scan twc) := by
  unfold scan
  repeat
    first
    | exact presis_predicate_wrapper (presis_predicateOf (presis_scan_comparison _ _))
    | exact presis_ptag _
    | exact presis_tagWith _ _
    | exact presis_pcaseless _
    | exact presis_pcaselessL _
    | exact presis_ppure _
    | exact presis_pfail
    | exact presis_pcrash _
    | exact presis_getEnv
    | exact presis_getSchema
    | exact presis_insertTable _
    | exact presis_multispace0
    | exact presis_alphanumeric1
    | exact presis_dec_uint
    | exact presis_number
    | exact presis_stringP
    | exact presis_booleanP
    | exact presis_nullP
    | exact presis_opLit _
    | exact presis_opLitC _ _
    | exact presis_spaced_comparison_op
    | exact presis_table_name
    | exact presis_column_name
    | exact presis_aliased_column
    | exact presis_column_in_table _
    | exact presis_column_in_index _ _
    | exact presis_indexed_column _
    | exact presis_input_ids
    | exact presis_distinctFlag
    | exact presis_sepCommaMs
    | exact presis_singleId
    | exact presis_agg
    | exact presis_gtfio _
    | exact presis_get_output _ _
    | exact presis_order_by _
    | apply presis_precognize
    | apply presis_popt
    | apply presis_palt
    | apply presis_ite
    | apply presis_psep1
    | apply presis_psepPair
    | apply presis_pfold1
    | apply presis_pbind
    | split
    | (beta_reduce; split)
    | intro _

theorem presis_filter_column_in_table_of_type (typ : ColumnType) (input_idx : Nat) : PresIS (filter_column_in_table_of_type typ input_idx) := by
  unfold filter_column_in_table_of_type
  repeat
    first
    | exact presis_ptag _
    | exact presis_tagWith _ _
    | exact presis_pcaseless _
    | exact presis_pcaselessL _
    | exact presis_ppure _
    | exact presis_pfail
    | exact presis_pcrash _
    | exact presis_getEnv
    | exact presis_getSchema
    | exact presis_insertTable _
    | exact presis_multispace0
    | exact presis_alphanumeric1
    | exact presis_dec_uint
    | exact presis_number
    | exact presis_stringP
    | exact presis_booleanP
    | exact presis_nullP
    | exact presis_opLit _
    | exact presis_opLitC _ _
    | exact presis_spaced_comparison_op
    | exact presis_table_name
    | exact presis_column_name
    | exact presis_aliased_column
    | exact presis_column_in_table _
    | exact presis_column_in_index _ _
    | exact presis_indexed_column _
    | exact presis_input_ids
    | exact presis_distinctFlag
    | exact presis_sepCommaMs
    | exact presis_singleId
    | exact presis_agg
    | exact presis_gtfio _
    | exact presis_get_output _ _
    | exact presis_order_by _
    | apply presis_precognize
    | apply presis_popt
    | apply presis_palt
    | apply presis_ite
    | apply presis_psep1
    | apply presis_psepPair
    | apply presis_pfold1
    | apply presis_pbind
    | split
    | (beta_reduce; split)
    | intro _

theorem presis_filter_type_comparable (t : ColumnType) (input_idx : Nat) : PresIS (filter_type_comparable t input_idx) := by
  unfold filter_type_comparable
  repeat
    first
    | exact presis_filter_column_in_table_of_type _ _
    | exact presis_ptag _
    | exact presis_tagWith _ _
    | exact presis_pcaseless _
    | exact presis_pcaselessL _
    | exact presis_ppure _
    | exact presis_pfail
    | exact presis_pcrash _
    | exact presis_getEnv
    | exact presis_getSchema
    | exact presis_insertTable _
    | exact presis_multispace0
    | exact presis_alphanumeric1
    | exact presis_dec_uint
    | exact presis_number
    | exact presis_stringP
    | exact presis_booleanP
    | exact presis_nullP
    | exact presis_opLit _
    | exact presis_opLitC _ _
    | exact presis_spaced_comparison_op
    | exact presis_table_name
    | exact presis_column_name
    | exact presis_aliased_column
    | exact presis_column_in_table _
    | exact presis_column_in_index _ _
    | exact presis_indexed_column _
    | exact presis_input_ids
    | exact presis_distinctFlag
    | exact presis_sepCommaMs
    | exact presis_singleId
    | exact presis_agg
    | exact presis_gtfio _
    | exact presis_get_output _ _
    | exact presis_order_by _
    | apply presis_precognize
    | apply presis_popt
    | apply presis_palt
    | apply presis_ite
    | apply presis_psep1
    | apply presis_psepPair
    | apply presis_pfold1
    | apply presis_pbind
    | split
    | (beta_reduce; split)
    | intro _

theorem presis_filter_comparable  : PresIS (filter_comparable) := by
  unfold filter_comparable
  repeat
    first
    | exact presis_ptag _
    | exact presis_tagWith _ _
    | exact presis_pcaseless _
    | exact presis_pcaselessL _
    | exact presis_ppure _
    | exact presis_pfail
    | exact presis_pcrash _
    | exact presis_getEnv
    | exact presis_getSchema
    | exact presis_insertTable _
    | exact presis_multispace0
    | exact presis_alphanumeric1
    | exact presis_dec_uint
    | exact presis_number
    | exact presis_stringP
    | exact presis_booleanP
    | exact presis_nullP
    | exact presis_opLit _
    | exact presis_opLitC _ _
    | exact presis_spaced_comparison_op
    | exact presis_table_name
    | exact presis_column_name
    | exact presis_aliased_column
    | exact presis_column_in_table _
    | exact presis_column_in_index _ _
    | exact presis_indexed_column _
    | exact presis_input_ids
    | exact presis_distinctFlag
    | exact presis_sepCommaMs
    | exact presis_singleId
    | exact presis_agg
    | exact presis_gtfio _
    | exact presis_get_output _ _
    | exact presis_order_by _
    | apply presis_precognize
    | apply presis_popt
    | apply presis_palt
    | apply presis_ite
    | apply presis_psep1
    | apply presis_psepPair
    | apply presis_pfold1
    | apply presis_pbind
    | split
    | (beta_reduce; split)
    | intro _

theorem presis_filter_comparison (twc : Bool) (input_idx : Nat) : PresIS (filter_comparison twc input_idx) := by
  unfold filter_comparison
  repeat
    first
    | exact presis_filter_type_comparable _ _
    | exact presis_filter_comparable
    | exact presis_ptag _
    | exact presis_tagWith _ _
    | exact presis_pcaseless _
    | exact presis_pcaselessL _
    | exact presis_ppure _
    | exact presis_pfail
    | exact presis_pcrash _
    | exact presis_getEnv
    | exact presis_getSchema
    | exact presis_insertTable _
    | exact presis_multispace0
    | exact presis_alphanumeric1
    | exact presis_dec_uint
    | exact presis_number
    | exact presis_stringP
    | exact presis_booleanP
    | exact presis_nullP
    | exact presis_opLit _
    | exact presis_opLitC _ _
    | exact presis_spaced_comparison_op
    | exact presis_table_name
    | exact presis_column_name
    | exact presis_aliased_column
    | exact presis_column_in_table _
    | exact presis_column_in_index _ _
    | exact presis_indexed_column _
    | exact presis_input_ids
    | exact presis_distinctFlag
    | exact presis_sepCommaMs
    | exact presis_singleId
    | exact presis_agg
    | exact presis_gtfio _
    | exact presis_get_output _ _
    | exact presis_order_by _
    | apply presis_precognize
    | apply presis_popt
    | apply presis_palt
    | apply presis_ite
    | apply presis_psep1
    | apply presis_psepPair
    | apply presis_pfold1
    | apply presis_pbind
    | split
    | (beta_reduce; split)
    | intro _

theorem presis_filter (twc : Bool) : PresIS (filter twc) := by
  unfold filter
  repeat
    first
    | exact presis_predicate_wrapper (presis_predicateOf (presis_filter_comparison _ _))
    | exact presis_ptag _
    | exact presis_tagWith _ _
    | exact presis_pcaseless _
    | exact presis_pcaselessL _
    | exact presis_ppure _
    | exact presis_pfail
    | exact presis_pcrash _
    | exact presis_getEnv
    | exact presis_getSchema
    | exact presis_insertTable _
    | exact presis_multispace0
    | exact presis_alphanumeric1
    | exact presis_dec_uint
    | exact presis_number
    | exact presis_stringP
    | exact presis_booleanP
    | exact presis_nullP
    | exact presis_opLit _
    | exact presis_opLitC _ _
    | exact presis_spaced_comparison_op
    | exact presis_table_name
    | exact presis_column_name
    | exact presis_aliased_column
    | exact presis_column_in_table _
    | exact presis_column_in_index _ _
    | exact presis_indexed_column _
    | exact presis_input_ids
    | exact presis_distinctFlag
    | exact presis_sepCommaMs
    | exact presis_singleId
    | exact presis_agg
    | exact presis_gtfio _
    | exact presis_get_output _ _
    | exact presis_order_by _
    | apply presis_precognize
    | apply presis_popt
    | apply presis_palt
    | apply presis_ite
    | apply presis_psep1
    | apply presis_psepPair
    | apply presis_pfold1
    | apply presis_pbind
    | split
    | (beta_reduce; split)
    | intro _

theorem presis_aliased_aggregate (input_idx : Nat) : PresIS (aliased_aggregate input_idx) := by
  unfold aliased_aggregate
  repeat
    first
    | exact presis_ptag _
    | exact presis_tagWith _ _
    | exact presis_pcaseless _
    | exact presis_pcaselessL _
    | exact presis_ppure _
    | exact presis_pfail
    | exact presis_pcrash _
    | exact presis_getEnv
    | exact presis_getSchema
    | exact presis_insertTable _
    | exact presis_multispace0
    | exact presis_alphanumeric1
    | exact presis_dec_uint
    | exact presis_number
    | exact presis_stringP
    | exact presis_booleanP
    | exact presis_nullP
    | exact presis_opLit _
    | exact presis_opLitC _ _
    | exact presis_spaced_comparison_op
    | exact presis_table_name
    | exact presis_column_name
    | exact presis_aliased_column
    | exact presis_column_in_table _
    | exact presis_column_in_index _ _
    | exact presis_indexed_column _
    | exact presis_input_ids
    | exact presis_distinctFlag
    | exact presis_sepCommaMs
    | exact presis_singleId
    | exact presis_agg
    | exact presis_gtfio _
    | exact presis_get_output _ _
    | exact presis_order_by _
    | apply presis_precognize
    | apply presis_popt
    | apply presis_palt
    | apply presis_ite
    | apply presis_psep1
    | apply presis_psepPair
    | apply presis_pfold1
    | apply presis_pbind
    | split
    | (beta_reduce; split)
    | intro _

theorem presis_group_by (input_idx : Nat) : PresIS (group_by input_idx) := by
  unfold group_by
  repeat
    first
    | exact presis_ptag _
    | exact presis_tagWith _ _
    | exact presis_pcaseless _
    | exact presis_pcaselessL _
    | exact presis_ppure _
    | exact presis_pfail
    | exact presis_pcrash _
    | exact presis_getEnv
    | exact presis_getSchema
    | exact presis_insertTable _
    | exact presis_multispace0
    | exact presis_alphanumeric1
    | exact presis_dec_uint
    | exact presis_number
    | exact presis_stringP
    | exact presis_booleanP
    | exact presis_nullP
    | exact presis_opLit _
    | exact presis_opLitC _ _
    | exact presis_spaced_comparison_op
    | exact presis_table_name
    | exact presis_column_name
    | exact presis_aliased_column
    | exact presis_column_in_table _
    | exact presis_column_in_index _ _
    | exact presis_indexed_column _
    | exact presis_input_ids
    | exact presis_distinctFlag
    | exact presis_sepCommaMs
    | exact presis_singleId
    | exact presis_agg
    | exact presis_gtfio _
    | exact presis_get_output _ _
    | exact presis_order_by _
    | apply presis_precognize
    | apply presis_popt
    | apply presis_palt
    | apply presis_ite
    | apply presis_psep1
    | apply presis_psepPair
    | apply presis_pfold1
    | apply presis_pbind
    | split
    | (beta_reduce; split)
    | intro _

theorem presis_aggOutputs (input_idx : Nat) : PresIS (aggOutputs input_idx) := by
  unfold aggOutputs
  repeat
    first
    | exact presis_aliased_aggregate _
    | exact presis_ptag _
    | exact presis_tagWith _ _
    | exact presis_pcaseless _
    | exact presis_pcaselessL _
    | exact presis_ppure _
    | exact presis_pfail
    | exact presis_pcrash _
    | exact presis_getEnv
    | exact presis_getSchema
    | exact presis_insertTable _
    | exact presis_multispace0
    | exact presis_alphanumeric1
    | exact presis_dec_uint
    | exact presis_number
    | exact presis_stringP
    | exact presis_booleanP
    | exact presis_nullP
    | exact presis_opLit _
    | exact presis_opLitC _ _
    | exact presis_spaced_comparison_op
    | exact presis_table_name
    | exact presis_column_name
    | exact presis_aliased_column
    | exact presis_column_in_table _
    | exact presis_column_in_index _ _
    | exact presis_indexed_column _
    | exact presis_input_ids
    | exact presis_distinctFlag
    | exact presis_sepCommaMs
    | exact presis_singleId
    | exact presis_agg
    | exact presis_gtfio _
    | exact presis_get_output _ _
    | exact presis_order_by _
    | apply presis_precognize
    | apply presis_popt
    | apply presis_palt
    | apply presis_ite
    | apply presis_psep1
    | apply presis_psepPair
    | apply presis_pfold1
    | apply presis_pbind
    | split
    | (beta_reduce; split)
    | intro _

theorem presis_aggregate  : PresIS (aggregate) := by
  unfold aggregate
  repeat
    first
    | exact presis_group_by _
    | exact presis_aggOutputs _
    | exact presis_ptag _
    | exact presis_tagWith _ _
    | exact presis_pcaseless _
    | exact presis_pcaselessL _
    | exact presis_ppure _
    | exact presis_pfail
    | exact presis_pcrash _
    | exact presis_getEnv
    | exact presis_getSchema
    | exact presis_insertTable _
    | exact presis_multispace0
    | exact presis_alphanumeric1
    | exact presis_dec_uint
    | exact presis_number
    | exact presis_stringP
    | exact presis_booleanP
    | exact presis_nullP
    | exact presis_opLit _
    | exact presis_opLitC _ _
    | exact presis_spaced_comparison_op
    | exact presis_table_name
    | exact presis_column_name
    | exact presis_aliased_column
    | exact presis_column_in_table _
    | exact presis_column_in_index _ _
    | exact presis_indexed_column _
    | exact presis_input_ids
    | exact presis_distinctFlag
    | exact presis_sepCommaMs
    | exact presis_singleId
    | exact presis_agg
    | exact presis_gtfio _
    | exact presis_get_output _ _
    | exact presis_order_by _
    | apply presis_precognize
    | apply presis_popt
    | apply presis_palt
    | apply presis_ite
    | apply presis_psep1
    | apply presis_psepPair
    | apply presis_pfold1
    | apply presis_pbind
    | split
    | (beta_reduce; split)
    | intro _

theorem presis_top  : PresIS (top) := by
  unfold top
  repeat
    first
    | exact presis_ptag _
    | exact presis_tagWith _ _
    | exact presis_pcaseless _
    | exact presis_pcaselessL _
    | exact presis_ppure _
    | exact presis_pfail
    | exact presis_pcrash _
    | exact presis_getEnv
    | exact presis_getSchema
    | exact presis_insertTable _
    | exact presis_multispace0
    | exact presis_alphanumeric1
    | exact presis_dec_uint
    | exact presis_number
    | exact presis_stringP
    | exact presis_booleanP
    | exact presis_nullP
    | exact presis_opLit _
    | exact presis_opLitC _ _
    | exact presis_spaced_comparison_op
    | exact presis_table_name
    | exact presis_column_name
    | exact presis_aliased_column
    | exact presis_column_in_table _
    | exact presis_column_in_index _ _
    | exact presis_indexed_column _
    | exact presis_input_ids
    | exact presis_distinctFlag
    | exact presis_sepCommaMs
    | exact presis_singleId
    | exact presis_agg
    | exact presis_gtfio _
    | exact presis_get_output _ _
    | exact presis_order_by _
    | apply presis_precognize
    | apply presis_popt
    | apply presis_palt
    | apply presis_ite
    | apply presis_psep1
    | apply presis_psepPair
    | apply presis_pfold1
    | apply presis_pbind
    | split
    | (beta_reduce; split)
    | intro _

theorem presis_top_sort  : PresIS (top_sort) := by
  unfold top_sort
  repeat
    first
    | exact presis_ptag _
    | exact presis_tagWith _ _
    | exact presis_pcaseless _
    | exact presis_pcaselessL _
    | exact presis_ppure _
    | exact presis_pfail
    | exact presis_pcrash _
    | exact presis_getEnv
    | exact presis_getSchema
    | exact presis_insertTable _
    | exact presis_multispace0
    | exact presis_alphanumeric1
    | exact presis_dec_uint
    | exact presis_number
    | exact presis_stringP
    | exact presis_booleanP
    | exact presis_nullP
    | exact presis_opLit _
    | exact presis_opLitC _ _
    | exact presis_spaced_comparison_op
    | exact presis_table_name
    | exact presis_column_name
    | exact presis_aliased_column
    | exact presis_column_in_table _
    | exact presis_column_in_index _ _
    | exact presis_indexed_column _
    | exact presis_input_ids
    | exact presis_distinctFlag
    | exact presis_sepCommaMs
    | exact presis_singleId
    | exact presis_agg
    | exact presis_gtfio _
    | exact presis_get_output _ _
    | exact presis_order_by _
    | apply presis_precognize
    | apply presis_popt
    | apply presis_palt
    | apply presis_ite
    | apply presis_psep1
    | apply presis_psepPair
    | apply presis_pfold1
    | apply presis_pbind
    | split
    | (beta_reduce; split)
    | intro _

theorem presis_sort  : PresIS (sort) := by
  unfold sort
  repeat
    first
    | exact presis_ptag _
    | exact presis_tagWith _ _
    | exact presis_pcaseless _
    | exact presis_pcaselessL _
    | exact presis_ppure _
    | exact presis_pfail
    | exact presis_pcrash _
    | exact presis_getEnv
    | exact presis_getSchema
    | exact presis_insertTable _
    | exact presis_multispace0
    | exact presis_alphanumeric1
    | exact presis_dec_uint
    | exact presis_number
    | exact presis_stringP
    | exact presis_booleanP
    | exact presis_nullP
    | exact presis_opLit _
    | exact presis_opLitC _ _
    | exact presis_spaced_comparison_op
    | exact presis_table_name
    | exact presis_column_name
    | exact presis_aliased_column
    | exact presis_column_in_table _
    | exact presis_column_in_index _ _
    | exact presis_indexed_column _
    | exact presis_input_ids
    | exact presis_distinctFlag
    | exact presis_sepCommaMs
    | exact presis_singleId
    | exact presis_agg
    | exact presis_gtfio _
    | exact presis_get_output _ _
    | exact presis_order_by _
    | apply presis_precognize
    | apply presis_popt
    | apply presis_palt
    | apply presis_ite
    | apply presis_psep1
    | apply presis_psepPair
    | apply presis_pfold1
    | apply presis_pbind
    | split
    | (beta_reduce; split)
    | intro _

theorem presis_union  : PresIS (union) := by
  unfold union
  repeat
    first
    | exact presis_ptag _
    | exact presis_tagWith _ _
    | exact presis_pcaseless _
    | exact presis_pcaselessL _
    | exact presis_ppure _
    | exact presis_pfail
    | exact presis_pcrash _
    | exact presis_getEnv
    | exact presis_getSchema
    | exact presis_insertTable _
    | exact presis_multispace0
    | exact presis_alphanumeric1
    | exact presis_dec_uint
    | exact presis_number
    | exact presis_stringP
    | exact presis_booleanP
    | exact presis_nullP
    | exact presis_opLit _
    | exact presis_opLitC _ _
    | exact presis_spaced_comparison_op
    | exact presis_table_name
    | exact presis_column_name
    | exact presis_aliased_column
    | exact presis_column_in_table _
    | exact presis_column_in_index _ _
    | exact presis_indexed_column _
    | exact presis_input_ids
    | exact presis_distinctFlag
    | exact presis_sepCommaMs
    | exact presis_singleId
    | exact presis_agg
    | exact presis_gtfio _
    | exact presis_get_output _ _
    | exact presis_order_by _
    | apply presis_precognize
    | apply presis_popt
    | apply presis_palt
    | apply presis_ite
    | apply presis_psep1
    | apply presis_psepPair
    | apply presis_pfold1
    | apply presis_pbind
    | split
    | (beta_reduce; split)
    | intro _

theorem presis_join_column_in_index_of_type (typ : ColumnType) (input_idxs : List Nat) : PresIS (join_column_in_index_of_type typ input_idxs) := by
  unfold join_column_in_index_of_type
  repeat
    first
    | exact presis_ptag _
    | exact presis_tagWith _ _
    | exact presis_pcaseless _
    | exact presis_pcaselessL _
    | exact presis_ppure _
    | exact presis_pfail
    | exact presis_pcrash _
    | exact presis_getEnv
    | exact presis_getSchema
    | exact presis_insertTable _
    | exact presis_multispace0
    | exact presis_alphanumeric1
    | exact presis_dec_uint
    | exact presis_number
    | exact presis_stringP
    | exact presis_booleanP
    | exact presis_nullP
    | exact presis_opLit _
    | exact presis_opLitC _ _
    | exact presis_spaced_comparison_op
    | exact presis_table_name
    | exact presis_column_name
    | exact presis_aliased_column
    | exact presis_column_in_table _
    | exact presis_column_in_index _ _
    | exact presis_indexed_column _
    | exact presis_input_ids
    | exact presis_distinctFlag
    | exact presis_sepCommaMs
    | exact presis_singleId
    | exact presis_agg
    | exact presis_gtfio _
    | exact presis_get_output _ _
    | exact presis_order_by _
    | apply presis_precognize
    | apply presis_popt
    | apply presis_palt
    | apply presis_ite
    | apply presis_psep1
    | apply presis_psepPair
    | apply presis_pfold1
    | apply presis_pbind
    | split
    | (beta_reduce; split)
    | intro _

theorem presis_join_type_comparable (input_idxs : List Nat) (t : ColumnType) : PresIS (join_type_comparable input_idxs t) := by
  unfold join_type_comparable
  repeat
    first
    | exact presis_join_column_in_index_of_type _ _
    | exact presis_ptag _
    | exact presis_tagWith _ _
    | exact presis_pcaseless _
    | exact presis_pcaselessL _
    | exact presis_ppure _
    | exact presis_pfail
    | exact presis_pcrash _
    | exact presis_getEnv
    | exact presis_getSchema
    | exact presis_insertTable _
    | exact presis_multispace0
    | exact presis_alphanumeric1
    | exact presis_dec_uint
    | exact presis_number
    | exact presis_stringP
    | exact presis_booleanP
    | exact presis_nullP
    | exact presis_opLit _
    | exact presis_opLitC _ _
    | exact presis_spaced_comparison_op
    | exact presis_table_name
    | exact presis_column_name
    | exact presis_aliased_column
    | exact presis_column_in_table _
    | exact presis_column_in_index _ _
    | exact presis_indexed_column _
    | exact presis_input_ids
    | exact presis_distinctFlag
    | exact presis_sepCommaMs
    | exact presis_singleId
    | exact presis_agg
    | exact presis_gtfio _
    | exact presis_get_output _ _
    | exact presis_order_by _
    | apply presis_precognize
    | apply presis_popt
    | apply presis_palt
    | apply presis_ite
    | apply presis_psep1
    | apply presis_psepPair
    | apply presis_pfold1
    | apply presis_pbind
    | split
    | (beta_reduce; split)
    | intro _

theorem presis_comparable_key_and_type (input_idxs : List Nat) (lhs_type : ColumnType) (lhs_table : List Char) (decider : KeyType → List Char → Bool) : PresIS (comparable_key_and_type input_idxs lhs_type lhs_table decider) := by
  unfold comparable_key_and_type
  repeat
    first
    | exact presis_ptag _
    | exact presis_tagWith _ _
    | exact presis_pcaseless _
    | exact presis_pcaselessL _
    | exact presis_ppure _
    | exact presis_pfail
    | exact presis_pcrash _
    | exact presis_getEnv
    | exact presis_getSchema
    | exact presis_insertTable _
    | exact presis_multispace0
    | exact presis_alphanumeric1
    | exact presis_dec_uint
    | exact presis_number
    | exact presis_stringP
    | exact presis_booleanP
    | exact presis_nullP
    | exact presis_opLit _
    | exact presis_opLitC _ _
    | exact presis_spaced_comparison_op
    | exact presis_table_name
    | exact presis_column_name
    | exact presis_aliased_column
    | exact presis_column_in_table _
    | exact presis_column_in_index _ _
    | exact presis_indexed_column _
    | exact presis_input_ids
    | exact presis_distinctFlag
    | exact presis_sepCommaMs
    | exact presis_singleId
    | exact presis_agg
    | exact presis_gtfio _
    | exact presis_get_output _ _
    | exact presis_order_by _
    | apply presis_precognize
    | apply presis_popt
    | apply presis_palt
    | apply presis_ite
    | apply presis_psep1
    | apply presis_psepPair
    | apply presis_pfold1
    | apply presis_pbind
    | split
    | (beta_reduce; split)
    | intro _

theorem presis_comparableKeyP1 (input_idxs : List Nat) (lhs_type : ColumnType) :
    ∀ (keys : List KeyType), PresIS (comparableKeyP1 input_idxs lhs_type keys) := by
  intro keys
  induction keys with
  | nil => exact presis_pfail
  | cons key rest ih =>
    have heq : comparableKeyP1 input_idxs lhs_type (key :: rest) =
        pbind (match key with
          | .primaryKey table =>
            popt (comparable_key_and_type input_idxs lhs_type table is_foreign_key_of)
          | .foreignKey table =>
            popt (palt
              (comparable_key_and_type input_idxs lhs_type table is_foreign_key_of)
              (comparable_key_and_type input_idxs lhs_type table is_primary_key_of)))
        (fun o => match o with
          | some c => ppure c
          | none => comparableKeyP1 input_idxs lhs_type rest) := by
      funext s
      cases key with
      | primaryKey table =>
        cases hp : popt (comparable_key_and_type input_idxs lhs_type table
            is_foreign_key_of) s with
        | ok o s1 => cases o <;> simp only [comparableKeyP1, pbind, hp, ppure]
        | err e s1 => simp only [comparableKeyP1, pbind, hp]
        | crash k => simp only [comparableKeyP1, pbind, hp]
      | foreignKey table =>
        cases hp : popt (palt
            (comparable_key_and_type input_idxs lhs_type table is_foreign_key_of)
            (comparable_key_and_type input_idxs lhs_type table is_primary_key_of)) s with
        | ok o s1 => cases o <;> simp only [comparableKeyP1, pbind, hp, ppure]
        | err e s1 => simp only [comparableKeyP1, pbind, hp]
        | crash k => simp only [comparableKeyP1, pbind, hp]
    rw [heq]
    refine presis_pbind ?_ (fun o => ?_)
    · cases key with
      | primaryKey table => exact presis_popt (presis_comparable_key_and_type _ _ _ _)
      | foreignKey table =>
        exact presis_popt (presis_palt (presis_comparable_key_and_type _ _ _ _)
          (presis_comparable_key_and_type _ _ _ _))
    · cases o with
      | none => exact ih
      | some c => exact presis_ppure _

theorem presis_comparableKeyP2 (input_idxs : List Nat) (lhs_type : ColumnType) : PresIS (comparableKeyP2 input_idxs lhs_type) := by
  unfold comparableKeyP2
  repeat
    first
    | exact presis_ptag _
    | exact presis_tagWith _ _
    | exact presis_pcaseless _
    | exact presis_pcaselessL _
    | exact presis_ppure _
    | exact presis_pfail
    | exact presis_pcrash _
    | exact presis_getEnv
    | exact presis_getSchema
    | exact presis_insertTable _
    | exact presis_multispace0
    | exact presis_alphanumeric1
    | exact presis_dec_uint
    | exact presis_number
    | exact presis_stringP
    | exact presis_booleanP
    | exact presis_nullP
    | exact presis_opLit _
    | exact presis_opLitC _ _
    | exact presis_spaced_comparison_op
    | exact presis_table_name
    | exact presis_column_name
    | exact presis_aliased_column
    | exact presis_column_in_table _
    | exact presis_column_in_index _ _
    | exact presis_indexed_column _
    | exact presis_input_ids
    | exact presis_distinctFlag
    | exact presis_sepCommaMs
    | exact presis_singleId
    | exact presis_agg
    | exact presis_gtfio _
    | exact presis_get_output _ _
    | exact presis_order_by _
    | apply presis_precognize
    | apply presis_popt
    | apply presis_palt
    | apply presis_ite
    | apply presis_psep1
    | apply presis_psepPair
    | apply presis_pfold1
    | apply presis_pbind
    | split
    | (beta_reduce; split)
    | intro _

theorem presis_comparable_key (input_idxs : List Nat) (lhs_type : ColumnType)
    (lhs_keys : List KeyType) : PresIS (comparable_key input_idxs lhs_type lhs_keys) := by
  unfold comparable_key
  exact presis_palt (presis_comparableKeyP1 _ _ _) (presis_comparableKeyP2 _ _)

theorem presis_join_comparable (input_idxs : List Nat) : PresIS (join_comparable input_idxs) := by
  unfold join_comparable
  repeat
    first
    | exact presis_ptag _
    | exact presis_tagWith _ _
    | exact presis_pcaseless _
    | exact presis_pcaselessL _
    | exact presis_ppure _
    | exact presis_pfail
    | exact presis_pcrash _
    | exact presis_getEnv
    | exact presis_getSchema
    | exact presis_insertTable _
    | exact presis_multispace0
    | exact presis_alphanumeric1
    | exact presis_dec_uint
    | exact presis_number
    | exact presis_stringP
    | exact presis_booleanP
    | exact presis_nullP
    | exact presis_opLit _
    | exact presis_opLitC _ _
    | exact presis_spaced_comparison_op
    | exact presis_table_name
    | exact presis_column_name
    | exact presis_aliased_column
    | exact presis_column_in_table _
    | exact presis_column_in_index _ _
    | exact presis_indexed_column _
    | exact presis_input_ids
    | exact presis_distinctFlag
    | exact presis_sepCommaMs
    | exact presis_singleId
    | exact presis_agg
    | exact presis_gtfio _
    | exact presis_get_output _ _
    | exact presis_order_by _
    | apply presis_precognize
    | apply presis_popt
    | apply presis_palt
    | apply presis_ite
    | apply presis_psep1
    | apply presis_psepPair
    | apply presis_pfold1
    | apply presis_pbind
    | split
    | (beta_reduce; split)
    | intro _

theorem presis_join_comparison (twc : Bool) (input_idxs : List Nat) : PresIS (join_comparison twc input_idxs) := by
  unfold join_comparison
  repeat
    first
    | exact presis_comparable_key _ _ _
    | exact presis_join_type_comparable _ _
    | exact presis_join_comparable _
    | exact presis_ptag _
    | exact presis_tagWith _ _
    | exact presis_pcaseless _
    | exact presis_pcaselessL _
    | exact presis_ppure _
    | exact presis_pfail
    | exact presis_pcrash _
    | exact presis_getEnv
    | exact presis_getSchema
    | exact presis_insertTable _
    | exact presis_multispace0
    | exact presis_alphanumeric1
    | exact presis_dec_uint
    | exact presis_number
    | exact presis_stringP
    | exact presis_booleanP
    | exact presis_nullP
    | exact presis_opLit _
    | exact presis_opLitC _ _
    | exact presis_spaced_comparison_op
    | exact presis_table_name
    | exact presis_column_name
    | exact presis_aliased_column
    | exact presis_column_in_table _
    | exact presis_column_in_index _ _
    | exact presis_indexed_column _
    | exact presis_input_ids
    | exact presis_distinctFlag
    | exact presis_sepCommaMs
    | exact presis_singleId
    | exact presis_agg
    | exact presis_gtfio _
    | exact presis_get_output _ _
    | exact presis_order_by _
    | apply presis_precognize
    | apply presis_popt
    | apply presis_palt
    | apply presis_ite
    | apply presis_psep1
    | apply presis_psepPair
    | apply presis_pfold1
    | apply presis_pbind
    | split
    | (beta_reduce; split)
    | intro _

theorem presis_join (twc : Bool) : PresIS (join twc) := by
  unfold join
  repeat
    first
    | exact presis_predicate_wrapper (presis_predicateOf (presis_join_comparison _ _))
    | exact presis_ptag _
    | exact presis_tagWith _ _
    | exact presis_pcaseless _
    | exact presis_pcaselessL _
    | exact presis_ppure _
    | exact presis_pfail
    | exact presis_pcrash _
    | exact presis_getEnv
    | exact presis_getSchema
    | exact presis_insertTable _
    | exact presis_multispace0
    | exact presis_alphanumeric1
    | exact presis_dec_uint
    | exact presis_number
    | exact presis_stringP
    | exact presis_booleanP
    | exact presis_nullP
    | exact presis_opLit _
    | exact presis_opLitC _ _
    | exact presis_spaced_comparison_op
    | exact presis_table_name
    | exact presis_column_name
    | exact presis_aliased_column
    | exact presis_column_in_table _
    | exact presis_column_in_index _ _
    | exact presis_indexed_column _
    | exact presis_input_ids
    | exact presis_distinctFlag
    | exact presis_sepCommaMs
    | exact presis_singleId
    | exact presis_agg
    | exact presis_gtfio _
    | exact presis_get_output _ _
    | exact presis_order_by _
    | apply presis_precognize
    | apply presis_popt
    | apply presis_palt
    | apply presis_ite
    | apply presis_psep1
    | apply presis_psepPair
    | apply presis_pfold1
    | apply presis_pbind
    | split
    | (beta_reduce; split)
    | intro _

theorem presis_intersect (twc : Bool) : PresIS (intersect twc) := by
  unfold intersect
  repeat
    first
    | exact presis_predicate_wrapper (presis_predicateOf (presis_join_comparison _ _))
    | exact presis_ptag _
    | exact presis_tagWith _ _
    | exact presis_pcaseless _
    | exact presis_pcaselessL _
    | exact presis_ppure _
    | exact presis_pfail
    | exact presis_pcrash _
    | exact presis_getEnv
    | exact presis_getSchema
    | exact presis_insertTable _
    | exact presis_multispace0
    | exact presis_alphanumeric1
    | exact presis_dec_uint
    | exact presis_number
    | exact presis_stringP
    | exact presis_booleanP
    | exact presis_nullP
    | exact presis_opLit _
    | exact presis_opLitC _ _
    | exact presis_spaced_comparison_op
    | exact presis_table_name
    | exact presis_column_name
    | exact presis_aliased_column
    | exact presis_column_in_table _
    | exact presis_column_in_index _ _
    | exact presis_indexed_column _
    | exact presis_input_ids
    | exact presis_distinctFlag
    | exact presis_sepCommaMs
    | exact presis_singleId
    | exact presis_agg
    | exact presis_gtfio _
    | exact presis_get_output _ _
    | exact presis_order_by _
    | apply presis_precognize
    | apply presis_popt
    | apply presis_palt
    | apply presis_ite
    | apply presis_psep1
    | apply presis_psepPair
    | apply presis_pfold1
    | apply presis_pbind
    | split
    | (beta_reduce; split)
    | intro _

theorem presis_except_column_in_index_of_type (typ : ColumnType) (input_idxs : List Nat) : PresIS (except_column_in_index_of_type typ input_idxs) := by
  unfold except_column_in_index_of_type
  repeat
    first
    | exact presis_ptag _
    | exact presis_tagWith _ _
    | exact presis_pcaseless _
    | exact presis_pcaselessL _
    | exact presis_ppure _
    | exact presis_pfail
    | exact presis_pcrash _
    | exact presis_getEnv
    | exact presis_getSchema
    | exact presis_insertTable _
    | exact presis_multispace0
    | exact presis_alphanumeric1
    | exact presis_dec_uint
    | exact presis_number
    | exact presis_stringP
    | exact presis_booleanP
    | exact presis_nullP
    | exact presis_opLit _
    | exact presis_opLitC _ _
    | exact presis_spaced_comparison_op
    | exact presis_table_name
    | exact presis_column_name
    | exact presis_aliased_column
    | exact presis_column_in_table _
    | exact presis_column_in_index _ _
    | exact presis_indexed_column _
    | exact presis_input_ids
    | exact presis_distinctFlag
    | exact presis_sepCommaMs
    | exact presis_singleId
    | exact presis_agg
    | exact presis_gtfio _
    | exact presis_get_output _ _
    | exact presis_order_by _
    | apply presis_precognize
    | apply presis_popt
    | apply presis_palt
    | apply presis_ite
    | apply presis_psep1
    | apply presis_psepPair
    | apply presis_pfold1
    | apply presis_pbind
    | split
    | (beta_reduce; split)
    | intro _

theorem presis_except_type_comparable (input_idxs : List Nat) (t : ColumnType) : PresIS (except_type_comparable input_idxs t) := by
  unfold except_type_comparable
  repeat
    first
    | exact presis_except_column_in_index_of_type _ _
    | exact presis_ptag _
    | exact presis_tagWith _ _
    | exact presis_pcaseless _
    | exact presis_pcaselessL _
    | exact presis_ppure _
    | exact presis_pfail
    | exact presis_pcrash _
    | exact presis_getEnv
    | exact presis_getSchema
    | exact presis_insertTable _
    | exact presis_multispace0
    | exact presis_alphanumeric1
    | exact presis_dec_uint
    | exact presis_number
    | exact presis_stringP
    | exact presis_booleanP
    | exact presis_nullP
    | exact presis_opLit _
    | exact presis_opLitC _ _
    | exact presis_spaced_comparison_op
    | exact presis_table_name
    | exact presis_column_name
    | exact presis_aliased_column
    | exact presis_column_in_table _
    | exact presis_column_in_index _ _
    | exact presis_indexed_column _
    | exact presis_input_ids
    | exact presis_distinctFlag
    | exact presis_sepCommaMs
    | exact presis_singleId
    | exact presis_agg
    | exact presis_gtfio _
    | exact presis_get_output _ _
    | exact presis_order_by _
    | apply presis_precognize
    | apply presis_popt
    | apply presis_palt
    | apply presis_ite
    | apply presis_psep1
    | apply presis_psepPair
    | apply presis_pfold1
    | apply presis_pbind
    | split
    | (beta_reduce; split)
    | intro _

theorem presis_except_comparable (input_idxs : List Nat) : PresIS (except_comparable input_idxs) := by
  unfold except_comparable
  repeat
    first
    | exact presis_ptag _
    | exact presis_tagWith _ _
    | exact presis_pcaseless _
    | exact presis_pcaselessL _
    | exact presis_ppure _
    | exact presis_pfail
    | exact presis_pcrash _
    | exact presis_getEnv
    | exact presis_getSchema
    | exact presis_insertTable _
    | exact presis_multispace0
    | exact presis_alphanumeric1
    | exact presis_dec_uint
    | exact presis_number
    | exact presis_stringP
    | exact presis_booleanP
    | exact presis_nullP
    | exact presis_opLit _
    | exact presis_opLitC _ _
    | exact presis_spaced_comparison_op
    | exact presis_table_name
    | exact presis_column_name
    | exact presis_aliased_column
    | exact presis_column_in_table _
    | exact presis_column_in_index _ _
    | exact presis_indexed_column _
    | exact presis_input_ids
    | exact presis_distinctFlag
    | exact presis_sepCommaMs
    | exact presis_singleId
    | exact presis_agg
    | exact presis_gtfio _
    | exact presis_get_output _ _
    | exact presis_order_by _
    | apply presis_precognize
    | apply presis_popt
    | apply presis_palt
    | apply presis_ite
    | apply presis_psep1
    | apply presis_psepPair
    | apply presis_pfold1
    | apply presis_pbind
    | split
    | (beta_reduce; split)
    | intro _

theorem presis_except_comparison (twc : Bool) (input_idxs : List Nat) : PresIS (except_comparison twc input_idxs) := by
  unfold except_comparison
  repeat
    first
    | exact presis_except_type_comparable _ _
    | exact presis_except_comparable _
    | exact presis_ptag _
    | exact presis_tagWith _ _
    | exact presis_pcaseless _
    | exact presis_pcaselessL _
    | exact presis_ppure _
    | exact presis_pfail
    | exact presis_pcrash _
    | exact presis_getEnv
    | exact presis_getSchema
    | exact presis_insertTable _
    | exact presis_multispace0
    | exact presis_alphanumeric1
    | exact presis_dec_uint
    | exact presis_number
    | exact presis_stringP
    | exact presis_booleanP
    | exact presis_nullP
    | exact presis_opLit _
    | exact presis_opLitC _ _
    | exact presis_spaced_comparison_op
    | exact presis_table_name
    | exact presis_column_name
    | exact presis_aliased_column
    | exact presis_column_in_table _
    | exact presis_column_in_index _ _
    | exact presis_indexed_column _
    | exact presis_input_ids
    | exact presis_distinctFlag
    | exact presis_sepCommaMs
    | exact presis_singleId
    | exact presis_agg
    | exact presis_gtfio _
    | exact presis_get_output _ _
    | exact presis_order_by _
    | apply presis_precognize
    | apply presis_popt
    | apply presis_palt
    | apply presis_ite
    | apply presis_psep1
    | apply presis_psepPair
    | apply presis_pfold1
    | apply presis_pbind
    | split
    | (beta_reduce; split)
    | intro _

theorem presis_except_columns (input_idxs : List Nat) : PresIS (except_columns input_idxs) := by
  unfold except_columns
  repeat
    first
    | exact presis_ptag _
    | exact presis_tagWith _ _
    | exact presis_pcaseless _
    | exact presis_pcaselessL _
    | exact presis_ppure _
    | exact presis_pfail
    | exact presis_pcrash _
    | exact presis_getEnv
    | exact presis_getSchema
    | exact presis_insertTable _
    | exact presis_multispace0
    | exact presis_alphanumeric1
    | exact presis_dec_uint
    | exact presis_number
    | exact presis_stringP
    | exact presis_booleanP
    | exact presis_nullP
    | exact presis_opLit _
    | exact presis_opLitC _ _
    | exact presis_spaced_comparison_op
    | exact presis_table_name
    | exact presis_column_name
    | exact presis_aliased_column
    | exact presis_column_in_table _
    | exact presis_column_in_index _ _
    | exact presis_indexed_column _
    | exact presis_input_ids
    | exact presis_distinctFlag
    | exact presis_sepCommaMs
    | exact presis_singleId
    | exact presis_agg
    | exact presis_gtfio _
    | exact presis_get_output _ _
    | exact presis_order_by _
    | apply presis_precognize
    | apply presis_popt
    | apply presis_palt
    | apply presis_ite
    | apply presis_psep1
    | apply presis_psepPair
    | apply presis_pfold1
    | apply presis_pbind
    | split
    | (beta_reduce; split)
    | intro _

theorem presis_except (twc : Bool) : PresIS (except twc) := by
  unfold except
  repeat
    first
    | exact presis_predicate_wrapper (presis_predicateOf (presis_except_comparison _ _))
    | exact presis_except_columns _
    | exact presis_ptag _
    | exact presis_tagWith _ _
    | exact presis_pcaseless _
    | exact presis_pcaselessL _
    | exact presis_ppure _
    | exact presis_pfail
    | exact presis_pcrash _
    | exact presis_getEnv
    | exact presis_getSchema
    | exact presis_insertTable _
    | exact presis_multispace0
    | exact presis_alphanumeric1
    | exact presis_dec_uint
    | exact presis_number
    | exact presis_stringP
    | exact presis_booleanP
    | exact presis_nullP
    | exact presis_opLit _
    | exact presis_opLitC _ _
    | exact presis_spaced_comparison_op
    | exact presis_table_name
    | exact presis_column_name
    | exact presis_aliased_column
    | exact presis_column_in_table _
    | exact presis_column_in_index _ _
    | exact presis_indexed_column _
    | exact presis_input_ids
    | exact presis_distinctFlag
    | exact presis_sepCommaMs
    | exact presis_singleId
    | exact presis_agg
    | exact presis_gtfio _
    | exact presis_get_output _ _
    | exact presis_order_by _
    | apply presis_precognize
    | apply presis_popt
    | apply presis_palt
    | apply presis_ite
    | apply presis_psep1
    | apply presis_psepPair
    | apply presis_pfold1
    | apply presis_pbind
    | split
    | (beta_reduce; split)
    | intro _

theorem presis_opAlt (twc : Bool) : PresIS (opAlt twc) := by
  unfold opAlt
  repeat
    first
    | exact presis_scan _
    | exact presis_aggregate
    | exact presis_filter _
    | exact presis_top
    | exact presis_sort
    | exact presis_top_sort
    | exact presis_join _
    | exact presis_intersect _
    | exact presis_except _
    | exact presis_union
    | apply presis_palt

/-- C4 (amended): within the operation alternation, a failed alternative
leaves `current_idx` and `seen` untouched — the visible leak of a failed
alternative is confined to derived tables inserted into `idx_to_table` (and,
at the line level, the already-bumped `current_idx`), since the environment is
not checkpointed and restored. -/
theorem claim4_amended_op_failure (twc : Bool) (s s' : Stream)
    (h : opAlt twc s = .err .backtrack s') :
    s'.env.state.current_idx = s.env.state.current_idx ∧
    s'.env.state.seen = s.env.state.seen := by
  have hp := presis_opAlt twc s
  rw [h] at hp
  exact hp

theorem claim4_amended_witness :
    (Stream.mk (("XYZ").toList) false testEnv).env.state.current_idx =
      (Stream.mk (("XYZ").toList) false testEnv).env.state.current_idx ∧
    (Stream.mk (("XYZ").toList) false testEnv).env.state.seen =
      (Stream.mk (("XYZ").toList) false testEnv).env.state.seen :=
  claim4_amended_op_failure true (Stream.mk (("XYZ").toList) false testEnv)
    (Stream.mk (("XYZ").toList) false testEnv) (by decide!)

/-! ## Inversion principles for successful runs -/

theorem pbind_ok_inv {p : Parser α} {f : α → Parser β} {s : Stream} {b : β}
    {s2 : Stream} (h : pbind p f s = .ok b s2) :
    ∃ a s1, p s = .ok a s1 ∧ f a s1 = .ok b s2 := by
  unfold pbind at h
  cases hp : p s <;> simp only [hp] at h
  case ok a s1 => exact ⟨a, s1, rfl, h⟩
  case err e s1 => exact PResult.noConfusion h
  case crash k => exact PResult.noConfusion h

theorem ppure_ok_inv {a : α} {s : Stream} {b : α} {s' : Stream}
    (h : ppure a s = .ok b s') : b = a ∧ s' = s := by
  cases h
  exact ⟨rfl, rfl⟩

theorem getEnv_ok_inv {s : Stream} {e : QplEnvironment} {s' : Stream}
    (h : getEnv s = .ok e s') : e = s.env ∧ s' = s := by
  cases h
  exact ⟨rfl, rfl⟩

theorem modifyEnv_ok_inv {g : QplEnvironment → QplEnvironment} {s : Stream} {u : Unit}
    {s' : Stream} (h : modifyEnv g s = .ok u s') : s' = { s with env := g s.env } := by
  cases h
  rfl

theorem palt_ok_cases {p q : Parser α} {s : Stream} {a : α} {s' : Stream}
    (h : palt p q s = .ok a s') :
    p s = .ok a s' ∨
    ∃ s1, p s = .err .backtrack s1 ∧ q { s with env := s1.env } = .ok a s' := by
  unfold palt at h
  cases hp : p s <;> simp only [hp] at h
  case ok a1 s1 =>
    cases h
    exact Or.inl rfl
  case err e s1 =>
    cases e <;> simp only at h
    case backtrack => exact Or.inr ⟨s1, rfl, h⟩
    case cut => exact PResult.noConfusion h
    case incomplete => exact PResult.noConfusion h
  case crash k => exact PResult.noConfusion h

/-- Membership in `seenInsert`. -/
theorem mem_seenInsert (j n : Nat) (l : List Nat) :
    j ∈ seenInsert n l ↔ j = n ∨ j ∈ l := by
  unfold seenInsert
  split
  · constructor
    · exact fun h => Or.inr h
    · rintro (rfl | h)
      · have hc : l.contains j = true := by assumption
        exact List.elem_iff.mp hc
      · exact h
  · simp [List.mem_cons]

/-! ## Input lists of accepted operations are drawn from `seen` -/

theorem input_ids_ok {s : Stream} {ids : List Nat} {s' : Stream}
    (h : input_ids s = .ok ids s') :
    (∀ k ∈ ids, k ∈ s.env.state.seen) ∧
    s'.env.state.seen = s.env.state.seen ∧
    s'.env.state.current_idx = s.env.state.current_idx := by
  have hpres := presis_input_ids s
  rw [h] at hpres
  refine ⟨?_, hpres.2, hpres.1⟩
  unfold input_ids at h
  obtain ⟨u1, s1, h1, h⟩ := pbind_ok_inv h
  obtain ⟨ids0, s2, h2, h⟩ := pbind_ok_inv h
  obtain ⟨env0, s3, h3, h⟩ := pbind_ok_inv h
  obtain ⟨rfl, rfl⟩ := getEnv_ok_inv h3
  by_cases hcond : (!(ids0.all fun i => s3.env.state.seen.contains i)) = true
  · rw [if_pos hcond] at h
    exact PResult.noConfusion h
  · rw [if_neg hcond] at h
    obtain ⟨u2, s4, h4, h⟩ := pbind_ok_inv h
    obtain ⟨rfl, rfl⟩ := ppure_ok_inv h
    have hall : (ids.all fun i => s3.env.state.seen.contains i) = true := by
      cases hb : ids.all fun i => s3.env.state.seen.contains i
      · rw [hb] at hcond
        exact absurd rfl hcond
      · rfl
    have hseen2 : s3.env.state.seen = s.env.state.seen := by
      have hp1 := presis_ptag ("[ ") s
      rw [h1] at hp1
      have hp2 := presis_psepPair presis_singleId presis_sepCommaMs s1
      rw [h2] at hp2
      exact hp2.2.trans hp1.2
    intro k hk
    have := List.all_eq_true.mp hall k hk
    rw [hseen2] at this
    exact List.elem_iff.mp this

theorem filter_ok_inputs {twc : Bool} {s : Stream} {op : Operation} {s' : Stream}
    (h : filter twc s = .ok op s') :
    ∀ k ∈ opInputs op, k ∈ s.env.state.seen := by
  unfold filter at h
  obtain ⟨u1, s1, h1, h⟩ := pbind_ok_inv h
  obtain ⟨inputs, s2, h2, h⟩ := pbind_ok_inv h
  by_cases hlen : inputs.length ≠ 1
  · rw [if_pos hlen] at h
    exact PResult.noConfusion h
  · rw [if_neg hlen] at h
    obtain ⟨pred, s3, h3, h⟩ := pbind_ok_inv h
    obtain ⟨dist, s4, h4, h⟩ := pbind_ok_inv h
    obtain ⟨u2, s5, h5, h⟩ := pbind_ok_inv h
    obtain ⟨outs, s6, h6, h⟩ := pbind_ok_inv h
    obtain ⟨env0, s7, h7, h⟩ := pbind_ok_inv h
    obtain ⟨rfl, rfl⟩ := getEnv_ok_inv h7
    cases hv : filter_validate_output (inputs.headD 0) outs s7.env.state.idx_to_table with
    | none =>
      rw [hv] at h
      exact PResult.noConfusion h
    | some b =>
      cases b
      · rw [hv] at h
        exact PResult.noConfusion h
      · rw [hv] at h
        obtain ⟨tbl, s8, h8, h⟩ := pbind_ok_inv h
        obtain ⟨u3, s9, h9, h⟩ := pbind_ok_inv h
        obtain ⟨u4, s10, h10, h⟩ := pbind_ok_inv h
        obtain ⟨rfl, rfl⟩ := ppure_ok_inv h
        intro k hk
        simp only [opInputs, List.mem_singleton] at hk
        subst hk
        have hone : inputs.length = 1 := by
          by_cases hl : inputs.length = 1
          · exact hl
          · exact absurd hl hlen
        obtain ⟨i, rfl⟩ := List.length_eq_one.mp hone
        have hp1 := presis_ptag ("Filter ") s
        rw [h1] at hp1
        have hmem := (input_ids_ok h2).1 i (by simp)
        rw [hp1.2] at hmem
        exact hmem

/-! ## Per-operation input extraction -/

theorem scan_ok_inputs {twc : Bool} {s : Stream} {op : Operation} {s' : Stream}
    (h : scan twc s = .ok op s') :
    ∀ k ∈ opInputs op, k ∈ s.env.state.seen := by
  unfold scan at h
  obtain ⟨u1, s1, h1, h⟩ := pbind_ok_inv h
  obtain ⟨table, s2, h2, h⟩ := pbind_ok_inv h
  obtain ⟨u2, s3, h3, h⟩ := pbind_ok_inv h
  obtain ⟨pred, s4, h4, h⟩ := pbind_ok_inv h
  obtain ⟨dist, s5, h5, h⟩ := pbind_ok_inv h
  obtain ⟨u3, s6, h6, h⟩ := pbind_ok_inv h
  obtain ⟨outs, s7, h7, h⟩ := pbind_ok_inv h
  by_cases hdup : has_duplicates outs = true
  · rw [if_pos hdup] at h
    exact PResult.noConfusion h
  · rw [if_neg hdup] at h
    obtain ⟨schema, s8, h8, h⟩ := pbind_ok_inv h
    cases hv : get_output_table schema table outs with
    | none =>
      rw [hv] at h
      exact PResult.noConfusion h
    | some t =>
      rw [hv] at h
      obtain ⟨u4, s9, h9, h⟩ := pbind_ok_inv h
      obtain ⟨u5, s10, h10, h⟩ := pbind_ok_inv h
      obtain ⟨rfl, rfl⟩ := ppure_ok_inv h
      intro k hk
      simp only [opInputs] at hk
      exact absurd hk (List.not_mem_nil k)

theorem aggregate_ok_inputs {s : Stream} {op : Operation} {s' : Stream}
    (h : aggregate s = .ok op s') :
    ∀ k ∈ opInputs op, k ∈ s.env.state.seen := by
  unfold aggregate at h
  obtain ⟨u1, s1, h1, h⟩ := pbind_ok_inv h
  obtain ⟨inputs, s2, h2, h⟩ := pbind_ok_inv h
  by_cases hlen : inputs.length ≠ 1
  · rw [if_pos hlen] at h
    exact PResult.noConfusion h
  · rw [if_neg hlen] at h
    obtain ⟨gbs, s3, h3, h⟩ := pbind_ok_inv h
    obtain ⟨u2, s4, h4, h⟩ := pbind_ok_inv h
    obtain ⟨outs, s5, h5, h⟩ := pbind_ok_inv h
    obtain ⟨env0, sE, hE, h⟩ := pbind_ok_inv h
    obtain ⟨rfl, rfl⟩ := getEnv_ok_inv hE
    cases hv : agg_validate_output (inputs.headD 0) outs sE.env.state.idx_to_table with
    | none =>
      rw [hv] at h
      exact PResult.noConfusion h
    | some b =>
      cases b
      · rw [hv] at h
        exact PResult.noConfusion h
      · rw [hv] at h
        obtain ⟨tbl, t1, g1, h⟩ := pbind_ok_inv h
        obtain ⟨v1, t2, g2, h⟩ := pbind_ok_inv h
        obtain ⟨v2, t3, g3, h⟩ := pbind_ok_inv h
        obtain ⟨rfl, rfl⟩ := ppure_ok_inv h
        intro k hk
        simp only [opInputs, List.mem_singleton] at hk
        subst hk
        have hone : inputs.length = 1 := by
          by_cases hl : inputs.length = 1
          · exact hl
          · exact absurd hl hlen
        obtain ⟨i, rfl⟩ := List.length_eq_one.mp hone
        have hp1 := presis_ptag (("Aggregate ")) s
        rw [h1] at hp1
        have hmem := (input_ids_ok h2).1 i (by simp)
        rw [hp1.2] at hmem
        exact hmem

theorem top_ok_inputs {s : Stream} {op : Operation} {s' : Stream}
    (h : top s = .ok op s') :
    ∀ k ∈ opInputs op, k ∈ s.env.state.seen := by
  unfold top at h
  obtain ⟨u1, s1, h1, h⟩ := pbind_ok_inv h
  obtain ⟨inputs, s2, h2, h⟩ := pbind_ok_inv h
  by_cases hlen : inputs.length ≠ 1
  · rw [if_pos hlen] at h
    exact PResult.noConfusion h
  · rw [if_neg hlen] at h
    obtain ⟨u2, s3, h3, h⟩ := pbind_ok_inv h
    obtain ⟨rows, s4, h4, h⟩ := pbind_ok_inv h
    obtain ⟨u3, s5, h5, h⟩ := pbind_ok_inv h
    obtain ⟨outs, s6, h6, h⟩ := pbind_ok_inv h
    obtain ⟨env0, sE, hE, h⟩ := pbind_ok_inv h
    obtain ⟨rfl, rfl⟩ := getEnv_ok_inv hE
    cases hv : top_validate_output (inputs.headD 0) outs sE.env.state.idx_to_table with
    | none =>
      rw [hv] at h
      exact PResult.noConfusion h
    | some b =>
      cases b
      · rw [hv] at h
        exact PResult.noConfusion h
      · rw [hv] at h
        obtain ⟨tbl, t1, g1, h⟩ := pbind_ok_inv h
        obtain ⟨v1, t2, g2, h⟩ := pbind_ok_inv h
        obtain ⟨v2, t3, g3, h⟩ := pbind_ok_inv h
        obtain ⟨rfl, rfl⟩ := ppure_ok_inv h
        intro k hk
        simp only [opInputs, List.mem_singleton] at hk
        subst hk
        have hone : inputs.length = 1 := by
          by_cases hl : inputs.length = 1
          · exact hl
          · exact absurd hl hlen
        obtain ⟨i, rfl⟩ := List.length_eq_one.mp hone
        have hp1 := presis_ptag (("Top ")) s
        rw [h1] at hp1
        have hmem := (input_ids_ok h2).1 i (by simp)
        rw [hp1.2] at hmem
        exact hmem

theorem top_sort_ok_inputs {s : Stream} {op : Operation} {s' : Stream}
    (h : top_sort s = .ok op s') :
    ∀ k ∈ opInputs op, k ∈ s.env.state.seen := by
  unfold top_sort at h
  obtain ⟨u1, s1, h1, h⟩ := pbind_ok_inv h
  obtain ⟨inputs, s2, h2, h⟩ := pbind_ok_inv h
  by_cases hlen : inputs.length ≠ 1
  · rw [if_pos hlen] at h
    exact PResult.noConfusion h
  · rw [if_neg hlen] at h
    obtain ⟨u2, s3, h3, h⟩ := pbind_ok_inv h
    obtain ⟨rows, s4, h4, h⟩ := pbind_ok_inv h
    obtain ⟨u3, s5, h5, h⟩ := pbind_ok_inv h
    obtain ⟨obs, s6, h6, h⟩ := pbind_ok_inv h
    obtain ⟨u4, s7, h7, h⟩ := pbind_ok_inv h
    obtain ⟨wt, s8, h8, h⟩ := pbind_ok_inv h
    obtain ⟨u5, s9, h9, h⟩ := pbind_ok_inv h
    obtain ⟨outs, s10, h10, h⟩ := pbind_ok_inv h
    obtain ⟨env0, sE, hE, h⟩ := pbind_ok_inv h
    obtain ⟨rfl, rfl⟩ := getEnv_ok_inv hE
    cases hv : top_sort_validate_output (inputs.headD 0) outs sE.env.state.idx_to_table with
    | none =>
      rw [hv] at h
      exact PResult.noConfusion h
    | some b =>
      cases b
      · rw [hv] at h
        exact PResult.noConfusion h
      · rw [hv] at h
        obtain ⟨tbl, t1, g1, h⟩ := pbind_ok_inv h
        obtain ⟨v1, t2, g2, h⟩ := pbind_ok_inv h
        obtain ⟨v2, t3, g3, h⟩ := pbind_ok_inv h
        obtain ⟨rfl, rfl⟩ := ppure_ok_inv h
        intro k hk
        simp only [opInputs, List.mem_singleton] at hk
        subst hk
        have hone : inputs.length = 1 := by
          by_cases hl : inputs.length = 1
          · exact hl
          · exact absurd hl hlen
        obtain ⟨i, rfl⟩ := List.length_eq_one.mp hone
        have hp1 := presis_ptag (("TopSort ")) s
        rw [h1] at hp1
        have hmem := (input_ids_ok h2).1 i (by simp)
        rw [hp1.2] at hmem
        exact hmem

theorem sort_ok_inputs {s : Stream} {op : Operation} {s' : Stream}
    (h : sort s = .ok op s') :
    ∀ k ∈ opInputs op, k ∈ s.env.state.seen := by
  unfold sort at h
  obtain ⟨u1, s1, h1, h⟩ := pbind_ok_inv h
  obtain ⟨inputs, s2, h2, h⟩ := pbind_ok_inv h
  by_cases hlen : inputs.length ≠ 1
  · rw [if_pos hlen] at h
    exact PResult.noConfusion h
  · rw [if_neg hlen] at h
    obtain ⟨dist, s3, h3, h⟩ := pbind_ok_inv h
    obtain ⟨u2, s4, h4, h⟩ := pbind_ok_inv h
    obtain ⟨obs, s5, h5, h⟩ := pbind_ok_inv h
    obtain ⟨u3, s6, h6, h⟩ := pbind_ok_inv h
    obtain ⟨u4, s7, h7, h⟩ := pbind_ok_inv h
    obtain ⟨outs, s8, h8, h⟩ := pbind_ok_inv h
    obtain ⟨env0, sE, hE, h⟩ := pbind_ok_inv h
    obtain ⟨rfl, rfl⟩ := getEnv_ok_inv hE
    cases hv : sort_validate_output (inputs.headD 0) outs sE.env.state.idx_to_table with
    | none =>
      rw [hv] at h
      exact PResult.noConfusion h
    | some b =>
      cases b
      · rw [hv] at h
        exact PResult.noConfusion h
      · rw [hv] at h
        obtain ⟨tbl, t1, g1, h⟩ := pbind_ok_inv h
        obtain ⟨v1, t2, g2, h⟩ := pbind_ok_inv h
        obtain ⟨v2, t3, g3, h⟩ := pbind_ok_inv h
        obtain ⟨rfl, rfl⟩ := ppure_ok_inv h
        intro k hk
        simp only [opInputs, List.mem_singleton] at hk
        subst hk
        have hone : inputs.length = 1 := by
          by_cases hl : inputs.length = 1
          · exact hl
          · exact absurd hl hlen
        obtain ⟨i, rfl⟩ := List.length_eq_one.mp hone
        have hp1 := presis_ptag (("Sort ")) s
        rw [h1] at hp1
        have hmem := (input_ids_ok h2).1 i (by simp)
        rw [hp1.2] at hmem
        exact hmem

theorem join_ok_inputs {twc : Bool} {s : Stream} {op : Operation} {s' : Stream}
    (h : join twc s = .ok op s') :
    ∀ k ∈ opInputs op, k ∈ s.env.state.seen := by
  unfold join at h
  obtain ⟨u1, s1, h1, h⟩ := pbind_ok_inv h
  obtain ⟨inputs, s2, h2, h⟩ := pbind_ok_inv h
  by_cases hlen : inputs.length ≠ 2
  · rw [if_pos hlen] at h
    exact PResult.noConfusion h
  · rw [if_neg hlen] at h
    obtain ⟨pred, s3, h3, h⟩ := pbind_ok_inv h
    obtain ⟨dist, s4, h4, h⟩ := pbind_ok_inv h
    obtain ⟨u2, s5, h5, h⟩ := pbind_ok_inv h
    obtain ⟨outs, s6, h6, h⟩ := pbind_ok_inv h
    obtain ⟨env0, sE, hE, h⟩ := pbind_ok_inv h
    obtain ⟨rfl, rfl⟩ := getEnv_ok_inv hE
    cases hv : join_validate_output inputs outs sE.env.state.idx_to_table with
    | none =>
      rw [hv] at h
      exact PResult.noConfusion h
    | some b =>
      cases b
      · rw [hv] at h
        exact PResult.noConfusion h
      · rw [hv] at h
        obtain ⟨tbl, t1, g1, h⟩ := pbind_ok_inv h
        obtain ⟨v1, t2, g2, h⟩ := pbind_ok_inv h
        obtain ⟨v2, t3, g3, h⟩ := pbind_ok_inv h
        obtain ⟨rfl, rfl⟩ := ppure_ok_inv h
        intro k hk
        simp only [opInputs] at hk
        have hp1 := presis_ptag (("Join ")) s
        rw [h1] at hp1
        have hmem := (input_ids_ok h2).1 k hk
        rw [hp1.2] at hmem
        exact hmem

theorem intersect_ok_inputs {twc : Bool} {s : Stream} {op : Operation} {s' : Stream}
    (h : intersect twc s = .ok op s') :
    ∀ k ∈ opInputs op, k ∈ s.env.state.seen := by
  unfold intersect at h
  obtain ⟨u1, s1, h1, h⟩ := pbind_ok_inv h
  obtain ⟨inputs, s2, h2, h⟩ := pbind_ok_inv h
  by_cases hlen : inputs.length ≠ 2
  · rw [if_pos hlen] at h
    exact PResult.noConfusion h
  · rw [if_neg hlen] at h
    obtain ⟨pred, s3, h3, h⟩ := pbind_ok_inv h
    obtain ⟨dist, s4, h4, h⟩ := pbind_ok_inv h
    obtain ⟨u2, s5, h5, h⟩ := pbind_ok_inv h
    obtain ⟨outs, s6, h6, h⟩ := pbind_ok_inv h
    obtain ⟨env0, sE, hE, h⟩ := pbind_ok_inv h
    obtain ⟨rfl, rfl⟩ := getEnv_ok_inv hE
    cases hv : join_validate_output inputs outs sE.env.state.idx_to_table with
    | none =>
      rw [hv] at h
      exact PResult.noConfusion h
    | some b =>
      cases b
      · rw [hv] at h
        exact PResult.noConfusion h
      · rw [hv] at h
        obtain ⟨tbl, t1, g1, h⟩ := pbind_ok_inv h
        obtain ⟨v1, t2, g2, h⟩ := pbind_ok_inv h
        obtain ⟨v2, t3, g3, h⟩ := pbind_ok_inv h
        obtain ⟨rfl, rfl⟩ := ppure_ok_inv h
        intro k hk
        simp only [opInputs] at hk
        have hp1 := presis_ptag (("Intersect ")) s
        rw [h1] at hp1
        have hmem := (input_ids_ok h2).1 k hk
        rw [hp1.2] at hmem
        exact hmem

theorem except_ok_inputs {twc : Bool} {s : Stream} {op : Operation} {s' : Stream}
    (h : except twc s = .ok op s') :
    ∀ k ∈ opInputs op, k ∈ s.env.state.seen := by
  unfold except at h
  obtain ⟨u1, s1, h1, h⟩ := pbind_ok_inv h
  obtain ⟨inputs, s2, h2, h⟩ := pbind_ok_inv h
  by_cases hlen : inputs.length ≠ 2
  · rw [if_pos hlen] at h
    exact PResult.noConfusion h
  · rw [if_neg hlen] at h
    obtain ⟨oper, s3, h3, h⟩ := pbind_ok_inv h
    obtain ⟨dist, s4, h4, h⟩ := pbind_ok_inv h
    obtain ⟨u2, s5, h5, h⟩ := pbind_ok_inv h
    obtain ⟨outs, s6, h6, h⟩ := pbind_ok_inv h
    obtain ⟨env0, sE, hE, h⟩ := pbind_ok_inv h
    obtain ⟨rfl, rfl⟩ := getEnv_ok_inv hE
    cases hv : except_validate_output inputs outs sE.env.state.idx_to_table with
    | none =>
      rw [hv] at h
      exact PResult.noConfusion h
    | some b =>
      cases b
      · rw [hv] at h
        exact PResult.noConfusion h
      · rw [hv] at h
        obtain ⟨tbl, t1, g1, h⟩ := pbind_ok_inv h
        obtain ⟨v1, t2, g2, h⟩ := pbind_ok_inv h
        obtain ⟨v2, t3, g3, h⟩ := pbind_ok_inv h
        obtain ⟨rfl, rfl⟩ := ppure_ok_inv h
        intro k hk
        simp only [opInputs] at hk
        have hp1 := presis_ptag (("Except ")) s
        rw [h1] at hp1
        have hmem := (input_ids_ok h2).1 k hk
        rw [hp1.2] at hmem
        exact hmem

theorem union_ok_inputs {s : Stream} {op : Operation} {s' : Stream}
    (h : union s = .ok op s') :
    ∀ k ∈ opInputs op, k ∈ s.env.state.seen := by
  unfold union at h
  obtain ⟨u1, s1, h1, h⟩ := pbind_ok_inv h
  obtain ⟨inputs, s2, h2, h⟩ := pbind_ok_inv h
  by_cases hlen : inputs.length ≠ 2
  · rw [if_pos hlen] at h
    exact PResult.noConfusion h
  · rw [if_neg hlen] at h
    obtain ⟨u2, s3, h3, h⟩ := pbind_ok_inv h
    obtain ⟨outs, s4, h4, h⟩ := pbind_ok_inv h
    obtain ⟨env0, sE, hE, h⟩ := pbind_ok_inv h
    obtain ⟨rfl, rfl⟩ := getEnv_ok_inv hE
    cases hv : union_validate_output inputs outs sE.env.state.idx_to_table with
    | none =>
      rw [hv] at h
      exact PResult.noConfusion h
    | some b =>
      cases b
      · rw [hv] at h
        exact PResult.noConfusion h
      · rw [hv] at h
        obtain ⟨tbl, t1, g1, h⟩ := pbind_ok_inv h
        obtain ⟨v1, t2, g2, h⟩ := pbind_ok_inv h
        obtain ⟨v2, t3, g3, h⟩ := pbind_ok_inv h
        obtain ⟨rfl, rfl⟩ := ppure_ok_inv h
        intro k hk
        simp only [opInputs] at hk
        have hp1 := presis_ptag (("Union ")) s
        rw [h1] at hp1
        have hmem := (input_ids_ok h2).1 k hk
        rw [hp1.2] at hmem
        exact hmem

/-! ## From operation alternation to the line parser -/

theorem envPres_ptag (lit : String) : EnvPres (ptag lit) := envPres_tagWith _ _

theorem opAlt_layer {p : Parser Operation} {s b : Stream} {base : List Nat}
    (hpres : PresIS p) (hb : p s = .err .backtrack b)
    (he : s.env.state.seen = base) : b.env.state.seen = base := by
  have hp := hpres s
  rw [hb] at hp
  exact hp.2.trans he

theorem opAlt_ok_inputs {twc : Bool} {s : Stream} {op : Operation} {s' : Stream}
    (h : opAlt twc s = .ok op s') :
    ∀ k ∈ opInputs op, k ∈ s.env.state.seen := by
  unfold opAlt at h
  intro k hk
  rcases palt_ok_cases h with h | ⟨b1, hb1, h⟩
  · exact scan_ok_inputs h k hk
  have e1 : b1.env.state.seen = s.env.state.seen :=
    opAlt_layer (presis_scan twc) hb1 rfl
  rcases palt_ok_cases h with h | ⟨b2, hb2, h⟩
  · have hm : k ∈ b1.env.state.seen := aggregate_ok_inputs h k hk
    rw [e1] at hm
    exact hm
  have e2 : b2.env.state.seen = s.env.state.seen :=
    opAlt_layer presis_aggregate hb2 e1
  rcases palt_ok_cases h with h | ⟨b3, hb3, h⟩
  · have hm : k ∈ b2.env.state.seen := filter_ok_inputs h k hk
    rw [e2] at hm
    exact hm
  have e3 : b3.env.state.seen = s.env.state.seen :=
    opAlt_layer (presis_filter twc) hb3 e2
  rcases palt_ok_cases h with h | ⟨b4, hb4, h⟩
  · have hm : k ∈ b3.env.state.seen := top_ok_inputs h k hk
    rw [e3] at hm
    exact hm
  have e4 : b4.env.state.seen = s.env.state.seen :=
    opAlt_layer presis_top hb4 e3
  rcases palt_ok_cases h with h | ⟨b5, hb5, h⟩
  · have hm : k ∈ b4.env.state.seen := sort_ok_inputs h k hk
    rw [e4] at hm
    exact hm
  have e5 : b5.env.state.seen = s.env.state.seen :=
    opAlt_layer presis_sort hb5 e4
  rcases palt_ok_cases h with h | ⟨b6, hb6, h⟩
  · have hm : k ∈ b5.env.state.seen := top_sort_ok_inputs h k hk
    rw [e5] at hm
    exact hm
  have e6 : b6.env.state.seen = s.env.state.seen :=
    opAlt_layer presis_top_sort hb6 e5
  rcases palt_ok_cases h with h | ⟨b7, hb7, h⟩
  · have hm : k ∈ b6.env.state.seen := join_ok_inputs h k hk
    rw [e6] at hm
    exact hm
  have e7 : b7.env.state.seen = s.env.state.seen :=
    opAlt_layer (presis_join twc) hb7 e6
  rcases palt_ok_cases h with h | ⟨b8, hb8, h⟩
  · have hm : k ∈ b7.env.state.seen := intersect_ok_inputs h k hk
    rw [e7] at hm
    exact hm
  have e8 : b8.env.state.seen = s.env.state.seen :=
    opAlt_layer (presis_intersect twc) hb8 e7
  rcases palt_ok_cases h with h | ⟨b9, hb9, h⟩
  · have hm : k ∈ b8.env.state.seen := except_ok_inputs h k hk
    rw [e8] at hm
    exact hm
  have e9 : b9.env.state.seen = s.env.state.seen :=
    opAlt_layer (presis_except twc) hb9 e8
  have hm : k ∈ b9.env.state.seen := union_ok_inputs h k hk
  rw [e9] at hm
  exact hm

theorem qpl_line_ok {twc : Bool} {s : Stream} {line : Line} {s' : Stream}
    (h : qpl_line twc s = .ok line s') :
    line.idx = s.env.state.current_idx + 1 ∧
    (∀ k ∈ opInputs line.operation, k ∈ s.env.state.seen) ∧
    s'.env.state.current_idx = s.env.state.current_idx + 1 ∧
    s'.env.state.seen = seenInsert (s.env.state.current_idx + 1) s.env.state.seen := by
  unfold qpl_line at h
  obtain ⟨env0, sg, hg, h⟩ := pbind_ok_inv h
  obtain ⟨he0, hsg⟩ := getEnv_ok_inv hg
  subst he0
  rw [hsg] at h
  obtain ⟨u1, s2, h2, h⟩ := pbind_ok_inv h
  obtain ⟨u2, s3, h3, h⟩ := pbind_ok_inv h
  have hs3 := modifyEnv_ok_inv h3
  obtain ⟨op, s4, h4, h⟩ := pbind_ok_inv h
  obtain ⟨u3, s5, h5, h⟩ := pbind_ok_inv h
  have hs5 := modifyEnv_ok_inv h5
  obtain ⟨rfl, rfl⟩ := ppure_ok_inv h
  have he2 : s2.env = s.env := by
    have t := envPres_tagWith (· == ·)
      ((("#").toList) ++ natToChars (s.env.state.current_idx + 1) ++ ((" = ").toList)) s
    rw [h2] at t
    exact t
  have hpre4 := presis_opAlt twc s3
  rw [h4] at hpre4
  have h3c : s3.env.state.current_idx = s.env.state.current_idx + 1 := by
    rw [hs3]
    show s2.env.state.current_idx + 1 = s.env.state.current_idx + 1
    rw [he2]
  have h3s : s3.env.state.seen = s.env.state.seen := by
    rw [hs3]
    show s2.env.state.seen = s.env.state.seen
    rw [he2]
  have h4c : s4.env.state.current_idx = s.env.state.current_idx + 1 :=
    hpre4.1.trans h3c
  have h4s : s4.env.state.seen = s.env.state.seen := hpre4.2.trans h3s
  refine ⟨rfl, ?_, ?_, ?_⟩
  · intro k hk
    have hm : k ∈ s3.env.state.seen := opAlt_ok_inputs h4 k hk
    rw [h3s] at hm
    exact hm
  · rw [hs5]
    show s4.env.state.current_idx = s.env.state.current_idx + 1
    exact h4c
  · rw [hs5]
    show seenInsert (s.env.state.current_idx + 1) s4.env.state.seen =
      seenInsert (s.env.state.current_idx + 1) s.env.state.seen
    rw [h4s]

/-! ## The seen-interval invariant through the program parser -/

theorem seenInv_transport {c : Nat} {e e' : QplEnvironment} (hinv : SeenInv c e)
    (hc : e'.state.current_idx = e.state.current_idx)
    (hs : e'.state.seen = e.state.seen) : SeenInv c e' := by
  refine ⟨by rw [hc, hinv.1], fun j => ?_⟩
  rw [hs]
  exact hinv.2 j

theorem seenInv_step {c : Nat} {e e' : QplEnvironment} (hinv : SeenInv c e)
    (hc : e'.state.current_idx = c + 1)
    (hs : e'.state.seen = seenInsert (c + 1) e.state.seen) :
    SeenInv (c + 1) e' := by
  refine ⟨hc, fun j => ?_⟩
  rw [hs, mem_seenInsert]
  constructor
  · rintro (rfl | hj)
    · omega
    · have := (hinv.2 j).mp hj
      omega
  · intro hj
    by_cases hje : j = c + 1
    · exact Or.inl hje
    · exact Or.inr ((hinv.2 j).mpr ⟨hj.1, by omega⟩)

theorem psep1Go_lines (twc : Bool) :
    ∀ (m : Nat) (c : Nat) (acc : List Line) (s : Stream) (lines : List Line) (s' : Stream),
      psep1Go (qpl_line twc) (ptag (" ; ")) m acc s = .ok lines s' →
      SeenInv c s.env →
      ∃ newLines, lines = acc.reverse ++ newLines ∧ linesOk c newLines := by
  intro m
  induction m with
  | zero =>
    intro c acc s lines s' h hinv
    simp only [psep1Go] at h
    exact PResult.noConfusion h
  | succ m ih =>
    intro c acc s lines s' h hinv
    simp only [psep1Go] at h
    cases hss : ptag (" ; ") s <;> simp only [hss] at h
    case ok o s1 =>
      have he1 : s1.env = s.env := by
        have t := envPres_ptag (" ; ") s
        rw [hss] at t
        exact t
      cases hel : qpl_line twc s1 <;> simp only [hel] at h
      case ok line s2 =>
        obtain ⟨hidx, hinp, hcur, hseen⟩ := qpl_line_ok hel
        have hinv1 : SeenInv c s1.env := by
          rw [he1]
          exact hinv
        have hinv2 : SeenInv (c + 1) s2.env :=
          seenInv_step hinv1 (by rw [hcur, hinv1.1]) (by rw [hseen, hinv1.1])
        obtain ⟨nl, hl1, hl2⟩ := ih (c + 1) (line :: acc) s2 lines s' h hinv2
        refine ⟨line :: nl, ?_, ?_, ?_, hl2⟩
        · rw [hl1]
          simp
        · rw [hidx, hinv1.1]
        · intro k hk
          have hm := hinp k hk
          have := (hinv1.2 k).mp hm
          omega
      case err e s2 =>
        cases e <;> simp only at h
        case backtrack =>
          cases h
          exact ⟨[], by simp, trivial⟩
        case cut => exact PResult.noConfusion h
        case incomplete => exact PResult.noConfusion h
      case crash k => exact PResult.noConfusion h
    case err e s1 =>
      cases e <;> simp only at h
      case backtrack =>
        cases h
        exact ⟨[], by simp, trivial⟩
      case cut => exact PResult.noConfusion h
      case incomplete => exact PResult.noConfusion h
    case crash k => exact PResult.noConfusion h

theorem qpl_ok {twc : Bool} {c : Nat} {s : Stream} {lines : Qpl} {s' : Stream}
    (h : qpl twc s = .ok lines s') (hinv : SeenInv c s.env) :
    linesOk c lines := by
  unfold qpl at h
  obtain ⟨lines0, s1, h1, h⟩ := pbind_ok_inv h
  obtain ⟨u, s2, h2, h⟩ := pbind_ok_inv h
  obtain ⟨rfl, rfl⟩ := ppure_ok_inv h
  unfold psep1 at h1
  cases hel : qpl_line twc s <;> simp only [hel] at h1
  case ok line sA =>
    obtain ⟨hidx, hinp, hcur, hseen⟩ := qpl_line_ok hel
    have hinv2 : SeenInv (c + 1) sA.env :=
      seenInv_step hinv (by rw [hcur, hinv.1]) (by rw [hseen, hinv.1])
    obtain ⟨nl, hl1, hl2⟩ := psep1Go_lines twc (sA.input.length + 1) (c + 1) [line]
      sA lines s1 h1 hinv2
    rw [hl1]
    show linesOk c (line :: nl)
    refine ⟨?_, ?_, hl2⟩
    · rw [hidx, hinv.1]
    · intro k hk
      have := (hinv.2 k).mp (hinp k hk)
      omega
  case err e sA => exact PResult.noConfusion h1
  case crash k => exact PResult.noConfusion h1

/-! ## PresIS for the prefixed-program preamble -/

theorem prepeat0Go_presis {elem : Parser α} (he : PresIS elem) :
    ∀ (m : Nat) (s : Stream),
      match prepeat0Go elem m s with
      | .ok _ s' => s'.env.state.current_idx = s.env.state.current_idx ∧
          s'.env.state.seen = s.env.state.seen
      | .err _ s' => s'.env.state.current_idx = s.env.state.current_idx ∧
          s'.env.state.seen = s.env.state.seen
      | .crash _ => True := by
  intro m
  induction m with
  | zero =>
    intro s
    simp only [prepeat0Go]
    refine ⟨?_, ?_⟩ <;> trivial
  | succ m ih =>
    intro s
    simp only [prepeat0Go]
    have hel0 := he s
    cases hel : elem s with
    | ok a s1 =>
      simp only [hel] at hel0
      dsimp only []
      have hrec := ih s1
      cases hgo : prepeat0Go elem m s1 with
      | ok r s2 =>
        rw [hgo] at hrec
        exact ⟨hrec.1.trans hel0.1, hrec.2.trans hel0.2⟩
      | err e s2 =>
        rw [hgo] at hrec
        exact ⟨hrec.1.trans hel0.1, hrec.2.trans hel0.2⟩
      | crash k => trivial
    | err e s1 =>
      simp only [hel] at hel0
      cases e with
      | backtrack => exact hel0
      | cut => exact hel0
      | incomplete => exact hel0
    | crash k => trivial

theorem presis_prepeat0 {elem : Parser α} (he : PresIS elem) :
    PresIS (prepeat0 elem) := by
  intro s
  have hgo := prepeat0Go_presis he (s.input.length + 1) s
  unfold prepeat0
  cases hgoh : prepeat0Go elem (s.input.length + 1) s with
  | ok r s2 =>
    rw [hgoh] at hgo
    exact hgo
  | err e s2 =>
    rw [hgoh] at hgo
    exact hgo
  | crash k => trivial

theorem presis_special_token : PresIS special_token := by
  unfold special_token
  repeat
    first
    | exact presis_ptag _
    | exact presis_opLit _
    | apply presis_palt
    | apply presis_pbind
    | intro _

theorem presis_schemaGo : ∀ (l : List (List Char × SqlSchema)), PresIS (schemaGo l) := by
  intro l
  induction l with
  | nil => exact presis_pfail
  | cons dbs rest ih =>
    have heq : schemaGo (dbs :: rest) = pbind (popt (pcaselessL dbs.1))
        (fun o => match o with
          | some _ => ppure dbs.2
          | none => schemaGo rest) := by
      funext s
      cases hp : popt (pcaselessL dbs.1) s with
      | ok o s1 => cases o <;> simp only [schemaGo, pbind, hp, ppure]
      | err e s1 => simp only [schemaGo, pbind, hp]
      | crash k => simp only [schemaGo, pbind, hp]
    rw [heq]
    refine presis_pbind (presis_popt (presis_pcaselessL _)) (fun o => ?_)
    cases o with
    | none => exact ih
    | some u => exact presis_ppure _

theorem presis_schemaP (schemas : List (List Char × SqlSchema)) :
    PresIS (schemaP schemas) := by
  unfold schemaP
  exact presis_schemaGo _

/-- C5: line-index discipline — every program accepted by the validation parse
has lines indexed exactly 1, 2, …, n in order, and every input reference
recorded in line m refers to a line index strictly below m. The statement
ranges over all accepted programs, including ones using the spec-modelled
Intersect and Sort operations. -/
theorem claim5_line_index_discipline (schemas : List (List Char × SqlSchema))
    (twc : Bool) (q : List Char) (lines : Qpl) (s' : Stream)
    (h : validateRun schemas twc q = .ok lines s') :
    linesOk 0 lines := by
  unfold validateRun prefixed_qpl at h
  obtain ⟨u1, s1, h1, h⟩ := pbind_ok_inv h
  obtain ⟨u2, s2, h2, h⟩ := pbind_ok_inv h
  obtain ⟨u3, s3, h3, h⟩ := pbind_ok_inv h
  obtain ⟨sch, s4, h4, h⟩ := pbind_ok_inv h
  obtain ⟨u4, s5, h5, h⟩ := pbind_ok_inv h
  obtain ⟨u5, s6, h6, h⟩ := pbind_ok_inv h
  obtain ⟨u6, s7, h7, h⟩ := pbind_ok_inv h
  have hi0 : SeenInv 0 (Stream.mk q false freshEnv).env :=
    ⟨rfl, fun j => ⟨fun hj => absurd hj (List.not_mem_nil j),
      fun hj => absurd hj.2 (by omega)⟩⟩
  have p1 := presis_multispace0 (Stream.mk q false freshEnv)
  simp only [h1] at p1
  have hi1 : SeenInv 0 s1.env := seenInv_transport hi0 p1.1 p1.2
  have p2 := presis_prepeat0 presis_special_token s1
  simp only [h2] at p2
  have hi2 : SeenInv 0 s2.env := seenInv_transport hi1 p2.1 p2.2
  have p3 := presis_multispace0 s2
  simp only [h3] at p3
  have hi3 : SeenInv 0 s3.env := seenInv_transport hi2 p3.1 p3.2
  have p4 := presis_schemaP schemas s3
  simp only [h4] at p4
  have hi4 : SeenInv 0 s4.env := seenInv_transport hi3 p4.1 p4.2
  have hs5 := modifyEnv_ok_inv h5
  have hi5 : SeenInv 0 s5.env := by
    rw [hs5]
    exact seenInv_transport hi4 rfl rfl
  have p6 := presis_multispace0 s5
  simp only [h6] at p6
  have hi6 : SeenInv 0 s6.env := seenInv_transport hi5 p6.1 p6.2
  have p7 := presis_ptag ("|") s6
  simp only [h7] at p7
  have hi7 : SeenInv 0 s7.env := seenInv_transport hi6 p7.1 p7.2
  obtain ⟨u7, s8, h8, h⟩ := pbind_ok_inv h
  have p8 := presis_multispace0 s7
  simp only [h8] at p8
  have hi8 : SeenInv 0 s8.env := seenInv_transport hi7 p8.1 p8.2
  exact qpl_ok h hi8

theorem claim5_witness :
    linesOk 0 [⟨1, Operation.scan (("stadium").toList) none false⟩] :=
  claim5_line_index_discipline [(("concert_singer").toList, concert_singer)] true
    (("concert_singer | #1 = Scan Table [ stadium ] Output [ 1 AS One ]").toList)
    [⟨1, Operation.scan (("stadium").toList) none false⟩]
    (Stream.mk [] false
      ⟨⟨1, [1], [(1, Table.named (("stadium").toList) [Column.dummy])]⟩,
        some concert_singer⟩)
    (by decide!)

/-! ## Map-lookup safety: groundwork (claim C10)

`MapSafeOn ids p` states that, starting from an environment whose seen
indices all have derived tables (`SeenDom`) and in which every index of
`ids` has a derived table, the parser `p` cannot reach the `HashMap`
indexing panic, keeps `SeenDom`, and only grows the environment. -/

theorem envGrow_refl (e : QplEnvironment) : EnvGrow e e :=
  ⟨fun _ hj => hj, fun _ hj => hj⟩

theorem envGrow_trans {e1 e2 e3 : QplEnvironment} (h1 : EnvGrow e1 e2)
    (h2 : EnvGrow e2 e3) : EnvGrow e1 e3 :=
  ⟨fun j hj => h2.1 j (h1.1 j hj), fun j hj => h2.2 j (h1.2 j hj)⟩

theorem envGrow_of_parts {e e' : QplEnvironment}
    (hseen : e'.state.seen = e.state.seen)
    (htab : e'.state.idx_to_table = e.state.idx_to_table) : EnvGrow e e' := by
  constructor
  · intro j hj
    rw [hseen]
    exact hj
  · intro j hj
    rw [htab]
    exact hj

theorem tableLookup_insert_self (k : Nat) (v : Table) (m : List (Nat × Table)) :
    tableLookup (tableInsert k v m) k = some v := by
  simp [tableInsert, tableLookup]

theorem tableLookup_insert_isSome (k j : Nat) (v : Table) (m : List (Nat × Table))
    (h : (tableLookup m j).isSome = true) :
    (tableLookup (tableInsert k v m) j).isSome = true := by
  simp only [tableInsert, tableLookup]
  by_cases hk : k = j
  · rw [if_pos hk]
    rfl
  · rw [if_neg hk]
    exact h

theorem resolveTables_isSome (m : List (Nat × Table)) :
    ∀ (idxs : List Nat),
      (∀ i ∈ idxs, (tableLookup m i).isSome = true) →
      (resolveTables m idxs).isSome = true := by
  intro idxs
  induction idxs with
  | nil => intro _; rfl
  | cons i rest ih =>
    intro h
    have hi := h i (List.mem_cons_self i rest)
    simp only [resolveTables]
    cases hlk : tableLookup m i with
    | none =>
      rw [hlk] at hi
      exact Bool.noConfusion hi
    | some t =>
      have hr := ih (fun j hj => h j (List.mem_cons_of_mem i hj))
      cases hrt : resolveTables m rest with
      | none =>
        rw [hrt] at hr
        exact Bool.noConfusion hr
      | some ts => rfl

theorem mapSafeOn_mono {ids idsSub : List Nat} {p : Parser α}
    (hsub : ∀ i ∈ idsSub, i ∈ ids) (hp : MapSafeOn idsSub p) : MapSafeOn ids p :=
  fun s hdom hids => hp s hdom (fun i hi => hids i (hsub i hi))

theorem mapSafeOn_of_nil {ids : List Nat} {p : Parser α} (hp : MapSafe p) :
    MapSafeOn ids p :=
  mapSafeOn_mono (fun i hi => absurd hi (List.not_mem_nil i)) hp

/-! ### The lexical primitives never crash -/

theorem tagWith_ne_crash (eqc : Char → Char → Bool) (lit : List Char) (s : Stream)
    (k : CrashKind) : tagWith eqc lit s ≠ .crash k := by
  intro hc
  simp only [tagWith] at hc
  repeat' split at hc
  all_goals exact PResult.noConfusion hc

theorem peof_ne_crash (s : Stream) (k : CrashKind) : peof s ≠ .crash k := by
  intro hc
  simp only [peof] at hc
  repeat' split at hc
  all_goals exact PResult.noConfusion hc

theorem takeWhile0_ne_crash (pred : Char → Bool) (s : Stream) (k : CrashKind) :
    takeWhile0 pred s ≠ .crash k := by
  intro hc
  simp only [takeWhile0] at hc
  repeat' split at hc
  all_goals exact PResult.noConfusion hc

theorem takeWhile1_ne_crash (pred : Char → Bool) (s : Stream) (k : CrashKind) :
    takeWhile1 pred s ≠ .crash k := by
  intro hc
  simp only [takeWhile1] at hc
  repeat' split at hc
  all_goals exact PResult.noConfusion hc

theorem oneOf_ne_crash (cs : List Char) (s : Stream) (k : CrashKind) :
    oneOf cs s ≠ .crash k := by
  intro hc
  simp only [oneOf] at hc
  repeat' split at hc
  all_goals exact PResult.noConfusion hc

theorem dec_uint_ne_crash (s : Stream) (k : CrashKind) : dec_uint s ≠ .crash k := by
  intro hc
  simp only [dec_uint] at hc
  split at hc
  · split at hc
    · exact PResult.noConfusion hc
    · exact PResult.noConfusion hc
  · split at hc
    · split at hc
      · exact PResult.noConfusion hc
      · split at hc
        · exact PResult.noConfusion hc
        · exact PResult.noConfusion hc
    · exact PResult.noConfusion hc

/-! ### Map-lookup safety of the primitives -/

theorem mapSafeOn_of_envPres {p : Parser α} (he : EnvPres p)
    (hc : ∀ s k, p s ≠ .crash k) {ids : List Nat} : MapSafeOn ids p := by
  intro s hdom _
  have hes := he s
  cases hps : p s with
  | ok a s1 =>
    simp only [hps] at hes
    dsimp only []
    rw [hes]
    exact ⟨hdom, envGrow_refl s.env⟩
  | err e s1 =>
    simp only [hps] at hes
    dsimp only []
    rw [hes]
    exact ⟨hdom, envGrow_refl s.env⟩
  | crash k => exact absurd hps (hc s k)

theorem ms_tagWith {ids : List Nat} (eqc : Char → Char → Bool) (lit : List Char) :
    MapSafeOn ids (tagWith eqc lit) :=
  mapSafeOn_of_envPres (envPres_tagWith eqc lit) (tagWith_ne_crash eqc lit)

theorem ms_ptag {ids : List Nat} (lit : String) : MapSafeOn ids (ptag lit) :=
  ms_tagWith _ _

theorem ms_pcaselessL {ids : List Nat} (lit : List Char) :
    MapSafeOn ids (pcaselessL lit) :=
  ms_tagWith _ _

theorem ms_pcaseless {ids : List Nat} (lit : String) : MapSafeOn ids (pcaseless lit) :=
  ms_tagWith _ _

theorem ms_peof {ids : List Nat} : MapSafeOn ids peof :=
  mapSafeOn_of_envPres envPres_peof peof_ne_crash

theorem ms_takeWhile0 {ids : List Nat} (pred : Char → Bool) :
    MapSafeOn ids (takeWhile0 pred) :=
  mapSafeOn_of_envPres (envPres_takeWhile0 pred) (takeWhile0_ne_crash pred)

theorem ms_takeWhile1 {ids : List Nat} (pred : Char → Bool) :
    MapSafeOn ids (takeWhile1 pred) :=
  mapSafeOn_of_envPres (envPres_takeWhile1 pred) (takeWhile1_ne_crash pred)

theorem ms_multispace0 {ids : List Nat} : MapSafeOn ids multispace0 :=
  ms_takeWhile0 _

theorem ms_alphanumeric1 {ids : List Nat} : MapSafeOn ids alphanumeric1 :=
  ms_takeWhile1 _

theorem ms_oneOf {ids : List Nat} (cs : List Char) : MapSafeOn ids (oneOf cs) :=
  mapSafeOn_of_envPres (envPres_oneOf cs) (oneOf_ne_crash cs)

theorem ms_dec_uint {ids : List Nat} : MapSafeOn ids dec_uint :=
  mapSafeOn_of_envPres envPres_dec_uint dec_uint_ne_crash

theorem ms_ppure {ids : List Nat} (a : α) : MapSafeOn ids (ppure a) :=
  fun _ hdom _ => ⟨hdom, envGrow_refl _⟩

theorem ms_pfail {ids : List Nat} : MapSafeOn ids (pfail : Parser α) :=
  fun _ hdom _ => ⟨hdom, envGrow_refl _⟩

theorem ms_getEnv {ids : List Nat} : MapSafeOn ids getEnv :=
  fun _ hdom _ => ⟨hdom, envGrow_refl _⟩

theorem ms_pcrash {ids : List Nat} {k : CrashKind} (hk : k ≠ .mapPanic) :
    MapSafeOn ids (pcrash k : Parser α) :=
  fun _ _ _ => hk

theorem ms_pcrash_other {ids : List Nat} :
    MapSafeOn ids (pcrash .otherPanic : Parser α) :=
  ms_pcrash (fun hc => CrashKind.noConfusion hc)

theorem ms_pcrash_todo {ids : List Nat} :
    MapSafeOn ids (pcrash .todoPanic : Parser α) :=
  ms_pcrash (fun hc => CrashKind.noConfusion hc)

theorem ms_getSchema {ids : List Nat} : MapSafeOn ids getSchema := by
  intro s hdom _
  unfold getSchema
  cases s.env.schema with
  | some sch => exact ⟨hdom, envGrow_refl _⟩
  | none =>
    intro hc
    exact CrashKind.noConfusion hc

theorem ms_modifyEnv_frame {ids : List Nat} {g : QplEnvironment → QplEnvironment}
    (hseen : ∀ e, (g e).state.seen = e.state.seen)
    (htab : ∀ e, (g e).state.idx_to_table = e.state.idx_to_table) :
    MapSafeOn ids (modifyEnv g) := by
  intro s hdom _
  refine ⟨?_, envGrow_of_parts (hseen s.env) (htab s.env)⟩
  intro j hj
  rw [hseen s.env] at hj
  rw [htab s.env]
  exact hdom j hj

theorem ms_bumpIdx {ids : List Nat} : MapSafeOn ids bumpIdx :=
  ms_modifyEnv_frame (fun _ => rfl) (fun _ => rfl)

theorem ms_setSchema {ids : List Nat} (sch : SqlSchema) :
    MapSafeOn ids (modifyEnv (fun e => { e with schema := some sch })) :=
  ms_modifyEnv_frame (fun _ => rfl) (fun _ => rfl)

theorem ms_insertTable {ids : List Nat} (t : Table) : MapSafeOn ids (insertTable t) := by
  intro s hdom _
  refine ⟨?_, ?_, ?_⟩
  · intro j hj
    exact tableLookup_insert_isSome _ _ _ _ (hdom j hj)
  · intro j hj
    exact hj
  · intro j hj
    exact tableLookup_insert_isSome _ _ _ _ hj

/-! ### Map-lookup safety: closure under the combinators -/

theorem ms_pbind {ids : List Nat} {p : Parser α} {f : α → Parser β}
    (hp : MapSafeOn ids p) (hf : ∀ a, MapSafeOn ids (f a)) :
    MapSafeOn ids (pbind p f) := by
  intro s hdom hids
  have hps := hp s hdom hids
  cases hph : p s with
  | ok a s1 =>
    simp only [hph] at hps
    simp only [pbind, hph]
    have hfs := hf a s1 hps.1 (fun i hi => hps.2.2 i (hids i hi))
    cases hfh : f a s1 with
    | ok b s2 =>
      simp only [hfh] at hfs
      exact ⟨hfs.1, envGrow_trans hps.2 hfs.2⟩
    | err e s2 =>
      simp only [hfh] at hfs
      exact ⟨hfs.1, envGrow_trans hps.2 hfs.2⟩
    | crash k =>
      simp only [hfh] at hfs
      exact hfs
  | err e s1 =>
    simp only [hph] at hps
    simp only [pbind, hph]
    exact hps
  | crash k =>
    simp only [hph] at hps
    simp only [pbind, hph]
    exact hps

/-- `pbind` with a postcondition established by the first parser's success
(used to carry the facts that exclude the map-panic arms). -/
theorem ms_pbind_post {ids : List Nat} {p : Parser α} {f : α → Parser β}
    (Q : α → Prop) (hp : MapSafeOn ids p)
    (hq : ∀ s a s1, SeenDom s.env →
      (∀ i ∈ ids, (tableLookup s.env.state.idx_to_table i).isSome = true) →
      p s = .ok a s1 → Q a)
    (hf : ∀ a, Q a → MapSafeOn ids (f a)) : MapSafeOn ids (pbind p f) := by
  intro s hdom hids
  have hps := hp s hdom hids
  cases hph : p s with
  | ok a s1 =>
    simp only [hph] at hps
    simp only [pbind, hph]
    have hQ := hq s a s1 hdom hids hph
    have hfs := hf a hQ s1 hps.1 (fun i hi => hps.2.2 i (hids i hi))
    cases hfh : f a s1 with
    | ok b s2 =>
      simp only [hfh] at hfs
      exact ⟨hfs.1, envGrow_trans hps.2 hfs.2⟩
    | err e s2 =>
      simp only [hfh] at hfs
      exact ⟨hfs.1, envGrow_trans hps.2 hfs.2⟩
    | crash k =>
      simp only [hfh] at hfs
      exact hfs
  | err e s1 =>
    simp only [hph] at hps
    simp only [pbind, hph]
    exact hps
  | crash k =>
    simp only [hph] at hps
    simp only [pbind, hph]
    exact hps

/-- `pbind` that switches the index set: the indices `g a` delivered by the
first parser are all in `seen` at the intermediate stream, so `SeenDom`
provides their derived tables to the continuation. -/
theorem ms_pbind_seen {p : Parser α} {f : α → Parser β} (g : α → List Nat)
    (hp : MapSafe p)
    (hseen : ∀ s a s1, p s = .ok a s1 → ∀ i ∈ g a, i ∈ s1.env.state.seen)
    (hf : ∀ a, MapSafeOn (g a) (f a)) : MapSafe (pbind p f) := by
  intro s hdom hids
  have hps := hp s hdom hids
  cases hph : p s with
  | ok a s1 =>
    simp only [hph] at hps
    simp only [pbind, hph]
    have hids1 : ∀ i ∈ g a, (tableLookup s1.env.state.idx_to_table i).isSome = true :=
      fun i hi => hps.1 i (hseen s a s1 hph i hi)
    have hfs := hf a s1 hps.1 hids1
    cases hfh : f a s1 with
    | ok b s2 =>
      simp only [hfh] at hfs
      exact ⟨hfs.1, envGrow_trans hps.2 hfs.2⟩
    | err e s2 =>
      simp only [hfh] at hfs
      exact ⟨hfs.1, envGrow_trans hps.2 hfs.2⟩
    | crash k =>
      simp only [hfh] at hfs
      exact hfs
  | err e s1 =>
    simp only [hph] at hps
    simp only [pbind, hph]
    exact hps
  | crash k =>
    simp only [hph] at hps
    simp only [pbind, hph]
    exact hps

theorem ms_palt {ids : List Nat} {p q : Parser α} (hp : MapSafeOn ids p)
    (hq : MapSafeOn ids q) : MapSafeOn ids (palt p q) := by
  intro s hdom hids
  have hps := hp s hdom hids
  cases hph : p s with
  | ok a s1 =>
    simp only [hph] at hps
    simp only [palt, hph]
    exact hps
  | err e s1 =>
    simp only [hph] at hps
    cases e with
    | backtrack =>
      simp only [palt, hph]
      have hqs := hq { s with env := s1.env } hps.1
        (fun i hi => hps.2.2 i (hids i hi))
      cases hqh : q { s with env := s1.env } with
      | ok b s2 =>
        simp only [hqh] at hqs
        exact ⟨hqs.1, envGrow_trans hps.2 hqs.2⟩
      | err e2 s2 =>
        simp only [hqh] at hqs
        exact ⟨hqs.1, envGrow_trans hps.2 hqs.2⟩
      | crash k =>
        simp only [hqh] at hqs
        exact hqs
    | cut =>
      simp only [palt, hph]
      exact hps
    | incomplete =>
      simp only [palt, hph]
      exact hps
  | crash k =>
    simp only [hph] at hps
    simp only [palt, hph]
    exact hps

theorem ms_popt {ids : List Nat} {p : Parser α} (hp : MapSafeOn ids p) :
    MapSafeOn ids (popt p) := by
  intro s hdom hids
  have hps := hp s hdom hids
  cases hph : p s with
  | ok a s1 =>
    simp only [hph] at hps
    simp only [popt, hph]
    exact hps
  | err e s1 =>
    simp only [hph] at hps
    cases e with
    | backtrack =>
      simp only [popt, hph]
      exact hps
    | cut =>
      simp only [popt, hph]
      exact hps
    | incomplete =>
      simp only [popt, hph]
      exact hps
  | crash k =>
    simp only [hph] at hps
    simp only [popt, hph]
    exact hps

theorem ms_ite {c : Prop} [Decidable c] {p q : Parser α} {ids : List Nat}
    (hp : c → MapSafeOn ids p) (hq : ¬c → MapSafeOn ids q) :
    MapSafeOn ids (if c then p else q) := by
  by_cases hc : c
  · rw [if_pos hc]
    exact hp hc
  · rw [if_neg hc]
    exact hq hc

theorem ms_iteB {c : Prop} [Decidable c] {p q : Parser α} {ids : List Nat}
    (hp : MapSafeOn ids p) (hq : MapSafeOn ids q) :
    MapSafeOn ids (if c then p else q) :=
  ms_ite (fun _ => hp) (fun _ => hq)

theorem ms_precognize {ids : List Nat} {p : Parser α} (hp : MapSafeOn ids p) :
    MapSafeOn ids (precognize p) := by
  intro s hdom hids
  have hps := hp s hdom hids
  cases hph : p s with
  | ok a s1 =>
    simp only [hph] at hps
    simp only [precognize, hph]
    exact hps
  | err e s1 =>
    simp only [hph] at hps
    simp only [precognize, hph]
    exact hps
  | crash k =>
    simp only [hph] at hps
    simp only [precognize, hph]
    exact hps

/-! ### Map-lookup safety: the loops -/

theorem psep1Go_ms {elem : Parser α} {sep : Parser σ} {ids : List Nat}
    (he : MapSafeOn ids elem) (hs : MapSafeOn ids sep) :
    ∀ (m : Nat) (acc : List α) (s : Stream),
      SeenDom s.env →
      (∀ i ∈ ids, (tableLookup s.env.state.idx_to_table i).isSome = true) →
      match psep1Go elem sep m acc s with
      | .ok _ s' => SeenDom s'.env ∧ EnvGrow s.env s'.env
      | .err _ s' => SeenDom s'.env ∧ EnvGrow s.env s'.env
      | .crash k => k ≠ .mapPanic := by
  intro m
  induction m with
  | zero =>
    intro acc s hdom _
    simp only [psep1Go]
    exact ⟨hdom, envGrow_refl _⟩
  | succ m ih =>
    intro acc s hdom hids
    simp only [psep1Go]
    have hss0 := hs s hdom hids
    cases hss : sep s with
    | ok o s1 =>
      simp only [hss] at hss0
      dsimp only []
      have hids1 : ∀ i ∈ ids, (tableLookup s1.env.state.idx_to_table i).isSome = true :=
        fun i hi => hss0.2.2 i (hids i hi)
      have hel0 := he s1 hss0.1 hids1
      cases hel : elem s1 with
      | ok a s2 =>
        simp only [hel] at hel0
        dsimp only []
        have hids2 : ∀ i ∈ ids,
            (tableLookup s2.env.state.idx_to_table i).isSome = true :=
          fun i hi => hel0.2.2 i (hids1 i hi)
        have hrec := ih (a :: acc) s2 hel0.1 hids2
        cases hgo : psep1Go elem sep m (a :: acc) s2 with
        | ok r s3 =>
          rw [hgo] at hrec
          exact ⟨hrec.1, envGrow_trans (envGrow_trans hss0.2 hel0.2) hrec.2⟩
        | err e s3 =>
          rw [hgo] at hrec
          exact ⟨hrec.1, envGrow_trans (envGrow_trans hss0.2 hel0.2) hrec.2⟩
        | crash k =>
          rw [hgo] at hrec
          exact hrec
      | err e s2 =>
        simp only [hel] at hel0
        cases e with
        | backtrack => exact ⟨hel0.1, envGrow_trans hss0.2 hel0.2⟩
        | cut => exact ⟨hel0.1, envGrow_trans hss0.2 hel0.2⟩
        | incomplete => exact ⟨hel0.1, envGrow_trans hss0.2 hel0.2⟩
      | crash k =>
        simp only [hel] at hel0
        exact hel0
    | err e s1 =>
      simp only [hss] at hss0
      cases e with
      | backtrack => exact hss0
      | cut => exact hss0
      | incomplete => exact hss0
    | crash k =>
      simp only [hss] at hss0
      exact hss0

theorem ms_psep1 {elem : Parser α} {sep : Parser σ} {ids : List Nat}
    (he : MapSafeOn ids elem) (hs : MapSafeOn ids sep) :
    MapSafeOn ids (psep1 elem sep) := by
  intro s hdom hids
  have hel0 := he s hdom hids
  cases hel : elem s with
  | ok a s1 =>
    simp only [hel] at hel0
    simp only [psep1, hel]
    have hgo := psep1Go_ms he hs (s1.input.length + 1) [a] s1 hel0.1
      (fun i hi => hel0.2.2 i (hids i hi))
    cases hgoh : psep1Go elem sep (s1.input.length + 1) [a] s1 with
    | ok r s2 =>
      rw [hgoh] at hgo
      exact ⟨hgo.1, envGrow_trans hel0.2 hgo.2⟩
    | err e s2 =>
      rw [hgoh] at hgo
      exact ⟨hgo.1, envGrow_trans hel0.2 hgo.2⟩
    | crash k =>
      rw [hgoh] at hgo
      exact hgo
  | err e s1 =>
    simp only [hel] at hel0
    simp only [psep1, hel]
    exact hel0
  | crash k =>
    simp only [hel] at hel0
    simp only [psep1, hel]
    exact hel0

theorem pfold1Go_ms {elem : Parser α} {sep : Parser σ} {ids : List Nat}
    (comb : α → σ → α → Option α) (he : MapSafeOn ids elem) (hs : MapSafeOn ids sep) :
    ∀ (m : Nat) (acc : α) (s : Stream),
      SeenDom s.env →
      (∀ i ∈ ids, (tableLookup s.env.state.idx_to_table i).isSome = true) →
      match pfold1Go elem sep comb m acc s with
      | .ok _ s' => SeenDom s'.env ∧ EnvGrow s.env s'.env
      | .err _ s' => SeenDom s'.env ∧ EnvGrow s.env s'.env
      | .crash k => k ≠ .mapPanic := by
  intro m
  induction m with
  | zero =>
    intro acc s hdom _
    simp only [pfold1Go]
    exact ⟨hdom, envGrow_refl _⟩
  | succ m ih =>
    intro acc s hdom hids
    simp only [pfold1Go]
    have hss0 := hs s hdom hids
    cases hss : sep s with
    | ok o s1 =>
      simp only [hss] at hss0
      dsimp only []
      have hids1 : ∀ i ∈ ids, (tableLookup s1.env.state.idx_to_table i).isSome = true :=
        fun i hi => hss0.2.2 i (hids i hi)
      have hel0 := he s1 hss0.1 hids1
      cases hel : elem s1 with
      | ok a s2 =>
        simp only [hel] at hel0
        dsimp only []
        cases hcb : comb acc o a with
        | none =>
          intro hcc
          exact CrashKind.noConfusion hcc
        | some acc2 =>
          dsimp only []
          have hids2 : ∀ i ∈ ids,
              (tableLookup s2.env.state.idx_to_table i).isSome = true :=
            fun i hi => hel0.2.2 i (hids1 i hi)
          have hrec := ih acc2 s2 hel0.1 hids2
          cases hgo : pfold1Go elem sep comb m acc2 s2 with
          | ok r s3 =>
            rw [hgo] at hrec
            exact ⟨hrec.1, envGrow_trans (envGrow_trans hss0.2 hel0.2) hrec.2⟩
          | err e s3 =>
            rw [hgo] at hrec
            exact ⟨hrec.1, envGrow_trans (envGrow_trans hss0.2 hel0.2) hrec.2⟩
          | crash k =>
            rw [hgo] at hrec
            exact hrec
      | err e s2 =>
        simp only [hel] at hel0
        cases e with
        | backtrack => exact ⟨hel0.1, envGrow_trans hss0.2 hel0.2⟩
        | cut => exact ⟨hel0.1, envGrow_trans hss0.2 hel0.2⟩
        | incomplete => exact ⟨hel0.1, envGrow_trans hss0.2 hel0.2⟩
      | crash k =>
        simp only [hel] at hel0
        exact hel0
    | err e s1 =>
      simp only [hss] at hss0
      cases e with
      | backtrack => exact hss0
      | cut => exact hss0
      | incomplete => exact hss0
    | crash k =>
      simp only [hss] at hss0
      exact hss0

theorem ms_pfold1 {elem : Parser α} {sep : Parser σ} {ids : List Nat}
    {comb : α → σ → α → Option α} (he : MapSafeOn ids elem) (hs : MapSafeOn ids sep) :
    MapSafeOn ids (pfold1 elem sep comb) := by
  intro s hdom hids
  have hel0 := he s hdom hids
  cases hel : elem s with
  | ok a s1 =>
    simp only [hel] at hel0
    simp only [pfold1, hel]
    have hgo := pfold1Go_ms comb he hs (s1.input.length + 1) a s1 hel0.1
      (fun i hi => hel0.2.2 i (hids i hi))
    cases hgoh : pfold1Go elem sep comb (s1.input.length + 1) a s1 with
    | ok r s2 =>
      rw [hgoh] at hgo
      exact ⟨hgo.1, envGrow_trans hel0.2 hgo.2⟩
    | err e s2 =>
      rw [hgoh] at hgo
      exact ⟨hgo.1, envGrow_trans hel0.2 hgo.2⟩
    | crash k =>
      rw [hgoh] at hgo
      exact hgo
  | err e s1 =>
    simp only [hel] at hel0
    simp only [pfold1, hel]
    exact hel0
  | crash k =>
    simp only [hel] at hel0
    simp only [pfold1, hel]
    exact hel0

theorem prepeat0Go_ms {elem : Parser α} {ids : List Nat} (he : MapSafeOn ids elem) :
    ∀ (m : Nat) (s : Stream),
      SeenDom s.env →
      (∀ i ∈ ids, (tableLookup s.env.state.idx_to_table i).isSome = true) →
      match prepeat0Go elem m s with
      | .ok _ s' => SeenDom s'.env ∧ EnvGrow s.env s'.env
      | .err _ s' => SeenDom s'.env ∧ EnvGrow s.env s'.env
      | .crash k => k ≠ .mapPanic := by
  intro m
  induction m with
  | zero =>
    intro s hdom _
    simp only [prepeat0Go]
    exact ⟨hdom, envGrow_refl _⟩
  | succ m ih =>
    intro s hdom hids
    simp only [prepeat0Go]
    have hel0 := he s hdom hids
    cases hel : elem s with
    | ok a s1 =>
      simp only [hel] at hel0
      dsimp only []
      have hrec := ih s1 hel0.1 (fun i hi => hel0.2.2 i (hids i hi))
      cases hgo : prepeat0Go elem m s1 with
      | ok r s2 =>
        rw [hgo] at hrec
        exact ⟨hrec.1, envGrow_trans hel0.2 hrec.2⟩
      | err e s2 =>
        rw [hgo] at hrec
        exact ⟨hrec.1, envGrow_trans hel0.2 hrec.2⟩
      | crash k =>
        rw [hgo] at hrec
        exact hrec
    | err e s1 =>
      simp only [hel] at hel0
      cases e with
      | backtrack => exact hel0
      | cut => exact hel0
      | incomplete => exact hel0
    | crash k =>
      simp only [hel] at hel0
      exact hel0

theorem ms_prepeat0 {elem : Parser α} {ids : List Nat} (he : MapSafeOn ids elem) :
    MapSafeOn ids (prepeat0 elem) := by
  intro s hdom hids
  have hgo := prepeat0Go_ms he (s.input.length + 1) s hdom hids
  simp only [prepeat0]
  cases hgoh : prepeat0Go elem (s.input.length + 1) s with
  | ok a s1 =>
    rw [hgoh] at hgo
    exact hgo
  | err e s1 =>
    rw [hgoh] at hgo
    exact hgo
  | crash k =>
    rw [hgoh] at hgo
    exact hgo

theorem ms_psepPair {elem : Parser α} {sep : Parser σ} {ids : List Nat}
    (he : MapSafeOn ids elem) (hs : MapSafeOn ids sep) :
    MapSafeOn ids (psepPair elem sep) := by
  rw [psepPair_eq]
  exact ms_pbind he (fun a => ms_palt
    (ms_pbind hs (fun _ => ms_pbind he (fun b => ms_ppure _)))
    (ms_ppure _))

/-! ### Map-lookup safety: the crash-free grammar parsers -/

theorem ms_psign {ids : List Nat} : MapSafeOn ids psign := by
  unfold psign
  exact ms_popt (ms_oneOf _)

theorem ms_pdigit1 {ids : List Nat} : MapSafeOn ids pdigit1 := ms_takeWhile1 _

theorem ms_recognizeFloatCore {ids : List Nat}  : MapSafeOn ids (recognizeFloatCore) := by
  unfold recognizeFloatCore
  repeat
    first
    | exact ms_psign
    | exact ms_pdigit1
    | exact ms_ppure _
    | exact ms_pfail
    | exact ms_pcrash_other
    | exact ms_pcrash_todo
    | exact ms_ptag _
    | exact ms_tagWith _ _
    | exact ms_pcaseless _
    | exact ms_pcaselessL _
    | exact ms_getEnv
    | exact ms_getSchema
    | exact ms_multispace0
    | exact ms_alphanumeric1
    | exact ms_takeWhile0 _
    | exact ms_takeWhile1 _
    | exact ms_dec_uint
    | exact ms_oneOf _
    | apply ms_precognize
    | apply ms_popt
    | apply ms_palt
    | apply ms_iteB
    | apply ms_pbind
    | split
    | (beta_reduce; split)
    | intro _

theorem ms_recognizeFloatOrExceptions {ids : List Nat}  : MapSafeOn ids (recognizeFloatOrExceptions) := by
  unfold recognizeFloatOrExceptions
  repeat
    first
    | exact ms_recognizeFloatCore
    | exact ms_psign
    | exact ms_ppure _
    | exact ms_pfail
    | exact ms_pcrash_other
    | exact ms_pcrash_todo
    | exact ms_ptag _
    | exact ms_tagWith _ _
    | exact ms_pcaseless _
    | exact ms_pcaselessL _
    | exact ms_getEnv
    | exact ms_getSchema
    | exact ms_multispace0
    | exact ms_alphanumeric1
    | exact ms_takeWhile0 _
    | exact ms_takeWhile1 _
    | exact ms_dec_uint
    | exact ms_oneOf _
    | apply ms_precognize
    | apply ms_popt
    | apply ms_palt
    | apply ms_iteB
    | apply ms_pbind
    | split
    | (beta_reduce; split)
    | intro _

theorem ms_number {ids : List Nat}  : MapSafeOn ids (number) := by
  unfold number
  repeat
    first
    | exact ms_precognize ms_recognizeFloatOrExceptions
    | exact ms_ppure _
    | exact ms_pfail
    | exact ms_pcrash_other
    | exact ms_pcrash_todo
    | exact ms_ptag _
    | exact ms_tagWith _ _
    | exact ms_pcaseless _
    | exact ms_pcaselessL _
    | exact ms_getEnv
    | exact ms_getSchema
    | exact ms_multispace0
    | exact ms_alphanumeric1
    | exact ms_takeWhile0 _
    | exact ms_takeWhile1 _
    | exact ms_dec_uint
    | exact ms_oneOf _
    | apply ms_precognize
    | apply ms_popt
    | apply ms_palt
    | apply ms_iteB
    | apply ms_pbind
    | split
    | (beta_reduce; split)
    | intro _

theorem ms_stringP {ids : List Nat}  : MapSafeOn ids (stringP) := by
  unfold stringP
  repeat
    first
    | exact ms_ppure _
    | exact ms_pfail
    | exact ms_pcrash_other
    | exact ms_pcrash_todo
    | exact ms_ptag _
    | exact ms_tagWith _ _
    | exact ms_pcaseless _
    | exact ms_pcaselessL _
    | exact ms_getEnv
    | exact ms_getSchema
    | exact ms_multispace0
    | exact ms_alphanumeric1
    | exact ms_takeWhile0 _
    | exact ms_takeWhile1 _
    | exact ms_dec_uint
    | exact ms_oneOf _
    | apply ms_precognize
    | apply ms_popt
    | apply ms_palt
    | apply ms_iteB
    | apply ms_pbind
    | split
    | (beta_reduce; split)
    | intro _

theorem ms_booleanP {ids : List Nat}  : MapSafeOn ids (booleanP) := by
  unfold booleanP
  repeat
    first
    | exact ms_ppure _
    | exact ms_pfail
    | exact ms_pcrash_other
    | exact ms_pcrash_todo
    | exact ms_ptag _
    | exact ms_tagWith _ _
    | exact ms_pcaseless _
    | exact ms_pcaselessL _
    | exact ms_getEnv
    | exact ms_getSchema
    | exact ms_multispace0
    | exact ms_alphanumeric1
    | exact ms_takeWhile0 _
    | exact ms_takeWhile1 _
    | exact ms_dec_uint
    | exact ms_oneOf _
    | apply ms_precognize
    | apply ms_popt
    | apply ms_palt
    | apply ms_iteB
    | apply ms_pbind
    | split
    | (beta_reduce; split)
    | intro _

theorem ms_nullP {ids : List Nat}  : MapSafeOn ids (nullP) := by
  unfold nullP
  repeat
    first
    | exact ms_ppure _
    | exact ms_pfail
    | exact ms_pcrash_other
    | exact ms_pcrash_todo
    | exact ms_ptag _
    | exact ms_tagWith _ _
    | exact ms_pcaseless _
    | exact ms_pcaselessL _
    | exact ms_getEnv
    | exact ms_getSchema
    | exact ms_multispace0
    | exact ms_alphanumeric1
    | exact ms_takeWhile0 _
    | exact ms_takeWhile1 _
    | exact ms_dec_uint
    | exact ms_oneOf _
    | apply ms_precognize
    | apply ms_popt
    | apply ms_palt
    | apply ms_iteB
    | apply ms_pbind
    | split
    | (beta_reduce; split)
    | intro _

theorem ms_opLit {ids : List Nat} (lit : String) : MapSafeOn ids (opLit lit) := by
  unfold opLit
  exact ms_pbind (ms_ptag _) (fun _ => ms_ppure _)

theorem ms_opLitC {ids : List Nat} (lit canon : String) : MapSafeOn ids (opLitC lit canon) := by
  unfold opLitC
  exact ms_pbind (ms_pcaseless _) (fun _ => ms_ppure _)

theorem ms_comparison_op {ids : List Nat}  : MapSafeOn ids (comparison_op) := by
  unfold comparison_op
  repeat
    first
    | exact ms_opLit _
    | exact ms_opLitC _ _
    | exact ms_ppure _
    | exact ms_pfail
    | exact ms_pcrash_other
    | exact ms_pcrash_todo
    | exact ms_ptag _
    | exact ms_tagWith _ _
    | exact ms_pcaseless _
    | exact ms_pcaselessL _
    | exact ms_getEnv
    | exact ms_getSchema
    | exact ms_multispace0
    | exact ms_alphanumeric1
    | exact ms_takeWhile0 _
    | exact ms_takeWhile1 _
    | exact ms_dec_uint
    | exact ms_oneOf _
    | apply ms_precognize
    | apply ms_popt
    | apply ms_palt
    | apply ms_iteB
    | apply ms_pbind
    | split
    | (beta_reduce; split)
    | intro _

theorem ms_spaced_comparison_op {ids : List Nat}  : MapSafeOn ids (spaced_comparison_op) := by
  unfold spaced_comparison_op
  repeat
    first
    | exact ms_comparison_op
    | exact ms_ppure _
    | exact ms_pfail
    | exact ms_pcrash_other
    | exact ms_pcrash_todo
    | exact ms_ptag _
    | exact ms_tagWith _ _
    | exact ms_pcaseless _
    | exact ms_pcaselessL _
    | exact ms_getEnv
    | exact ms_getSchema
    | exact ms_multispace0
    | exact ms_alphanumeric1
    | exact ms_takeWhile0 _
    | exact ms_takeWhile1 _
    | exact ms_dec_uint
    | exact ms_oneOf _
    | apply ms_precognize
    | apply ms_popt
    | apply ms_palt
    | apply ms_iteB
    | apply ms_pbind
    | split
    | (beta_reduce; split)
    | intro _

theorem ms_choice {ids : List Nat} : ∀ (l : List (List Char)), MapSafeOn ids (choice l) := by
  intro l
  induction l with
  | nil => exact ms_pfail
  | cons c cs ih =>
    have heq : choice (c :: cs) = pbind (popt (pcaselessL c))
        (fun o => match o with
          | some _ => ppure c
          | none => choice cs) := by
      funext s
      cases hp : popt (pcaselessL c) s with
      | ok o s1 => cases o <;> simp only [choice, pbind, hp, ppure]
      | err e s1 => simp only [choice, pbind, hp]
      | crash k => simp only [choice, pbind, hp]
    rw [heq]
    refine ms_pbind (ms_popt (ms_pcaselessL c)) (fun o => ?_)
    cases o with
    | none => exact ih
    | some u => exact ms_ppure _

theorem ms_table_name {ids : List Nat} : MapSafeOn ids table_name := by
  unfold table_name
  exact ms_pbind ms_getSchema (fun schema => ms_choice _)

theorem ms_column_name {ids : List Nat} : MapSafeOn ids column_name := by
  unfold column_name
  exact ms_pbind ms_getSchema (fun schema => ms_choice _)

theorem ms_aliased_column {ids : List Nat} : MapSafeOn ids aliased_column := by
  unfold aliased_column
  exact ms_pbind ms_getEnv (fun env => ms_choice _)

theorem ms_column_in_table {ids : List Nat} (table : List Char) : MapSafeOn ids (column_in_table table) := by
  unfold column_in_table
  repeat
    first
    | exact ms_column_name
    | exact ms_ppure _
    | exact ms_pfail
    | exact ms_pcrash_other
    | exact ms_pcrash_todo
    | exact ms_ptag _
    | exact ms_tagWith _ _
    | exact ms_pcaseless _
    | exact ms_pcaselessL _
    | exact ms_getEnv
    | exact ms_getSchema
    | exact ms_multispace0
    | exact ms_alphanumeric1
    | exact ms_takeWhile0 _
    | exact ms_takeWhile1 _
    | exact ms_dec_uint
    | exact ms_oneOf _
    | apply ms_precognize
    | apply ms_popt
    | apply ms_palt
    | apply ms_iteB
    | apply ms_pbind
    | split
    | (beta_reduce; split)
    | intro _

theorem ms_column_in_index {ids : List Nat} (idx : Nat) (cpt : ColumnParserType) : MapSafeOn ids (column_in_index idx cpt) := by
  unfold column_in_index
  repeat
    first
    | exact ms_column_name
    | exact ms_aliased_column
    | exact ms_ppure _
    | exact ms_pfail
    | exact ms_pcrash_other
    | exact ms_pcrash_todo
    | exact ms_ptag _
    | exact ms_tagWith _ _
    | exact ms_pcaseless _
    | exact ms_pcaselessL _
    | exact ms_getEnv
    | exact ms_getSchema
    | exact ms_multispace0
    | exact ms_alphanumeric1
    | exact ms_takeWhile0 _
    | exact ms_takeWhile1 _
    | exact ms_dec_uint
    | exact ms_oneOf _
    | apply ms_precognize
    | apply ms_popt
    | apply ms_palt
    | apply ms_iteB
    | apply ms_pbind
    | split
    | (beta_reduce; split)
    | intro _

theorem ms_indexed_column {ids : List Nat} (inputs : List Nat) : MapSafeOn ids (indexed_column inputs) := by
  unfold indexed_column
  repeat
    first
    | exact ms_column_in_index _ _
    | exact ms_ppure _
    | exact ms_pfail
    | exact ms_pcrash_other
    | exact ms_pcrash_todo
    | exact ms_ptag _
    | exact ms_tagWith _ _
    | exact ms_pcaseless _
    | exact ms_pcaselessL _
    | exact ms_getEnv
    | exact ms_getSchema
    | exact ms_multispace0
    | exact ms_alphanumeric1
    | exact ms_takeWhile0 _
    | exact ms_takeWhile1 _
    | exact ms_dec_uint
    | exact ms_oneOf _
    | apply ms_precognize
    | apply ms_popt
    | apply ms_palt
    | apply ms_iteB
    | apply ms_pbind
    | split
    | (beta_reduce; split)
    | intro _

theorem ms_sepCommaMs {ids : List Nat} : MapSafeOn ids sepCommaMs := by
  unfold sepCommaMs
  exact ms_pbind ms_multispace0 (fun _ => ms_ptag _)

theorem ms_singleId {ids : List Nat} : MapSafeOn ids singleId := by
  unfold singleId
  exact ms_pbind (ms_ptag _) (fun _ => ms_dec_uint)

theorem ms_input_ids {ids : List Nat}  : MapSafeOn ids (input_ids) := by
  unfold input_ids
  repeat
    first
    | exact ms_singleId
    | exact ms_sepCommaMs
    | apply ms_psepPair
    | exact ms_ppure _
    | exact ms_pfail
    | exact ms_pcrash_other
    | exact ms_pcrash_todo
    | exact ms_ptag _
    | exact ms_tagWith _ _
    | exact ms_pcaseless _
    | exact ms_pcaselessL _
    | exact ms_getEnv
    | exact ms_getSchema
    | exact ms_multispace0
    | exact ms_alphanumeric1
    | exact ms_takeWhile0 _
    | exact ms_takeWhile1 _
    | exact ms_dec_uint
    | exact ms_oneOf _
    | apply ms_precognize
    | apply ms_popt
    | apply ms_palt
    | apply ms_iteB
    | apply ms_pbind
    | split
    | (beta_reduce; split)
    | intro _

theorem ms_predicate_wrapper {ids : List Nat} {inner : Parser Predicate} (hi : MapSafeOn ids inner) :
    MapSafeOn ids (predicate_wrapper inner) := by
  unfold predicate_wrapper
  exact ms_pbind (ms_ptag _) (fun _ => ms_pbind hi (fun p =>
    ms_pbind (ms_ptag _) (fun _ => ms_ppure _)))

theorem ms_aggGo {ids : List Nat} : ∀ (l : List Agg), MapSafeOn ids (aggGo l) := by
  intro l
  induction l with
  | nil => exact ms_pfail
  | cons a rest ih =>
    have heq : aggGo (a :: rest) = pbind (popt (tagWith (· == ·) a.upper))
        (fun o => match o with
          | some _ => ppure a
          | none => aggGo rest) := by
      funext s
      cases hp : popt (tagWith (· == ·) a.upper) s with
      | ok o s1 => cases o <;> simp only [aggGo, pbind, hp, ppure]
      | err e s1 => simp only [aggGo, pbind, hp]
      | crash k => simp only [aggGo, pbind, hp]
    rw [heq]
    refine ms_pbind (ms_popt (ms_tagWith _ _)) (fun o => ?_)
    cases o with
    | none => exact ih
    | some u => exact ms_ppure _

theorem ms_agg {ids : List Nat} : MapSafeOn ids agg := ms_aggGo Agg.values

theorem ms_distinctFlag {ids : List Nat} : MapSafeOn ids distinctFlag := by
  unfold distinctFlag
  exact ms_palt (ms_pbind (ms_ptag _) (fun _ => ms_ppure _)) (ms_ppure _)

theorem ms_predSep {ids : List Nat} : MapSafeOn ids predSep := by
  unfold predSep
  exact ms_palt (ms_opLit _) (ms_opLit _)

theorem ms_predicateOf {ids : List Nat} {comp : Parser Comparison} (hc : MapSafeOn ids comp) :
    MapSafeOn ids (predicateOf comp) := by
  unfold predicateOf
  exact ms_pfold1 (ms_pbind hc (fun c => ms_ppure _)) ms_predSep

theorem ms_scan_column_in_table_of_type {ids : List Nat} (typ : ColumnType) (table : List Char) : MapSafeOn ids (scan_column_in_table_of_type typ table) := by
  unfold scan_column_in_table_of_type
  repeat
    first
    | exact ms_ptag _
    | exact ms_tagWith _ _
    | exact ms_pcaseless _
    | exact ms_pcaselessL _
    | exact ms_ppure _
    | exact ms_pfail
    | exact ms_pcrash_other
    | exact ms_pcrash_todo
    | exact ms_getEnv
    | exact ms_getSchema
    | exact ms_insertTable _
    | exact ms_multispace0
    | exact ms_alphanumeric1
    | exact ms_dec_uint
    | exact ms_number
    | exact ms_stringP
    | exact ms_booleanP
    | exact ms_nullP
    | exact ms_opLit _
    | exact ms_opLitC _ _
    | exact ms_spaced_comparison_op
    | exact ms_table_name
    | exact ms_column_name
    | exact ms_aliased_column
    | exact ms_column_in_table _
    | exact ms_column_in_index _ _
    | exact ms_indexed_column _
    | exact ms_input_ids
    | exact ms_distinctFlag
    | exact ms_sepCommaMs
    | exact ms_singleId
    | exact ms_agg
    | apply ms_precognize
    | apply ms_popt
    | apply ms_palt
    | apply ms_iteB
    | apply ms_psep1
    | apply ms_psepPair
    | apply ms_pfold1
    | apply ms_pbind
    | split
    | (beta_reduce; split)
    | intro _

theorem ms_scan_type_comparable {ids : List Nat} (t : ColumnType) (table : List Char) : MapSafeOn ids (scan_type_comparable t table) := by
  unfold scan_type_comparable
  repeat
    first
    | exact ms_scan_column_in_table_of_type _ _
    | exact ms_ptag _
    | exact ms_tagWith _ _
    | exact ms_pcaseless _
    | exact ms_pcaselessL _
    | exact ms_ppure _
    | exact ms_pfail
    | exact ms_pcrash_other
    | exact ms_pcrash_todo
    | exact ms_getEnv
    | exact ms_getSchema
    | exact ms_insertTable _
    | exact ms_multispace0
    | exact ms_alphanumeric1
    | exact ms_dec_uint
    | exact ms_number
    | exact ms_stringP
    | exact ms_booleanP
    | exact ms_nullP
    | exact ms_opLit _
    | exact ms_opLitC _ _
    | exact ms_spaced_comparison_op
    | exact ms_table_name
    | exact ms_column_name
    | exact ms_aliased_column
    | exact ms_column_in_table _
    | exact ms_column_in_index _ _
    | exact ms_indexed_column _
    | exact ms_input_ids
    | exact ms_distinctFlag
    | exact ms_sepCommaMs
    | exact ms_singleId
    | exact ms_agg
    | apply ms_precognize
    | apply ms_popt
    | apply ms_palt
    | apply ms_iteB
    | apply ms_psep1
    | apply ms_psepPair
    | apply ms_pfold1
    | apply ms_pbind
    | split
    | (beta_reduce; split)
    | intro _

theorem ms_scan_comparable {ids : List Nat} (table : List Char) : MapSafeOn ids (scan_comparable table) := by
  unfold scan_comparable
  repeat
    first
    | exact ms_ptag _
    | exact ms_tagWith _ _
    | exact ms_pcaseless _
    | exact ms_pcaselessL _
    | exact ms_ppure _
    | exact ms_pfail
    | exact ms_pcrash_other
    | exact ms_pcrash_todo
    | exact ms_getEnv
    | exact ms_getSchema
    | exact ms_insertTable _
    | exact ms_multispace0
    | exact ms_alphanumeric1
    | exact ms_dec_uint
    | exact ms_number
    | exact ms_stringP
    | exact ms_booleanP
    | exact ms_nullP
    | exact ms_opLit _
    | exact ms_opLitC _ _
    | exact ms_spaced_comparison_op
    | exact ms_table_name
    | exact ms_column_name
    | exact ms_aliased_column
    | exact ms_column_in_table _
    | exact ms_column_in_index _ _
    | exact ms_indexed_column _
    | exact ms_input_ids
    | exact ms_distinctFlag
    | exact ms_sepCommaMs
    | exact ms_singleId
    | exact ms_agg
    | apply ms_precognize
    | apply ms_popt
    | apply ms_palt
    | apply ms_iteB
    | apply ms_psep1
    | apply ms_psepPair
    | apply ms_pfold1
    | apply ms_pbind
    | split
    | (beta_reduce; split)
    | intro _

theorem ms_scan_comparison {ids : List Nat} (twc : Bool) (table : List Char) : MapSafeOn ids (scan_comparison twc table) := by
  unfold scan_comparison
  repeat
    first
    | exact ms_scan_type_comparable _ _
    | exact ms_scan_comparable _
    | exact ms_ptag _
    | exact ms_tagWith _ _
    | exact ms_pcaseless _
    | exact ms_pcaselessL _
    | exact ms_ppure _
    | exact ms_pfail
    | exact ms_pcrash_other
    | exact ms_pcrash_todo
    | exact ms_getEnv
    | exact ms_getSchema
    | exact ms_insertTable _
    | exact ms_multispace0
    | exact ms_alphanumeric1
    | exact ms_dec_uint
    | exact ms_number
    | exact ms_stringP
    | exact ms_booleanP
    | exact ms_nullP
    | exact ms_opLit _
    | exact ms_opLitC _ _
    | exact ms_spaced_comparison_op
    | exact ms_table_name
    | exact ms_column_name
    | exact ms_aliased_column
    | exact ms_column_in_table _
    | exact ms_column_in_index _ _
    | exact ms_indexed_column _
    | exact ms_input_ids
    | exact ms_distinctFlag
    | exact ms_sepCommaMs
    | exact ms_singleId
    | exact ms_agg
    | apply ms_precognize
    | apply ms_popt
    | apply ms_palt
    | apply ms_iteB
    | apply ms_psep1
    | apply ms_psepPair
    | apply ms_pfold1
    | apply ms_pbind
    | split
    | (beta_reduce; split)
    | intro _

theorem ms_scan {ids : List Nat} (twc : Bool) : MapSafeOn ids (scan twc) := by
  unfold scan
  repeat
    first
    | exact ms_predicate_wrapper (ms_predicateOf (ms_scan_comparison _ _))
    | exact ms_ptag _
    | exact ms_tagWith _ _
    | exact ms_pcaseless _
    | exact ms_pcaselessL _
    | exact ms_ppure _
    | exact ms_pfail
    | exact ms_pcrash_other
    | exact ms_pcrash_todo
    | exact ms_getEnv
    | exact ms_getSchema
    | exact ms_insertTable _
    | exact ms_multispace0
    | exact ms_alphanumeric1
    | exact ms_dec_uint
    | exact ms_number
    | exact ms_stringP
    | exact ms_booleanP
    | exact ms_nullP
    | exact ms_opLit _
    | exact ms_opLitC _ _
    | exact ms_spaced_comparison_op
    | exact ms_table_name
    | exact ms_column_name
    | exact ms_aliased_column
    | exact ms_column_in_table _
    | exact ms_column_in_index _ _
    | exact ms_indexed_column _
    | exact ms_input_ids
    | exact ms_distinctFlag
    | exact ms_sepCommaMs
    | exact ms_singleId
    | exact ms_agg
    | apply ms_precognize
    | apply ms_popt
    | apply ms_palt
    | apply ms_iteB
    | apply ms_psep1
    | apply ms_psepPair
    | apply ms_pfold1
    | apply ms_pbind
    | split
    | (beta_reduce; split)
    | intro _

theorem ms_filter_comparable {ids : List Nat}  : MapSafeOn ids (filter_comparable) := by
  unfold filter_comparable
  repeat
    first
    | exact ms_ptag _
    | exact ms_tagWith _ _
    | exact ms_pcaseless _
    | exact ms_pcaselessL _
    | exact ms_ppure _
    | exact ms_pfail
    | exact ms_pcrash_other
    | exact ms_pcrash_todo
    | exact ms_getEnv
    | exact ms_getSchema
    | exact ms_insertTable _
    | exact ms_multispace0
    | exact ms_alphanumeric1
    | exact ms_dec_uint
    | exact ms_number
    | exact ms_stringP
    | exact ms_booleanP
    | exact ms_nullP
    | exact ms_opLit _
    | exact ms_opLitC _ _
    | exact ms_spaced_comparison_op
    | exact ms_table_name
    | exact ms_column_name
    | exact ms_aliased_column
    | exact ms_column_in_table _
    | exact ms_column_in_index _ _
    | exact ms_indexed_column _
    | exact ms_input_ids
    | exact ms_distinctFlag
    | exact ms_sepCommaMs
    | exact ms_singleId
    | exact ms_agg
    | apply ms_precognize
    | apply ms_popt
    | apply ms_palt
    | apply ms_iteB
    | apply ms_psep1
    | apply ms_psepPair
    | apply ms_pfold1
    | apply ms_pbind
    | split
    | (beta_reduce; split)
    | intro _

theorem ms_aliased_aggregate {ids : List Nat} (input_idx : Nat) : MapSafeOn ids (aliased_aggregate input_idx) := by
  unfold aliased_aggregate
  repeat
    first
    | exact ms_ptag _
    | exact ms_tagWith _ _
    | exact ms_pcaseless _
    | exact ms_pcaselessL _
    | exact ms_ppure _
    | exact ms_pfail
    | exact ms_pcrash_other
    | exact ms_pcrash_todo
    | exact ms_getEnv
    | exact ms_getSchema
    | exact ms_insertTable _
    | exact ms_multispace0
    | exact ms_alphanumeric1
    | exact ms_dec_uint
    | exact ms_number
    | exact ms_stringP
    | exact ms_booleanP
    | exact ms_nullP
    | exact ms_opLit _
    | exact ms_opLitC _ _
    | exact ms_spaced_comparison_op
    | exact ms_table_name
    | exact ms_column_name
    | exact ms_aliased_column
    | exact ms_column_in_table _
    | exact ms_column_in_index _ _
    | exact ms_indexed_column _
    | exact ms_input_ids
    | exact ms_distinctFlag
    | exact ms_sepCommaMs
    | exact ms_singleId
    | exact ms_agg
    | apply ms_precognize
    | apply ms_popt
    | apply ms_palt
    | apply ms_iteB
    | apply ms_psep1
    | apply ms_psepPair
    | apply ms_pfold1
    | apply ms_pbind
    | split
    | (beta_reduce; split)
    | intro _

theorem ms_group_by {ids : List Nat} (input_idx : Nat) : MapSafeOn ids (group_by input_idx) := by
  unfold group_by
  repeat
    first
    | exact ms_ptag _
    | exact ms_tagWith _ _
    | exact ms_pcaseless _
    | exact ms_pcaselessL _
    | exact ms_ppure _
    | exact ms_pfail
    | exact ms_pcrash_other
    | exact ms_pcrash_todo
    | exact ms_getEnv
    | exact ms_getSchema
    | exact ms_insertTable _
    | exact ms_multispace0
    | exact ms_alphanumeric1
    | exact ms_dec_uint
    | exact ms_number
    | exact ms_stringP
    | exact ms_booleanP
    | exact ms_nullP
    | exact ms_opLit _
    | exact ms_opLitC _ _
    | exact ms_spaced_comparison_op
    | exact ms_table_name
    | exact ms_column_name
    | exact ms_aliased_column
    | exact ms_column_in_table _
    | exact ms_column_in_index _ _
    | exact ms_indexed_column _
    | exact ms_input_ids
    | exact ms_distinctFlag
    | exact ms_sepCommaMs
    | exact ms_singleId
    | exact ms_agg
    | apply ms_precognize
    | apply ms_popt
    | apply ms_palt
    | apply ms_iteB
    | apply ms_psep1
    | apply ms_psepPair
    | apply ms_pfold1
    | apply ms_pbind
    | split
    | (beta_reduce; split)
    | intro _

theorem ms_aggOutputs {ids : List Nat} (input_idx : Nat) : MapSafeOn ids (aggOutputs input_idx) := by
  unfold aggOutputs
  repeat
    first
    | exact ms_aliased_aggregate _
    | exact ms_ptag _
    | exact ms_tagWith _ _
    | exact ms_pcaseless _
    | exact ms_pcaselessL _
    | exact ms_ppure _
    | exact ms_pfail
    | exact ms_pcrash_other
    | exact ms_pcrash_todo
    | exact ms_getEnv
    | exact ms_getSchema
    | exact ms_insertTable _
    | exact ms_multispace0
    | exact ms_alphanumeric1
    | exact ms_dec_uint
    | exact ms_number
    | exact ms_stringP
    | exact ms_booleanP
    | exact ms_nullP
    | exact ms_opLit _
    | exact ms_opLitC _ _
    | exact ms_spaced_comparison_op
    | exact ms_table_name
    | exact ms_column_name
    | exact ms_aliased_column
    | exact ms_column_in_table _
    | exact ms_column_in_index _ _
    | exact ms_indexed_column _
    | exact ms_input_ids
    | exact ms_distinctFlag
    | exact ms_sepCommaMs
    | exact ms_singleId
    | exact ms_agg
    | apply ms_precognize
    | apply ms_popt
    | apply ms_palt
    | apply ms_iteB
    | apply ms_psep1
    | apply ms_psepPair
    | apply ms_pfold1
    | apply ms_pbind
    | split
    | (beta_reduce; split)
    | intro _

theorem ms_join_comparable {ids : List Nat} (input_idxs : List Nat) : MapSafeOn ids (join_comparable input_idxs) := by
  unfold join_comparable
  repeat
    first
    | exact ms_ptag _
    | exact ms_tagWith _ _
    | exact ms_pcaseless _
    | exact ms_pcaselessL _
    | exact ms_ppure _
    | exact ms_pfail
    | exact ms_pcrash_other
    | exact ms_pcrash_todo
    | exact ms_getEnv
    | exact ms_getSchema
    | exact ms_insertTable _
    | exact ms_multispace0
    | exact ms_alphanumeric1
    | exact ms_dec_uint
    | exact ms_number
    | exact ms_stringP
    | exact ms_booleanP
    | exact ms_nullP
    | exact ms_opLit _
    | exact ms_opLitC _ _
    | exact ms_spaced_comparison_op
    | exact ms_table_name
    | exact ms_column_name
    | exact ms_aliased_column
    | exact ms_column_in_table _
    | exact ms_column_in_index _ _
    | exact ms_indexed_column _
    | exact ms_input_ids
    | exact ms_distinctFlag
    | exact ms_sepCommaMs
    | exact ms_singleId
    | exact ms_agg
    | apply ms_precognize
    | apply ms_popt
    | apply ms_palt
    | apply ms_iteB
    | apply ms_psep1
    | apply ms_psepPair
    | apply ms_pfold1
    | apply ms_pbind
    | split
    | (beta_reduce; split)
    | intro _

theorem ms_except_comparable {ids : List Nat} (input_idxs : List Nat) : MapSafeOn ids (except_comparable input_idxs) := by
  unfold except_comparable
  repeat
    first
    | exact ms_ptag _
    | exact ms_tagWith _ _
    | exact ms_pcaseless _
    | exact ms_pcaselessL _
    | exact ms_ppure _
    | exact ms_pfail
    | exact ms_pcrash_other
    | exact ms_pcrash_todo
    | exact ms_getEnv
    | exact ms_getSchema
    | exact ms_insertTable _
    | exact ms_multispace0
    | exact ms_alphanumeric1
    | exact ms_dec_uint
    | exact ms_number
    | exact ms_stringP
    | exact ms_booleanP
    | exact ms_nullP
    | exact ms_opLit _
    | exact ms_opLitC _ _
    | exact ms_spaced_comparison_op
    | exact ms_table_name
    | exact ms_column_name
    | exact ms_aliased_column
    | exact ms_column_in_table _
    | exact ms_column_in_index _ _
    | exact ms_indexed_column _
    | exact ms_input_ids
    | exact ms_distinctFlag
    | exact ms_sepCommaMs
    | exact ms_singleId
    | exact ms_agg
    | apply ms_precognize
    | apply ms_popt
    | apply ms_palt
    | apply ms_iteB
    | apply ms_psep1
    | apply ms_psepPair
    | apply ms_pfold1
    | apply ms_pbind
    | split
    | (beta_reduce; split)
    | intro _

theorem ms_except_columns {ids : List Nat} (input_idxs : List Nat) : MapSafeOn ids (except_columns input_idxs) := by
  unfold except_columns
  repeat
    first
    | exact ms_ptag _
    | exact ms_tagWith _ _
    | exact ms_pcaseless _
    | exact ms_pcaselessL _
    | exact ms_ppure _
    | exact ms_pfail
    | exact ms_pcrash_other
    | exact ms_pcrash_todo
    | exact ms_getEnv
    | exact ms_getSchema
    | exact ms_insertTable _
    | exact ms_multispace0
    | exact ms_alphanumeric1
    | exact ms_dec_uint
    | exact ms_number
    | exact ms_stringP
    | exact ms_booleanP
    | exact ms_nullP
    | exact ms_opLit _
    | exact ms_opLitC _ _
    | exact ms_spaced_comparison_op
    | exact ms_table_name
    | exact ms_column_name
    | exact ms_aliased_column
    | exact ms_column_in_table _
    | exact ms_column_in_index _ _
    | exact ms_indexed_column _
    | exact ms_input_ids
    | exact ms_distinctFlag
    | exact ms_sepCommaMs
    | exact ms_singleId
    | exact ms_agg
    | apply ms_precognize
    | apply ms_popt
    | apply ms_palt
    | apply ms_iteB
    | apply ms_psep1
    | apply ms_psepPair
    | apply ms_pfold1
    | apply ms_pbind
    | split
    | (beta_reduce; split)
    | intro _

theorem ms_special_token {ids : List Nat} : MapSafeOn ids special_token := by
  unfold special_token
  repeat
    first
    | exact ms_ptag _
    | exact ms_opLit _
    | apply ms_palt
    | apply ms_pbind
    | intro _

theorem ms_schemaGo {ids : List Nat} : ∀ (l : List (List Char × SqlSchema)), MapSafeOn ids (schemaGo l) := by
  intro l
  induction l with
  | nil => exact ms_pfail
  | cons dbs rest ih =>
    have heq : schemaGo (dbs :: rest) = pbind (popt (pcaselessL dbs.1))
        (fun o => match o with
          | some _ => ppure dbs.2
          | none => schemaGo rest) := by
      funext s
      cases hp : popt (pcaselessL dbs.1) s with
      | ok o s1 => cases o <;> simp only [schemaGo, pbind, hp, ppure]
      | err e s1 => simp only [schemaGo, pbind, hp]
      | crash k => simp only [schemaGo, pbind, hp]
    rw [heq]
    refine ms_pbind (ms_popt (ms_pcaselessL _)) (fun o => ?_)
    cases o with
    | none => exact ih
    | some u => exact ms_ppure _

theorem ms_schemaP {ids : List Nat} (schemas : List (List Char × SqlSchema)) :
    MapSafeOn ids (schemaP schemas) := by
  unfold schemaP
  exact ms_schemaGo _

/-! ### Accepted `indexed_column` indices come from the input list -/

theorem indexed_column_ok_mem {inputs : List Nat} {s : Stream} {ic : Nat × List Char}
    {s' : Stream} (h : indexed_column inputs s = .ok ic s') : ic.1 ∈ inputs := by
  unfold indexed_column at h
  obtain ⟨u1, s1, h1, h⟩ := pbind_ok_inv h
  obtain ⟨idx, s2, h2, h⟩ := pbind_ok_inv h
  by_cases hc : (!(inputs.contains idx)) = true
  · rw [if_pos hc] at h
    exact PResult.noConfusion h
  · rw [if_neg hc] at h
    obtain ⟨u2, s3, h3, h⟩ := pbind_ok_inv h
    obtain ⟨col, s4, h4, h⟩ := pbind_ok_inv h
    obtain ⟨rfl, rfl⟩ := ppure_ok_inv h
    have hcon : inputs.contains idx = true := by
      cases hcc : inputs.contains idx
      · rw [hcc] at hc
        exact absurd rfl hc
      · rfl
    exact List.elem_iff.mp hcon

/-! ### All elements of a `separated(1..)` result satisfy an element invariant -/

theorem psep1Go_forall {elem : Parser α} {sep : Parser σ} {Q : α → Prop}
    (helem : ∀ s a s', elem s = .ok a s' → Q a) :
    ∀ (m : Nat) (acc : List α) (s : Stream) (r : List α) (s' : Stream),
      psep1Go elem sep m acc s = .ok r s' → (∀ a ∈ acc, Q a) → ∀ a ∈ r, Q a := by
  intro m
  induction m with
  | zero =>
    intro acc s r s' h hacc
    simp only [psep1Go] at h
    exact PResult.noConfusion h
  | succ m ih =>
    intro acc s r s' h hacc
    simp only [psep1Go] at h
    cases hss : sep s with
    | ok o s1 =>
      simp only [hss] at h
      cases hel : elem s1 with
      | ok a s2 =>
        simp only [hel] at h
        refine ih (a :: acc) s2 r s' h ?_
        intro b hb
        rcases List.mem_cons.mp hb with rfl | hb2
        · exact helem s1 b s2 hel
        · exact hacc b hb2
      | err e s2 =>
        simp only [hel] at h
        cases e <;> simp only at h
        case backtrack =>
          cases h
          intro a ha
          exact hacc a (List.mem_reverse.mp ha)
        case cut => exact PResult.noConfusion h
        case incomplete => exact PResult.noConfusion h
      | crash k =>
        simp only [hel] at h
        exact PResult.noConfusion h
    | err e s1 =>
      simp only [hss] at h
      cases e <;> simp only at h
      case backtrack =>
        cases h
        intro a ha
        exact hacc a (List.mem_reverse.mp ha)
      case cut => exact PResult.noConfusion h
      case incomplete => exact PResult.noConfusion h
    | crash k =>
      simp only [hss] at h
      exact PResult.noConfusion h

theorem psep1_ok_forall {elem : Parser α} {sep : Parser σ} {Q : α → Prop}
    (helem : ∀ s a s', elem s = .ok a s' → Q a) {s : Stream} {r : List α}
    {s' : Stream} (h : psep1 elem sep s = .ok r s') : ∀ a ∈ r, Q a := by
  unfold psep1 at h
  cases hel : elem s with
  | ok a s1 =>
    simp only [hel] at h
    refine psep1Go_forall helem (s1.input.length + 1) [a] s1 r s' h ?_
    intro b hb
    rcases List.mem_cons.mp hb with rfl | hb2
    · exact helem s b s1 hel
    · exact absurd hb2 (List.not_mem_nil b)
  | err e s1 =>
    simp only [hel] at h
    exact PResult.noConfusion h
  | crash k =>
    simp only [hel] at h
    exact PResult.noConfusion h

/-! ### `get_table_from_indexed_outputs` cannot panic on covered outputs -/

theorem gtfioOne_ne_panicked {state : QplState} {o : Nat × List Char}
    (ho : (tableLookup state.idx_to_table o.1).isSome = true ∨
      (o.2 == ("1 AS One").toList) = true ∨
      (o.2 == ("countstar AS Count_Star").toList) = true ∨
      starts_with_agg o.2 = true) :
    gtfioOne state o ≠ .panicked := by
  unfold gtfioOne
  by_cases h1 : (o.2 == ("1 AS One").toList) = true
  · rw [if_pos h1]
    intro hc
    exact LookupOut.noConfusion hc
  · rw [if_neg h1]
    by_cases h2 : (o.2 == ("countstar AS Count_Star").toList) = true
    · rw [if_pos h2]
      intro hc
      exact LookupOut.noConfusion hc
    · rw [if_neg h2]
      by_cases h3 : starts_with_agg o.2 = true
      · rw [if_pos h3]
        intro hc
        exact LookupOut.noConfusion hc
      · rw [if_neg h3]
        have hlk : (tableLookup state.idx_to_table o.1).isSome = true := by
          rcases ho with h | h | h | h
          · exact h
          · exact absurd h h1
          · exact absurd h h2
          · exact absurd h h3
        cases hlkc : tableLookup state.idx_to_table o.1 with
        | none =>
          rw [hlkc] at hlk
          exact Bool.noConfusion hlk
        | some t =>
          dsimp only []
          cases t.columns.find? (fun c => c.name == o.2) with
          | none =>
            intro hc
            exact LookupOut.noConfusion hc
          | some c =>
            intro hc
            exact LookupOut.noConfusion hc

theorem gtfioCols_isSome {state : QplState} :
    ∀ (outs : List (Nat × List Char)),
      (∀ o ∈ outs, gtfioOne state o ≠ .panicked) →
      (gtfioCols state outs).isSome = true := by
  intro outs
  induction outs with
  | nil => intro _; rfl
  | cons o os ih =>
    intro h
    simp only [gtfioCols]
    cases hone : gtfioOne state o with
    | panicked => exact absurd hone (h o (List.mem_cons_self o os))
    | missing => rfl
    | found c =>
      have hos := ih (fun o2 ho2 => h o2 (List.mem_cons_of_mem o ho2))
      cases hcols : gtfioCols state os with
      | none =>
        rw [hcols] at hos
        exact Bool.noConfusion hos
      | some oc =>
        cases oc with
        | none => rfl
        | some cs => rfl

theorem ms_gtfio {ids : List Nat} {outs : List (Nat × List Char)}
    (hq : ∀ o ∈ outs, o.1 ∈ ids ∨ (o.2 == ("1 AS One").toList) = true ∨
      (o.2 == ("countstar AS Count_Star").toList) = true ∨
      starts_with_agg o.2 = true) :
    MapSafeOn ids (get_table_from_indexed_outputs outs) := by
  intro s hdom hids
  have hsafe : ∀ o ∈ outs, gtfioOne s.env.state o ≠ .panicked := by
    intro o ho
    refine gtfioOne_ne_panicked ?_
    rcases hq o ho with h | h
    · exact Or.inl (hids o.1 h)
    · exact Or.inr h
  have hcols := gtfioCols_isSome outs hsafe
  cases hcc : gtfioCols s.env.state outs with
  | none =>
    rw [hcc] at hcols
    exact Bool.noConfusion hcols
  | some oc =>
    cases oc with
    | none =>
      simp only [get_table_from_indexed_outputs, hcc]
      exact ⟨hdom, envGrow_refl _⟩
    | some cs =>
      simp only [get_table_from_indexed_outputs, hcc]
      exact ⟨hdom, envGrow_refl _⟩

theorem ms_get_output {inputs : List Nat} (outs : List (List Char)) :
    MapSafeOn inputs (get_output inputs outs) := by
  intro s hdom hids
  have hrt := resolveTables_isSome s.env.state.idx_to_table inputs hids
  cases hrv : resolveTables s.env.state.idx_to_table inputs with
  | none =>
    rw [hrv] at hrt
    exact Bool.noConfusion hrt
  | some prev =>
    cases hmp : outs.mapM (getOutputOne prev) with
    | some cs =>
      simp only [get_output, hrv, hmp]
      exact ⟨hdom, envGrow_refl _⟩
    | none =>
      simp only [get_output, hrv, hmp]
      exact ⟨hdom, envGrow_refl _⟩

/-! ### The per-operation output validators cannot return `none` when the
validated input indices have derived tables -/

theorem filter_validate_output_isSome (input_idx : Nat) (outs : List (List Char))
    (m : List (Nat × Table)) (h : (tableLookup m input_idx).isSome = true) :
    (filter_validate_output input_idx outs m).isSome = true := by
  unfold filter_validate_output
  cases hlk : tableLookup m input_idx with
  | none =>
    rw [hlk] at h
    exact Bool.noConfusion h
  | some t => rfl

theorem agg_validate_output_isSome (input_idx : Nat) (outs : List (List Char))
    (m : List (Nat × Table)) (h : (tableLookup m input_idx).isSome = true) :
    (agg_validate_output input_idx outs m).isSome = true := by
  unfold agg_validate_output
  cases hlk : tableLookup m input_idx with
  | none =>
    rw [hlk] at h
    exact Bool.noConfusion h
  | some t => rfl

theorem top_validate_output_isSome (input_idx : Nat) (outs : List (List Char))
    (m : List (Nat × Table)) (h : (tableLookup m input_idx).isSome = true) :
    (top_validate_output input_idx outs m).isSome = true := by
  unfold top_validate_output
  cases hlk : tableLookup m input_idx with
  | none =>
    rw [hlk] at h
    exact Bool.noConfusion h
  | some t => rfl

theorem top_sort_validate_output_isSome (input_idx : Nat) (outs : List (List Char))
    (m : List (Nat × Table)) (h : (tableLookup m input_idx).isSome = true) :
    (top_sort_validate_output input_idx outs m).isSome = true := by
  unfold top_sort_validate_output
  cases hlk : tableLookup m input_idx with
  | none =>
    rw [hlk] at h
    exact Bool.noConfusion h
  | some t => rfl

theorem sort_validate_output_isSome (input_idx : Nat) (outs : List (List Char))
    (m : List (Nat × Table)) (h : (tableLookup m input_idx).isSome = true) :
    (sort_validate_output input_idx outs m).isSome = true := by
  unfold sort_validate_output
  cases hlk : tableLookup m input_idx with
  | none =>
    rw [hlk] at h
    exact Bool.noConfusion h
  | some t => rfl

theorem join_validate_output_isSome (inputs : List Nat) (outs : List (Nat × List Char))
    (m : List (Nat × Table)) (h : (resolveTables m inputs).isSome = true) :
    (join_validate_output inputs outs m).isSome = true := by
  unfold join_validate_output
  cases hrv : resolveTables m inputs with
  | none =>
    rw [hrv] at h
    exact Bool.noConfusion h
  | some ts => rfl

theorem except_validate_output_isSome (inputs : List Nat) (outs : List (Nat × List Char))
    (m : List (Nat × Table)) (h : (resolveTables m inputs).isSome = true) :
    (except_validate_output inputs outs m).isSome = true := by
  unfold except_validate_output
  cases hrv : resolveTables m inputs with
  | none =>
    rw [hrv] at h
    exact Bool.noConfusion h
  | some ts => rfl

theorem union_validate_output_isSome (inputs : List Nat) (outs : List (Nat × List Char))
    (m : List (Nat × Table)) (h : (resolveTables m inputs).isSome = true) :
    (union_validate_output inputs outs m).isSome = true := by
  unfold union_validate_output
  cases hrv : resolveTables m inputs with
  | none =>
    rw [hrv] at h
    exact Bool.noConfusion h
  | some ts => rfl

/-! ### Map-lookup safety of the `idx_to_table` lookup parsers -/

theorem ms_filter_column_in_table_of_type {ids : List Nat} {input_idx : Nat}
    (hmem : input_idx ∈ ids) (typ : ColumnType) :
    MapSafeOn ids (filter_column_in_table_of_type typ input_idx) := by
  unfold filter_column_in_table_of_type
  refine ms_pbind ms_column_name ?_
  intro column
  refine ms_pbind_post
    (fun env => (tableLookup env.state.idx_to_table input_idx).isSome = true)
    ms_getEnv ?_ ?_
  · intro s a s1 hdom hids hok
    obtain ⟨rfl, rfl⟩ := getEnv_ok_inv hok
    exact hids input_idx hmem
  · intro env hQ
    beta_reduce
    cases hlk : tableLookup env.state.idx_to_table input_idx with
    | none =>
      rw [hlk] at hQ
      exact Bool.noConfusion hQ
    | some t => exact ms_iteB (ms_ppure _) ms_pfail

theorem ms_filter_type_comparable {ids : List Nat} {input_idx : Nat}
    (hmem : input_idx ∈ ids) (t : ColumnType) :
    MapSafeOn ids (filter_type_comparable t input_idx) := by
  unfold filter_type_comparable
  repeat
    first
    | exact ms_filter_column_in_table_of_type hmem _
    | exact ms_number
    | exact ms_booleanP
    | exact ms_stringP
    | exact ms_nullP
    | apply ms_palt
    | split

theorem ms_filter_comparison {ids : List Nat} {input_idx : Nat}
    (hmem : input_idx ∈ ids) (twc : Bool) :
    MapSafeOn ids (filter_comparison twc input_idx) := by
  unfold filter_comparison
  refine ms_pbind (ms_palt (ms_column_in_index _ _) (ms_column_in_index _ _)) ?_
  intro column
  refine ms_pbind ms_spaced_comparison_op ?_
  intro op
  beta_reduce
  refine ms_iteB ?_ ?_
  · refine ms_pbind_post
      (fun env => (tableLookup env.state.idx_to_table input_idx).isSome = true)
      ms_getEnv ?_ ?_
    · intro s a s1 hdom hids hok
      obtain ⟨rfl, rfl⟩ := getEnv_ok_inv hok
      exact hids input_idx hmem
    · intro env hQ
      beta_reduce
      cases hlk : tableLookup env.state.idx_to_table input_idx with
      | none =>
        rw [hlk] at hQ
        exact Bool.noConfusion hQ
      | some t =>
        dsimp only []
        repeat
          first
          | exact ms_pfail
          | exact ms_ppure _
          | exact ms_pcrash_other
          | exact ms_filter_type_comparable hmem _
          | apply ms_pbind
          | apply ms_iteB
          | split
          | (beta_reduce; split)
          | intro _
  · repeat
      first
      | exact ms_pfail
      | exact ms_ppure _
      | exact ms_pcrash_other
      | exact ms_filter_comparable
      | apply ms_pbind
      | apply ms_iteB
      | split
      | (beta_reduce; split)
      | intro _

theorem ms_order_by {ids : List Nat} {input_idx : Nat} (hmem : input_idx ∈ ids) :
    MapSafeOn ids (order_by input_idx) := by
  unfold order_by
  refine ms_pbind (ms_palt ms_aliased_column ms_column_name) ?_
  intro by_
  refine ms_pbind_post
    (fun env => (tableLookup env.state.idx_to_table input_idx).isSome = true)
    ms_getEnv ?_ ?_
  · intro s a s1 hdom hids hok
    obtain ⟨rfl, rfl⟩ := getEnv_ok_inv hok
    exact hids input_idx hmem
  · intro env hQ
    beta_reduce
    cases hlk : tableLookup env.state.idx_to_table input_idx with
    | none =>
      rw [hlk] at hQ
      exact Bool.noConfusion hQ
    | some t =>
      dsimp only []
      repeat
        first
        | exact ms_pfail
        | exact ms_ppure _
        | exact ms_pcrash_other
        | exact ms_multispace0
        | exact ms_opLit _
        | apply ms_palt
        | apply ms_pbind
        | apply ms_iteB
        | split
        | (beta_reduce; split)
        | intro _

theorem ms_join_column_in_index_of_type (typ : ColumnType) (input_idxs : List Nat) :
    MapSafeOn input_idxs (join_column_in_index_of_type typ input_idxs) := by
  unfold join_column_in_index_of_type
  refine ms_pbind_post (fun ic => ic.1 ∈ input_idxs) (ms_indexed_column _) ?_ ?_
  · intro s a s1 hdom hids hok
    exact indexed_column_ok_mem hok
  · intro ic hQ
    beta_reduce
    refine ms_pbind_post
      (fun env => (tableLookup env.state.idx_to_table ic.1).isSome = true)
      ms_getEnv ?_ ?_
    · intro s a s1 hdom hids hok
      obtain ⟨rfl, rfl⟩ := getEnv_ok_inv hok
      exact hids ic.1 hQ
    · intro env hQ2
      beta_reduce
      cases hlk : tableLookup env.state.idx_to_table ic.1 with
      | none =>
        rw [hlk] at hQ2
        exact Bool.noConfusion hQ2
      | some t => exact ms_iteB (ms_ppure _) ms_pfail

theorem ms_join_type_comparable (input_idxs : List Nat) (t : ColumnType) :
    MapSafeOn input_idxs (join_type_comparable input_idxs t) := by
  unfold join_type_comparable
  repeat
    first
    | exact ms_join_column_in_index_of_type _ _
    | exact ms_number
    | exact ms_booleanP
    | exact ms_stringP
    | exact ms_nullP
    | apply ms_palt
    | split

theorem ms_comparable_key_and_type (input_idxs : List Nat) (lhs_type : ColumnType)
    (lhs_table : List Char) (decider : KeyType → List Char → Bool) :
    MapSafeOn input_idxs (comparable_key_and_type input_idxs lhs_type lhs_table decider) := by
  unfold comparable_key_and_type
  refine ms_pbind_post (fun ic => ic.1 ∈ input_idxs) (ms_indexed_column _) ?_ ?_
  · intro s a s1 hdom hids hok
    exact indexed_column_ok_mem hok
  · intro ic hQ
    beta_reduce
    refine ms_pbind_post
      (fun env => (tableLookup env.state.idx_to_table ic.1).isSome = true)
      ms_getEnv ?_ ?_
    · intro s a s1 hdom hids hok
      obtain ⟨rfl, rfl⟩ := getEnv_ok_inv hok
      exact hids ic.1 hQ
    · intro env hQ2
      beta_reduce
      cases hlk : tableLookup env.state.idx_to_table ic.1 with
      | none =>
        rw [hlk] at hQ2
        exact Bool.noConfusion hQ2
      | some t => exact ms_iteB (ms_ppure _) ms_pfail

theorem ms_comparableKeyP1 (input_idxs : List Nat) (lhs_type : ColumnType) :
    ∀ (keys : List KeyType),
      MapSafeOn input_idxs (comparableKeyP1 input_idxs lhs_type keys) := by
  intro keys
  induction keys with
  | nil => exact ms_pfail
  | cons key rest ih =>
    have heq : comparableKeyP1 input_idxs lhs_type (key :: rest) =
        pbind (match key with
          | .primaryKey table =>
            popt (comparable_key_and_type input_idxs lhs_type table is_foreign_key_of)
          | .foreignKey table =>
            popt (palt
              (comparable_key_and_type input_idxs lhs_type table is_foreign_key_of)
              (comparable_key_and_type input_idxs lhs_type table is_primary_key_of)))
        (fun o => match o with
          | some c => ppure c
          | none => comparableKeyP1 input_idxs lhs_type rest) := by
      funext s
      cases key with
      | primaryKey table =>
        cases hp : popt (comparable_key_and_type input_idxs lhs_type table
            is_foreign_key_of) s with
        | ok o s1 => cases o <;> simp only [comparableKeyP1, pbind, hp, ppure]
        | err e s1 => simp only [comparableKeyP1, pbind, hp]
        | crash k => simp only [comparableKeyP1, pbind, hp]
      | foreignKey table =>
        cases hp : popt (palt
            (comparable_key_and_type input_idxs lhs_type table is_foreign_key_of)
            (comparable_key_and_type input_idxs lhs_type table is_primary_key_of)) s with
        | ok o s1 => cases o <;> simp only [comparableKeyP1, pbind, hp, ppure]
        | err e s1 => simp only [comparableKeyP1, pbind, hp]
        | crash k => simp only [comparableKeyP1, pbind, hp]
    rw [heq]
    refine ms_pbind ?_ (fun o => ?_)
    · cases key with
      | primaryKey table => exact ms_popt (ms_comparable_key_and_type _ _ _ _)
      | foreignKey table =>
        exact ms_popt (ms_palt (ms_comparable_key_and_type _ _ _ _)
          (ms_comparable_key_and_type _ _ _ _))
    · cases o with
      | none => exact ih
      | some c => exact ms_ppure _

theorem ms_comparableKeyP2 (input_idxs : List Nat) (lhs_type : ColumnType) :
    MapSafeOn input_idxs (comparableKeyP2 input_idxs lhs_type) := by
  unfold comparableKeyP2
  refine ms_pbind_post (fun ic => ic.1 ∈ input_idxs) (ms_indexed_column _) ?_ ?_
  · intro s a s1 hdom hids hok
    exact indexed_column_ok_mem hok
  · intro ic hQ
    beta_reduce
    refine ms_pbind_post
      (fun env => (tableLookup env.state.idx_to_table ic.1).isSome = true)
      ms_getEnv ?_ ?_
    · intro s a s1 hdom hids hok
      obtain ⟨rfl, rfl⟩ := getEnv_ok_inv hok
      exact hids ic.1 hQ
    · intro env hQ2
      beta_reduce
      cases hlk : tableLookup env.state.idx_to_table ic.1 with
      | none =>
        rw [hlk] at hQ2
        exact Bool.noConfusion hQ2
      | some t =>
        dsimp only []
        cases anyAliasedOrTodo t.columns ic.2 lhs_type with
        | none => exact ms_pcrash_todo
        | some b =>
          cases b with
          | false => exact ms_pfail
          | true => exact ms_ppure _

theorem ms_comparable_key (input_idxs : List Nat) (lhs_type : ColumnType)
    (lhs_keys : List KeyType) :
    MapSafeOn input_idxs (comparable_key input_idxs lhs_type lhs_keys) := by
  unfold comparable_key
  exact ms_palt (ms_comparableKeyP1 _ _ _) (ms_comparableKeyP2 _ _)

theorem ms_join_comparison (twc : Bool) (input_idxs : List Nat) :
    MapSafeOn input_idxs (join_comparison twc input_idxs) := by
  unfold join_comparison
  refine ms_pbind_post (fun ic => ic.1 ∈ input_idxs) (ms_indexed_column _) ?_ ?_
  · intro s a s1 hdom hids hok
    exact indexed_column_ok_mem hok
  · intro ic hQ
    beta_reduce
    refine ms_pbind ms_spaced_comparison_op ?_
    intro op
    beta_reduce
    refine ms_iteB ?_ ?_
    · refine ms_pbind_post
        (fun env => (tableLookup env.state.idx_to_table ic.1).isSome = true)
        ms_getEnv ?_ ?_
      · intro s a s1 hdom hids hok
        obtain ⟨rfl, rfl⟩ := getEnv_ok_inv hok
        exact hids ic.1 hQ
      · intro env hQ2
        beta_reduce
        cases hlk : tableLookup env.state.idx_to_table ic.1 with
        | none =>
          rw [hlk] at hQ2
          exact Bool.noConfusion hQ2
        | some t =>
          dsimp only []
          repeat
            first
            | exact ms_pfail
            | exact ms_ppure _
            | exact ms_pcrash_other
            | exact ms_comparable_key _ _ _
            | exact ms_join_type_comparable _ _
            | apply ms_pbind
            | apply ms_iteB
            | split
            | (beta_reduce; split)
            | intro _
    · repeat
        first
        | exact ms_pfail
        | exact ms_ppure _
        | exact ms_pcrash_other
        | exact ms_join_comparable _
        | apply ms_pbind
        | apply ms_iteB
        | split
        | (beta_reduce; split)
        | intro _

theorem ms_except_column_in_index_of_type (typ : ColumnType) (input_idxs : List Nat) :
    MapSafeOn input_idxs (except_column_in_index_of_type typ input_idxs) := by
  unfold except_column_in_index_of_type
  refine ms_pbind_post (fun ic => ic.1 ∈ input_idxs) (ms_indexed_column _) ?_ ?_
  · intro s a s1 hdom hids hok
    exact indexed_column_ok_mem hok
  · intro ic hQ
    beta_reduce
    refine ms_pbind_post
      (fun env => (tableLookup env.state.idx_to_table ic.1).isSome = true)
      ms_getEnv ?_ ?_
    · intro s a s1 hdom hids hok
      obtain ⟨rfl, rfl⟩ := getEnv_ok_inv hok
      exact hids ic.1 hQ
    · intro env hQ2
      beta_reduce
      cases hlk : tableLookup env.state.idx_to_table ic.1 with
      | none =>
        rw [hlk] at hQ2
        exact Bool.noConfusion hQ2
      | some t => exact ms_iteB (ms_ppure _) ms_pfail

theorem ms_except_type_comparable (input_idxs : List Nat) (t : ColumnType) :
    MapSafeOn input_idxs (except_type_comparable input_idxs t) := by
  unfold except_type_comparable
  exact ms_palt ms_nullP (ms_except_column_in_index_of_type _ _)

theorem ms_except_comparison (twc : Bool) (input_idxs : List Nat) :
    MapSafeOn input_idxs (except_comparison twc input_idxs) := by
  unfold except_comparison
  refine ms_pbind_post (fun ic => ic.1 ∈ input_idxs) (ms_indexed_column _) ?_ ?_
  · intro s a s1 hdom hids hok
    exact indexed_column_ok_mem hok
  · intro ic hQ
    beta_reduce
    refine ms_pbind ms_spaced_comparison_op ?_
    intro op
    beta_reduce
    refine ms_iteB ?_ ?_
    · refine ms_pbind_post
        (fun env => (tableLookup env.state.idx_to_table ic.1).isSome = true)
        ms_getEnv ?_ ?_
      · intro s a s1 hdom hids hok
        obtain ⟨rfl, rfl⟩ := getEnv_ok_inv hok
        exact hids ic.1 hQ
      · intro env hQ2
        beta_reduce
        cases hlk : tableLookup env.state.idx_to_table ic.1 with
        | none =>
          rw [hlk] at hQ2
          exact Bool.noConfusion hQ2
        | some t =>
          dsimp only []
          repeat
            first
            | exact ms_pfail
            | exact ms_ppure _
            | exact ms_pcrash_other
            | exact ms_except_type_comparable _ _
            | apply ms_pbind
            | apply ms_iteB
            | split
            | (beta_reduce; split)
            | intro _
    · repeat
        first
        | exact ms_pfail
        | exact ms_ppure _
        | exact ms_pcrash_other
        | exact ms_except_comparable _
        | apply ms_pbind
        | apply ms_iteB
        | split
        | (beta_reduce; split)
        | intro _

/-! ### Every accepted operation inserts its derived table at the current line index -/

theorem scan_ok_inserts {twc : Bool} {s : Stream} {op : Operation} {s' : Stream}
    (h : scan twc s = .ok op s') :
    (tableLookup s'.env.state.idx_to_table s.env.state.current_idx).isSome = true := by
  have hfull := presis_scan twc s
  simp only [h] at hfull
  unfold scan at h
  obtain ⟨u1, s1, h1, h⟩ := pbind_ok_inv h
  obtain ⟨table, s2, h2, h⟩ := pbind_ok_inv h
  obtain ⟨u2, s3, h3, h⟩ := pbind_ok_inv h
  obtain ⟨pred, s4, h4, h⟩ := pbind_ok_inv h
  obtain ⟨dist, s5, h5, h⟩ := pbind_ok_inv h
  obtain ⟨u3, s6, h6, h⟩ := pbind_ok_inv h
  obtain ⟨outs, s7, h7, h⟩ := pbind_ok_inv h
  by_cases hdup : has_duplicates outs = true
  · rw [if_pos hdup] at h
    exact PResult.noConfusion h
  · rw [if_neg hdup] at h
    obtain ⟨schema, s8, h8, h⟩ := pbind_ok_inv h
    cases hv : get_output_table schema table outs with
    | none =>
      rw [hv] at h
      exact PResult.noConfusion h
    | some t =>
      rw [hv] at h
      obtain ⟨u4, s9, h9, h⟩ := pbind_ok_inv h
      obtain ⟨u5, s10, h10, h⟩ := pbind_ok_inv h
      obtain ⟨rfl, rfl⟩ := ppure_ok_inv h
      have hpT := envPres_ptag (" ]") s9
      rw [h10] at hpT
      have hsB := modifyEnv_ok_inv h9
      have hcur : s8.env.state.current_idx = s.env.state.current_idx := by
        have h1c := hfull.1
        rw [hpT, hsB] at h1c
        exact h1c
      have hins : (tableLookup (tableInsert s8.env.state.current_idx t
          s8.env.state.idx_to_table) s8.env.state.current_idx).isSome = true := by
        rw [tableLookup_insert_self]
        rfl
      rw [hpT, hsB, ← hcur]
      exact hins

theorem filter_ok_inserts {twc : Bool} {s : Stream} {op : Operation} {s' : Stream}
    (h : filter twc s = .ok op s') :
    (tableLookup s'.env.state.idx_to_table s.env.state.current_idx).isSome = true := by
  have hfull := presis_filter twc s
  simp only [h] at hfull
  unfold filter at h
  obtain ⟨u1, s1, h1, h⟩ := pbind_ok_inv h
  obtain ⟨inputs, s2, h2, h⟩ := pbind_ok_inv h
  by_cases hlen : inputs.length ≠ 1
  · rw [if_pos hlen] at h
    exact PResult.noConfusion h
  · rw [if_neg hlen] at h
    obtain ⟨pred, s3, h3, h⟩ := pbind_ok_inv h
    obtain ⟨dist, s4, h4, h⟩ := pbind_ok_inv h
    obtain ⟨u2, s5, h5, h⟩ := pbind_ok_inv h
    obtain ⟨outs, s6, h6, h⟩ := pbind_ok_inv h
    obtain ⟨env0, s7, h7, h⟩ := pbind_ok_inv h
    obtain ⟨rfl, rfl⟩ := getEnv_ok_inv h7
    cases hv : filter_validate_output (inputs.headD 0) outs s7.env.state.idx_to_table with
    | none =>
      rw [hv] at h
      exact PResult.noConfusion h
    | some b =>
      cases b
      · rw [hv] at h
        exact PResult.noConfusion h
      · rw [hv] at h
        obtain ⟨tbl, s8, h8, h⟩ := pbind_ok_inv h
        obtain ⟨u3, s9, h9, h⟩ := pbind_ok_inv h
        obtain ⟨u4, s10, h10, h⟩ := pbind_ok_inv h
        obtain ⟨rfl, rfl⟩ := ppure_ok_inv h
        have hpT := envPres_ptag (" ]") s9
        rw [h10] at hpT
        have hsB := modifyEnv_ok_inv h9
        have hcur : s8.env.state.current_idx = s.env.state.current_idx := by
          have h1c := hfull.1
          rw [hpT, hsB] at h1c
          exact h1c
        have hins : (tableLookup (tableInsert s8.env.state.current_idx tbl
            s8.env.state.idx_to_table) s8.env.state.current_idx).isSome = true := by
          rw [tableLookup_insert_self]
          rfl
        rw [hpT, hsB, ← hcur]
        exact hins

theorem aggregate_ok_inserts {s : Stream} {op : Operation} {s' : Stream}
    (h : aggregate s = .ok op s') :
    (tableLookup s'.env.state.idx_to_table s.env.state.current_idx).isSome = true := by
  have hfull := presis_aggregate s
  simp only [h] at hfull
  unfold aggregate at h
  obtain ⟨u1, s1, h1, h⟩ := pbind_ok_inv h
  obtain ⟨inputs, s2, h2, h⟩ := pbind_ok_inv h
  by_cases hlen : inputs.length ≠ 1
  · rw [if_pos hlen] at h
    exact PResult.noConfusion h
  · rw [if_neg hlen] at h
    obtain ⟨gbs, s3, h3, h⟩ := pbind_ok_inv h
    obtain ⟨u2, s4, h4, h⟩ := pbind_ok_inv h
    obtain ⟨outs, s5, h5, h⟩ := pbind_ok_inv h
    obtain ⟨env0, sE, hE, h⟩ := pbind_ok_inv h
    obtain ⟨rfl, rfl⟩ := getEnv_ok_inv hE
    cases hv : agg_validate_output (inputs.headD 0) outs sE.env.state.idx_to_table with
    | none =>
      rw [hv] at h
      exact PResult.noConfusion h
    | some b =>
      cases b
      · rw [hv] at h
        exact PResult.noConfusion h
      · rw [hv] at h
        obtain ⟨tbl, t1, g1, h⟩ := pbind_ok_inv h
        obtain ⟨v1, t2, g2, h⟩ := pbind_ok_inv h
        obtain ⟨v2, t3, g3, h⟩ := pbind_ok_inv h
        obtain ⟨rfl, rfl⟩ := ppure_ok_inv h
        have hpT := envPres_ptag (" ]") t2
        rw [g3] at hpT
        have hsB := modifyEnv_ok_inv g2
        have hcur : t1.env.state.current_idx = s.env.state.current_idx := by
          have h1c := hfull.1
          rw [hpT, hsB] at h1c
          exact h1c
        have hins : (tableLookup (tableInsert t1.env.state.current_idx tbl
            t1.env.state.idx_to_table) t1.env.state.current_idx).isSome = true := by
          rw [tableLookup_insert_self]
          rfl
        rw [hpT, hsB, ← hcur]
        exact hins

theorem top_ok_inserts {s : Stream} {op : Operation} {s' : Stream}
    (h : top s = .ok op s') :
    (tableLookup s'.env.state.idx_to_table s.env.state.current_idx).isSome = true := by
  have hfull := presis_top s
  simp only [h] at hfull
  unfold top at h
  obtain ⟨u1, s1, h1, h⟩ := pbind_ok_inv h
  obtain ⟨inputs, s2, h2, h⟩ := pbind_ok_inv h
  by_cases hlen : inputs.length ≠ 1
  · rw [if_pos hlen] at h
    exact PResult.noConfusion h
  · rw [if_neg hlen] at h
    obtain ⟨u2, s3, h3, h⟩ := pbind_ok_inv h
    obtain ⟨rows, s4, h4, h⟩ := pbind_ok_inv h
    obtain ⟨u3, s5, h5, h⟩ := pbind_ok_inv h
    obtain ⟨outs, s6, h6, h⟩ := pbind_ok_inv h
    obtain ⟨env0, sE, hE, h⟩ := pbind_ok_inv h
    obtain ⟨rfl, rfl⟩ := getEnv_ok_inv hE
    cases hv : top_validate_output (inputs.headD 0) outs sE.env.state.idx_to_table with
    | none =>
      rw [hv] at h
      exact PResult.noConfusion h
    | some b =>
      cases b
      · rw [hv] at h
        exact PResult.noConfusion h
      · rw [hv] at h
        obtain ⟨tbl, t1, g1, h⟩ := pbind_ok_inv h
        obtain ⟨v1, t2, g2, h⟩ := pbind_ok_inv h
        obtain ⟨v2, t3, g3, h⟩ := pbind_ok_inv h
        obtain ⟨rfl, rfl⟩ := ppure_ok_inv h
        have hpT := envPres_ptag (" ]") t2
        rw [g3] at hpT
        have hsB := modifyEnv_ok_inv g2
        have hcur : t1.env.state.current_idx = s.env.state.current_idx := by
          have h1c := hfull.1
          rw [hpT, hsB] at h1c
          exact h1c
        have hins : (tableLookup (tableInsert t1.env.state.current_idx tbl
            t1.env.state.idx_to_table) t1.env.state.current_idx).isSome = true := by
          rw [tableLookup_insert_self]
          rfl
        rw [hpT, hsB, ← hcur]
        exact hins

theorem top_sort_ok_inserts {s : Stream} {op : Operation} {s' : Stream}
    (h : top_sort s = .ok op s') :
    (tableLookup s'.env.state.idx_to_table s.env.state.current_idx).isSome = true := by
  have hfull := presis_top_sort s
  simp only [h] at hfull
  unfold top_sort at h
  obtain ⟨u1, s1, h1, h⟩ := pbind_ok_inv h
  obtain ⟨inputs, s2, h2, h⟩ := pbind_ok_inv h
  by_cases hlen : inputs.length ≠ 1
  · rw [if_pos hlen] at h
    exact PResult.noConfusion h
  · rw [if_neg hlen] at h
    obtain ⟨u2, s3, h3, h⟩ := pbind_ok_inv h
    obtain ⟨rows, s4, h4, h⟩ := pbind_ok_inv h
    obtain ⟨u3, s5, h5, h⟩ := pbind_ok_inv h
    obtain ⟨obs, s6, h6, h⟩ := pbind_ok_inv h
    obtain ⟨u4, s7, h7, h⟩ := pbind_ok_inv h
    obtain ⟨wt, s8, h8, h⟩ := pbind_ok_inv h
    obtain ⟨u5, s9, h9, h⟩ := pbind_ok_inv h
    obtain ⟨outs, s10, h10, h⟩ := pbind_ok_inv h
    obtain ⟨env0, sE, hE, h⟩ := pbind_ok_inv h
    obtain ⟨rfl, rfl⟩ := getEnv_ok_inv hE
    cases hv : top_sort_validate_output (inputs.headD 0) outs sE.env.state.idx_to_table with
    | none =>
      rw [hv] at h
      exact PResult.noConfusion h
    | some b =>
      cases b
      · rw [hv] at h
        exact PResult.noConfusion h
      · rw [hv] at h
        obtain ⟨tbl, t1, g1, h⟩ := pbind_ok_inv h
        obtain ⟨v1, t2, g2, h⟩ := pbind_ok_inv h
        obtain ⟨v2, t3, g3, h⟩ := pbind_ok_inv h
        obtain ⟨rfl, rfl⟩ := ppure_ok_inv h
        have hpT := envPres_ptag (" ]") t2
        rw [g3] at hpT
        have hsB := modifyEnv_ok_inv g2
        have hcur : t1.env.state.current_idx = s.env.state.current_idx := by
          have h1c := hfull.1
          rw [hpT, hsB] at h1c
          exact h1c
        have hins : (tableLookup (tableInsert t1.env.state.current_idx tbl
            t1.env.state.idx_to_table) t1.env.state.current_idx).isSome = true := by
          rw [tableLookup_insert_self]
          rfl
        rw [hpT, hsB, ← hcur]
        exact hins

theorem sort_ok_inserts {s : Stream} {op : Operation} {s' : Stream}
    (h : sort s = .ok op s') :
    (tableLookup s'.env.state.idx_to_table s.env.state.current_idx).isSome = true := by
  have hfull := presis_sort s
  simp only [h] at hfull
  unfold sort at h
  obtain ⟨u1, s1, h1, h⟩ := pbind_ok_inv h
  obtain ⟨inputs, s2, h2, h⟩ := pbind_ok_inv h
  by_cases hlen : inputs.length ≠ 1
  · rw [if_pos hlen] at h
    exact PResult.noConfusion h
  · rw [if_neg hlen] at h
    obtain ⟨dist, s3, h3, h⟩ := pbind_ok_inv h
    obtain ⟨u2, s4, h4, h⟩ := pbind_ok_inv h
    obtain ⟨obs, s5, h5, h⟩ := pbind_ok_inv h
    obtain ⟨u3, s6, h6, h⟩ := pbind_ok_inv h
    obtain ⟨u4, s7, h7, h⟩ := pbind_ok_inv h
    obtain ⟨outs, s8, h8, h⟩ := pbind_ok_inv h
    obtain ⟨env0, sE, hE, h⟩ := pbind_ok_inv h
    obtain ⟨rfl, rfl⟩ := getEnv_ok_inv hE
    cases hv : sort_validate_output (inputs.headD 0) outs sE.env.state.idx_to_table with
    | none =>
      rw [hv] at h
      exact PResult.noConfusion h
    | some b =>
      cases b
      · rw [hv] at h
        exact PResult.noConfusion h
      · rw [hv] at h
        obtain ⟨tbl, t1, g1, h⟩ := pbind_ok_inv h
        obtain ⟨v1, t2, g2, h⟩ := pbind_ok_inv h
        obtain ⟨v2, t3, g3, h⟩ := pbind_ok_inv h
        obtain ⟨rfl, rfl⟩ := ppure_ok_inv h
        have hpT := envPres_ptag (" ]") t2
        rw [g3] at hpT
        have hsB := modifyEnv_ok_inv g2
        have hcur : t1.env.state.current_idx = s.env.state.current_idx := by
          have h1c := hfull.1
          rw [hpT, hsB] at h1c
          exact h1c
        have hins : (tableLookup (tableInsert t1.env.state.current_idx tbl
            t1.env.state.idx_to_table) t1.env.state.current_idx).isSome = true := by
          rw [tableLookup_insert_self]
          rfl
        rw [hpT, hsB, ← hcur]
        exact hins

theorem join_ok_inserts {twc : Bool} {s : Stream} {op : Operation} {s' : Stream}
    (h : join twc s = .ok op s') :
    (tableLookup s'.env.state.idx_to_table s.env.state.current_idx).isSome = true := by
  have hfull := presis_join twc s
  simp only [h] at hfull
  unfold join at h
  obtain ⟨u1, s1, h1, h⟩ := pbind_ok_inv h
  obtain ⟨inputs, s2, h2, h⟩ := pbind_ok_inv h
  by_cases hlen : inputs.length ≠ 2
  · rw [if_pos hlen] at h
    exact PResult.noConfusion h
  · rw [if_neg hlen] at h
    obtain ⟨pred, s3, h3, h⟩ := pbind_ok_inv h
    obtain ⟨dist, s4, h4, h⟩ := pbind_ok_inv h
    obtain ⟨u2, s5, h5, h⟩ := pbind_ok_inv h
    obtain ⟨outs, s6, h6, h⟩ := pbind_ok_inv h
    obtain ⟨env0, sE, hE, h⟩ := pbind_ok_inv h
    obtain ⟨rfl, rfl⟩ := getEnv_ok_inv hE
    cases hv : join_validate_output inputs outs sE.env.state.idx_to_table with
    | none =>
      rw [hv] at h
      exact PResult.noConfusion h
    | some b =>
      cases b
      · rw [hv] at h
        exact PResult.noConfusion h
      · rw [hv] at h
        obtain ⟨tbl, t1, g1, h⟩ := pbind_ok_inv h
        obtain ⟨v1, t2, g2, h⟩ := pbind_ok_inv h
        obtain ⟨v2, t3, g3, h⟩ := pbind_ok_inv h
        obtain ⟨rfl, rfl⟩ := ppure_ok_inv h
        have hpT := envPres_ptag (" ]") t2
        rw [g3] at hpT
        have hsB := modifyEnv_ok_inv g2
        have hcur : t1.env.state.current_idx = s.env.state.current_idx := by
          have h1c := hfull.1
          rw [hpT, hsB] at h1c
          exact h1c
        have hins : (tableLookup (tableInsert t1.env.state.current_idx tbl
            t1.env.state.idx_to_table) t1.env.state.current_idx).isSome = true := by
          rw [tableLookup_insert_self]
          rfl
        rw [hpT, hsB, ← hcur]
        exact hins

theorem intersect_ok_inserts {twc : Bool} {s : Stream} {op : Operation} {s' : Stream}
    (h : intersect twc s = .ok op s') :
    (tableLookup s'.env.state.idx_to_table s.env.state.current_idx).isSome = true := by
  have hfull := presis_intersect twc s
  simp only [h] at hfull
  unfold intersect at h
  obtain ⟨u1, s1, h1, h⟩ := pbind_ok_inv h
  obtain ⟨inputs, s2, h2, h⟩ := pbind_ok_inv h
  by_cases hlen : inputs.length ≠ 2
  · rw [if_pos hlen] at h
    exact PResult.noConfusion h
  · rw [if_neg hlen] at h
    obtain ⟨pred, s3, h3, h⟩ := pbind_ok_inv h
    obtain ⟨dist, s4, h4, h⟩ := pbind_ok_inv h
    obtain ⟨u2, s5, h5, h⟩ := pbind_ok_inv h
    obtain ⟨outs, s6, h6, h⟩ := pbind_ok_inv h
    obtain ⟨env0, sE, hE, h⟩ := pbind_ok_inv h
    obtain ⟨rfl, rfl⟩ := getEnv_ok_inv hE
    cases hv : join_validate_output inputs outs sE.env.state.idx_to_table with
    | none =>
      rw [hv] at h
      exact PResult.noConfusion h
    | some b =>
      cases b
      · rw [hv] at h
        exact PResult.noConfusion h
      · rw [hv] at h
        obtain ⟨tbl, t1, g1, h⟩ := pbind_ok_inv h
        obtain ⟨v1, t2, g2, h⟩ := pbind_ok_inv h
        obtain ⟨v2, t3, g3, h⟩ := pbind_ok_inv h
        obtain ⟨rfl, rfl⟩ := ppure_ok_inv h
        have hpT := envPres_ptag (" ]") t2
        rw [g3] at hpT
        have hsB := modifyEnv_ok_inv g2
        have hcur : t1.env.state.current_idx = s.env.state.current_idx := by
          have h1c := hfull.1
          rw [hpT, hsB] at h1c
          exact h1c
        have hins : (tableLookup (tableInsert t1.env.state.current_idx tbl
            t1.env.state.idx_to_table) t1.env.state.current_idx).isSome = true := by
          rw [tableLookup_insert_self]
          rfl
        rw [hpT, hsB, ← hcur]
        exact hins

theorem except_ok_inserts {twc : Bool} {s : Stream} {op : Operation} {s' : Stream}
    (h : except twc s = .ok op s') :
    (tableLookup s'.env.state.idx_to_table s.env.state.current_idx).isSome = true := by
  have hfull := presis_except twc s
  simp only [h] at hfull
  unfold except at h
  obtain ⟨u1, s1, h1, h⟩ := pbind_ok_inv h
  obtain ⟨inputs, s2, h2, h⟩ := pbind_ok_inv h
  by_cases hlen : inputs.length ≠ 2
  · rw [if_pos hlen] at h
    exact PResult.noConfusion h
  · rw [if_neg hlen] at h
    obtain ⟨oper, s3, h3, h⟩ := pbind_ok_inv h
    obtain ⟨dist, s4, h4, h⟩ := pbind_ok_inv h
    obtain ⟨u2, s5, h5, h⟩ := pbind_ok_inv h
    obtain ⟨outs, s6, h6, h⟩ := pbind_ok_inv h
    obtain ⟨env0, sE, hE, h⟩ := pbind_ok_inv h
    obtain ⟨rfl, rfl⟩ := getEnv_ok_inv hE
    cases hv : except_validate_output inputs outs sE.env.state.idx_to_table with
    | none =>
      rw [hv] at h
      exact PResult.noConfusion h
    | some b =>
      cases b
      · rw [hv] at h
        exact PResult.noConfusion h
      · rw [hv] at h
        obtain ⟨tbl, t1, g1, h⟩ := pbind_ok_inv h
        obtain ⟨v1, t2, g2, h⟩ := pbind_ok_inv h
        obtain ⟨v2, t3, g3, h⟩ := pbind_ok_inv h
        obtain ⟨rfl, rfl⟩ := ppure_ok_inv h
        have hpT := envPres_ptag (" ]") t2
        rw [g3] at hpT
        have hsB := modifyEnv_ok_inv g2
        have hcur : t1.env.state.current_idx = s.env.state.current_idx := by
          have h1c := hfull.1
          rw [hpT, hsB] at h1c
          exact h1c
        have hins : (tableLookup (tableInsert t1.env.state.current_idx tbl
            t1.env.state.idx_to_table) t1.env.state.current_idx).isSome = true := by
          rw [tableLookup_insert_self]
          rfl
        rw [hpT, hsB, ← hcur]
        exact hins

theorem union_ok_inserts {s : Stream} {op : Operation} {s' : Stream}
    (h : union s = .ok op s') :
    (tableLookup s'.env.state.idx_to_table s.env.state.current_idx).isSome = true := by
  have hfull := presis_union s
  simp only [h] at hfull
  unfold union at h
  obtain ⟨u1, s1, h1, h⟩ := pbind_ok_inv h
  obtain ⟨inputs, s2, h2, h⟩ := pbind_ok_inv h
  by_cases hlen : inputs.length ≠ 2
  · rw [if_pos hlen] at h
    exact PResult.noConfusion h
  · rw [if_neg hlen] at h
    obtain ⟨u2, s3, h3, h⟩ := pbind_ok_inv h
    obtain ⟨outs, s4, h4, h⟩ := pbind_ok_inv h
    obtain ⟨env0, sE, hE, h⟩ := pbind_ok_inv h
    obtain ⟨rfl, rfl⟩ := getEnv_ok_inv hE
    cases hv : union_validate_output inputs outs sE.env.state.idx_to_table with
    | none =>
      rw [hv] at h
      exact PResult.noConfusion h
    | some b =>
      cases b
      · rw [hv] at h
        exact PResult.noConfusion h
      · rw [hv] at h
        obtain ⟨tbl, t1, g1, h⟩ := pbind_ok_inv h
        obtain ⟨v1, t2, g2, h⟩ := pbind_ok_inv h
        obtain ⟨v2, t3, g3, h⟩ := pbind_ok_inv h
        obtain ⟨rfl, rfl⟩ := ppure_ok_inv h
        have hpT := envPres_ptag (" ]") t2
        rw [g3] at hpT
        have hsB := modifyEnv_ok_inv g2
        have hcur : t1.env.state.current_idx = s.env.state.current_idx := by
          have h1c := hfull.1
          rw [hpT, hsB] at h1c
          exact h1c
        have hins : (tableLookup (tableInsert t1.env.state.current_idx tbl
            t1.env.state.idx_to_table) t1.env.state.current_idx).isSome = true := by
          rw [tableLookup_insert_self]
          rfl
        rw [hpT, hsB, ← hcur]
        exact hins

/-! ### Map-lookup safety of the operation parsers -/

theorem ms_filter (twc : Bool) : MapSafe (filter twc) := by
  unfold filter
  refine ms_pbind (ms_ptag _) ?_
  intro u0
  refine ms_pbind_seen (fun inputs => inputs) ms_input_ids ?_ ?_
  · intro s a s1 hok i hi
    have hio := input_ids_ok hok
    rw [hio.2.1]
    exact hio.1 i hi
  · intro inputs
    beta_reduce
    refine ms_ite (fun _ => ms_pfail) ?_
    intro hlen
    have hone : inputs.length = 1 := by
      by_cases hl : inputs.length = 1
      · exact hl
      · exact absurd hl hlen
    have hmem0 : inputs.headD 0 ∈ inputs := by
      obtain ⟨i0, rfl⟩ := List.length_eq_one.mp hone
      exact List.mem_cons_self i0 []
    refine ms_pbind (ms_popt (ms_predicate_wrapper (ms_predicateOf
      (ms_filter_comparison hmem0 twc)))) ?_
    intro pred
    beta_reduce
    refine ms_pbind ms_distinctFlag ?_
    intro dist
    beta_reduce
    refine ms_pbind (ms_ptag _) ?_
    intro u1
    beta_reduce
    refine ms_pbind (ms_palt (ms_pbind (ms_ptag _) (fun _ => ms_ppure _))
      (ms_psep1 (ms_palt ms_column_name ms_aliased_column) ms_sepCommaMs)) ?_
    intro outs
    beta_reduce
    refine ms_pbind_post
      (fun env => (tableLookup env.state.idx_to_table (inputs.headD 0)).isSome = true)
      ms_getEnv ?_ ?_
    · intro s a s1 hdom hids hok
      obtain ⟨rfl, rfl⟩ := getEnv_ok_inv hok
      exact hids (inputs.headD 0) hmem0
    · intro env hQ
      beta_reduce
      have hvs := filter_validate_output_isSome (inputs.headD 0) outs
        env.state.idx_to_table hQ
      cases hv : filter_validate_output (inputs.headD 0) outs
          env.state.idx_to_table with
      | none =>
        rw [hv] at hvs
        exact Bool.noConfusion hvs
      | some b =>
        cases b with
        | false => exact ms_pfail
        | true =>
          dsimp only []
          refine ms_pbind (ms_get_output outs) ?_
          intro output_table
          beta_reduce
          refine ms_pbind (ms_insertTable _) ?_
          intro u2
          beta_reduce
          refine ms_pbind (ms_ptag _) ?_
          intro u3
          exact ms_ppure _

theorem ms_aggregate : MapSafe aggregate := by
  unfold aggregate
  refine ms_pbind (ms_ptag _) ?_
  intro u0
  refine ms_pbind_seen (fun inputs => inputs) ms_input_ids ?_ ?_
  · intro s a s1 hok i hi
    have hio := input_ids_ok hok
    rw [hio.2.1]
    exact hio.1 i hi
  · intro inputs
    beta_reduce
    refine ms_ite (fun _ => ms_pfail) ?_
    intro hlen
    have hone : inputs.length = 1 := by
      by_cases hl : inputs.length = 1
      · exact hl
      · exact absurd hl hlen
    have hmem0 : inputs.headD 0 ∈ inputs := by
      obtain ⟨i0, rfl⟩ := List.length_eq_one.mp hone
      exact List.mem_cons_self i0 []
    refine ms_pbind (ms_popt (ms_group_by _)) ?_
    intro gbs
    beta_reduce
    refine ms_pbind (ms_ptag _) ?_
    intro u1
    beta_reduce
    refine ms_pbind (ms_aggOutputs _) ?_
    intro outs
    beta_reduce
    refine ms_pbind_post
      (fun env => (tableLookup env.state.idx_to_table (inputs.headD 0)).isSome = true)
      ms_getEnv ?_ ?_
    · intro s a s1 hdom hids hok
      obtain ⟨rfl, rfl⟩ := getEnv_ok_inv hok
      exact hids (inputs.headD 0) hmem0
    · intro env hQ
      beta_reduce
      have hvs := agg_validate_output_isSome (inputs.headD 0) outs
        env.state.idx_to_table hQ
      cases hv : agg_validate_output (inputs.headD 0) outs
          env.state.idx_to_table with
      | none =>
        rw [hv] at hvs
        exact Bool.noConfusion hvs
      | some b =>
        cases b with
        | false => exact ms_pfail
        | true =>
          dsimp only []
          refine ms_pbind (ms_get_output outs) ?_
          intro output_table
          beta_reduce
          refine ms_pbind (ms_insertTable _) ?_
          intro u2
          beta_reduce
          refine ms_pbind (ms_ptag _) ?_
          intro u3
          exact ms_ppure _

theorem ms_top : MapSafe top := by
  unfold top
  refine ms_pbind (ms_ptag _) ?_
  intro u0
  refine ms_pbind_seen (fun inputs => inputs) ms_input_ids ?_ ?_
  · intro s a s1 hok i hi
    have hio := input_ids_ok hok
    rw [hio.2.1]
    exact hio.1 i hi
  · intro inputs
    beta_reduce
    refine ms_ite (fun _ => ms_pfail) ?_
    intro hlen
    have hone : inputs.length = 1 := by
      by_cases hl : inputs.length = 1
      · exact hl
      · exact absurd hl hlen
    have hmem0 : inputs.headD 0 ∈ inputs := by
      obtain ⟨i0, rfl⟩ := List.length_eq_one.mp hone
      exact List.mem_cons_self i0 []
    refine ms_pbind (ms_ptag _) ?_
    intro u1
    beta_reduce
    refine ms_pbind ms_dec_uint ?_
    intro rows
    beta_reduce
    refine ms_pbind (ms_ptag _) ?_
    intro u2
    beta_reduce
    refine ms_pbind (ms_psep1 (ms_palt ms_column_name ms_aliased_column)
      ms_sepCommaMs) ?_
    intro outs
    beta_reduce
    refine ms_pbind_post
      (fun env => (tableLookup env.state.idx_to_table (inputs.headD 0)).isSome = true)
      ms_getEnv ?_ ?_
    · intro s a s1 hdom hids hok
      obtain ⟨rfl, rfl⟩ := getEnv_ok_inv hok
      exact hids (inputs.headD 0) hmem0
    · intro env hQ
      beta_reduce
      have hvs := top_validate_output_isSome (inputs.headD 0) outs
        env.state.idx_to_table hQ
      cases hv : top_validate_output (inputs.headD 0) outs
          env.state.idx_to_table with
      | none =>
        rw [hv] at hvs
        exact Bool.noConfusion hvs
      | some b =>
        cases b with
        | false => exact ms_pfail
        | true =>
          dsimp only []
          refine ms_pbind (ms_get_output outs) ?_
          intro output_table
          beta_reduce
          refine ms_pbind (ms_insertTable _) ?_
          intro u3
          beta_reduce
          refine ms_pbind (ms_ptag _) ?_
          intro u4
          exact ms_ppure _

theorem ms_top_sort : MapSafe top_sort := by
  unfold top_sort
  refine ms_pbind (ms_ptag _) ?_
  intro u0
  refine ms_pbind_seen (fun inputs => inputs) ms_input_ids ?_ ?_
  · intro s a s1 hok i hi
    have hio := input_ids_ok hok
    rw [hio.2.1]
    exact hio.1 i hi
  · intro inputs
    beta_reduce
    refine ms_ite (fun _ => ms_pfail) ?_
    intro hlen
    have hone : inputs.length = 1 := by
      by_cases hl : inputs.length = 1
      · exact hl
      · exact absurd hl hlen
    have hmem0 : inputs.headD 0 ∈ inputs := by
      obtain ⟨i0, rfl⟩ := List.length_eq_one.mp hone
      exact List.mem_cons_self i0 []
    refine ms_pbind (ms_ptag _) ?_
    intro u1
    beta_reduce
    refine ms_pbind ms_dec_uint ?_
    intro rows
    beta_reduce
    refine ms_pbind (ms_ptag _) ?_
    intro u2
    beta_reduce
    refine ms_pbind (ms_psep1 (ms_order_by hmem0) ms_sepCommaMs) ?_
    intro obs
    beta_reduce
    refine ms_pbind (ms_ptag _) ?_
    intro u3
    beta_reduce
    refine ms_pbind (ms_palt (ms_pbind (ms_ptag _) (fun _ => ms_ppure _))
      (ms_ppure _)) ?_
    intro with_ties
    beta_reduce
    refine ms_pbind (ms_ptag _) ?_
    intro u4
    beta_reduce
    refine ms_pbind (ms_psep1 (ms_palt ms_column_name ms_aliased_column)
      ms_sepCommaMs) ?_
    intro outs
    beta_reduce
    refine ms_pbind_post
      (fun env => (tableLookup env.state.idx_to_table (inputs.headD 0)).isSome = true)
      ms_getEnv ?_ ?_
    · intro s a s1 hdom hids hok
      obtain ⟨rfl, rfl⟩ := getEnv_ok_inv hok
      exact hids (inputs.headD 0) hmem0
    · intro env hQ
      beta_reduce
      have hvs := top_sort_validate_output_isSome (inputs.headD 0) outs
        env.state.idx_to_table hQ
      cases hv : top_sort_validate_output (inputs.headD 0) outs
          env.state.idx_to_table with
      | none =>
        rw [hv] at hvs
        exact Bool.noConfusion hvs
      | some b =>
        cases b with
        | false => exact ms_pfail
        | true =>
          dsimp only []
          refine ms_pbind (ms_get_output outs) ?_
          intro output_table
          beta_reduce
          refine ms_pbind (ms_insertTable _) ?_
          intro u5
          beta_reduce
          refine ms_pbind (ms_ptag _) ?_
          intro u6
          exact ms_ppure _

theorem ms_sort : MapSafe sort := by
  unfold sort
  refine ms_pbind (ms_ptag _) ?_
  intro u0
  refine ms_pbind_seen (fun inputs => inputs) ms_input_ids ?_ ?_
  · intro s a s1 hok i hi
    have hio := input_ids_ok hok
    rw [hio.2.1]
    exact hio.1 i hi
  · intro inputs
    beta_reduce
    refine ms_ite (fun _ => ms_pfail) ?_
    intro hlen
    have hone : inputs.length = 1 := by
      by_cases hl : inputs.length = 1
      · exact hl
      · exact absurd hl hlen
    have hmem0 : inputs.headD 0 ∈ inputs := by
      obtain ⟨i0, rfl⟩ := List.length_eq_one.mp hone
      exact List.mem_cons_self i0 []
    refine ms_pbind ms_distinctFlag ?_
    intro is_distinct
    beta_reduce
    refine ms_pbind (ms_ptag _) ?_
    intro u1
    beta_reduce
    refine ms_pbind (ms_psep1 (ms_order_by hmem0) ms_sepCommaMs) ?_
    intro obs
    beta_reduce
    refine ms_pbind (ms_ptag _) ?_
    intro u2
    beta_reduce
    refine ms_pbind (ms_ptag _) ?_
    intro u3
    beta_reduce
    refine ms_pbind (ms_psep1 (ms_palt ms_column_name ms_aliased_column)
      ms_sepCommaMs) ?_
    intro outs
    beta_reduce
    refine ms_pbind_post
      (fun env => (tableLookup env.state.idx_to_table (inputs.headD 0)).isSome = true)
      ms_getEnv ?_ ?_
    · intro s a s1 hdom hids hok
      obtain ⟨rfl, rfl⟩ := getEnv_ok_inv hok
      exact hids (inputs.headD 0) hmem0
    · intro env hQ
      beta_reduce
      have hvs := sort_validate_output_isSome (inputs.headD 0) outs
        env.state.idx_to_table hQ
      cases hv : sort_validate_output (inputs.headD 0) outs
          env.state.idx_to_table with
      | none =>
        rw [hv] at hvs
        exact Bool.noConfusion hvs
      | some b =>
        cases b with
        | false => exact ms_pfail
        | true =>
          dsimp only []
          refine ms_pbind (ms_get_output outs) ?_
          intro output_table
          beta_reduce
          refine ms_pbind (ms_insertTable _) ?_
          intro u4
          beta_reduce
          refine ms_pbind (ms_ptag _) ?_
          intro u5
          exact ms_ppure _

theorem ms_join (twc : Bool) : MapSafe (join twc) := by
  unfold join
  refine ms_pbind (ms_ptag _) ?_
  intro u0
  refine ms_pbind_seen (fun inputs => inputs) ms_input_ids ?_ ?_
  · intro s a s1 hok i hi
    have hio := input_ids_ok hok
    rw [hio.2.1]
    exact hio.1 i hi
  · intro inputs
    beta_reduce
    refine ms_ite (fun _ => ms_pfail) ?_
    intro hlen
    refine ms_pbind (ms_popt (ms_predicate_wrapper (ms_predicateOf
      (ms_join_comparison twc inputs)))) ?_
    intro pred
    beta_reduce
    refine ms_pbind ms_distinctFlag ?_
    intro is_distinct
    beta_reduce
    refine ms_pbind (ms_ptag _) ?_
    intro u1
    beta_reduce
    refine ms_pbind_post
      (fun outs => ∀ o ∈ outs, o.1 ∈ inputs ∨ (o.2 == ("1 AS One").toList) = true ∨
        (o.2 == ("countstar AS Count_Star").toList) = true ∨
        starts_with_agg o.2 = true)
      (ms_palt (ms_pbind (ms_ptag _) (fun _ => ms_ppure _))
        (ms_psep1 (ms_indexed_column _) ms_sepCommaMs)) ?_ ?_
    · intro s a s1 hdom hids hok
      rcases palt_ok_cases hok with hok1 | ⟨b1, hb1, hok2⟩
      · obtain ⟨u, sA, hA, hok1⟩ := pbind_ok_inv hok1
        obtain ⟨rfl, rfl⟩ := ppure_ok_inv hok1
        intro o ho
        rcases List.mem_cons.mp ho with rfl | ho2
        · exact Or.inr (Or.inl (by simp))
        · exact absurd ho2 (List.not_mem_nil o)
      · intro o ho
        exact Or.inl (psep1_ok_forall
          (fun s2 a2 s2' h2 => indexed_column_ok_mem h2) hok2 o ho)
    · intro outs hQo
      beta_reduce
      refine ms_pbind_post
        (fun env => (resolveTables env.state.idx_to_table inputs).isSome = true)
        ms_getEnv ?_ ?_
      · intro s a s1 hdom hids hok
        obtain ⟨rfl, rfl⟩ := getEnv_ok_inv hok
        exact resolveTables_isSome _ inputs hids
      · intro env hQv
        beta_reduce
        have hvs := join_validate_output_isSome inputs outs
          env.state.idx_to_table hQv
        cases hv : join_validate_output inputs outs env.state.idx_to_table with
        | none =>
          rw [hv] at hvs
          exact Bool.noConfusion hvs
        | some b =>
          cases b with
          | false => exact ms_pfail
          | true =>
            dsimp only []
            refine ms_pbind (ms_gtfio hQo) ?_
            intro output_table
            beta_reduce
            refine ms_pbind (ms_insertTable _) ?_
            intro u2
            beta_reduce
            refine ms_pbind (ms_ptag _) ?_
            intro u3
            exact ms_ppure _

theorem ms_intersect (twc : Bool) : MapSafe (intersect twc) := by
  unfold intersect
  refine ms_pbind (ms_ptag _) ?_
  intro u0
  refine ms_pbind_seen (fun inputs => inputs) ms_input_ids ?_ ?_
  · intro s a s1 hok i hi
    have hio := input_ids_ok hok
    rw [hio.2.1]
    exact hio.1 i hi
  · intro inputs
    beta_reduce
    refine ms_ite (fun _ => ms_pfail) ?_
    intro hlen
    refine ms_pbind (ms_popt (ms_predicate_wrapper (ms_predicateOf
      (ms_join_comparison twc inputs)))) ?_
    intro pred
    beta_reduce
    refine ms_pbind ms_distinctFlag ?_
    intro is_distinct
    beta_reduce
    refine ms_pbind (ms_ptag _) ?_
    intro u1
    beta_reduce
    refine ms_pbind_post
      (fun outs => ∀ o ∈ outs, o.1 ∈ inputs ∨ (o.2 == ("1 AS One").toList) = true ∨
        (o.2 == ("countstar AS Count_Star").toList) = true ∨
        starts_with_agg o.2 = true)
      (ms_palt (ms_pbind (ms_ptag _) (fun _ => ms_ppure _))
        (ms_psep1 (ms_indexed_column _) ms_sepCommaMs)) ?_ ?_
    · intro s a s1 hdom hids hok
      rcases palt_ok_cases hok with hok1 | ⟨b1, hb1, hok2⟩
      · obtain ⟨u, sA, hA, hok1⟩ := pbind_ok_inv hok1
        obtain ⟨rfl, rfl⟩ := ppure_ok_inv hok1
        intro o ho
        rcases List.mem_cons.mp ho with rfl | ho2
        · exact Or.inr (Or.inl (by simp))
        · exact absurd ho2 (List.not_mem_nil o)
      · intro o ho
        exact Or.inl (psep1_ok_forall
          (fun s2 a2 s2' h2 => indexed_column_ok_mem h2) hok2 o ho)
    · intro outs hQo
      beta_reduce
      refine ms_pbind_post
        (fun env => (resolveTables env.state.idx_to_table inputs).isSome = true)
        ms_getEnv ?_ ?_
      · intro s a s1 hdom hids hok
        obtain ⟨rfl, rfl⟩ := getEnv_ok_inv hok
        exact resolveTables_isSome _ inputs hids
      · intro env hQv
        beta_reduce
        have hvs := join_validate_output_isSome inputs outs
          env.state.idx_to_table hQv
        cases hv : join_validate_output inputs outs env.state.idx_to_table with
        | none =>
          rw [hv] at hvs
          exact Bool.noConfusion hvs
        | some b =>
          cases b with
          | false => exact ms_pfail
          | true =>
            dsimp only []
            refine ms_pbind (ms_gtfio hQo) ?_
            intro output_table
            beta_reduce
            refine ms_pbind (ms_insertTable _) ?_
            intro u2
            beta_reduce
            refine ms_pbind (ms_ptag _) ?_
            intro u3
            exact ms_ppure _

theorem ms_except (twc : Bool) : MapSafe (except twc) := by
  unfold except
  refine ms_pbind (ms_ptag _) ?_
  intro u0
  refine ms_pbind_seen (fun inputs => inputs) ms_input_ids ?_ ?_
  · intro s a s1 hok i hi
    have hio := input_ids_ok hok
    rw [hio.2.1]
    exact hio.1 i hi
  · intro inputs
    beta_reduce
    refine ms_ite (fun _ => ms_pfail) ?_
    intro hlen
    refine ms_pbind (ms_palt
      (ms_pbind (ms_predicate_wrapper (ms_predicateOf
        (ms_except_comparison twc inputs))) (fun p => ms_ppure _))
      (ms_pbind (ms_except_columns _) (fun c => ms_ppure _))) ?_
    intro operator
    beta_reduce
    refine ms_pbind ms_distinctFlag ?_
    intro is_distinct
    beta_reduce
    refine ms_pbind (ms_ptag _) ?_
    intro u1
    beta_reduce
    refine ms_pbind_post
      (fun outs => ∀ o ∈ outs, o.1 ∈ inputs ∨ (o.2 == ("1 AS One").toList) = true ∨
        (o.2 == ("countstar AS Count_Star").toList) = true ∨
        starts_with_agg o.2 = true)
      (ms_palt (ms_pbind (ms_ptag _) (fun _ => ms_ppure _))
        (ms_psep1 (ms_indexed_column _) ms_sepCommaMs)) ?_ ?_
    · intro s a s1 hdom hids hok
      rcases palt_ok_cases hok with hok1 | ⟨b1, hb1, hok2⟩
      · obtain ⟨u, sA, hA, hok1⟩ := pbind_ok_inv hok1
        obtain ⟨rfl, rfl⟩ := ppure_ok_inv hok1
        intro o ho
        rcases List.mem_cons.mp ho with rfl | ho2
        · exact Or.inr (Or.inl (by simp))
        · exact absurd ho2 (List.not_mem_nil o)
      · intro o ho
        exact Or.inl (psep1_ok_forall
          (fun s2 a2 s2' h2 => indexed_column_ok_mem h2) hok2 o ho)
    · intro outs hQo
      beta_reduce
      refine ms_pbind_post
        (fun env => (resolveTables env.state.idx_to_table inputs).isSome = true)
        ms_getEnv ?_ ?_
      · intro s a s1 hdom hids hok
        obtain ⟨rfl, rfl⟩ := getEnv_ok_inv hok
        exact resolveTables_isSome _ inputs hids
      · intro env hQv
        beta_reduce
        have hvs := except_validate_output_isSome inputs outs
          env.state.idx_to_table hQv
        cases hv : except_validate_output inputs outs env.state.idx_to_table with
        | none =>
          rw [hv] at hvs
          exact Bool.noConfusion hvs
        | some b =>
          cases b with
          | false => exact ms_pfail
          | true =>
            dsimp only []
            refine ms_pbind (ms_gtfio hQo) ?_
            intro output_table
            beta_reduce
            refine ms_pbind (ms_insertTable _) ?_
            intro u2
            beta_reduce
            refine ms_pbind (ms_ptag _) ?_
            intro u3
            exact ms_ppure _

theorem ms_union : MapSafe union := by
  unfold union
  refine ms_pbind (ms_ptag _) ?_
  intro u0
  refine ms_pbind_seen (fun inputs => inputs) ms_input_ids ?_ ?_
  · intro s a s1 hok i hi
    have hio := input_ids_ok hok
    rw [hio.2.1]
    exact hio.1 i hi
  · intro inputs
    beta_reduce
    refine ms_ite (fun _ => ms_pfail) ?_
    intro hlen
    refine ms_pbind (ms_ptag _) ?_
    intro u1
    beta_reduce
    refine ms_pbind_post
      (fun outs => ∀ o ∈ outs, o.1 ∈ inputs ∨ (o.2 == ("1 AS One").toList) = true ∨
        (o.2 == ("countstar AS Count_Star").toList) = true ∨
        starts_with_agg o.2 = true)
      (ms_psep1 (ms_indexed_column _) ms_sepCommaMs) ?_ ?_
    · intro s a s1 hdom hids hok
      intro o ho
      exact Or.inl (psep1_ok_forall
        (fun s2 a2 s2' h2 => indexed_column_ok_mem h2) hok o ho)
    · intro outs hQo
      beta_reduce
      refine ms_pbind_post
        (fun env => (resolveTables env.state.idx_to_table inputs).isSome = true)
        ms_getEnv ?_ ?_
      · intro s a s1 hdom hids hok
        obtain ⟨rfl, rfl⟩ := getEnv_ok_inv hok
        exact resolveTables_isSome _ inputs hids
      · intro env hQv
        beta_reduce
        have hvs := union_validate_output_isSome inputs outs
          env.state.idx_to_table hQv
        cases hv : union_validate_output inputs outs env.state.idx_to_table with
        | none =>
          rw [hv] at hvs
          exact Bool.noConfusion hvs
        | some b =>
          cases b with
          | false => exact ms_pfail
          | true =>
            dsimp only []
            refine ms_pbind (ms_gtfio hQo) ?_
            intro output_table
            beta_reduce
            refine ms_pbind (ms_insertTable _) ?_
            intro u2
            beta_reduce
            refine ms_pbind (ms_ptag _) ?_
            intro u3
            exact ms_ppure _

theorem ms_opAlt (twc : Bool) : MapSafe (opAlt twc) := by
  unfold opAlt
  exact ms_palt (ms_scan twc) (ms_palt ms_aggregate (ms_palt (ms_filter twc)
    (ms_palt ms_top (ms_palt ms_sort (ms_palt ms_top_sort (ms_palt (ms_join twc)
    (ms_palt (ms_intersect twc) (ms_palt (ms_except twc) ms_union))))))))

/-! ### The operation alternation inserts a table at the current line index -/

theorem opAlt_layer_cur {p : Parser Operation} {s b : Stream} {base : Nat}
    (hpres : PresIS p) (hb : p s = .err .backtrack b)
    (he : s.env.state.current_idx = base) : b.env.state.current_idx = base := by
  have hp := hpres s
  rw [hb] at hp
  exact hp.1.trans he

theorem opAlt_ok_inserts {twc : Bool} {s : Stream} {op : Operation} {s' : Stream}
    (h : opAlt twc s = .ok op s') :
    (tableLookup s'.env.state.idx_to_table s.env.state.current_idx).isSome = true := by
  unfold opAlt at h
  rcases palt_ok_cases h with h | ⟨b1, hb1, h⟩
  · exact scan_ok_inserts h
  have e1 : b1.env.state.current_idx = s.env.state.current_idx :=
    opAlt_layer_cur (presis_scan twc) hb1 rfl
  rcases palt_ok_cases h with h | ⟨b2, hb2, h⟩
  · have hm0 := aggregate_ok_inserts h
    have hm : (tableLookup s'.env.state.idx_to_table
        b1.env.state.current_idx).isSome = true := hm0
    rw [e1] at hm
    exact hm
  have e2 : b2.env.state.current_idx = s.env.state.current_idx :=
    opAlt_layer_cur presis_aggregate hb2 e1
  rcases palt_ok_cases h with h | ⟨b3, hb3, h⟩
  · have hm0 := filter_ok_inserts h
    have hm : (tableLookup s'.env.state.idx_to_table
        b2.env.state.current_idx).isSome = true := hm0
    rw [e2] at hm
    exact hm
  have e3 : b3.env.state.current_idx = s.env.state.current_idx :=
    opAlt_layer_cur (presis_filter twc) hb3 e2
  rcases palt_ok_cases h with h | ⟨b4, hb4, h⟩
  · have hm0 := top_ok_inserts h
    have hm : (tableLookup s'.env.state.idx_to_table
        b3.env.state.current_idx).isSome = true := hm0
    rw [e3] at hm
    exact hm
  have e4 : b4.env.state.current_idx = s.env.state.current_idx :=
    opAlt_layer_cur presis_top hb4 e3
  rcases palt_ok_cases h with h | ⟨b5, hb5, h⟩
  · have hm0 := sort_ok_inserts h
    have hm : (tableLookup s'.env.state.idx_to_table
        b4.env.state.current_idx).isSome = true := hm0
    rw [e4] at hm
    exact hm
  have e5 : b5.env.state.current_idx = s.env.state.current_idx :=
    opAlt_layer_cur presis_sort hb5 e4
  rcases palt_ok_cases h with h | ⟨b6, hb6, h⟩
  · have hm0 := top_sort_ok_inserts h
    have hm : (tableLookup s'.env.state.idx_to_table
        b5.env.state.current_idx).isSome = true := hm0
    rw [e5] at hm
    exact hm
  have e6 : b6.env.state.current_idx = s.env.state.current_idx :=
    opAlt_layer_cur presis_top_sort hb6 e5
  rcases palt_ok_cases h with h | ⟨b7, hb7, h⟩
  · have hm0 := join_ok_inserts h
    have hm : (tableLookup s'.env.state.idx_to_table
        b6.env.state.current_idx).isSome = true := hm0
    rw [e6] at hm
    exact hm
  have e7 : b7.env.state.current_idx = s.env.state.current_idx :=
    opAlt_layer_cur (presis_join twc) hb7 e6
  rcases palt_ok_cases h with h | ⟨b8, hb8, h⟩
  · have hm0 := intersect_ok_inserts h
    have hm : (tableLookup s'.env.state.idx_to_table
        b7.env.state.current_idx).isSome = true := hm0
    rw [e7] at hm
    exact hm
  have e8 : b8.env.state.current_idx = s.env.state.current_idx :=
    opAlt_layer_cur (presis_intersect twc) hb8 e7
  rcases palt_ok_cases h with h | ⟨b9, hb9, h⟩
  · have hm0 := except_ok_inserts h
    have hm : (tableLookup s'.env.state.idx_to_table
        b8.env.state.current_idx).isSome = true := hm0
    rw [e8] at hm
    exact hm
  have e9 : b9.env.state.current_idx = s.env.state.current_idx :=
    opAlt_layer_cur (presis_except twc) hb9 e8
  have hm0 := union_ok_inserts h
  have hm : (tableLookup s'.env.state.idx_to_table
      b9.env.state.current_idx).isSome = true := hm0
  rw [e9] at hm
  exact hm

/-! ### Map-lookup safety of the line, program and prefixed-program parsers -/

theorem ms_qpl_line (twc : Bool) : MapSafe (qpl_line twc) := by
  have heq : qpl_line twc = pbind getEnv (fun env =>
      pbind (tagWith (· == ·)
        ((("#").toList) ++ natToChars (env.state.current_idx + 1) ++ ((" = ").toList)))
        (fun _ => pbind bumpIdx (fun _ => pbind (opAlt twc) (fun operation =>
          pbind (addSeen (env.state.current_idx + 1)) (fun _ =>
            ppure { idx := env.state.current_idx + 1, operation := operation }))))) := rfl
  rw [heq]
  intro s hdom hids
  simp only [pbind, getEnv, bumpIdx, addSeen, modifyEnv, ppure]
  cases htw : tagWith (· == ·)
      ((("#").toList) ++ natToChars (s.env.state.current_idx + 1) ++ ((" = ").toList)) s with
  | err e s2 =>
    dsimp only []
    have hp := envPres_tagWith (· == ·)
      ((("#").toList) ++ natToChars (s.env.state.current_idx + 1) ++ ((" = ").toList)) s
    simp only [htw] at hp
    rw [hp]
    exact ⟨hdom, envGrow_refl s.env⟩
  | crash k => exact absurd htw (tagWith_ne_crash _ _ s k)
  | ok u s2 =>
    dsimp only []
    have hp : s2.env = s.env := by
      have t := envPres_tagWith (· == ·)
        ((("#").toList) ++ natToChars (s.env.state.current_idx + 1) ++ ((" = ").toList)) s
      simp only [htw] at t
      exact t
    have hdomB : SeenDom { s2.env with state :=
        { s2.env.state with current_idx := s2.env.state.current_idx + 1 } } := by
      intro j hj
      have hj2 : j ∈ s.env.state.seen := by
        rw [← hp]
        exact hj
      have hv := hdom j hj2
      rw [← hp] at hv
      exact hv
    have hms := ms_opAlt twc { s2 with env := { s2.env with state :=
        { s2.env.state with current_idx := s2.env.state.current_idx + 1 } } }
      hdomB (fun i hi => absurd hi (List.not_mem_nil i))
    cases hop : opAlt twc { s2 with env := { s2.env with state :=
        { s2.env.state with current_idx := s2.env.state.current_idx + 1 } } } with
    | ok operation s4 =>
      dsimp only []
      simp only [hop] at hms
      have hins : (tableLookup s4.env.state.idx_to_table
          (s2.env.state.current_idx + 1)).isSome = true := opAlt_ok_inserts hop
      rw [hp] at hins
      refine ⟨?_, ?_, ?_⟩
      · intro j hj
        have hj2 : j = s.env.state.current_idx + 1 ∨ j ∈ s4.env.state.seen :=
          (mem_seenInsert j (s.env.state.current_idx + 1) s4.env.state.seen).mp hj
        rcases hj2 with rfl | hj3
        · exact hins
        · exact hms.1 j hj3
      · intro j hj
        have hj2 : j ∈ s4.env.state.seen := by
          refine hms.2.1 j ?_
          show j ∈ s2.env.state.seen
          rw [hp]
          exact hj
        exact (mem_seenInsert j (s.env.state.current_idx + 1) s4.env.state.seen).mpr
          (Or.inr hj2)
      · intro j hj
        refine hms.2.2 j ?_
        show (tableLookup s2.env.state.idx_to_table j).isSome = true
        rw [hp]
        exact hj
    | err e s4 =>
      dsimp only []
      simp only [hop] at hms
      have hgsb : EnvGrow s.env { s2.env with state :=
          { s2.env.state with current_idx := s2.env.state.current_idx + 1 } } := by
        refine envGrow_of_parts ?_ ?_
        · show s2.env.state.seen = s.env.state.seen
          rw [hp]
        · show s2.env.state.idx_to_table = s.env.state.idx_to_table
          rw [hp]
      exact ⟨hms.1, envGrow_trans hgsb hms.2⟩
    | crash k =>
      dsimp only []
      simp only [hop] at hms
      exact hms

theorem ms_qpl (twc : Bool) : MapSafe (qpl twc) := by
  unfold qpl
  refine ms_pbind (ms_psep1 (ms_qpl_line twc) (ms_ptag _)) ?_
  intro lines
  beta_reduce
  refine ms_pbind ms_peof ?_
  intro u
  exact ms_ppure _

theorem ms_prefixed_qpl (schemas : List (List Char × SqlSchema)) (twc : Bool) :
    MapSafe (prefixed_qpl schemas twc) := by
  unfold prefixed_qpl
  refine ms_pbind ms_multispace0 ?_
  intro u0
  refine ms_pbind (ms_prepeat0 ms_special_token) ?_
  intro u1
  refine ms_pbind ms_multispace0 ?_
  intro u2
  refine ms_pbind (ms_schemaP _) ?_
  intro schema
  beta_reduce
  refine ms_pbind (ms_setSchema _) ?_
  intro u3
  refine ms_pbind ms_multispace0 ?_
  intro u4
  refine ms_pbind (ms_ptag _) ?_
  intro u5
  refine ms_pbind ms_multispace0 ?_
  intro u6
  exact ms_qpl twc

/-- C10: during a parse started from the fresh environment every line index
in `seen` has a derived table in `idx_to_table` (each operation inserts its
derived table at `current_idx` before the line parser adds that index to
`seen`), so no `idx_to_table` lookup performed for an index validated by
`input_ids` — in `get_output`, `order_by`, `get_table_from_indexed_outputs`
and the per-operation validators — can fail: the program parser never
reaches the `HashMap` indexing panic, on any input and either stream mode. -/
theorem claim10_no_map_panic (schemas : List (List Char × SqlSchema)) (twc : Bool)
    (text : List Char) (more : Bool) :
    isMapCrash (prefixed_qpl schemas twc ⟨text, more, freshEnv⟩) = false := by
  have h := ms_prefixed_qpl schemas twc ⟨text, more, freshEnv⟩
    (fun j hj => absurd hj (List.not_mem_nil j))
    (fun i hi => absurd hi (List.not_mem_nil i))
  cases hr : prefixed_qpl schemas twc ⟨text, more, freshEnv⟩ with
  | ok lines s1 => rfl
  | err e s1 => rfl
  | crash k =>
    simp only [hr] at h
    cases k with
    | todoPanic => rfl
    | mapPanic => exact absurd rfl h
    | otherPanic => rfl

end RustyPicard
